import Mathlib

/-!
PookieNEAT: innovation registry, genotype pruning, mutation operators, initial
topologies, genome distance, network evaluation, genotype text format,
crossover, gene key renumbering, stagnation, reproduction counts, elites,
culling, aggregation functions, evaluation, speciation, the end of training and
the id discipline of nodes and connections

A shallow embedding of `NEAT/Map.h`, `NEAT/Array.h`, `NEAT/Genes.h`,
`NEAT/Math.h`, `NEAT/Utils.cpp`, `NEAT/Config.h`, `NEAT/Genotype.cpp`,
`NEAT/Genome.cpp`, `NEAT/Network.cpp`, `NEAT/Species.h`, `NEAT/Species.cpp`,
`NEAT/Aggregations.h`, the `switch` of `NEAT/Activations.h`, the topology,
distance, crossover and culling functions of `NEAT/Reproduction.cpp`, and the
stagnation, reproduction count, elite, culling, evaluation and speciation steps
of `NEAT/Trainer.cpp`.

Conventions of the embedding.
* `uint64` values are natural numbers; the only arithmetic the code performs on
  them is `fetch_add(1)` on the innovation counter, which wraps at `2^64`.
* `double` values are rationals: exact arithmetic on finite values. Where the
  code can leave the finite values (the genome distance divides by a gene
  count) a result is an `Option ℚ`, `none` standing for an infinity or a NaN.
  `std::pow`, the composition of aggregation and activation, and `std::stod`
  are parameters.
* A null `ConfigPtr` or neuron pointer is `none`; dereferencing it ends in
  `Fault.NullDereference`, and `BREAKPOINT()` ends in `Fault.Breakpoint`.
* An exception that nothing catches ends the computation: the
  `std::invalid_argument` thrown at `default:` by the `switch` statements of
  `Aggregation::Aggregate` and `Activation::Activate` is `Fault.InvalidArgument`.
* A `std::string` is a list of characters.
* `TMap<uint64, V>` wraps `std::map`, whose iteration order is ascending in the
  key: a map is a list of entries with strictly ascending keys.
* `rand()` is the list of the values its coming calls return; a computation
  that asks for more values than the list holds ends in `Fault.OutOfDraws`, and
  `x % 0` ends in `Fault.DivideByZero`. `RAND_MAX` is a parameter.
* A mutation runs in a `World`: the genotype it is called on, the global
  registry `NEAT::Innovations`, and the random values.
* `int` values are integers; a conversion between `int` and `uint64` is written
  out (`toInt32`, `toUInt64`). `SpeciesElitism`, `MinSpeciesSize` and
  `CrossoverPoints` are taken non-negative. In
  `UpdateReproductionCounts_Method3`, whose counts grow with `PopulationSize`,
  every `int` operation wraps to 32 bits (`toInt32`) and `int(double)` is
  `DoubleToInt`; the section `Exact` repeats the function on unbounded integers
  for the proofs.
* A `GenomePtr` is the address of a genome object in `Trainer.Memory`; the
  species objects are held by value, each once.
* `std::sort` is a parameter `Sorter`; what is used of it is stated as a
  hypothesis (`StdSort.Permutes`, `StdSort.Orders`), and `StdSort.Insertion` is
  one such function.
* A loop whose end the code does not guarantee takes fuel and ends in
  `Fault.Diverges` when the fuel is used up. Where a loop draws from `rand()`
  until a draw is accepted, the values of `rand()` are a stream
  (`StreamFrom`), and the loop is run on its prefixes.
* The virtual function `Trainer::Evaluate` and `std::sqrt` are parameters. The
  evaluation threads are run one after the other, in the order of `ThreadID`.
* The static counters `NewestID` of `Genome.h` and `NextSpeciesID` of
  `Species.cpp` are `unsigned` values passed in and out.
-/

namespace NEAT

/-! ## Definitions: the embedding of the source, the properties, sample data -/

/-! ### Map.h: `TMap` as an entry list with strictly ascending keys -/

/-- Value stored under key `k` in an entry list (first hit). -/
def lookupEntry {V : Type} (k : Nat) : List (Nat × V) → Option V
  | [] => none
  | e :: t => if e.1 = k then some e.2 else lookupEntry k t

/-- Ordered insertion, replacing the value of an existing key (`Map[k] = v`). -/
def insertEntry {V : Type} (k : Nat) (v : V) : List (Nat × V) → List (Nat × V)
  | [] => [(k, v)]
  | e :: t =>
    if k < e.1 then (k, v) :: e :: t
    else if e.1 = k then (k, v) :: t
    else e :: insertEntry k v t

/-- Removal of a key (`Map.erase(k)`). -/
def eraseEntry {V : Type} (k : Nat) (l : List (Nat × V)) : List (Nat × V) :=
  l.filter (fun e => decide (e.1 ≠ k))

/-- The model of `TMap<uint64, V>`: entries in strictly ascending key order. -/
structure TMap (V : Type) where
  entries : List (Nat × V)
  ascending : entries.Pairwise (fun a b => a.1 < b.1)

namespace TMap

variable {V : Type}

instance [DecidableEq V] : DecidableEq (TMap V) := fun a b =>
  decidable_of_iff (a.entries = b.entries)
    ⟨fun h => by cases a; cases b; cases h; rfl, fun h => by rw [h]⟩

/-- The empty map (a default-constructed `TMap`, and the result of `Reset`). -/
def empty : TMap V := ⟨[], List.Pairwise.nil⟩

/-- The member function `Find`: the value under a key, if any. -/
def Find (m : TMap V) (k : Nat) : Option V := lookupEntry k m.entries

/-- The member function `Contains`. -/
def Contains (m : TMap V) (k : Nat) : Bool := (m.Find k).isSome

/-- The member function `Add` (`Map[InKey] = InValue`), used for every
    whole-value assignment `M[k] = v` whose value type copies all its fields. -/
def Add (m : TMap V) (k : Nat) (v : V) : TMap V :=
  ⟨insertEntry k v m.entries, by
    have hmem : ∀ (l : List (Nat × V)) (x : Nat × V),
        x ∈ insertEntry k v l → x = (k, v) ∨ x ∈ l := by
      intro l
      induction l with
      | nil => intro x hx; simpa [insertEntry] using hx
      | cons e t ih =>
        intro x hx
        unfold insertEntry at hx
        split_ifs at hx with h1 h2
        · simpa using hx
        · rcases List.mem_cons.1 hx with h | h
          · exact Or.inl h
          · exact Or.inr (List.mem_cons_of_mem _ h)
        · rcases List.mem_cons.1 hx with h | h
          · exact Or.inr (by simp [h])
          · rcases ih x h with h3 | h3
            · exact Or.inl h3
            · exact Or.inr (List.mem_cons_of_mem _ h3)
    have hasc : ∀ l : List (Nat × V), l.Pairwise (fun a b => a.1 < b.1) →
        (insertEntry k v l).Pairwise (fun a b => a.1 < b.1) := by
      intro l
      induction l with
      | nil => intro _; simp [insertEntry]
      | cons e t ih =>
        intro hl
        rw [List.pairwise_cons] at hl
        unfold insertEntry
        split_ifs with h1 h2
        · refine List.pairwise_cons.2 ⟨?_, List.pairwise_cons.2 hl⟩
          intro b hb
          rcases List.mem_cons.1 hb with h | h
          · simpa [h] using h1
          · exact lt_trans h1 (hl.1 b h)
        · refine List.pairwise_cons.2 ⟨?_, hl.2⟩
          intro b hb
          have := hl.1 b hb
          simpa [← h2] using this
        · refine List.pairwise_cons.2 ⟨?_, ih hl.2⟩
          intro b hb
          rcases hmem t b hb with h | h
          · rw [h]
            exact lt_of_le_of_ne (not_lt.1 h1) h2
          · exact hl.1 b h
    exact hasc m.entries m.ascending⟩

/-- The member function `Remove`. -/
def Remove (m : TMap V) (k : Nat) : TMap V :=
  ⟨eraseEntry k m.entries, m.ascending.sublist (List.filter_sublist _)⟩

/-- The member function `FilterByPredicate`: entries are visited in key order and
    the kept ones are added to a fresh map. -/
def FilterByPredicate (m : TMap V) (p : Nat × V → Bool) : TMap V :=
  ⟨m.entries.filter p, m.ascending.sublist (List.filter_sublist _)⟩

/-- The member function `GetKeys`: keys in iteration (ascending) order. -/
def GetKeys (m : TMap V) : List Nat := m.entries.map Prod.fst

/-- The member function `FilterKeysByPredicate`. -/
def FilterKeysByPredicate (m : TMap V) (p : Nat × V → Bool) : List Nat :=
  (m.entries.filter p).map Prod.fst

/-- The member function `IsEmpty`. -/
def IsEmpty (m : TMap V) : Bool := m.entries.isEmpty

/-- The member function `Num`. -/
def Num (m : TMap V) : Nat := m.entries.length

/-- Reading `M[k]` through the non-const `operator[]` (`FindOrAdd`) at a key that
    is present; `dflt` is the default-constructed value `FindOrAdd` would hand
    out for an absent key. -/
def At (m : TMap V) (k : Nat) (dflt : V) : V := (m.Find k).getD dflt

end TMap

/-! ### Mutations.h, Genes.h: the innovation registry -/

/-- The enumeration `EMutationType` of `Mutations.h`. -/
inductive EMutationType where
  | AddNode | AddConnection | RemoveNode | RemoveConnection | ModifyWeight
  | ModifyBias | ModifyActivation | ModifyAggregation | ToggleConnection | MAX
  deriving DecidableEq, Repr

/-- The enumeration `EGeneType`. -/
inductive EGeneType where
  | Node | Connection
  deriving DecidableEq, Repr

/-- The enumeration `ENodeType`. -/
inductive ENodeType where
  | Input | Hidden | Output
  deriving DecidableEq, Repr

/-- The record `Innovation`, with the member initialisers of the source. -/
structure Innovation where
  ID : Nat := 0
  MutationType : EMutationType := EMutationType.AddConnection
  GeneType : EGeneType := EGeneType.Connection
  Input : Nat := 0
  Output : Nat := 0
  deriving DecidableEq, Repr

/-- The member function `Innovation::Matches`. -/
def Innovation.Matches (r : Innovation) (Mutation : EMutationType) (Gene : EGeneType)
    (In Out : Nat) : Bool :=
  decide (r.MutationType = Mutation) && decide (r.GeneType = Gene) &&
    decide (r.Input = In) && decide (r.Output = Out)

/-- Number of values of a `uint64`. -/
def UINT64_RANGE : Nat := 2 ^ 64

/-- The registry `InnovationTracker`: the counter and the records by key. -/
structure InnovationTracker where
  NextInnovationID : Nat
  Innovations : TMap Innovation
  deriving DecidableEq

/-- The member function `GetInnovationID`: the records are scanned in key order
    and the first match answers; otherwise `fetch_add(1)` hands out the counter
    (wrapping as a `uint64`) and the new record is stored under that key.
    Returns the id and the registry after the call. -/
def InnovationTracker.GetInnovationID (t : InnovationTracker) (MutationType : EMutationType)
    (GeneType : EGeneType) (Input Output : Nat) : Nat × InnovationTracker :=
  match t.Innovations.entries.find? (fun p => p.2.Matches MutationType GeneType Input Output) with
  | some p => (p.2.ID, t)
  | none =>
    let NextID := t.NextInnovationID
    (NextID,
      { NextInnovationID := (NextID + 1) % UINT64_RANGE
        Innovations := t.Innovations.Add NextID
          { ID := NextID, MutationType := MutationType, GeneType := GeneType,
            Input := Input, Output := Output } })

/-- The member function `Reset`. -/
def InnovationTracker.Reset (_t : InnovationTracker) (StartingInnovation : Nat) :
    InnovationTracker :=
  { NextInnovationID := StartingInnovation, Innovations := TMap.empty }

/-- A call of `GetInnovationID`, as its four arguments. -/
abbrev Request := EMutationType × EGeneType × Nat × Nat

/-- A sequence of `GetInnovationID` calls: the ids returned, in call order, and
    the registry after the last call. -/
def InnovationTracker.Serve (t : InnovationTracker) : List Request → List Nat × InnovationTracker
  | [] => ([], t)
  | q :: qs =>
    let r := t.GetInnovationID q.1 q.2.1 q.2.2.1 q.2.2.2
    let rest := InnovationTracker.Serve r.2 qs
    (r.1 :: rest.1, rest.2)

/-- The four-tuple of a record. -/
def Innovation.Tuple (r : Innovation) : Request :=
  (r.MutationType, r.GeneType, r.Input, r.Output)

/-- Registry invariant behind the id discipline: `c` is the counter before any
    wrap-around, every record sits under its own `ID`, every key lies in
    `[s, c)`, and no two records share a four-tuple. -/
def RegistryInv (s c : Nat) (t : InnovationTracker) : Prop :=
  t.NextInnovationID = c % 2 ^ 64 ∧ s ≤ c ∧ c ≤ 2 ^ 64 ∧
  (∀ k r, t.Innovations.Find k = some r → r.ID = k ∧ s ≤ k ∧ k < c) ∧
  (∀ k1 k2 r1 r2, t.Innovations.Find k1 = some r1 → t.Innovations.Find k2 = some r2 →
    r1.Tuple = r2.Tuple → k1 = k2)

/-- Some record of the registry has the four-tuple `q`. -/
def InnovationTracker.Knows (t : InnovationTracker) (q : Request) : Bool :=
  t.Innovations.entries.any (fun p => decide (p.2.Tuple = q))

/-- A registry as default-constructed: counter 0, no record. -/
def freshTracker : InnovationTracker := { NextInnovationID := 0, Innovations := TMap.empty }

/-- A registry holding one record, with the counter past its key. -/
def oneRecordTracker : InnovationTracker :=
  { NextInnovationID := 7
    Innovations := TMap.empty.Add 5 ⟨5, EMutationType.AddNode, EGeneType.Node, 1, 2⟩ }

/-- Two calls with different four-tuples. -/
def twoCalls : List Request :=
  [(EMutationType.AddNode, EGeneType.Node, 0, 0), (EMutationType.AddNode, EGeneType.Node, 0, 1)]

/-- Three calls, the first and the last with the same four-tuple. -/
def threeCalls : List Request :=
  [(EMutationType.AddNode, EGeneType.Node, 1, 2),
   (EMutationType.AddConnection, EGeneType.Connection, 1, 2),
   (EMutationType.AddNode, EGeneType.Node, 1, 2)]

/-! ### Genes.h, Config.h, Math.h, Utils.cpp: genes, configuration, arithmetic -/

/-- The enumeration `EActivation` of `Activations.h`. -/
inductive EActivation where
  | Sigmoid | Tanh | Relu | LeakyRelu | Softplus | Swish | Gelu | Elu | Selu | Softsign
  | BentIdentity | BipolarSigmoid | BipolarTanh | Gaussian | Inverse | Absolute | Step
  | Linear | Arctangent | MAX
  deriving DecidableEq, Repr

/-- The enumeration `EAggregation` of `Aggregations.h`. -/
inductive EAggregation where
  | Mean | Median | Max | Min | Sum | Count | Product | Variance | StandardDeviation
  | Percentile25 | Percentile75 | MAX
  deriving DecidableEq, Repr

/-- The record `NodeGene` (with the members of `BaseGene`); the defaults are the
    member initialisers, so `{}` is the default-constructed gene. The member
    `Type` of the source is `NodeType` here. -/
structure NodeGene where
  ID : Nat := 0
  Enabled : Bool := true
  Activation : EActivation := EActivation.Sigmoid
  Aggregation : EAggregation := EAggregation.Mean
  NodeType : ENodeType := ENodeType.Hidden
  Bias : ℚ := 0
  deriving DecidableEq

/-- The assignment operators of `NodeGene`: they copy `ID`, `Enabled`, `Type`,
    `Activation` and `Bias`; `Aggregation` keeps the value of the target. -/
def NodeGene.Assign (Target Other : NodeGene) : NodeGene :=
  { Target with
    ID := Other.ID, Enabled := Other.Enabled, NodeType := Other.NodeType,
    Activation := Other.Activation, Bias := Other.Bias }

/-- The record `ConnectionGene` (with the members of `BaseGene`); its copy and
    assignment operators copy every member. -/
structure ConnectionGene where
  ID : Nat := 0
  Enabled : Bool := true
  Input : Nat := 0
  Output : Nat := 0
  Weight : ℚ := 1
  deriving DecidableEq

/-- The enumeration `EDistance` of `Reproduction.h`. -/
inductive EDistance where
  | Euclidean | Manhattan | Chebyshev
  deriving DecidableEq, Repr

/-- The enumeration `EInitialTopology` of `Reproduction.h`. -/
inductive EInitialTopology where
  | None | Sparse | Full | Tree
  deriving DecidableEq, Repr

/-- The enumeration `ECrossoverType` of `Reproduction.h`. -/
inductive ECrossoverType where
  | Uniform | Average | Multipoint | SinglePoint | TwoPoint
  deriving DecidableEq, Repr

/-- The fields of `Config` the embedded code reads, with the defaults of
    `Config.h`. `NumInputs`, `NumOutputs`, `NumHidden`, `SpeciesElitism`,
    `MinSpeciesSize`, `CrossoverPoints` and `NumThreads` are `int` in the source
    and are taken non-negative; `MultithreadedEvaluation` is an `int` that is
    read as a truth value. -/
structure Config where
  AddNodeMutationRate : ℚ := 4 / 100
  RemoveNodeMutationRate : ℚ := 0
  AddConnectionMutationRate : ℚ := 8 / 100
  RemoveConnectionMutationRate : ℚ := 1 / 100
  WeightMutationRate : ℚ := 6 / 10
  WeightMutationVariance : ℚ := 1
  MinConnectionWeight : ℚ := -100
  MaxConnectionWeight : ℚ := 100
  MinNodeBias : ℚ := -100
  MaxNodeBias : ℚ := 100
  BiasMutationRate : ℚ := 5 / 10
  BiasMutationVariance : ℚ := 1
  ActivationFunctionMutationRate : ℚ := 2 / 100
  DefaultActivationFunction : EActivation := EActivation.Sigmoid
  SupportedActivationFunctions : List EActivation :=
    [EActivation.Sigmoid, EActivation.Tanh, EActivation.Relu, EActivation.Absolute,
     EActivation.Step, EActivation.Gaussian, EActivation.Inverse, EActivation.Linear,
     EActivation.BentIdentity, EActivation.Swish, EActivation.LeakyRelu,
     EActivation.BipolarSigmoid]
  AggregationFunctionMutationRate : ℚ := 1 / 100
  DefaultAggregationFunction : EAggregation := EAggregation.Product
  SupportedAggregationFunctions : List EAggregation :=
    [EAggregation.Mean, EAggregation.Median, EAggregation.Sum, EAggregation.Max,
     EAggregation.Min, EAggregation.Count, EAggregation.Product]
  EnableMutationRate : ℚ := 3 / 100
  SingleMutation : Bool := false
  ResetNetworkActivations : Bool := true
  NumInputs : Nat := 0
  NumOutputs : Nat := 0
  NumHidden : Nat := 0
  ExcessGeneCoefficient : ℚ := 95 / 100
  DisjointGeneCoefficient : ℚ := 75 / 100
  MatchingGeneCoefficient : ℚ := 65 / 100
  DistanceExponent : ℚ := 1
  DistanceMethod : EDistance := EDistance.Euclidean
  PopulationSize : Nat := 137
  SpeciesElitism : Nat := 2
  SurvivalRate : ℚ := 8 / 10
  MaxStagnation : Nat := 27
  MinSpeciesSize : Nat := 5
  CrossoverPoints : Nat := 2
  InitialTopology : EInitialTopology := EInitialTopology.None
  InitialConnectionProbability : ℚ := 6 / 10
  MaxGenerations : Nat := 1000
  StoppingFitness : ℚ := 0
  MultithreadedEvaluation : Int := 1
  NumThreads : Nat := 16
  ChooseBestRepresentative : Bool := false
  SpeciationDistanceThreshold : ℚ := 1275 / 100
  CrossoverType : ECrossoverType := ECrossoverType.SinglePoint

namespace Math

/-- The template `Math::Clamp`. -/
def Clamp (Value Min Max : ℚ) : ℚ :=
  if Value < Min then Min else (if Value > Max then Max else Value)

/-- The template `Math::Random(Min, Max)` at `double`, on the value `r` that
    `rand()` returned; `RAND_MAX` is the constant of the C library. -/
def Random2 (RAND_MAX r : Nat) (Min Max : ℚ) : ℚ :=
  Min + (Max - Min) * (r : ℚ) / (RAND_MAX : ℚ)

/-- The template `Math::Random(Max)`, that is `Random(T(0), Max)`. -/
def Random (RAND_MAX r : Nat) (Max : ℚ) : ℚ := Random2 RAND_MAX r 0 Max

end Math

/-- The function `GetRandomDouble` of `Utils.cpp`, on the value `r` of `rand()`. -/
def GetRandomDouble (RAND_MAX r : Nat) (Min Max : ℚ) : ℚ :=
  (r : ℚ) / (RAND_MAX : ℚ) * (Max - Min) + Min

/-- The member function `TArray::AddUnique`. -/
def AddUnique {α : Type} [DecidableEq α] (Data : List α) (Value : α) : List α :=
  if Value ∈ Data then Data else Data ++ [Value]

/-! ### Genotype.h, Genotype.cpp: pruning and the mutation operators -/

/-- The record `Genotype`. -/
structure Genotype where
  Nodes : TMap NodeGene
  Connections : TMap ConnectionGene
  deriving DecidableEq

/-- The statement `Nodes[k] = v`: `operator[]` finds the node or default-inserts
    one, and the assignment operator of `NodeGene` then copies into it. -/
def AssignNode (Nodes : TMap NodeGene) (k : Nat) (v : NodeGene) : TMap NodeGene :=
  Nodes.Add k (NodeGene.Assign (Nodes.At k {}) v)

/-- The predicate returned by `Genotype::ValidConnectionFilter`. -/
def Genotype.ValidConnectionFilter (g : Genotype) (Connection : Nat × ConnectionGene) : Bool :=
  if !g.Nodes.Contains Connection.2.Input then false
  else if !(g.Nodes.At Connection.2.Input {}).Enabled then false
  else if !g.Nodes.Contains Connection.2.Output then false
  else if !(g.Nodes.At Connection.2.Output {}).Enabled then false
  else true

/-- The member function `Genotype::Prune`. -/
def Genotype.Prune (g : Genotype) : Genotype :=
  { g with Connections := g.Connections.FilterByPredicate g.ValidConnectionFilter }

/-- The member function `Genotype::GetFilteredNodeKeys`. -/
def Genotype.GetFilteredNodeKeys (g : Genotype) (Filter : Nat × NodeGene → Bool) : List Nat :=
  g.Nodes.FilterKeysByPredicate Filter

/-- How a call can end without returning: a remainder by zero, the list of
    coming `rand()` values running out, the dereference of a null pointer, the
    trap `BREAKPOINT()` (`__debugbreak()` in `Utils.h`), a loop that does not
    end, and an exception `std::invalid_argument` that no caller catches. -/
inductive Fault where
  | DivideByZero
  | OutOfDraws
  | NullDereference
  | Breakpoint
  | Diverges
  | InvalidArgument
  deriving DecidableEq, Repr

/-- What a mutation reads and writes: the genotype it is called on, the global
    registry `NEAT::Innovations`, and the values of the coming `rand()` calls. -/
structure World where
  This : Genotype
  Innovations : InnovationTracker
  Rand : List Nat
  deriving DecidableEq

/-- The expression `Array[rand() % Array.Num()]` on an array of ids: the value
    of `rand()` is taken first, and a zero `Num()` makes the remainder fault. -/
def RandomElement (Array : List Nat) (Rand : List Nat) : Except Fault (Nat × List Nat) :=
  match Rand with
  | [] => Except.error Fault.OutOfDraws
  | r :: rest =>
    if Array.length = 0 then Except.error Fault.DivideByZero
    else Except.ok (Array.getD (r % Array.length) 0, rest)

/-- The member function `Genotype::MutateAddNode`. `Connection` is a reference
    into the connection map, so the members read for the second new connection are
    read after the first new connection has been stored. -/
def Genotype.MutateAddNode (cfg : Config) (w : World) : Except Fault (Bool × World) :=
  if w.This.Connections.IsEmpty then Except.ok (false, w)
  else
    match RandomElement w.This.Connections.GetKeys w.Rand with
    | Except.error f => Except.error f
    | Except.ok (ConnectionID, rest) =>
      let Connection := w.This.Connections.At ConnectionID {}
      let Connections1 := w.This.Connections.Add ConnectionID { Connection with Enabled := false }
      let NodeID := w.Innovations.GetInnovationID EMutationType.AddNode EGeneType.Node
        Connection.Input Connection.Output
      let InputID := NodeID.2.GetInnovationID EMutationType.AddNode EGeneType.Connection
        Connection.Input NodeID.1
      let OutputID := InputID.2.GetInnovationID EMutationType.AddNode EGeneType.Connection
        NodeID.1 Connection.Output
      if w.This.Nodes.Contains NodeID.1 then
        Except.ok (false,
          { This := { w.This with Connections := Connections1 }
            Innovations := OutputID.2, Rand := rest })
      else
        let Nodes1 := AssignNode w.This.Nodes NodeID.1
          { ID := NodeID.1, Enabled := true, NodeType := ENodeType.Hidden,
            Activation := cfg.DefaultActivationFunction,
            Aggregation := cfg.DefaultAggregationFunction, Bias := 0 }
        let Connections2 := Connections1.Add InputID.1
          { ID := InputID.1, Enabled := true, Input := Connection.Input, Output := NodeID.1,
            Weight := 1 }
        let Connection2 := Connections2.At ConnectionID {}
        let Connections3 := Connections2.Add OutputID.1
          { ID := OutputID.1, Enabled := true, Input := NodeID.1, Output := Connection2.Output,
            Weight := Connection2.Weight }
        Except.ok (true,
          { This := { Nodes := Nodes1, Connections := Connections3 }
            Innovations := OutputID.2, Rand := rest })

/-- The two rejection loops of `MutateAddConnection`: a node id is drawn, and
    drawn again as long as the node has the rejected type. -/
def PickNode (Nodes : TMap NodeGene) (NodesIDs : List Nat) (Rejected : ENodeType) :
    List Nat → Except Fault (Nat × List Nat)
  | [] => Except.error Fault.OutOfDraws
  | r :: rest =>
    if NodesIDs.length = 0 then Except.error Fault.DivideByZero
    else if (Nodes.At (NodesIDs.getD (r % NodesIDs.length) 0) {}).NodeType = Rejected then
      PickNode Nodes NodesIDs Rejected rest
    else Except.ok (NodesIDs.getD (r % NodesIDs.length) 0, rest)

/-- The member function `Genotype::MutateAddConnection`. -/
def Genotype.MutateAddConnection (_cfg : Config) (w : World) : Except Fault (Bool × World) :=
  let NodesIDs := w.This.Nodes.GetKeys
  if NodesIDs.isEmpty then Except.ok (false, w)
  else
    match PickNode w.This.Nodes NodesIDs ENodeType.Output w.Rand with
    | Except.error f => Except.error f
    | Except.ok (Node1ID, rest1) =>
      match PickNode w.This.Nodes NodesIDs ENodeType.Input rest1 with
      | Except.error f => Except.error f
      | Except.ok (Node2ID, rest2) =>
        let ConnectionID := w.Innovations.GetInnovationID EMutationType.AddConnection
          EGeneType.Connection Node1ID Node2ID
        if w.This.Connections.Contains ConnectionID.1 then
          Except.ok (false, { w with Innovations := ConnectionID.2, Rand := rest2 })
        else
          Except.ok (true,
            { This := { w.This with
                Connections := w.This.Connections.Add ConnectionID.1
                  { ID := ConnectionID.1, Enabled := true, Input := Node1ID, Output := Node2ID,
                    Weight := 1 } }
              Innovations := ConnectionID.2, Rand := rest2 })

/-- The lambda of `MutateRemoveNode`: the node is neither `Input` nor `Output`. -/
def HiddenNodeFilter (Node : Nat × NodeGene) : Bool :=
  decide (Node.2.NodeType ≠ ENodeType.Input) && decide (Node.2.NodeType ≠ ENodeType.Output)

/-- The lambda of `MutateModifyActivation` and `MutateModifyAggregation`: the
    node is not `Input`. -/
def NonInputNodeFilter (Node : Nat × NodeGene) : Bool :=
  decide (Node.2.NodeType ≠ ENodeType.Input)

/-- The member function `Genotype::MutateRemoveNode`. -/
def Genotype.MutateRemoveNode (_cfg : Config) (w : World) : Except Fault (Bool × World) :=
  let HiddenNodeKeys := w.This.GetFilteredNodeKeys HiddenNodeFilter
  if HiddenNodeKeys.isEmpty then Except.ok (false, w)
  else
    match RandomElement HiddenNodeKeys w.Rand with
    | Except.error f => Except.error f
    | Except.ok (NodeID, rest) =>
      Except.ok (true,
        { w with This := Genotype.Prune { w.This with Nodes := w.This.Nodes.Remove NodeID }
                 Rand := rest })

/-- The member function `Genotype::MutateRemoveConnection`. -/
def Genotype.MutateRemoveConnection (_cfg : Config) (w : World) : Except Fault (Bool × World) :=
  if w.This.Connections.IsEmpty then Except.ok (false, w)
  else
    match RandomElement w.This.Connections.GetKeys w.Rand with
    | Except.error f => Except.error f
    | Except.ok (ConnectionID, rest) =>
      Except.ok (true,
        { w with This := { w.This with Connections := w.This.Connections.Remove ConnectionID }
                 Rand := rest })

/-- The member function `Genotype::MutateModifyWeight`; the second `rand()` value
    is the one `GetRandomDouble` consumes. -/
def Genotype.MutateModifyWeight (RAND_MAX : Nat) (cfg : Config) (w : World) :
    Except Fault (Bool × World) :=
  if w.This.Connections.IsEmpty then Except.ok (false, w)
  else
    match RandomElement w.This.Connections.GetKeys w.Rand with
    | Except.error f => Except.error f
    | Except.ok (_, []) => Except.error Fault.OutOfDraws
    | Except.ok (ConnectionID, r :: rest) =>
      let Connection := w.This.Connections.At ConnectionID {}
      let Weight := Math.Clamp
        (Connection.Weight +
          GetRandomDouble RAND_MAX r (-cfg.WeightMutationVariance) cfg.WeightMutationVariance)
        cfg.MinConnectionWeight cfg.MaxConnectionWeight
      Except.ok (true,
        { w with This := { w.This with
                   Connections := w.This.Connections.Add ConnectionID
                     { Connection with Weight := Weight } }
                 Rand := rest })

/-- The member function `Genotype::MutateModifyBias`: no emptiness test precedes
    `rand() % Nodes.Num()`, and the function ends in `return false`. -/
def Genotype.MutateModifyBias (RAND_MAX : Nat) (cfg : Config) (w : World) :
    Except Fault (Bool × World) :=
  match RandomElement w.This.Nodes.GetKeys w.Rand with
  | Except.error f => Except.error f
  | Except.ok (_, []) => Except.error Fault.OutOfDraws
  | Except.ok (NodeID, r :: rest) =>
    let Node := w.This.Nodes.At NodeID {}
    let Bias := Math.Clamp
      (Node.Bias + GetRandomDouble RAND_MAX r (-cfg.BiasMutationVariance) cfg.BiasMutationVariance)
      cfg.MinNodeBias cfg.MaxNodeBias
    Except.ok (false,
      { w with This := { w.This with Nodes := w.This.Nodes.Add NodeID { Node with Bias := Bias } }
               Rand := rest })

/-- The member function `Genotype::MutateModifyActivation`. -/
def Genotype.MutateModifyActivation (cfg : Config) (w : World) : Except Fault (Bool × World) :=
  let SupportedActivations := AddUnique cfg.SupportedActivationFunctions
    cfg.DefaultActivationFunction
  let HiddenNodeKeys := w.This.GetFilteredNodeKeys NonInputNodeFilter
  if HiddenNodeKeys.isEmpty then Except.ok (false, w)
  else
    match RandomElement HiddenNodeKeys w.Rand with
    | Except.error f => Except.error f
    | Except.ok (_, []) => Except.error Fault.OutOfDraws
    | Except.ok (NodeID, r :: rest) =>
      if SupportedActivations.length = 0 then Except.error Fault.DivideByZero
      else
        let Node := w.This.Nodes.At NodeID {}
        let Activation := SupportedActivations.getD (r % SupportedActivations.length)
          EActivation.Sigmoid
        Except.ok (false,
          { w with This := { w.This with
                     Nodes := w.This.Nodes.Add NodeID { Node with Activation := Activation } }
                   Rand := rest })

/-- The member function `Genotype::MutateModifyAggregation`. -/
def Genotype.MutateModifyAggregation (cfg : Config) (w : World) : Except Fault (Bool × World) :=
  let SupportedAggregations := AddUnique cfg.SupportedAggregationFunctions
    cfg.DefaultAggregationFunction
  let HiddenNodeKeys := w.This.GetFilteredNodeKeys NonInputNodeFilter
  if HiddenNodeKeys.isEmpty then Except.ok (false, w)
  else
    match RandomElement HiddenNodeKeys w.Rand with
    | Except.error f => Except.error f
    | Except.ok (_, []) => Except.error Fault.OutOfDraws
    | Except.ok (NodeID, r :: rest) =>
      if SupportedAggregations.length = 0 then Except.error Fault.DivideByZero
      else
        let Node := w.This.Nodes.At NodeID {}
        let Aggregation := SupportedAggregations.getD (r % SupportedAggregations.length)
          EAggregation.Mean
        Except.ok (false,
          { w with This := { w.This with
                     Nodes := w.This.Nodes.Add NodeID { Node with Aggregation := Aggregation } }
                   Rand := rest })

/-- The member function `Genotype::MutateToggleConnection`. -/
def Genotype.MutateToggleConnection (_cfg : Config) (w : World) : Except Fault (Bool × World) :=
  if w.This.Connections.IsEmpty then Except.ok (false, w)
  else
    match RandomElement w.This.Connections.GetKeys w.Rand with
    | Except.error f => Except.error f
    | Except.ok (ConnectionID, rest) =>
      let Connection := w.This.Connections.At ConnectionID {}
      Except.ok (true,
        { w with This := { w.This with
                   Connections := w.This.Connections.Add ConnectionID
                     { Connection with Enabled := !Connection.Enabled } }
                 Rand := rest })

/-- The operator that `Genotype::Mutate` calls for a mutation kind (the `case`
    labels of its `switch`); `MAX` has no `case`. -/
def Genotype.MutateKind (RAND_MAX : Nat) (cfg : Config) :
    EMutationType → World → Except Fault (Bool × World)
  | EMutationType.AddNode => Genotype.MutateAddNode cfg
  | EMutationType.AddConnection => Genotype.MutateAddConnection cfg
  | EMutationType.RemoveNode => Genotype.MutateRemoveNode cfg
  | EMutationType.RemoveConnection => Genotype.MutateRemoveConnection cfg
  | EMutationType.ModifyWeight => Genotype.MutateModifyWeight RAND_MAX cfg
  | EMutationType.ModifyBias => Genotype.MutateModifyBias RAND_MAX cfg
  | EMutationType.ModifyActivation => Genotype.MutateModifyActivation cfg
  | EMutationType.ModifyAggregation => Genotype.MutateModifyAggregation cfg
  | EMutationType.ToggleConnection => Genotype.MutateToggleConnection cfg
  | EMutationType.MAX => fun w => Except.ok (false, w)

/-- The rate of `Config` that gates a mutation kind in `Genotype::Mutate`. -/
def Config.RateOf (cfg : Config) : EMutationType → ℚ
  | EMutationType.AddNode => cfg.AddNodeMutationRate
  | EMutationType.AddConnection => cfg.AddConnectionMutationRate
  | EMutationType.RemoveNode => cfg.RemoveNodeMutationRate
  | EMutationType.RemoveConnection => cfg.RemoveConnectionMutationRate
  | EMutationType.ModifyWeight => cfg.WeightMutationRate
  | EMutationType.ModifyBias => cfg.BiasMutationRate
  | EMutationType.ModifyActivation => cfg.ActivationFunctionMutationRate
  | EMutationType.ModifyAggregation => cfg.AggregationFunctionMutationRate
  | EMutationType.ToggleConnection => cfg.EnableMutationRate
  | EMutationType.MAX => 0

/-- One gated line of `Genotype::Mutate`:
    `if (Math::Random<double>(1.0) < Rate) MutateX(Config);`; the value the
    operator returns is dropped. -/
def Genotype.MutateGated (RAND_MAX : Nat) (cfg : Config) (Kind : EMutationType) (w : World) :
    Except Fault World :=
  match w.Rand with
  | [] => Except.error Fault.OutOfDraws
  | r :: rest =>
    if Math.Random RAND_MAX r 1 < cfg.RateOf Kind then
      match Genotype.MutateKind RAND_MAX cfg Kind { w with Rand := rest } with
      | Except.error f => Except.error f
      | Except.ok (_, w2) => Except.ok w2
    else Except.ok { w with Rand := rest }

/-- The cast `static_cast<EMutationType>(n)` for `n` below `EMutationType::MAX`. -/
def EMutationType.ofIndex : Nat → EMutationType
  | 0 => EMutationType.AddNode
  | 1 => EMutationType.AddConnection
  | 2 => EMutationType.RemoveNode
  | 3 => EMutationType.RemoveConnection
  | 4 => EMutationType.ModifyWeight
  | 5 => EMutationType.ModifyBias
  | 6 => EMutationType.ModifyActivation
  | 7 => EMutationType.ModifyAggregation
  | 8 => EMutationType.ToggleConnection
  | _ => EMutationType.MAX

/-- The kinds in the order of the `else` branch of `Genotype::Mutate`. -/
def MultiOrder : List EMutationType :=
  [EMutationType.AddNode, EMutationType.AddConnection, EMutationType.RemoveNode,
   EMutationType.RemoveConnection, EMutationType.ModifyWeight, EMutationType.ModifyBias,
   EMutationType.ModifyActivation, EMutationType.ModifyAggregation,
   EMutationType.ToggleConnection]

/-- The gated lines of the `else` branch, one after the other. -/
def Genotype.MutateEach (RAND_MAX : Nat) (cfg : Config) :
    List EMutationType → World → Except Fault World
  | [], w => Except.ok w
  | Kind :: Kinds, w =>
    match Genotype.MutateGated RAND_MAX cfg Kind w with
    | Except.error f => Except.error f
    | Except.ok w2 => Genotype.MutateEach RAND_MAX cfg Kinds w2

/-- The member function `Genotype::Mutate`. -/
def Genotype.Mutate (RAND_MAX : Nat) (cfg : Config) (w : World) : Except Fault World :=
  if cfg.SingleMutation then
    match w.Rand with
    | [] => Except.error Fault.OutOfDraws
    | r :: rest =>
      Genotype.MutateGated RAND_MAX cfg (EMutationType.ofIndex (r % 9)) { w with Rand := rest }
  else Genotype.MutateEach RAND_MAX cfg MultiOrder w

/-! ### The properties stated about genotypes -/

/-- The endpoints of a connection resolve in a genotype: `Nodes` contains its
    `Input` and its `Output`, and both of those nodes have `Enabled = true`. -/
def Genotype.Resolves (g : Genotype) (c : ConnectionGene) : Prop :=
  (∃ n, g.Nodes.Find c.Input = some n ∧ n.Enabled = true) ∧
  (∃ n, g.Nodes.Find c.Output = some n ∧ n.Enabled = true)

/-- Endpoint-resolvability of a genotype: every connection resolves. -/
def Genotype.EndpointsResolve (g : Genotype) : Prop :=
  ∀ k c, g.Connections.Find k = some c → g.Resolves c

/-- Every node of the genotype has `Enabled = true`. -/
def Genotype.NodesEnabled (g : Genotype) : Prop :=
  ∀ k n, g.Nodes.Find k = some n → n.Enabled = true

/-! ### Sample data -/

/-- A genotype with an input node 0, an output node 1, a hidden node 2 and the
    connections 10 (0 to 1, weight 1/2), 11 (0 to 2) and 12 (2 to 1). -/
def sampleGenotype : Genotype :=
  { Nodes := ((TMap.empty.Add 0 { ID := 0, NodeType := ENodeType.Input,
                                  Activation := EActivation.Linear }).Add 1
                { ID := 1, NodeType := ENodeType.Output }).Add 2
                { ID := 2, NodeType := ENodeType.Hidden }
    Connections := ((TMap.empty.Add 10 { ID := 10, Input := 0, Output := 1, Weight := 1 / 2 }).Add 11
                { ID := 11, Input := 0, Output := 2 }).Add 12
                { ID := 12, Input := 2, Output := 1 } }

/-- The sample genotype with the registry as `Reset(20)` leaves it. -/
def sampleWorld (Rand : List Nat) : World :=
  { This := sampleGenotype, Innovations := freshTracker.Reset 20, Rand := Rand }

/-- The sample genotype after `MutateAddConnection` drew the nodes 0 and 1. -/
def sampleAfterAddConnection : World :=
  { This := { sampleGenotype with
      Connections := sampleGenotype.Connections.Add 20
        { ID := 20, Enabled := true, Input := 0, Output := 1, Weight := 1 } }
    Innovations := ((freshTracker.Reset 20).GetInnovationID EMutationType.AddConnection
      EGeneType.Connection 0 1).2
    Rand := [] }

/-- The sample genotype with the registry as `Reset(9)` leaves it: the next ids
    handed out are 9, 10 and 11, and 10, 11 are keys of the connection map. -/
def collidingWorld : World :=
  { This := sampleGenotype, Innovations := freshTracker.Reset 9, Rand := [0] }

/-- The registry of `sampleWorld` after the first call of `MutateAddNode`. -/
def sampleReg1 : InnovationTracker :=
  ((freshTracker.Reset 20).GetInnovationID EMutationType.AddNode EGeneType.Node 0 1).2

/-- The registry of `sampleWorld` after the second call of `MutateAddNode`. -/
def sampleReg2 : InnovationTracker :=
  (sampleReg1.GetInnovationID EMutationType.AddNode EGeneType.Connection 0 20).2

/-- The registry of `sampleWorld` after the third call of `MutateAddNode`. -/
def sampleReg3 : InnovationTracker :=
  (sampleReg2.GetInnovationID EMutationType.AddNode EGeneType.Connection 20 1).2

/-- The sample genotype after `MutateAddNode` split connection 10. -/
def sampleAfterAddNode : World :=
  { This :=
      { Nodes := AssignNode sampleGenotype.Nodes 20
          { ID := 20, Enabled := true, NodeType := ENodeType.Hidden,
            Activation := EActivation.Sigmoid, Aggregation := EAggregation.Product, Bias := 0 }
        Connections := ((sampleGenotype.Connections.Add 10
            { ID := 10, Enabled := false, Input := 0, Output := 1, Weight := 1 / 2 }).Add 21
            { ID := 21, Enabled := true, Input := 0, Output := 20, Weight := 1 }).Add 22
            { ID := 22, Enabled := true, Input := 20, Output := 1, Weight := 1 / 2 } }
    Innovations := sampleReg3
    Rand := [] }

/-- The sample genotype after `MutateModifyBias` moved the bias of node 0 to 1. -/
def sampleAfterModifyBias : World :=
  { This := { sampleGenotype with
      Nodes := sampleGenotype.Nodes.Add 0
        { ID := 0, NodeType := ENodeType.Input, Activation := EActivation.Linear, Bias := 1 } }
    Innovations := freshTracker.Reset 20
    Rand := [] }

/-- The sample genotype after `MutateModifyActivation` set node 2 to `Tanh`. -/
def sampleAfterModifyActivation : World :=
  { This := { sampleGenotype with
      Nodes := sampleGenotype.Nodes.Add 2
        { ID := 2, NodeType := ENodeType.Hidden, Activation := EActivation.Tanh } }
    Innovations := freshTracker.Reset 20
    Rand := [] }

/-- The sample genotype after `MutateModifyAggregation` set node 2 to `Median`. -/
def sampleAfterModifyAggregation : World :=
  { This := { sampleGenotype with
      Nodes := sampleGenotype.Nodes.Add 2
        { ID := 2, NodeType := ENodeType.Hidden, Aggregation := EAggregation.Median } }
    Innovations := freshTracker.Reset 20
    Rand := [] }

/-- The genotype of `sampleAfterAddNode` with connection 10 enabled again (as
    `MutateToggleConnection` does), the registry still holding the three records
    of the split, and the next draw choosing connection 10. -/
def resplitWorld : World :=
  { This := { sampleAfterAddNode.This with
      Connections := sampleAfterAddNode.This.Connections.Add 10
        { ID := 10, Enabled := true, Input := 0, Output := 1, Weight := 1 / 2 } }
    Innovations := sampleReg3
    Rand := [0] }

/-- The invariant carried through a mutation: every node is enabled and every
    connection has both endpoints among the nodes (and so enabled). -/
def Genotype.Sound (g : Genotype) : Prop := g.NodesEnabled ∧ g.EndpointsResolve

/-- An enabled input node 0 and a disabled output node 1, no connection; the
    draws pick node 0 as source and node 1 as destination. -/
def disabledNodeWorld : World :=
  { This :=
      { Nodes := (TMap.empty.Add 0 { ID := 0, NodeType := ENodeType.Input }).Add 1
          { ID := 1, NodeType := ENodeType.Output, Enabled := false }
        Connections := TMap.empty }
    Innovations := freshTracker.Reset 2
    Rand := [0, 1] }

/-! ### Genome.h, Reproduction.cpp: genomes and the initial topologies -/

/-- The genotype of a default-constructed `Genome`: no node, no connection. -/
def emptyGenotype : Genotype := ⟨TMap.empty, TMap.empty⟩

/-- The class `Genome`, with its member initialisers; `Config` is a shared
    pointer, `none` being the null pointer. -/
structure Genome where
  ID : Nat := 0
  SpeciesID : Nat := 0
  Genotype : Genotype := emptyGenotype
  Config : Option Config := none
  AdjustedFitness : ℚ := 0
  Fitness : ℚ := 0
  bElite : Bool := false

/-- The function `InitialTopology::None`: three loops of statements
    `Nodes[NodeID] = NodeGene(...)`. The constructor calls of the second and
    third loop pass `DefaultAggregationFunction`; the assignment into the map is
    `AssignNode`. The `int` sums are taken without overflow. -/
def InitialTopology.None (G : Genome) : Except Fault Genome :=
  match G.Config with
  | none => Except.error Fault.NullDereference
  | some Config =>
    let Nodes1 := (List.range (Config.NumInputs + 1)).foldl
      (fun Nodes Idx =>
        AssignNode Nodes Idx
          { ID := Idx, NodeType := ENodeType.Input, Activation := EActivation.Linear, Bias := 0 })
      G.Genotype.Nodes
    let Nodes2 := (List.range Config.NumOutputs).foldl
      (fun Nodes Idx =>
        let NodeID := Idx + Config.NumInputs + 1
        AssignNode Nodes NodeID
          { ID := NodeID, NodeType := ENodeType.Output,
            Activation := Config.DefaultActivationFunction,
            Aggregation := Config.DefaultAggregationFunction })
      Nodes1
    let Nodes3 := (List.range Config.NumHidden).foldl
      (fun Nodes Idx =>
        let NodeID := Idx + Config.NumInputs + Config.NumOutputs + 1
        AssignNode Nodes NodeID
          { ID := NodeID, NodeType := ENodeType.Hidden,
            Activation := Config.DefaultActivationFunction,
            Aggregation := Config.DefaultAggregationFunction })
      Nodes2
    Except.ok { G with Genotype := { G.Genotype with Nodes := Nodes3 } }

/-- The body shared by the inner loops of `InitialTopology::Full`, for the nodes
    found by `GetNodeByID(Source)` and `GetNodeByID(Target)`: the id comes from
    the registry, a connection already stored under it is left alone, otherwise
    `Connections[ConnectionID] = ConnectionGene(ConnectionID, ..., 1.0)`. The
    state is the genome and the global registry `NEAT::Innovations`. -/
def InitialTopology.Connect (Source Target : Nat) (s : Genome × InnovationTracker) :
    Except Fault (Genome × InnovationTracker) :=
  match s.1.Genotype.Nodes.Find Source, s.1.Genotype.Nodes.Find Target with
  | some SourceNode, some TargetNode =>
    let r := s.2.GetInnovationID EMutationType.AddConnection EGeneType.Connection
      SourceNode.ID TargetNode.ID
    if s.1.Genotype.Connections.Contains r.1 then Except.ok (s.1, r.2)
    else
      Except.ok
        ({ s.1 with
            Genotype :=
              { s.1.Genotype with
                Connections := s.1.Genotype.Connections.Add r.1
                  { ID := r.1, Input := SourceNode.ID, Output := TargetNode.ID, Weight := 1 } } },
          r.2)
  | _, _ => Except.error Fault.NullDereference

/-- The function `InitialTopology::Full`: `None`, then every input (and the
    bias) to every hidden and to every output node, then every hidden to every
    output node. -/
def InitialTopology.Full (G : Genome) (Innovations : InnovationTracker) :
    Except Fault (Genome × InnovationTracker) := do
  let G1 ← InitialTopology.None G
  match G1.Config with
  | none => Except.error Fault.NullDereference
  | some Config =>
    let s1 ← (List.range (Config.NumInputs + 1)).foldlM
      (fun s Idx => do
        let s2 ← (List.range Config.NumHidden).foldlM
          (fun s Jdx =>
            InitialTopology.Connect Idx (Jdx + Config.NumInputs + Config.NumOutputs + 1) s)
          s
        (List.range Config.NumOutputs).foldlM
          (fun s Jdx => InitialTopology.Connect Idx (Jdx + Config.NumInputs + 1) s) s2)
      (G1, Innovations)
    (List.range Config.NumHidden).foldlM
      (fun s Idx =>
        (List.range Config.NumOutputs).foldlM
          (fun s Jdx =>
            InitialTopology.Connect (Idx + Config.NumInputs + Config.NumOutputs + 1)
              (Jdx + Config.NumInputs + 1) s)
          s)
      s1

/-- The (source, target) node ids the loops of `Full` visit, in loop order. -/
def InitialTopology.FullPairs (Config : Config) : List (Nat × Nat) :=
  (List.range (Config.NumInputs + 1)).flatMap
      (fun Idx =>
        (List.range Config.NumHidden).map
            (fun Jdx => (Idx, Jdx + Config.NumInputs + Config.NumOutputs + 1)) ++
          (List.range Config.NumOutputs).map (fun Jdx => (Idx, Jdx + Config.NumInputs + 1))) ++
    (List.range Config.NumHidden).flatMap
      (fun Idx =>
        (List.range Config.NumOutputs).map
          (fun Jdx => (Idx + Config.NumInputs + Config.NumOutputs + 1, Jdx + Config.NumInputs + 1)))

/-- Spec side, the pairs to be connected: `a` is an input or the bias (ids
    `0..I`) and `b` a hidden node (ids `I+O+1..I+O+H`), or `a` is an input or
    the bias and `b` an output node (ids `I+1..I+O`), or `a` is a hidden and `b`
    an output node. -/
def InitialTopology.FullPair (Config : Config) (a b : Nat) : Prop :=
  (a ≤ Config.NumInputs ∧ Config.NumInputs + Config.NumOutputs < b ∧
      b ≤ Config.NumInputs + Config.NumOutputs + Config.NumHidden) ∨
  (a ≤ Config.NumInputs ∧ Config.NumInputs < b ∧ b ≤ Config.NumInputs + Config.NumOutputs) ∨
  (Config.NumInputs + Config.NumOutputs < a ∧
      a ≤ Config.NumInputs + Config.NumOutputs + Config.NumHidden ∧
      Config.NumInputs < b ∧ b ≤ Config.NumInputs + Config.NumOutputs)

/-- What holds of the registry in every state `Reset` and `GetInnovationID` can
    produce: the counter is a `uint64` value, every record sits under its own
    `ID`, and no two records share a four-tuple. -/
def RegistryWF (t : InnovationTracker) : Prop :=
  t.NextInnovationID < 2 ^ 64 ∧
  (∀ k r, t.Innovations.Find k = some r → r.ID = k) ∧
  (∀ k1 k2 r1 r2, t.Innovations.Find k1 = some r1 → t.Innovations.Find k2 = some r2 →
    r1.Tuple = r2.Tuple → k1 = k2)

/-- The next `n` values of the counter are not keys of the registry: handing
    out `n` further ids does not reach an id in use. -/
def InnovationTracker.FreshIDs (t : InnovationTracker) (n : Nat) : Prop :=
  ∀ j, j < n → t.Innovations.Find ((t.NextInnovationID + j) % 2 ^ 64) = none

/-- The four-tuple `Full` asks the registry about for a (source, target) pair. -/
def InitialTopology.RequestOf (a b : Nat) : Request :=
  (EMutationType.AddConnection, EGeneType.Connection, a, b)

/-- Every connection of `M` has the form `ConnectionGene(id, a, b, 1.0)` under
    its own id, and the registry `t` holds under that id the record of the
    request for `(a, b)`. -/
def InitialTopology.Registered (M : TMap ConnectionGene) (t : InnovationTracker) : Prop :=
  ∀ id x, M.Find id = some x →
    x = { ID := id, Enabled := true, Input := x.Input, Output := x.Output, Weight := 1 } ∧
    ∃ r, t.Innovations.Find id = some r ∧ r.Tuple = InitialTopology.RequestOf x.Input x.Output

/-! ### Reproduction.cpp: the distance between two genomes

A `double` that need not be finite is an `Option ℚ`: `none` stands for an
infinity or NaN. Sums and products with such an operand are not finite either,
and so is a quotient by zero. -/

/-- Sum of two `double` values. -/
def Double.add (a b : Option ℚ) : Option ℚ :=
  match a, b with
  | some x, some y => some (x + y)
  | _, _ => none

/-- Product of two `double` values. -/
def Double.mul (a b : Option ℚ) : Option ℚ :=
  match a, b with
  | some x, some y => some (x * y)
  | _, _ => none

/-- Quotient of two `double` values; the divisor is finite where it is used. -/
def Double.div (a b : Option ℚ) : Option ℚ :=
  match a, b with
  | some x, some y => if y = 0 then none else some (x / y)
  | _, _ => none

/-- Sum of a list of `double` values. -/
def Double.sum (l : List (Option ℚ)) : Option ℚ := l.foldr Double.add (some 0)

/-- The library function `std::pow` on a base that is not negative: any base to
    the exponent 0 is 1, zero to a positive exponent is 0 and to a negative
    exponent is infinite; the value for a positive base and a non-zero exponent
    is the parameter `pow`. -/
def StdPow (pow : ℚ → ℚ → ℚ) (Base Exponent : ℚ) : Option ℚ :=
  if Exponent = 0 then some 1
  else if Base = 0 then (if 0 < Exponent then some 0 else none)
  else some (pow Base Exponent)

/-- The function `Math::Max`. -/
def Math.Max (A B : Nat) : Nat := if A > B then A else B

/-- The function `Distance::Euclidean`. `GetConnectionByID` and `GetNodeByID`
    are `Find` on the two maps; a pointer they return is dereferenced only when
    it is not null. -/
def Distance.Euclidean (pow : ℚ → ℚ → ℚ) (Genome1 Genome2 : Genome) (Config : Config) :
    Except Fault (Option ℚ) := do
  let ConnectionKeys := Genome1.Genotype.Connections.GetKeys.foldl
    (fun (Keys : List Nat × List Nat) ConnectionID1 =>
      if (Genome2.Genotype.Connections.Find ConnectionID1).isSome then
        (AddUnique Keys.1 ConnectionID1, Keys.2)
      else (Keys.1, Keys.2 ++ [ConnectionID1]))
    ([], [])
  let MatchingConnectionKeys := ConnectionKeys.1
  let DisjointConnectionKeys := Genome2.Genotype.Connections.GetKeys.foldl
    (fun (Keys : List Nat) ConnectionID2 =>
      if !(Genome1.Genotype.Connections.Find ConnectionID2).isSome then Keys ++ [ConnectionID2]
      else Keys)
    ConnectionKeys.2
  let ConnectionDistance ← MatchingConnectionKeys.foldlM
    (fun (Sum : Option ℚ) ConnectionID =>
      match Genome1.Genotype.Connections.Find ConnectionID,
          Genome2.Genotype.Connections.Find ConnectionID with
      | some Connection1, some Connection2 =>
        Except.ok (Double.add Sum (Double.mul (some Config.MatchingGeneCoefficient)
          (StdPow pow |Connection1.Weight - Connection2.Weight| Config.DistanceExponent)))
      | _, _ => Except.error Fault.NullDereference)
    (some 0)
  let NodeKeys ← Genome1.Genotype.Nodes.GetKeys.foldlM
    (fun (Keys : List Nat × List Nat × List Nat) NodeID1 =>
      match Genome1.Genotype.Nodes.Find NodeID1 with
      | none => Except.error Fault.Breakpoint
      | some ParentNode1 =>
        match Genome2.Genotype.Nodes.Find NodeID1 with
        | some ParentNode2 =>
          if ParentNode1.Activation = ParentNode2.Activation ∧
              ParentNode1.Aggregation = ParentNode2.Aggregation then
            Except.ok (AddUnique Keys.1 NodeID1, Keys.2.1, Keys.2.2)
          else Except.ok (Keys.1, Keys.2.1 ++ [NodeID1], Keys.2.2)
        | none => Except.ok (Keys.1, Keys.2.1, Keys.2.2 ++ [NodeID1]))
    ([], [], [])
  let MatchingNodeKeys := NodeKeys.1
  let DisjointNodeKeys := NodeKeys.2.1
  let ExcessNodeKeys := Genome2.Genotype.Nodes.GetKeys.foldl
    (fun (Keys : List Nat) NodeID2 =>
      if !(Genome1.Genotype.Nodes.Find NodeID2).isSome then Keys ++ [NodeID2] else Keys)
    NodeKeys.2.2
  let NumNodes1 := Genome1.Genotype.Nodes.Num
  let NumConnections1 := Genome1.Genotype.Connections.Num
  let NumNodes2 := Genome2.Genotype.Nodes.Num
  let NumConnections2 := Genome2.Genotype.Connections.Num
  let MaxGenomeSize := Math.Max (NumNodes1 + NumConnections1) (NumNodes2 + NumConnections2)
  let MatchingNodeDistance ← MatchingNodeKeys.foldlM
    (fun (Sum : Option ℚ) NodeID =>
      match Genome1.Genotype.Nodes.Find NodeID, Genome2.Genotype.Nodes.Find NodeID with
      | some Node1, some Node2 =>
        Except.ok (Double.add Sum (Double.mul (some Config.MatchingGeneCoefficient)
          (StdPow pow |Node1.Bias - Node2.Bias| Config.DistanceExponent)))
      | _, _ => Except.error Fault.NullDereference)
    (some 0)
  let ExcessDistance := Double.mul (some Config.ExcessGeneCoefficient)
    (Double.div (some ((ExcessNodeKeys.length + DisjointConnectionKeys.length : Nat) : ℚ))
      (some (MaxGenomeSize : ℚ)))
  let DisjointDistance := Double.mul (some Config.ExcessGeneCoefficient)
    (Double.div (some (DisjointNodeKeys.length : ℚ)) (some (MaxGenomeSize : ℚ)))
  Except.ok (Double.add (Double.add (Double.add ConnectionDistance MatchingNodeDistance)
    DisjointDistance) ExcessDistance)

/-- The function `Distance::Manhattan`. -/
def Distance.Manhattan (_Genome1 _Genome2 : Genome) (_Config : Config) : Option ℚ := some 0

/-- The function `Distance::Chebyshev`. -/
def Distance.Chebyshev (_Genome1 _Genome2 : Genome) (_Config : Config) : Option ℚ := some 0

/-- The function `Distance::Calculate`; the three cases are all the values of
    `EDistance`. -/
def Distance.Calculate (pow : ℚ → ℚ → ℚ) (Genome1 Genome2 : Genome) (Config : Config) :
    Except Fault (Option ℚ) :=
  match Config.DistanceMethod with
  | EDistance.Euclidean => Distance.Euclidean pow Genome1 Genome2 Config
  | EDistance.Manhattan => Except.ok (Distance.Manhattan Genome1 Genome2 Config)
  | EDistance.Chebyshev => Except.ok (Distance.Chebyshev Genome1 Genome2 Config)

/-- Spec side, the condition "equal activation and equal aggregation" on the
    node id `k` of two genomes. -/
def Distance.SameKind (A B : Genome) (k : Nat) : Bool :=
  decide ((A.Genotype.Nodes.At k {}).Activation = (B.Genotype.Nodes.At k {}).Activation ∧
    (A.Genotype.Nodes.At k {}).Aggregation = (B.Genotype.Nodes.At k {}).Aggregation)

/-- Spec side, the distance as the sentence states it: `k_match` times the sum
    over the connection ids present in both of `|wA - wB|^exponent`, plus
    `k_match` times the sum over the node ids present in both with equal
    activation and aggregation of `|biasA - biasB|^exponent`, plus `k_excess`
    times the number of node ids present in both with differing activation or
    aggregation over `M`, plus `k_excess` times the number of node ids and of
    connection ids present in exactly one genome over `M`. -/
def Distance.EuclideanSpec (pow : ℚ → ℚ → ℚ) (A B : Genome) (cfg : Config) : Option ℚ :=
  let M : Nat := max (A.Genotype.Nodes.Num + A.Genotype.Connections.Num)
    (B.Genotype.Nodes.Num + B.Genotype.Connections.Num)
  let connBoth := A.Genotype.Connections.GetKeys.filter (fun k => B.Genotype.Connections.Contains k)
  let connOne :=
    (A.Genotype.Connections.GetKeys.filter (fun k => !B.Genotype.Connections.Contains k)).length +
    (B.Genotype.Connections.GetKeys.filter (fun k => !A.Genotype.Connections.Contains k)).length
  let nodeSame := A.Genotype.Nodes.GetKeys.filter
    (fun k => B.Genotype.Nodes.Contains k && Distance.SameKind A B k)
  let nodeDiffer := (A.Genotype.Nodes.GetKeys.filter
    (fun k => B.Genotype.Nodes.Contains k && !Distance.SameKind A B k)).length
  let nodeOne :=
    (A.Genotype.Nodes.GetKeys.filter (fun k => !B.Genotype.Nodes.Contains k)).length +
    (B.Genotype.Nodes.GetKeys.filter (fun k => !A.Genotype.Nodes.Contains k)).length
  Double.add
    (Double.add
      (Double.add
        (Double.mul (some cfg.MatchingGeneCoefficient)
          (Double.sum (connBoth.map (fun k =>
            StdPow pow |(A.Genotype.Connections.At k {}).Weight -
              (B.Genotype.Connections.At k {}).Weight| cfg.DistanceExponent))))
        (Double.mul (some cfg.MatchingGeneCoefficient)
          (Double.sum (nodeSame.map (fun k =>
            StdPow pow |(A.Genotype.Nodes.At k {}).Bias -
              (B.Genotype.Nodes.At k {}).Bias| cfg.DistanceExponent)))))
      (Double.mul (some cfg.ExcessGeneCoefficient)
        (Double.div (some (nodeDiffer : ℚ)) (some (M : ℚ)))))
    (Double.mul (some cfg.ExcessGeneCoefficient)
      (Double.div (some ((nodeOne + connOne : Nat) : ℚ)) (some (M : ℚ))))

/-! ### Network.h, Network.cpp: the network built from a genome

The neurons live in the three arrays of the network; a `NeuronPtr` is a
reference into one of them, or null (`none`). Both `Aggregation::Aggregate` and
`Activation::Activate` are a `switch` over the method that ends in
`default: throw std::invalid_argument`; `NeuralNetwork::Evaluate` catches
nothing. For the methods that have a `case`, the value of
`Aggregation::Aggregate` followed by `Activation::Activate` is the parameter
`Transfer`, with `none` for a result that is NaN or not finite. -/

/-- The copy constructor of `NodeGene`: like the assignment operators it copies
    `ID`, `Enabled`, `Type`, `Activation` and `Bias`; `Aggregation` keeps its
    member initialiser. -/
def NodeGene.Copy (Other : NodeGene) : NodeGene := NodeGene.Assign {} Other

/-- The record `NeuralNetwork::NeuronNode`. -/
structure NeuronNode where
  ID : Nat := 0
  Bias : ℚ := 0
  Activation : ℚ := 0
  ActivationType : EActivation := EActivation.Sigmoid
  AggregationType : EAggregation := EAggregation.Mean
  deriving DecidableEq

/-- The constructor `NeuronNode(NEAT::NodeGene Node)`; the parameter is passed
    by value, so it is a copy of the caller's gene. -/
def NeuronNode.ofGene (Gene : NodeGene) : NeuronNode :=
  let Node := NodeGene.Copy Gene
  { ID := Node.ID, Activation := 0, ActivationType := Node.Activation,
    AggregationType := Node.Aggregation, Bias := Node.Bias }

/-- What a non-null `NeuronPtr` of a network points to: the neuron at an index of
    one of the three arrays. -/
inductive NeuronRef where
  | Input (Idx : Nat)
  | Hidden (Idx : Nat)
  | Output (Idx : Nat)
  deriving DecidableEq, Repr

/-- The record `NeuralNetwork::NeuronConnection`. -/
structure NeuronConnection where
  Input : Option NeuronRef := none
  Output : Option NeuronRef := none
  Weight : ℚ := 1
  deriving DecidableEq

/-- The class `NeuralNetwork`. -/
structure NeuralNetwork where
  Config : Option Config := none
  InputNeurons : List NeuronNode := []
  HiddenNeurons : List NeuronNode := []
  OutputNeurons : List NeuronNode := []
  Connections : List NeuronConnection := []

/-- The neuron a reference points to. -/
def NeuralNetwork.Deref (Network : NeuralNetwork) : NeuronRef → Option NeuronNode
  | NeuronRef.Input Idx => Network.InputNeurons[Idx]?
  | NeuronRef.Hidden Idx => Network.HiddenNeurons[Idx]?
  | NeuronRef.Output Idx => Network.OutputNeurons[Idx]?

/-- Index of the first neuron of an array with the given `ID`. -/
def NeuronIndex (ID : Nat) : List NeuronNode → Option Nat
  | [] => none
  | Neuron :: Rest => if Neuron.ID = ID then some 0 else (NeuronIndex ID Rest).map (· + 1)

/-- The member function `GetNeuronByID`: the input, then the hidden, then the
    output neurons are searched; `none` is `nullptr`. -/
def NeuralNetwork.GetNeuronByID (Network : NeuralNetwork) (ID : Nat) : Option NeuronRef :=
  match NeuronIndex ID Network.InputNeurons with
  | some Idx => some (NeuronRef.Input Idx)
  | none =>
    match NeuronIndex ID Network.HiddenNeurons with
    | some Idx => some (NeuronRef.Hidden Idx)
    | none =>
      match NeuronIndex ID Network.OutputNeurons with
      | some Idx => some (NeuronRef.Output Idx)
      | none => none

/-- The three-argument constructor of `NeuronConnection`: a null endpoint runs
    into `BREAKPOINT()`. -/
def NeuronConnection.New (Input Output : Option NeuronRef) (Weight : ℚ) :
    Except Fault NeuronConnection :=
  if Input.isNone then Except.error Fault.Breakpoint
  else if Output.isNone then Except.error Fault.Breakpoint
  else Except.ok { Input := Input, Output := Output, Weight := Weight }

/-- The body of the loop over the connection genes in the constructor of
    `NeuralNetwork`: both endpoints are looked up by id and the connection is
    appended. -/
def NeuralNetwork.AddEdge (Network : NeuralNetwork) (Connection : Nat × ConnectionGene) :
    Except Fault NeuralNetwork := do
  let InputNeuron := Network.GetNeuronByID Connection.2.Input
  let OutputNeuron := Network.GetNeuronByID Connection.2.Output
  let Edge ← NeuronConnection.New InputNeuron OutputNeuron Connection.2.Weight
  Except.ok { Network with Connections := Network.Connections ++ [Edge] }

/-- The network of the constructor `NeuralNetwork(GenomePtr Genome)` before its
    last loop: one neuron per node, in key order within each type. -/
def NeuralNetwork.Neurons (G : Genome) : NeuralNetwork :=
  let InputNodeIDs := G.Genotype.GetFilteredNodeKeys
    (fun Pair => decide (Pair.2.NodeType = ENodeType.Input))
  let HiddenNodeIDs := G.Genotype.GetFilteredNodeKeys
    (fun Pair => decide (Pair.2.NodeType = ENodeType.Hidden))
  let OutputNodeIDs := G.Genotype.GetFilteredNodeKeys
    (fun Pair => decide (Pair.2.NodeType = ENodeType.Output))
  { Config := G.Config
    InputNeurons := InputNodeIDs.map
      (fun NodeID => NeuronNode.ofGene (G.Genotype.Nodes.At NodeID {}))
    HiddenNeurons := HiddenNodeIDs.map
      (fun NodeID => NeuronNode.ofGene (G.Genotype.Nodes.At NodeID {}))
    OutputNeurons := OutputNodeIDs.map
      (fun NodeID => NeuronNode.ofGene (G.Genotype.Nodes.At NodeID {}))
    Connections := [] }

/-- The constructor `NeuralNetwork(GenomePtr Genome)`: the neurons, then one
    connection per connection gene, in key order. -/
def NeuralNetwork.New (G : Genome) : Except Fault NeuralNetwork :=
  G.Genotype.Connections.entries.foldlM NeuralNetwork.AddEdge (NeuralNetwork.Neurons G)

/-- The connection the constructor makes of a connection gene. -/
def NeuralNetwork.EdgeOf (Network : NeuralNetwork) (Connection : Nat × ConnectionGene) :
    NeuronConnection :=
  { Input := Network.GetNeuronByID Connection.2.Input
    Output := Network.GetNeuronByID Connection.2.Output
    Weight := Connection.2.Weight }

/-- Dereference of a `NeuronPtr`. -/
def NeuralNetwork.Arrow (Network : NeuralNetwork) (Ptr : Option NeuronRef) :
    Except Fault NeuronNode :=
  match Ptr.bind Network.Deref with
  | some Neuron => Except.ok Neuron
  | none => Except.error Fault.NullDereference

/-- The body of the loop of `GetWeightedInputs`, with `GetWeightedInput` of the
    connection inlined. -/
def NeuralNetwork.WeighInput (Network : NeuralNetwork) (NeuronID : Nat) (Inputs : List ℚ)
    (Connection : NeuronConnection) : Except Fault (List ℚ) := do
  let Output ← Network.Arrow Connection.Output
  if Output.ID = NeuronID then
    let Input ← Network.Arrow Connection.Input
    Except.ok (Inputs ++ [(Input.Activation + Input.Bias) * Connection.Weight])
  else Except.ok Inputs

/-- The member function `GetWeightedInputs`. -/
def NeuralNetwork.GetWeightedInputs (Network : NeuralNetwork) (NeuronID : Nat) :
    Except Fault (List ℚ) :=
  Network.Connections.foldlM (Network.WeighInput NeuronID) []

/-- Writing the member `Activation` of the neuron a reference points to. -/
def NeuralNetwork.SetActivation (Network : NeuralNetwork) (Ref : NeuronRef) (Value : ℚ) :
    NeuralNetwork :=
  match Ref with
  | NeuronRef.Input Idx =>
    { Network with
      InputNeurons := Network.InputNeurons.modify (fun Neuron => { Neuron with Activation := Value }) Idx }
  | NeuronRef.Hidden Idx =>
    { Network with
      HiddenNeurons := Network.HiddenNeurons.modify (fun Neuron => { Neuron with Activation := Value }) Idx }
  | NeuronRef.Output Idx =>
    { Network with
      OutputNeurons := Network.OutputNeurons.modify (fun Neuron => { Neuron with Activation := Value }) Idx }

/-- Whether the `switch` of `Aggregation::Aggregate` has a `case` for the
    method: it has none for `Product` and for `MAX`, and the call then throws
    `std::invalid_argument`. -/
def Aggregation.HasCase : EAggregation → Bool
  | EAggregation.Product => false
  | EAggregation.MAX => false
  | _ => true

/-- Whether the `switch` of `Activation::Activate` has a `case` for the method:
    it has none for `MAX`, and the call then throws `std::invalid_argument`. -/
def Activation.HasCase : EActivation → Bool
  | EActivation.MAX => false
  | _ => true

/-- The member function `NeuronNode::Activate` on the neuron a reference points
    to: `Aggregation::Aggregate` on the weighted inputs, then
    `Activation::Activate`, either of which throws for a method without a
    `case`; a NaN or non-finite result is replaced by 0. -/
def NeuralNetwork.Activate (Transfer : List ℚ → EAggregation → EActivation → Option ℚ)
    (Network : NeuralNetwork) (Ref : NeuronRef) : Except Fault NeuralNetwork := do
  let Neuron ← Network.Arrow (some Ref)
  let Inputs ← Network.GetWeightedInputs Neuron.ID
  if Aggregation.HasCase Neuron.AggregationType = false then
    Except.error Fault.InvalidArgument
  else if Activation.HasCase Neuron.ActivationType = false then
    Except.error Fault.InvalidArgument
  else
    Except.ok (Network.SetActivation Ref
      ((Transfer Inputs Neuron.AggregationType Neuron.ActivationType).getD 0))

/-- The loop `InputNeurons[Idx]->Activation = Inputs[Idx]` over the indices of
    `Inputs`, for an array of more neurons than inputs. -/
def WriteInputs : List NeuronNode → List ℚ → List NeuronNode
  | Neuron :: Neurons, x :: xs => { Neuron with Activation := x } :: WriteInputs Neurons xs
  | Neurons, _ => Neurons

/-- The statement `InputNeurons.Last()->Activation = 1.0` on a non-empty array. -/
def ActivateBias : List NeuronNode → List NeuronNode
  | [] => []
  | [Neuron] => [{ Neuron with Activation := 1 }]
  | Neuron :: Neurons => Neuron :: ActivateBias Neurons

/-- The member function `Evaluate`: the returned array and the network after
    the call. -/
def NeuralNetwork.Evaluate (Transfer : List ℚ → EAggregation → EActivation → Option ℚ)
    (Network : NeuralNetwork) (Inputs : List ℚ) : Except Fault (List ℚ × NeuralNetwork) :=
  match Network.Config with
  | none => Except.ok ([], Network)
  | some Config =>
    let Network1 : NeuralNetwork :=
      if Config.ResetNetworkActivations then
        { Network with
          InputNeurons := Network.InputNeurons.map (fun Neuron => { Neuron with Activation := 0 })
          HiddenNeurons := Network.HiddenNeurons.map (fun Neuron => { Neuron with Activation := 0 })
          OutputNeurons := Network.OutputNeurons.map (fun Neuron => { Neuron with Activation := 0 }) }
      else Network
    if Network1.InputNeurons.length ≠ Inputs.length + 1 then Except.ok ([], Network1)
    else do
      let Network2 : NeuralNetwork :=
        { Network1 with InputNeurons := ActivateBias (WriteInputs Network1.InputNeurons Inputs) }
      let Network3 ← (List.range Network2.HiddenNeurons.length).foldlM
        (fun Network Idx => NeuralNetwork.Activate Transfer Network (NeuronRef.Hidden Idx)) Network2
      let Network4 ← (List.range Network3.OutputNeurons.length).foldlM
        (fun Network Idx => NeuralNetwork.Activate Transfer Network (NeuronRef.Output Idx)) Network3
      Except.ok (Network4.OutputNeurons.map (fun Neuron => Neuron.Activation), Network4)

/-- A copy of a map whose values are copied by `f`. -/
def TMap.MapValues {V W : Type} (m : TMap V) (f : V → W) : TMap W :=
  ⟨m.entries.map (fun e => (e.1, f e.2)), List.pairwise_map.2 m.ascending⟩

/-- The copy constructor of `Genome`: the node map is copied node by node with
    the copy constructor of `NodeGene`. -/
def Genome.Copy (G : Genome) : Genome :=
  { G with Genotype := { G.Genotype with Nodes := G.Genotype.Nodes.MapValues NodeGene.Copy } }

/-- The member function `Genome::CreateNeuralNetwork`: `none` is `nullptr`. -/
def Genome.CreateNeuralNetwork (G : Genome) : Except Fault (Option NeuralNetwork) :=
  match G.Config with
  | none => Except.ok none
  | some _ =>
    match NeuralNetwork.New G.Copy with
    | Except.ok Network => Except.ok (some Network)
    | Except.error f => Except.error f

/-- Spec side: `NeuronNode::Activate` throws on this neuron, whose aggregation
    or activation method has no `case`. -/
def NeuronNode.Throws (Neuron : NeuronNode) : Bool :=
  !Aggregation.HasCase Neuron.AggregationType || !Activation.HasCase Neuron.ActivationType

/-- Spec side: some Hidden or Output neuron of the network has an aggregation
    or activation method without a `case`. -/
def NeuralNetwork.Throws (Network : NeuralNetwork) : Bool :=
  Network.HiddenNeurons.any NeuronNode.Throws || Network.OutputNeurons.any NeuronNode.Throws

/-- Spec side: `NeuronNode::Activate` throws on the neuron behind a
    reference. -/
def NeuralNetwork.ThrowsAt (Network : NeuralNetwork) (Ref : NeuronRef) : Bool :=
  match Network.Deref Ref with
  | some Neuron => Neuron.Throws
  | none => false

/-- Two states of one network whose Hidden and Output neurons have kept their
    methods, as far as `NeuronNode.Throws` looks at them. -/
def NeuralNetwork.SameKinds (Network Network2 : NeuralNetwork) : Prop :=
  Network2.HiddenNeurons.map NeuronNode.Throws = Network.HiddenNeurons.map NeuronNode.Throws ∧
  Network2.OutputNeurons.map NeuronNode.Throws = Network.OutputNeurons.map NeuronNode.Throws

/-- A reference points into the arrays of the network. -/
def NeuralNetwork.RefValid (Network : NeuralNetwork) : NeuronRef → Prop
  | NeuronRef.Input Idx => Idx < Network.InputNeurons.length
  | NeuronRef.Hidden Idx => Idx < Network.HiddenNeurons.length
  | NeuronRef.Output Idx => Idx < Network.OutputNeurons.length

/-- Both endpoints of every connection of the network point to a neuron. -/
def NeuralNetwork.Linked (Network : NeuralNetwork) : Prop :=
  ∀ c ∈ Network.Connections, ∃ a b, c.Input = some a ∧ c.Output = some b ∧
    Network.RefValid a ∧ Network.RefValid b

/-- Two states of one network: same config, same connections, same input
    neurons, and hidden and output arrays of the same lengths. -/
def NeuralNetwork.SameFrame (Network Network2 : NeuralNetwork) : Prop :=
  Network2.Config = Network.Config ∧ Network2.Connections = Network.Connections ∧
  Network2.InputNeurons = Network.InputNeurons ∧
  Network2.HiddenNeurons.length = Network.HiddenNeurons.length ∧
  Network2.OutputNeurons.length = Network.OutputNeurons.length ∧
  Network2.OutputNeurons.map (fun Neuron => Neuron.ID) =
    Network.OutputNeurons.map (fun Neuron => Neuron.ID)

/-- A genome with two input nodes (the second is the bias), one output and one
    hidden node, connected as `Full` connects them. -/
def twoInputGenome : Genome :=
  { Config := some {}
    Genotype :=
      { Nodes := (((TMap.empty.Add 0 { ID := 0, NodeType := ENodeType.Input,
                                       Activation := EActivation.Linear }).Add 1
                    { ID := 1, NodeType := ENodeType.Input,
                      Activation := EActivation.Linear }).Add 2
                    { ID := 2, NodeType := ENodeType.Output }).Add 3
                    { ID := 3, NodeType := ENodeType.Hidden }
        Connections := ((((TMap.empty.Add 4 { ID := 4, Input := 0, Output := 3 }).Add 5
                    { ID := 5, Input := 0, Output := 2 }).Add 6
                    { ID := 6, Input := 1, Output := 3 }).Add 7
                    { ID := 7, Input := 1, Output := 2 }).Add 8
                    { ID := 8, Input := 3, Output := 2 } } }

/-- A genome whose only connection ends in a disabled node. -/
def disabledEndpointGenome : Genome :=
  { Config := some {}
    Genotype :=
      { Nodes := (TMap.empty.Add 0 { ID := 0, NodeType := ENodeType.Input,
                                     Activation := EActivation.Linear }).Add 1
                    { ID := 1, NodeType := ENodeType.Output, Enabled := false }
        Connections := TMap.empty.Add 10 { ID := 10, Input := 0, Output := 1 } } }

/-- The network the constructor builds from `disabledEndpointGenome`. -/
def disabledEndpointNetwork : NeuralNetwork :=
  { Config := some {}
    InputNeurons := [{ ID := 0, ActivationType := EActivation.Linear }]
    HiddenNeurons := []
    OutputNeurons := [{ ID := 1 }]
    Connections :=
      [{ Input := some (NeuronRef.Input 0), Output := some (NeuronRef.Output 0), Weight := 1 }] }

/-- A genome whose only connection ends in the id 7, which no node carries. -/
def danglingGenome : Genome :=
  { Config := some {}
    Genotype :=
      { Nodes := TMap.empty.Add 0 { ID := 0, NodeType := ENodeType.Input,
                                    Activation := EActivation.Linear }
        Connections := TMap.empty.Add 10 { ID := 10, Input := 0, Output := 7 } } }

/-- A genome with the input node 0 (the bias) and the output node 1, whose
    activation is the enumerator `MAX`. -/
def maxOutputGenome : Genome :=
  { Config := some {}
    Genotype :=
      { Nodes := (TMap.empty.Add 0 { ID := 0, NodeType := ENodeType.Input,
                                     Activation := EActivation.Linear }).Add 1
                    { ID := 1, NodeType := ENodeType.Output, Activation := EActivation.MAX }
        Connections := TMap.empty } }

/-- A genome with the input nodes 0 and 1 (the bias), the hidden node 2, whose
    activation is the enumerator `MAX`, and the output node 3. -/
def maxHiddenGenome : Genome :=
  { Config := some {}
    Genotype :=
      { Nodes := (((TMap.empty.Add 0 { ID := 0, NodeType := ENodeType.Input,
                                       Activation := EActivation.Linear }).Add 1
                    { ID := 1, NodeType := ENodeType.Input,
                      Activation := EActivation.Linear }).Add 2
                    { ID := 2, NodeType := ENodeType.Hidden,
                      Activation := EActivation.MAX }).Add 3
                    { ID := 3, NodeType := ENodeType.Output, Activation := EActivation.Linear }
        Connections := TMap.empty } }

/-- A sample transfer function: the sum of the weighted inputs, passed on
    unchanged. -/
def sampleTransfer (Inputs : List ℚ) (_Aggregation : EAggregation) (_Activation : EActivation) :
    Option ℚ :=
  some Inputs.sum

/-! ### Genotype.cpp, Genes.h, Activations.h, Aggregations.h: the text form

A `std::string` is a list of characters. -/

/-- The function `NodeType::ToString`. -/
def NodeType.ToString : ENodeType → List Char
  | ENodeType.Input => "ENodeType::Input".toList
  | ENodeType.Hidden => "ENodeType::Hidden".toList
  | ENodeType.Output => "ENodeType::Output".toList

/-- The function `NodeType::FromString`. -/
def NodeType.FromString (String : List Char) : ENodeType :=
  if String = "ENodeType::Input".toList then ENodeType.Input
  else if String = "ENodeType::Hidden".toList then ENodeType.Hidden
  else if String = "ENodeType::Output".toList then ENodeType.Output
  else ENodeType.Hidden

/-- The function `Activation::ToString`. -/
def Activation.ToString : EActivation → List Char
  | EActivation.Sigmoid => "EActivation::Sigmoid".toList
  | EActivation.Tanh => "EActivation::Tanh".toList
  | EActivation.Relu => "EActivation::Relu".toList
  | EActivation.LeakyRelu => "EActivation::LeakyRelu".toList
  | EActivation.Softplus => "EActivation::Softplus".toList
  | EActivation.Swish => "EActivation::Swish".toList
  | EActivation.Gelu => "EActivation::Gelu".toList
  | EActivation.Elu => "EActivation::Elu".toList
  | EActivation.Selu => "EActivation::Selu".toList
  | EActivation.Softsign => "EActivation::Softsign".toList
  | EActivation.BentIdentity => "EActivation::BentIdentity".toList
  | EActivation.BipolarSigmoid => "EActivation::BipolarSigmoid".toList
  | EActivation.BipolarTanh => "EActivation::BipolarTanh".toList
  | EActivation.Gaussian => "EActivation::Gaussian".toList
  | EActivation.Inverse => "EActivation::Inverse".toList
  | EActivation.Absolute => "EActivation::Absolute".toList
  | EActivation.Step => "EActivation::Step".toList
  | EActivation.Linear => "EActivation::Linear".toList
  | EActivation.Arctangent => "EActivation::Arctangent".toList
  | EActivation.MAX => "EActivation::Unknown".toList

/-- The exceptions thrown inside `Deserialize`; both classes derive from
    `std::exception`. -/
inductive StdException where
  | invalid_argument
  | out_of_range
  deriving DecidableEq, Repr

/-- The function `Activation::FromString`; an unknown name throws
    `std::invalid_argument`. -/
def Activation.FromString (String : List Char) : Except StdException EActivation :=
  if String = "EActivation::Sigmoid".toList then Except.ok EActivation.Sigmoid
  else if String = "EActivation::Tanh".toList then Except.ok EActivation.Tanh
  else if String = "EActivation::Relu".toList then Except.ok EActivation.Relu
  else if String = "EActivation::LeakyRelu".toList then Except.ok EActivation.LeakyRelu
  else if String = "EActivation::Softplus".toList then Except.ok EActivation.Softplus
  else if String = "EActivation::Swish".toList then Except.ok EActivation.Swish
  else if String = "EActivation::Gelu".toList then Except.ok EActivation.Gelu
  else if String = "EActivation::Elu".toList then Except.ok EActivation.Elu
  else if String = "EActivation::Selu".toList then Except.ok EActivation.Selu
  else if String = "EActivation::Softsign".toList then Except.ok EActivation.Softsign
  else if String = "EActivation::BentIdentity".toList then Except.ok EActivation.BentIdentity
  else if String = "EActivation::BipolarSigmoid".toList then
    Except.ok EActivation.BipolarSigmoid
  else if String = "EActivation::BipolarTanh".toList then Except.ok EActivation.BipolarTanh
  else if String = "EActivation::Gaussian".toList then Except.ok EActivation.Gaussian
  else if String = "EActivation::Inverse".toList then Except.ok EActivation.Inverse
  else if String = "EActivation::Absolute".toList then Except.ok EActivation.Absolute
  else if String = "EActivation::Step".toList then Except.ok EActivation.Step
  else if String = "EActivation::Linear".toList then Except.ok EActivation.Linear
  else if String = "EActivation::Arctangent".toList then Except.ok EActivation.Arctangent
  else Except.error StdException.invalid_argument

/-- The function `Aggregation::ToString`. -/
def Aggregation.ToString : EAggregation → List Char
  | EAggregation.Mean => "EAggregation::Mean".toList
  | EAggregation.Median => "EAggregation::Median".toList
  | EAggregation.Max => "EAggregation::Max".toList
  | EAggregation.Min => "EAggregation::Min".toList
  | EAggregation.Sum => "EAggregation::Sum".toList
  | EAggregation.Count => "EAggregation::Count".toList
  | EAggregation.Product => "EAggregation::Product".toList
  | EAggregation.Variance => "EAggregation::Variance".toList
  | EAggregation.StandardDeviation => "EAggregation::StandardDeviation".toList
  | EAggregation.Percentile25 => "EAggregation::Percentile25".toList
  | EAggregation.Percentile75 => "EAggregation::Percentile75".toList
  | EAggregation.MAX => "Unknown".toList

/-- The function `Aggregation::FromString`; an unknown name gives `MAX`. -/
def Aggregation.FromString (String : List Char) : EAggregation :=
  if String = "EAggregation::Mean".toList then EAggregation.Mean
  else if String = "EAggregation::Median".toList then EAggregation.Median
  else if String = "EAggregation::Max".toList then EAggregation.Max
  else if String = "EAggregation::Min".toList then EAggregation.Min
  else if String = "EAggregation::Sum".toList then EAggregation.Sum
  else if String = "EAggregation::Count".toList then EAggregation.Count
  else if String = "EAggregation::Product".toList then EAggregation.Product
  else if String = "EAggregation::Variance".toList then EAggregation.Variance
  else if String = "EAggregation::StandardDeviation".toList then
    EAggregation.StandardDeviation
  else if String = "EAggregation::Percentile25".toList then EAggregation.Percentile25
  else if String = "EAggregation::Percentile75".toList then EAggregation.Percentile75
  else EAggregation.MAX

/-- The library function `std::to_string` on a `uint64`: the decimal digits. -/
def to_string (Value : Nat) : List Char := Nat.toDigits 10 Value

/-- The absolute value in millionths as the format `%f` rounds it: to the
    nearest integer, and an exact tie to the even one (the exact value of the
    `double` is what is rounded). -/
def RoundMillionths (Value : ℚ) : Nat :=
  let Whole : Nat := (|Value| * 1000000).floor.toNat
  let Rest : ℚ := |Value| * 1000000 - (Whole : ℚ)
  if Rest > 1 / 2 ∨ (Rest = 1 / 2 ∧ Whole % 2 = 1) then Whole + 1 else Whole

/-- The library function `std::to_string` on a `double` (format `%f`): sign,
    integer part, point, six decimals, the last one rounded. -/
def to_string_double (Value : ℚ) : List Char :=
  let Scaled : Nat := RoundMillionths Value
  (if Value < 0 then ['-'] else []) ++ Nat.toDigits 10 (Scaled / 1000000) ++
    '.' :: (Nat.toDigits 10 (1000000 + Scaled % 1000000)).tail

/-- The lines `Genotype::Serialize` appends, each without its final `"\n"`. -/
def Genotype.SerializeLines (g : Genotype) : List (List Char) :=
  ["nodes:".toList] ++
    g.Nodes.entries.flatMap (fun node =>
      ["  - ".toList ++ to_string node.1 ++ ":".toList,
       "    type: ".toList ++ NodeType.ToString node.2.NodeType,
       "    bias: ".toList ++ to_string_double node.2.Bias,
       "    aggregation: ".toList ++ Aggregation.ToString node.2.Aggregation,
       "    activation: ".toList ++ Activation.ToString node.2.Activation,
       "    enabled: ".toList ++ (if node.2.Enabled then "true".toList else "false".toList)]) ++
    ["connections:".toList] ++
    g.Connections.entries.flatMap (fun connection =>
      ["  - ".toList ++ to_string connection.1 ++ ":".toList,
       "    source: ".toList ++ to_string connection.2.Input,
       "    target: ".toList ++ to_string connection.2.Output,
       "    weight: ".toList ++ to_string_double connection.2.Weight,
       "    enabled: ".toList ++
         (if connection.2.Enabled then "true".toList else "false".toList)])

/-- The member function `Genotype::Serialize`: every line is followed by
    `"\n"`. -/
def Genotype.Serialize (g : Genotype) : List Char :=
  g.SerializeLines.flatMap (fun Line => Line ++ ['\n'])

/-- The lines `std::getline` reads from a text: the pieces between the newline
    characters, without a last empty piece. -/
def GetLines : List Char → List (List Char)
  | [] => []
  | c :: cs =>
    if c = '\n' then [] :: GetLines cs
    else
      match GetLines cs with
      | [] => [[c]]
      | Line :: Lines => (c :: Line) :: Lines

/-- The text before and the text after the first occurrence of `c`
    (`find`, `substr(0, pos)` and `substr(pos + 1)`), if `c` occurs. -/
def SplitAt (c : Char) : List Char → Option (List Char × List Char)
  | [] => none
  | x :: xs =>
    if x = c then some ([], xs) else (SplitAt c xs).map (fun p => (x :: p.1, p.2))

/-- Reading `yamlMap[key]` in a `std::map<std::string, std::string>` kept as
    the list of its assignments, latest first; an absent key reads as the empty
    string (the entry `operator[]` inserts for it is empty too). -/
def YamlGet (yamlMap : List (List Char × List Char)) (key : List Char) : List Char :=
  match yamlMap.find? (fun e => decide (e.1 = key)) with
  | some e => e.2
  | none => []

/-- The test `yamlMap.find(key) != yamlMap.end()`. -/
def YamlHas (yamlMap : List (List Char × List Char)) (key : List Char) : Bool :=
  yamlMap.any (fun e => decide (e.1 = key))

/-- The first loop of `Deserialize`: every line with a colon assigns
    `yamlMap[key] = value`. -/
def ParseYaml (Lines : List (List Char)) : List (List Char × List Char) :=
  Lines.foldl
    (fun yamlMap line =>
      match SplitAt ':' line with
      | some (key, value) => (key, value) :: yamlMap
      | none => yamlMap)
    []

/-- The predicate `isspace` of the C locale. -/
def isspace (c : Char) : Bool :=
  c = ' ' || c = '\t' || c = '\n' || c = '\x0b' || c = '\x0c' || c = '\r'

/-- The library function `std::stoull` in base 10: leading white space, an
    optional sign, then digits; no digit throws `std::invalid_argument`, a value
    of 2^64 or more throws `std::out_of_range`, and a minus sign negates in
    `uint64`. -/
def stoull (String : List Char) : Except StdException Nat :=
  let Rest := String.dropWhile isspace
  let Signed : Bool × List Char :=
    match Rest with
    | '-' :: Tail => (true, Tail)
    | '+' :: Tail => (false, Tail)
    | Tail => (false, Tail)
  let Digits := Signed.2.takeWhile Char.isDigit
  if Digits = [] then Except.error StdException.invalid_argument
  else
    let Value := Digits.foldl (fun Sum c => 10 * Sum + (c.toNat - '0'.toNat)) 0
    if Value ≥ 2 ^ 64 then Except.error StdException.out_of_range
    else Except.ok (if Signed.1 then (2 ^ 64 - Value) % 2 ^ 64 else Value)

/-- The body of the loop over the lines of `yamlMap["nodes"]`; `stod` is the
    library function `std::stod`. -/
def DeserializeNode (stod : List Char → Except StdException ℚ)
    (yamlMap : List (List Char × List Char)) (Nodes : TMap NodeGene) (nodeLine : List Char) :
    Except StdException (TMap NodeGene) :=
  match SplitAt '-' nodeLine with
  | none => Except.ok Nodes
  | some (_, nodeIdStr) => do
    let nodeId ← stoull nodeIdStr
    let nodeType := NodeType.FromString
      (YamlGet yamlMap ("nodes.".toList ++ nodeIdStr ++ ".type".toList))
    let nodeBias ← stod (YamlGet yamlMap ("nodes.".toList ++ nodeIdStr ++ ".bias".toList))
    let nodeAggregation := Aggregation.FromString
      (YamlGet yamlMap ("nodes.".toList ++ nodeIdStr ++ ".aggregation".toList))
    let nodeActivation ← Activation.FromString
      (YamlGet yamlMap ("nodes.".toList ++ nodeIdStr ++ ".activation".toList))
    let nodeEnabled := decide
      (YamlGet yamlMap ("nodes.".toList ++ nodeIdStr ++ ".enabled".toList) = "true".toList)
    Except.ok (AssignNode Nodes nodeId
      { ID := nodeId, NodeType := nodeType, Activation := nodeActivation,
        Aggregation := nodeAggregation, Bias := nodeBias, Enabled := nodeEnabled })

/-- The body of the loop over the lines of `yamlMap["connections"]`. -/
def DeserializeConnection (stod : List Char → Except StdException ℚ)
    (yamlMap : List (List Char × List Char)) (Connections : TMap ConnectionGene)
    (connectionLine : List Char) : Except StdException (TMap ConnectionGene) :=
  match SplitAt '-' connectionLine with
  | none => Except.ok Connections
  | some (_, connectionIdStr) => do
    let connectionId ← stoull connectionIdStr
    let connectionSource ← stoull
      (YamlGet yamlMap ("connections.".toList ++ connectionIdStr ++ ".source".toList))
    let connectionTarget ← stoull
      (YamlGet yamlMap ("connections.".toList ++ connectionIdStr ++ ".target".toList))
    let connectionWeight ← stod
      (YamlGet yamlMap ("connections.".toList ++ connectionIdStr ++ ".weight".toList))
    let connectionEnabled := decide
      (YamlGet yamlMap ("connections.".toList ++ connectionIdStr ++ ".enabled".toList) =
        "true".toList)
    Except.ok (Connections.Add connectionId
      { ID := connectionId, Input := connectionSource, Output := connectionTarget,
        Weight := connectionWeight, Enabled := connectionEnabled })

/-- A loop over lines whose body may throw: the state reached, and the
    exception that ended the loop, if any. -/
def ParseLines {σ : Type} (Body : σ → List Char → Except StdException σ) :
    List (List Char) → σ → σ × Option StdException
  | [], State => (State, none)
  | Line :: Lines, State =>
    match Body State Line with
    | Except.error e => (State, some e)
    | Except.ok State2 => ParseLines Body Lines State2

/-- The member function `Genotype::Deserialize`: the returned flag and the
    genotype after the call. Every exception thrown in the `try` block is a
    `std::exception` and ends the call in the handler, which returns false. -/
def Genotype.Deserialize (stod : List Char → Except StdException ℚ) (This : Genotype)
    (Data : List Char) : Bool × Genotype :=
  let yamlMap := ParseYaml (GetLines Data)
  let NodesDone : TMap NodeGene × Option StdException :=
    if YamlHas yamlMap "nodes".toList then
      ParseLines (DeserializeNode stod yamlMap) (GetLines (YamlGet yamlMap "nodes".toList))
        This.Nodes
    else (This.Nodes, none)
  match NodesDone.2 with
  | some _ => (false, { This with Nodes := NodesDone.1 })
  | none =>
    let ConnectionsDone : TMap ConnectionGene × Option StdException :=
      if YamlHas yamlMap "connections".toList then
        ParseLines (DeserializeConnection stod yamlMap)
          (GetLines (YamlGet yamlMap "connections".toList)) This.Connections
      else (This.Connections, none)
    match ConnectionsDone.2 with
    | some _ => (false, { Nodes := NodesDone.1, Connections := ConnectionsDone.1 })
    | none => (true, { Nodes := NodesDone.1, Connections := ConnectionsDone.1 })

/-- A sample of `std::stod`: the text `0` reads as 0, any other text throws. -/
def sampleStod (String : List Char) : Except StdException ℚ :=
  if String = "0".toList then Except.ok 0 else Except.error StdException.invalid_argument

/-- A text whose `nodes` entry parses (node 5) and whose `connections` entry
    does not. -/
def halfParsedText : List Char :=
  "nodes:-5\nnodes.5.bias:0\nnodes.5.activation:EActivation::Linear\nconnections:-x".toList

/-- A genome holding the sample genotype (three nodes, three connections). -/
def sampleGenome : Genome := { Genotype := sampleGenotype, Config := some {} }

/-- A configuration with one input, one output and one hidden node, otherwise
    the defaults (`DefaultAggregationFunction` is `Product`). -/
def smallConfig : Config := { NumInputs := 1, NumOutputs := 1, NumHidden := 1 }

/-- A genome as `InitializeGenome` creates it for `smallConfig`. -/
def smallGenome : Genome := { Config := some smallConfig }

/-! ### Reproduction.cpp, Utils.cpp: crossover -/

/-- The conversion of an `int` to `uint64` (`size_t`), as a comparison of a
    signed with an unsigned value performs it. -/
def toUInt64 (Value : Int) : Nat := (Value % 2 ^ 64).toNat

/-- The function `GetRandomInt` of `Utils.cpp`, `(rand() % (Max - Min + 1)) + Min`:
    `rand()` is not negative, and a zero modulus makes the remainder fault. -/
def GetRandomInt (Min Max : Int) (Rand : List Nat) : Except Fault (Int × List Nat) :=
  match Rand with
  | [] => Except.error Fault.OutOfDraws
  | r :: rest =>
    if Max - Min + 1 = 0 then Except.error Fault.DivideByZero
    else Except.ok (Int.tmod (r : Int) (Max - Min + 1) + Min, rest)

/-- The static function `Genome::GenerateNewGenomeID`, `++NewestID` on an
    `unsigned` counter: the value returned is also the new value of the counter. -/
def Genome.GenerateNewGenomeID (NewestID : Nat) : Nat := (NewestID + 1) % 2 ^ 32

/-- The two loops `for (Key : Keys) Combined.AddUnique(Key)` that open each
    half of a crossover function. -/
def CrossoverType.CombinedKeys (Keys1 Keys2 : List Nat) : List Nat :=
  Keys2.foldl AddUnique (Keys1.foldl AddUnique [])

/-- The body of the loop over `CombinedNodeKeys` of `SinglePoint`, `TwoPoint`
    and `Multipoint`; `UseParent1` is the test the function applies to a key
    both parents hold. Every branch is an assignment
    `Genome->Genotype.Nodes[NodeKey] = Parent->Genotype.Nodes[NodeKey]`. -/
def CrossoverType.InheritNode (Parent1 Parent2 : Genome) (UseParent1 : Nat → Bool)
    (Nodes : TMap NodeGene) (NodeKey : Nat) : TMap NodeGene :=
  if Parent1.Genotype.Nodes.Contains NodeKey && Parent2.Genotype.Nodes.Contains NodeKey then
    if UseParent1 NodeKey then AssignNode Nodes NodeKey (Parent1.Genotype.Nodes.At NodeKey {})
    else AssignNode Nodes NodeKey (Parent2.Genotype.Nodes.At NodeKey {})
  else if Parent1.Genotype.Nodes.Contains NodeKey then
    AssignNode Nodes NodeKey (Parent1.Genotype.Nodes.At NodeKey {})
  else if Parent2.Genotype.Nodes.Contains NodeKey then
    AssignNode Nodes NodeKey (Parent2.Genotype.Nodes.At NodeKey {})
  else Nodes

/-- The body of the loop over `CombinedConnectionKeys` of `SinglePoint`,
    `TwoPoint` and `Multipoint`: every branch is an assignment
    `Genome->Genotype.Connections[ConnectionKey] = Parent->Genotype.Connections[ConnectionKey]`,
    which copies every member. -/
def CrossoverType.InheritConnection (Parent1 Parent2 : Genome) (UseParent1 : Nat → Bool)
    (Connections : TMap ConnectionGene) (ConnectionKey : Nat) : TMap ConnectionGene :=
  if Parent1.Genotype.Connections.Contains ConnectionKey &&
      Parent2.Genotype.Connections.Contains ConnectionKey then
    if UseParent1 ConnectionKey then
      Connections.Add ConnectionKey (Parent1.Genotype.Connections.At ConnectionKey {})
    else Connections.Add ConnectionKey (Parent2.Genotype.Connections.At ConnectionKey {})
  else if Parent1.Genotype.Connections.Contains ConnectionKey then
    Connections.Add ConnectionKey (Parent1.Genotype.Connections.At ConnectionKey {})
  else if Parent2.Genotype.Connections.Contains ConnectionKey then
    Connections.Add ConnectionKey (Parent2.Genotype.Connections.At ConnectionKey {})
  else Connections

/-- The two loops of a crossover function on a fresh genome
    `std::make_shared<Genome>(Config)` with the id `ID`: the nodes, then the
    connections, each over the combined keys of the parents. -/
def CrossoverType.Inherit (Parent1 Parent2 : Genome) (UseParent1 : Nat → Bool) (ID : Nat) :
    Genome :=
  { ID := ID,
    Config := Parent1.Config,
    Genotype :=
      { Nodes :=
          (CrossoverType.CombinedKeys Parent1.Genotype.Nodes.GetKeys
              Parent2.Genotype.Nodes.GetKeys).foldl
            (CrossoverType.InheritNode Parent1 Parent2 UseParent1) TMap.empty,
        Connections :=
          (CrossoverType.CombinedKeys Parent1.Genotype.Connections.GetKeys
              Parent2.Genotype.Connections.GetKeys).foldl
            (CrossoverType.InheritConnection Parent1 Parent2 UseParent1) TMap.empty } }

/-- The expression `std::min(Parent1->GetNumNodes(), Parent2->GetNumNodes()) - 1`,
    the upper bound of every crossover point; `GetNumNodes` is an `int`. -/
def CrossoverType.MaxPoint (Parent1 Parent2 : Genome) : Int :=
  ((min Parent1.Genotype.Nodes.Num Parent2.Genotype.Nodes.Num : Nat) : Int) - 1

/-- The function `CrossoverType::SinglePoint`. The state is the counter of
    `GenerateNewGenomeID` and the coming values of `rand()`; the comparison
    `NodeKey < CrossoverPoint` is one of a `uint64` with an `int`. -/
def CrossoverType.SinglePoint (Parent1 Parent2 : Genome) (NewestID : Nat) (Rand : List Nat) :
    Except Fault (Genome × Nat × List Nat) := do
  let ID := Genome.GenerateNewGenomeID NewestID
  let (CrossoverPoint, Rand1) ← GetRandomInt 0 (CrossoverType.MaxPoint Parent1 Parent2) Rand
  Except.ok
    (CrossoverType.Inherit Parent1 Parent2 (fun Key => decide (Key < toUInt64 CrossoverPoint)) ID,
      ID, Rand1)

/-- The test of `CrossoverType::TwoPoint` on a key both parents hold:
    `if (Key < CrossoverPoint1)` parent 1, `else if (Key < CrossoverPoint2)`
    parent 2, `else` parent 1. -/
def CrossoverType.TwoPointUseParent1 (CrossoverPoint1 CrossoverPoint2 : Int) (Key : Nat) : Bool :=
  if Key < toUInt64 CrossoverPoint1 then true
  else if Key < toUInt64 CrossoverPoint2 then false
  else true

/-- The function `CrossoverType::TwoPoint`. -/
def CrossoverType.TwoPoint (Parent1 Parent2 : Genome) (NewestID : Nat) (Rand : List Nat) :
    Except Fault (Genome × Nat × List Nat) := do
  let ID := Genome.GenerateNewGenomeID NewestID
  let (CrossoverPoint1, Rand1) ← GetRandomInt 0 (CrossoverType.MaxPoint Parent1 Parent2) Rand
  let (CrossoverPoint2, Rand2) ← GetRandomInt 0 (CrossoverType.MaxPoint Parent1 Parent2) Rand1
  Except.ok
    (CrossoverType.Inherit Parent1 Parent2
        (CrossoverType.TwoPointUseParent1 CrossoverPoint1 CrossoverPoint2) ID,
      ID, Rand2)

/-- The statement `CrossoverPoints.Add(GetRandomInt(0, ...))` of
    `CrossoverType::Multipoint`, on the array and the coming values of `rand()`. -/
def CrossoverType.DrawPoint (MaxPoint : Int) (s : List Int × List Nat) (_Idx : Nat) :
    Except Fault (List Int × List Nat) :=
  match GetRandomInt 0 MaxPoint s.2 with
  | Except.error e => Except.error e
  | Except.ok (Point, Rand1) => Except.ok (s.1 ++ [Point], Rand1)

/-- The loop `for (Idx = 0; Idx != NumCrossoverPoints; ++Idx)` around it. -/
def CrossoverType.DrawPoints (MaxPoint : Int) (NumCrossoverPoints : Nat) (Rand : List Nat) :
    Except Fault (List Int × List Nat) :=
  (List.range NumCrossoverPoints).foldlM (CrossoverType.DrawPoint MaxPoint) ([], Rand)

/-- The test of `CrossoverType::Multipoint` on a key both parents hold:
    `bUseParent1` starts `true`, and the loop over the crossover points negates
    it at the first point equal to the key and breaks. -/
def CrossoverType.MultipointUseParent1 : List Int → Nat → Bool
  | [], _ => true
  | Point :: Points, Key =>
    if Key = toUInt64 Point then !true else CrossoverType.MultipointUseParent1 Points Key

/-- The function `CrossoverType::Multipoint`. `CrossoverPoints.Sort()` is
    `std::sort` on `int` values, whose result is the one ascending arrangement. -/
def CrossoverType.Multipoint (Parent1 Parent2 : Genome) (NewestID : Nat) (Rand : List Nat) :
    Except Fault (Genome × Nat × List Nat) :=
  match Parent1.Config with
  | none => Except.error Fault.NullDereference
  | some Config => do
    let ID := Genome.GenerateNewGenomeID NewestID
    let (Drawn, Rand1) ←
      CrossoverType.DrawPoints (CrossoverType.MaxPoint Parent1 Parent2) Config.CrossoverPoints Rand
    let CrossoverPoints := Drawn.insertionSort (fun a b => a ≤ b)
    Except.ok
      (CrossoverType.Inherit Parent1 Parent2 (CrossoverType.MultipointUseParent1 CrossoverPoints) ID,
        ID, Rand1)

/-- The body of the loop over `CombinedNodeKeys` of `CrossoverType::Uniform`:
    a key both parents hold costs one `GetRandomDouble(0.0, 1.0)`. -/
def CrossoverType.UniformNode (RAND_MAX : Nat) (Parent1 Parent2 : Genome)
    (s : TMap NodeGene × List Nat) (NodeKey : Nat) : Except Fault (TMap NodeGene × List Nat) :=
  if Parent1.Genotype.Nodes.Contains NodeKey && Parent2.Genotype.Nodes.Contains NodeKey then
    match s.2 with
    | [] => Except.error Fault.OutOfDraws
    | r :: rest =>
      if GetRandomDouble RAND_MAX r 0 1 < 1 / 2 then
        Except.ok (AssignNode s.1 NodeKey (Parent1.Genotype.Nodes.At NodeKey {}), rest)
      else Except.ok (AssignNode s.1 NodeKey (Parent2.Genotype.Nodes.At NodeKey {}), rest)
  else if Parent1.Genotype.Nodes.Contains NodeKey then
    Except.ok (AssignNode s.1 NodeKey (Parent1.Genotype.Nodes.At NodeKey {}), s.2)
  else if Parent2.Genotype.Nodes.Contains NodeKey then
    Except.ok (AssignNode s.1 NodeKey (Parent2.Genotype.Nodes.At NodeKey {}), s.2)
  else Except.ok s

/-- The body of the loop over `CombinedConnectionKeys` of `CrossoverType::Uniform`. -/
def CrossoverType.UniformConnection (RAND_MAX : Nat) (Parent1 Parent2 : Genome)
    (s : TMap ConnectionGene × List Nat) (ConnectionKey : Nat) :
    Except Fault (TMap ConnectionGene × List Nat) :=
  if Parent1.Genotype.Connections.Contains ConnectionKey &&
      Parent2.Genotype.Connections.Contains ConnectionKey then
    match s.2 with
    | [] => Except.error Fault.OutOfDraws
    | r :: rest =>
      if GetRandomDouble RAND_MAX r 0 1 < 1 / 2 then
        Except.ok
          (s.1.Add ConnectionKey (Parent1.Genotype.Connections.At ConnectionKey {}), rest)
      else
        Except.ok
          (s.1.Add ConnectionKey (Parent2.Genotype.Connections.At ConnectionKey {}), rest)
  else if Parent1.Genotype.Connections.Contains ConnectionKey then
    Except.ok (s.1.Add ConnectionKey (Parent1.Genotype.Connections.At ConnectionKey {}), s.2)
  else if Parent2.Genotype.Connections.Contains ConnectionKey then
    Except.ok (s.1.Add ConnectionKey (Parent2.Genotype.Connections.At ConnectionKey {}), s.2)
  else Except.ok s

/-- The function `CrossoverType::Uniform`. -/
def CrossoverType.Uniform (RAND_MAX : Nat) (Parent1 Parent2 : Genome) (NewestID : Nat)
    (Rand : List Nat) : Except Fault (Genome × Nat × List Nat) := do
  let ID := Genome.GenerateNewGenomeID NewestID
  let (Nodes, Rand1) ←
    (CrossoverType.CombinedKeys Parent1.Genotype.Nodes.GetKeys
        Parent2.Genotype.Nodes.GetKeys).foldlM
      (CrossoverType.UniformNode RAND_MAX Parent1 Parent2) (TMap.empty, Rand)
  let (Connections, Rand2) ←
    (CrossoverType.CombinedKeys Parent1.Genotype.Connections.GetKeys
        Parent2.Genotype.Connections.GetKeys).foldlM
      (CrossoverType.UniformConnection RAND_MAX Parent1 Parent2) (TMap.empty, Rand1)
  Except.ok
    ({ ID := ID, Config := Parent1.Config,
       Genotype := { Nodes := Nodes, Connections := Connections } },
      ID, Rand2)

/-- Spec side, the gene a child is to hold under `k`: the gene of the one
    parent that has it, and for a key both parents hold the gene of parent 1 or
    of parent 2 as `UseParent1` says; no gene under a key neither parent holds. -/
def CrossoverType.Source {V : Type} (UseParent1 : Nat → Bool) (M1 M2 : TMap V) (k : Nat) :
    Option V :=
  match M1.Find k, M2.Find k with
  | some a, some b => some (if UseParent1 k then a else b)
  | some a, none => some a
  | none, some b => some b
  | none, none => none

/-- Two parents that both hold the nodes 0, 1, 2 and the connection 7; they
    differ in every gene, and node 0 of parent 1 aggregates with `Sum`. -/
def crossParent1 : Genome :=
  { ID := 1,
    Config := some {},
    Genotype :=
      { Nodes := ((TMap.empty.Add 0
            { ID := 0, NodeType := ENodeType.Input, Bias := 1, Aggregation := EAggregation.Sum }).Add 1
            { ID := 1, NodeType := ENodeType.Output, Bias := 1 }).Add 2
            { ID := 2, NodeType := ENodeType.Hidden, Bias := 1 },
        Connections := TMap.empty.Add 7 { ID := 7, Input := 0, Output := 1, Weight := 1 } } }

/-- The second parent: biases 3, weight 3, every node with the default `Mean`. -/
def crossParent2 : Genome :=
  { ID := 2,
    Config := some {},
    Genotype :=
      { Nodes := ((TMap.empty.Add 0 { ID := 0, NodeType := ENodeType.Input, Bias := 3 }).Add 1
            { ID := 1, NodeType := ENodeType.Output, Bias := 3 }).Add 2
            { ID := 2, NodeType := ENodeType.Hidden, Bias := 3 },
        Connections := TMap.empty.Add 7 { ID := 7, Input := 0, Output := 1, Weight := 3 } } }

/-- The keys both parents hold, in the order of the combined keys: each costs
    `CrossoverType::Uniform` one value of `rand()`. -/
def CrossoverType.Shared {V : Type} (M1 M2 : TMap V) : List Nat :=
  (CrossoverType.CombinedKeys M1.GetKeys M2.GetKeys).filter
    (fun k => M1.Contains k && M2.Contains k)

/-! ### Array.h, Genotype.cpp: sorting, and the renumbering of the gene keys -/

/-- The member function `TMap::GetValues`: the values in key order. -/
def TMap.GetValues {V : Type} (m : TMap V) : List V := m.entries.map Prod.snd

/-- The member function `TArray::Sort(Pred)` is `std::sort`, which leaves the
    order of equivalent elements open, so the sorting function is a parameter
    of the functions that sort. This is what every `std::sort` does: the result
    is a rearrangement of the array. -/
def StdSort.Permutes (Sorter : (α : Type) → (α → α → Bool) → List α → List α) : Prop :=
  ∀ (α : Type) (Pred : α → α → Bool) (l : List α), (Sorter α Pred l).Perm l

/-- What `std::sort` does for the comparison `Pred`: in the result no element
    is `Pred`-before an earlier one. -/
def StdSort.Orders {α : Type} (Sorter : (α : Type) → (α → α → Bool) → List α → List α)
    (Pred : α → α → Bool) : Prop :=
  ∀ l : List α, (Sorter α Pred l).Pairwise (fun a b => Pred b a = false)

/-- One sorting function, insertion sort: an element is put before the first
    element it is not `Pred`-after. -/
def StdSort.Insertion (α : Type) (Pred : α → α → Bool) (l : List α) : List α :=
  l.insertionSort (fun a b => Pred b a = false)

/-- The body of the loop `for (auto& ConnectionGene : Connections)` of
    `Genotype::ReduceGeneKeys`: the two tests are made one after the other on
    the connection in the map. -/
def Genotype.RenameEndpoint (GeneID NextGUID : Nat) (Connection : ConnectionGene) :
    ConnectionGene :=
  let Connection1 :=
    if Connection.Input = GeneID then { Connection with Input := NextGUID } else Connection
  if Connection1.Output = GeneID then { Connection1 with Output := NextGUID } else Connection1

/-- The body of the first loop of `Genotype::ReduceGeneKeys`, on `TempNodes`
    and the connection map. -/
def Genotype.RenameNode (s : List NodeGene × TMap ConnectionGene) (NextGUID : Nat) :
    List NodeGene × TMap ConnectionGene :=
  let GeneID := (s.1.getD NextGUID {}).ID
  if NextGUID = GeneID then s
  else
    (s.1.modify (fun Node => { Node with ID := NextGUID }) NextGUID,
      s.2.MapValues (Genotype.RenameEndpoint GeneID NextGUID))

/-- The body of the second loop of `Genotype::ReduceGeneKeys`. The statement
    `Connections[ConnectionIdx].ID = NextGUID` is made on the member
    `Connections`, the map that `Reset` has just emptied: `operator[]` inserts a
    default-constructed connection under the key `ConnectionIdx`, and that
    connection gets the id. `TempConnections` is only read. -/
def Genotype.RenumberConnection (NumNodes : Nat) (TempConnections : List ConnectionGene)
    (Connections : TMap ConnectionGene) (NextGUID : Nat) : TMap ConnectionGene :=
  let ConnectionIdx := NextGUID - NumNodes
  let GeneKey := (TempConnections.getD ConnectionIdx {}).ID
  if NextGUID = GeneKey then Connections
  else Connections.Add ConnectionIdx { Connections.At ConnectionIdx {} with ID := NextGUID }

/-- The member function `Genotype::ReduceGeneKeys`. `GetValues` fills
    `TempNodes` with copies made by the copy constructor of `NodeGene`; the
    loops `for (Node : TempNodes) Nodes[Node.ID] = Node` and
    `for (Connection : TempConnections) Connections[Connection.ID] = Connection`
    store into the emptied maps. -/
def Genotype.ReduceGeneKeys (Sorter : (α : Type) → (α → α → Bool) → List α → List α)
    (g : Genotype) : Genotype :=
  let TempNodes0 := g.Nodes.GetValues.map NodeGene.Copy
  let NumNodes := TempNodes0.length
  let TempNodes := Sorter NodeGene (fun LHS RHS => decide (LHS.ID < RHS.ID)) TempNodes0
  let s := (List.range NumNodes).foldl Genotype.RenameNode (TempNodes, g.Connections)
  let Nodes := s.1.foldl (fun Nodes Node => AssignNode Nodes Node.ID Node) TMap.empty
  let TempConnections0 := s.2.GetValues
  let NumConnections := TempConnections0.length
  let TempConnections :=
    Sorter ConnectionGene (fun LHS RHS => decide (LHS.ID < RHS.ID)) TempConnections0
  let Connections1 := (List.range' NumNodes NumConnections).foldl
    (Genotype.RenumberConnection NumNodes TempConnections) TMap.empty
  let Connections := TempConnections.foldl
    (fun Connections Connection => Connections.Add Connection.ID Connection) Connections1
  { Nodes := Nodes, Connections := Connections }

/-- Every connection sits in the map under its own `ID`. -/
def Genotype.ConnectionsKeyed (g : Genotype) : Prop :=
  ∀ e ∈ g.Connections.entries, e.2.ID = e.1

instance (g : Genotype) : Decidable g.ConnectionsKeyed :=
  inferInstanceAs (Decidable (∀ e ∈ g.Connections.entries, e.2.ID = e.1))

/-- A genotype with a gap in its keys: the nodes 0, 1 and 5, node 5 aggregating
    with `Sum`, and the connections 9 (from 0 to 5) and 10 (from 5 to 1). -/
def gappedGenotype : Genotype :=
  { Nodes := ((TMap.empty.Add 0 { ID := 0, NodeType := ENodeType.Input }).Add 1
        { ID := 1, NodeType := ENodeType.Output }).Add 5
        { ID := 5, NodeType := ENodeType.Hidden, Aggregation := EAggregation.Sum },
    Connections := (TMap.empty.Add 9 { ID := 9, Input := 0, Output := 5, Weight := 2 }).Add 10
        { ID := 10, Input := 5, Output := 1, Weight := 3 } }

/-! ### Reproduction.cpp: the initialisation of one genome -/

/-- The body of the inner loops of `InitialTopology::Sparse`: one
    `GetRandomDouble(0.0, 1.0)`, and unless it reaches
    `InitialConnectionProbability` the body of the loops of `Full`. -/
def InitialTopology.SparseConnect (RAND_MAX : Nat) (Probability : ℚ) (Source Target : Nat)
    (s : (Genome × InnovationTracker) × List Nat) :
    Except Fault ((Genome × InnovationTracker) × List Nat) :=
  match s.2 with
  | [] => Except.error Fault.OutOfDraws
  | r :: rest =>
    if GetRandomDouble RAND_MAX r 0 1 ≥ Probability then Except.ok (s.1, rest)
    else
      match InitialTopology.Connect Source Target s.1 with
      | Except.error e => Except.error e
      | Except.ok s1 => Except.ok (s1, rest)

/-- The function `InitialTopology::Sparse`: the loops of `Full`, each pair
    behind a draw. -/
def InitialTopology.Sparse (RAND_MAX : Nat) (G : Genome) (Innovations : InnovationTracker)
    (Rand : List Nat) : Except Fault ((Genome × InnovationTracker) × List Nat) := do
  let G1 ← InitialTopology.None G
  match G1.Config with
  | none => Except.error Fault.NullDereference
  | some Config =>
    let s1 ← (List.range (Config.NumInputs + 1)).foldlM
      (fun s Idx => do
        let s2 ← (List.range Config.NumHidden).foldlM
          (fun s Jdx =>
            InitialTopology.SparseConnect RAND_MAX Config.InitialConnectionProbability Idx
              (Jdx + Config.NumInputs + Config.NumOutputs + 1) s)
          s
        (List.range Config.NumOutputs).foldlM
          (fun s Jdx =>
            InitialTopology.SparseConnect RAND_MAX Config.InitialConnectionProbability Idx
              (Jdx + Config.NumInputs + 1) s)
          s2)
      ((G1, Innovations), Rand)
    (List.range Config.NumHidden).foldlM
      (fun s Idx =>
        (List.range Config.NumOutputs).foldlM
          (fun s Jdx =>
            InitialTopology.SparseConnect RAND_MAX Config.InitialConnectionProbability
              (Idx + Config.NumInputs + Config.NumOutputs + 1) (Jdx + Config.NumInputs + 1) s)
          s)
      s1

/-- The function `InitialTopology::Tree`: `None`, then every input (and the
    bias) to every hidden node, then every hidden to every output node. -/
def InitialTopology.Tree (G : Genome) (Innovations : InnovationTracker) :
    Except Fault (Genome × InnovationTracker) := do
  let G1 ← InitialTopology.None G
  match G1.Config with
  | none => Except.error Fault.NullDereference
  | some Config =>
    let s1 ← (List.range (Config.NumInputs + 1)).foldlM
      (fun s Idx =>
        (List.range Config.NumHidden).foldlM
          (fun s Jdx =>
            InitialTopology.Connect Idx (Jdx + Config.NumInputs + Config.NumOutputs + 1) s)
          s)
      (G1, Innovations)
    (List.range Config.NumHidden).foldlM
      (fun s Idx =>
        (List.range Config.NumOutputs).foldlM
          (fun s Jdx =>
            InitialTopology.Connect (Idx + Config.NumInputs + Config.NumOutputs + 1)
              (Jdx + Config.NumInputs + 1) s)
          s)
      s1

/-- What the initialisation of a genome reads and writes besides the genome:
    the counter of `GenerateNewGenomeID`, the global registry
    `NEAT::Innovations`, and the coming values of `rand()`. -/
structure Seeding where
  NewestID : Nat := 0
  Innovations : InnovationTracker := { NextInnovationID := 0, Innovations := TMap.empty }
  Rand : List Nat := []

/-- The function `InitialTopology::InitializeGenome`, which is what
    `GenomePairing::Offspring(Config).GetChild()` comes to: a genome
    `std::make_shared<Genome>(Config)` with a new id, filled by the initial
    topology of the configuration. -/
def InitialTopology.InitializeGenome (RAND_MAX : Nat) (Config : Config) (w : Seeding) :
    Except Fault (Genome × Seeding) :=
  let ID := Genome.GenerateNewGenomeID w.NewestID
  let G : Genome := { Config := some Config, ID := ID }
  match Config.InitialTopology with
  | EInitialTopology.None =>
    match InitialTopology.None G with
    | Except.error e => Except.error e
    | Except.ok G1 => Except.ok (G1, { w with NewestID := ID })
  | EInitialTopology.Sparse =>
    match InitialTopology.Sparse RAND_MAX G w.Innovations w.Rand with
    | Except.error e => Except.error e
    | Except.ok s => Except.ok (s.1.1, { NewestID := ID, Innovations := s.1.2, Rand := s.2 })
  | EInitialTopology.Full =>
    match InitialTopology.Full G w.Innovations with
    | Except.error e => Except.error e
    | Except.ok s => Except.ok (s.1, { w with NewestID := ID, Innovations := s.2 })
  | EInitialTopology.Tree =>
    match InitialTopology.Tree G w.Innovations with
    | Except.error e => Except.error e
    | Except.ok s => Except.ok (s.1, { w with NewestID := ID, Innovations := s.2 })

/-! ### Species.h, Trainer.h, Trainer.cpp: species and stagnation -/

/-- The class `Species`. A `GenomePtr` is the address of a genome object;
    `Representative` may be the null pointer `none`, and the array `Genomes`
    holds addresses, none of them null. -/
structure Species where
  Representative : Option Nat := none
  Genomes : List Nat := []
  BestAdjustedFitness : ℚ := 0
  AdjustedFitness : ℚ := 0
  DesiredPopulationSize : Int := 0
  Stagnation : Nat := 0
  IsStagnant : Bool := false
  ID : Nat := 0
  deriving DecidableEq

/-- The members of `Trainer` the embedded code reads and writes. `Population`
    holds addresses, none of them null; `Memory` is the genome object behind
    each address, and `Allocated` the address the next `std::make_shared<Genome>`
    returns. `Species` holds the species objects themselves: every species object
    is in the array once. `BestGenome` is a genome object of its own, not a
    pointer, and `Generation` an `unsigned`. The member `Config` is passed to the
    functions. -/
structure Trainer where
  Population : List Nat := []
  Species : List Species := []
  Memory : Nat → Genome := fun _ => {}
  Allocated : Nat := 0
  bHasBestGenome : Bool := false
  BestGenome : Genome := {}
  Generation : Nat := 0

/-- The body of the first loop of `Trainer::CheckForStagnation`, for the value
    `PopulationNum` of `Population.Num()`. `Stagnation` is an `unsigned`,
    `MaxStagnation / 3` a division of `unsigned` values, and the comparison with
    `2.0 * Config->PopulationSize` one of exact values. -/
def Trainer.UpdateStagnation (cfg : Config) (PopulationNum : Nat) (Specie : NEAT.Species) :
    NEAT.Species :=
  if Specie.IsStagnant then Specie
  else if Specie.AdjustedFitness > Specie.BestAdjustedFitness then
    { Specie with BestAdjustedFitness := Specie.AdjustedFitness, Stagnation := 0 }
  else if Specie.Representative.isNone then { Specie with IsStagnant := true }
  else
    let Stagnation := (Specie.Stagnation + 1) % 2 ^ 32
    if (PopulationNum : ℚ) > 2 * (cfg.PopulationSize : ℚ) ∧
        Stagnation ≥ cfg.MaxStagnation / 3 then
      { Specie with Stagnation := Stagnation, IsStagnant := true }
    else if Stagnation ≥ cfg.MaxStagnation then
      { Specie with Stagnation := Stagnation, IsStagnant := true }
    else { Specie with Stagnation := Stagnation }

/-- The first loop of `Trainer::CheckForStagnation`. -/
def Trainer.MarkStagnant (cfg : Config) (t : Trainer) : Trainer :=
  { t with Species := t.Species.map (Trainer.UpdateStagnation cfg t.Population.length) }

/-- The member function `TArray::Remove`: every element equal to the value goes. -/
def TArrayRemove (Data : List Nat) (Value : Nat) : List Nat :=
  Data.filter (fun x => decide (x ≠ Value))

/-- The body of the loop over `SpeciesCopy` of `Trainer::CheckForStagnation`:
    for a stagnant species `Population.Remove(Genome)` for every member, then
    `Population.Remove(Specie->Representative)`, which finds nothing when the
    representative is null. -/
def Trainer.RemoveStagnant (Population : List Nat) (Specie : NEAT.Species) : List Nat :=
  if !Specie.IsStagnant then Population
  else
    match Specie.Representative with
    | none => Specie.Genomes.foldl TArrayRemove Population
    | some Representative => TArrayRemove (Specie.Genomes.foldl TArrayRemove Population) Representative

/-- The predicate of `Species.RemoveByPredicate` in `Trainer::CheckForStagnation`. -/
def Trainer.IsPurged (Specie : NEAT.Species) : Bool :=
  Specie.IsStagnant || (Specie.Representative.isNone && Specie.Genomes.isEmpty)

/-- The statement `Population.Add(Pairing.GetChild())` for an
    `Offspring(Config)`: the new genome object gets the next address. -/
def Trainer.AddInitialized (RAND_MAX : Nat) (cfg : Config) (s : Trainer × Seeding) (_Idx : Nat) :
    Except Fault (Trainer × Seeding) :=
  match InitialTopology.InitializeGenome RAND_MAX cfg s.2 with
  | Except.error e => Except.error e
  | Except.ok (G, w) =>
    Except.ok
      ({ s.1 with
          Population := s.1.Population ++ [s.1.Allocated],
          Memory := Function.update s.1.Memory s.1.Allocated G,
          Allocated := s.1.Allocated + 1 },
        w)

/-- The two loops that fill an empty population in `Trainer::CheckForStagnation`
    (and in `Initialize`). The counter `Idx` is an `unsigned` compared with the
    `uint64` value `PopulationSize`: from `2^32` on the first loop does not end. -/
def Trainer.Refill (RAND_MAX : Nat) (cfg : Config) (s : Trainer × Seeding) :
    Except Fault (Trainer × Seeding) :=
  if cfg.PopulationSize ≥ 2 ^ 32 then Except.error Fault.Diverges
  else (List.range cfg.PopulationSize).foldlM (Trainer.AddInitialized RAND_MAX cfg) s

/-- The rest of `Trainer::CheckForStagnation`, after the first loop. -/
def Trainer.PurgeStagnant (RAND_MAX : Nat) (cfg : Config) (s : Trainer × Seeding) :
    Except Fault (Trainer × Seeding) :=
  if s.1.Species.length ≤ 1 then Except.ok s
  else
    let Population := s.1.Species.foldl Trainer.RemoveStagnant s.1.Population
    let Species := s.1.Species.filter (fun Specie => !Trainer.IsPurged Specie)
    if Population.isEmpty then
      Trainer.Refill RAND_MAX cfg ({ s.1 with Population := Population, Species := Species }, s.2)
    else Except.ok ({ s.1 with Population := Population, Species := Species }, s.2)

/-- The member function `Trainer::CheckForStagnation`. -/
def Trainer.CheckForStagnation (RAND_MAX : Nat) (cfg : Config) (s : Trainer × Seeding) :
    Except Fault (Trainer × Seeding) :=
  Trainer.PurgeStagnant RAND_MAX cfg (Trainer.MarkStagnant cfg s.1, s.2)

/-- A species without a representative and without members whose adjusted
    fitness 1 is above its best adjusted fitness 0. -/
def orphanSpecies : Species := { AdjustedFitness := 1 }

/-- A trainer with the genomes 0 and 1 and two species: the first is stagnant,
    has no member and the representative 0; the second has the members 0 and 1,
    the representative 1 and an adjusted fitness above its best. -/
def sharedTrainer : Trainer :=
  { Population := [0, 1],
    Species :=
      [{ Representative := some 0, IsStagnant := true, ID := 1 },
       { Representative := some 1, Genomes := [0, 1], AdjustedFitness := 1, ID := 2 }],
    Allocated := 2 }

/-- Spec side, the genomes the purge is to leave in the population: those that
    are neither a member nor the representative of a stagnant species. -/
def Trainer.Kept (t : Trainer) : List Nat :=
  t.Population.filter
    (fun g => !t.Species.any
      (fun Specie => Specie.IsStagnant && (decide (g ∈ Specie.Genomes) ||
        decide (Specie.Representative = some g))))

/-- A trainer with 60 genomes and one species that has a representative, an
    adjusted fitness that is not above its best, and 26 generations of
    stagnation. -/
def agingTrainer : Trainer :=
  { Population := List.range 60,
    Species := [{ Representative := some 0, Genomes := [0], Stagnation := 26, ID := 1 }],
    Allocated := 60 }

/-! ### Trainer.cpp: the reproduction counts -/

/-- The conversion of an integer value to `int`. -/
def toInt32 (Value : Int) : Int := (Value + 2 ^ 31) % 2 ^ 32 - 2 ^ 31

/-- The template `Math::Min` at `double`. -/
def Math.Min (A B : ℚ) : ℚ := if A < B then A else B

/-- The template `Math::Max` at `double`. -/
def Math.MaxDouble (A B : ℚ) : ℚ := if A > B then A else B

/-- The template `Math::Max` at `int`. -/
def Math.MaxInt (A B : Int) : Int := if A > B then A else B

/-- The conversion `int(Value)` of a `double` that holds an integer: the value
    itself when it is in the range of `int`. Outside that range the conversion
    is undefined in C++; the model takes what the conversion instruction of x86
    gives, the most negative `int`. -/
def DoubleToInt (Value : Int) : Int :=
  if -2 ^ 31 ≤ Value ∧ Value < 2 ^ 31 then Value else -2 ^ 31

/-- One pass of the loop `for (auto& Specie : Species)` inside
    `while (RemainingOffspring > 0)`: the species after the pass, the remaining
    offspring, and whether the pass ended in `return`. `++` and `--` are those
    of `int`. -/
def Trainer.RoundRobinPass : List NEAT.Species → Int → List NEAT.Species × Int × Bool
  | [], RemainingOffspring => ([], RemainingOffspring, false)
  | Specie :: Rest, RemainingOffspring =>
    if RemainingOffspring = 0 then (Specie :: Rest, RemainingOffspring, true)
    else
      let r := Trainer.RoundRobinPass Rest (toInt32 (RemainingOffspring - 1))
      ({ Specie with DesiredPopulationSize := toInt32 (Specie.DesiredPopulationSize + 1) } :: r.1,
        r.2.1, r.2.2)

/-- The loop `while (RemainingOffspring > 0)` of `UpdateReproductionCounts_Method3`,
    run for at most `fuel` passes: the species, and whether the function has
    returned from inside the loop. -/
def Trainer.RoundRobin : Nat → List NEAT.Species → Int → Except Fault (List NEAT.Species × Bool)
  | 0, _, _ => Except.error Fault.Diverges
  | fuel + 1, Species, RemainingOffspring =>
    if RemainingOffspring > 0 then
      let r := Trainer.RoundRobinPass Species RemainingOffspring
      if r.2.2 then Except.ok (r.1, true) else Trainer.RoundRobin fuel r.1 r.2.1
    else Except.ok (Species, false)

/-- The loop `while (NewDesiredPopulationSize > Config->PopulationSize)` of
    `UpdateReproductionCounts_Method3`, run for at most `fuel` rounds.
    `SpeciesWithExcess` holds pointers to species, here their positions in
    `Species`; `SpecieIdx` is an `int`, and `%` is the remainder of `int`
    values, which faults on a zero `SpeciesWithExcess.Num()`. The comparison
    with `PopulationSize` is made in `uint64`, the two decrements in `int`. -/
def Trainer.Shrink (cfg : Config) :
    Nat → List NEAT.Species → List Nat → Int → Int → Except Fault (List NEAT.Species)
  | 0, _, _, _, _ => Except.error Fault.Diverges
  | fuel + 1, Species, SpeciesWithExcess, SpecieIdx, NewDesiredPopulationSize =>
    if toUInt64 NewDesiredPopulationSize > cfg.PopulationSize then
      if ¬ (0 ≤ SpecieIdx ∧ SpecieIdx < (SpeciesWithExcess.length : Int)) then
        if SpeciesWithExcess.length = 0 then Except.error Fault.DivideByZero
        else
          Trainer.Shrink cfg fuel Species SpeciesWithExcess
            (Int.tmod (SpecieIdx + 1) (SpeciesWithExcess.length : Int)) NewDesiredPopulationSize
      else
        let Specie := SpeciesWithExcess.getD SpecieIdx.toNat 0
        let SpecieIdx1 := Int.tmod (SpecieIdx + 1) (SpeciesWithExcess.length : Int)
        if (Species.getD Specie {}).DesiredPopulationSize ≤ (cfg.MinSpeciesSize : Int) then
          Trainer.Shrink cfg fuel Species (TArrayRemove SpeciesWithExcess Specie) (SpecieIdx1 - 1)
            NewDesiredPopulationSize
        else
          Trainer.Shrink cfg fuel
            (Species.modify
              (fun s => { s with DesiredPopulationSize := toInt32 (s.DesiredPopulationSize - 1) })
              Specie)
            SpeciesWithExcess SpecieIdx1 (toInt32 (NewDesiredPopulationSize - 1))
    else Except.ok Species

/-- The sum `for (Specie : Species) Total += Specie->DesiredPopulationSize` of
    `int` values. -/
def Trainer.TotalDesired (Species : List NEAT.Species) : Int :=
  Species.foldl (fun Total Specie => toInt32 (Total + Specie.DesiredPopulationSize)) 0

/-- The loops of `UpdateReproductionCounts_Method3` that shift all adjusted
    fitness values to positive values. -/
def Trainer.ShiftAdjustedFitness (Species : List NEAT.Species) : List NEAT.Species :=
  let MinAdjustedFitness0 :=
    Species.foldl (fun Min Specie => Math.Min Min Specie.AdjustedFitness) 0
  let MinAdjustedFitness := -(Math.Min MinAdjustedFitness0 0)
  Species.map
    (fun Specie => { Specie with AdjustedFitness := Specie.AdjustedFitness + MinAdjustedFitness })

/-- The loops of `UpdateReproductionCounts_Method3` that sum the adjusted
    fitness and calculate the number of offspring to give to each species. The
    quotient and the product are taken exactly, where the `double` operations
    of the code round; the floor is converted to `int`. -/
def Trainer.Quotas (cfg : Config) (Species : List NEAT.Species) : List NEAT.Species :=
  let TotalAdjustedFitness0 :=
    Species.foldl (fun Total Specie => Total + Specie.AdjustedFitness) 0
  let TotalAdjustedFitness := Math.MaxDouble TotalAdjustedFitness0 0
  Species.map
    (fun Specie =>
      if TotalAdjustedFitness ≠ 0 then
        { Specie with
          DesiredPopulationSize :=
            Math.MaxInt
              (DoubleToInt
                ⌊Specie.AdjustedFitness / TotalAdjustedFitness * (cfg.PopulationSize : ℚ)⌋)
              cfg.MinSpeciesSize }
      else { Specie with DesiredPopulationSize := cfg.MinSpeciesSize })

/-- The offspring the species hold above `MinSpeciesSize`, summed: every round
    of the last loop of `UpdateReproductionCounts_Method3` that is not followed
    by a round at a valid index takes one of them, or takes a species out of
    `SpeciesWithExcess`. -/
def Trainer.Excess (cfg : Config) (Species : List NEAT.Species) : Nat :=
  (Species.map (fun s => (s.DesiredPopulationSize - (cfg.MinSpeciesSize : Int)).toNat)).sum

/-- The member function `Trainer::UpdateReproductionCounts_Method3`, on the
    array `Species`. `DesiredPopulationSize`, the product
    `Species.Num() * MinSpeciesSize` and the sums are `int` values, with the
    arithmetic of `int` taken modulo `2 ^ 32` (`toInt32`): an overflow, undefined
    in C++, wraps as on the two's complement hardware. `PopulationSize` is a
    `uint64`: the difference `PopulationSize - TotalDesiredPopulation` is taken
    in `uint64` and handed to `Math::Max<int>`, and the comparisons of a sum with
    `PopulationSize` are made in `uint64`. Each loop gets the fuel that its
    longest run needs: the first hands out one offspring in every pass, and the
    second makes at most one round at an index that is not valid between two
    rounds that take a species out of `SpeciesWithExcess` or an offspring from
    a species above the minimum. -/
def Trainer.UpdateReproductionCounts_Method3 (cfg : Config) (Species : List NEAT.Species) :
    Except Fault (List NEAT.Species) :=
  if Species.isEmpty then Except.ok Species
  else if toUInt64 (toInt32 ((Species.length : Int) * (cfg.MinSpeciesSize : Int))) >
      cfg.PopulationSize then
    Except.ok
      (Species.map (fun Specie => { Specie with DesiredPopulationSize := cfg.MinSpeciesSize }))
  else
    let Species2 := Trainer.Quotas cfg (Trainer.ShiftAdjustedFitness Species)
    let RemainingOffspring :=
      Math.MaxInt (toInt32 ((cfg.PopulationSize : Int) - Trainer.TotalDesired Species2)) 0
    match Trainer.RoundRobin (RemainingOffspring.toNat + 1) Species2 RemainingOffspring with
    | Except.error e => Except.error e
    | Except.ok (Species3, true) => Except.ok Species3
    | Except.ok (Species3, false) =>
      let NewDesiredPopulationSize := Trainer.TotalDesired Species3
      if toUInt64 NewDesiredPopulationSize ≤ cfg.PopulationSize then Except.ok Species3
      else
        let SpeciesWithExcess := (List.range Species3.length).filter
          (fun i => decide
            ((Species3.getD i {}).DesiredPopulationSize > (cfg.MinSpeciesSize : Int)))
        if SpeciesWithExcess.isEmpty then Except.ok Species3
        else
          Trainer.Shrink cfg
            (2 * (SpeciesWithExcess.length + Trainer.Excess cfg Species3) + 2)
            Species3 SpeciesWithExcess 0 NewDesiredPopulationSize

/-! ### The reproduction counts on unbounded integers

A device of the proofs, not code of the source: the functions above with the
`int` operations taken exactly. As long as no `int` of the run leaves its
range, they compute what the functions above compute. -/

/-- `Trainer.RoundRobinPass` on unbounded integers. -/
def Exact.RoundRobinPass : List NEAT.Species → Int → List NEAT.Species × Int × Bool
  | [], RemainingOffspring => ([], RemainingOffspring, false)
  | Specie :: Rest, RemainingOffspring =>
    if RemainingOffspring = 0 then (Specie :: Rest, RemainingOffspring, true)
    else
      let r := Exact.RoundRobinPass Rest (RemainingOffspring - 1)
      ({ Specie with DesiredPopulationSize := Specie.DesiredPopulationSize + 1 } :: r.1, r.2.1,
        r.2.2)

/-- `Trainer.RoundRobin` on unbounded integers. -/
def Exact.RoundRobin : Nat → List NEAT.Species → Int → Except Fault (List NEAT.Species × Bool)
  | 0, _, _ => Except.error Fault.Diverges
  | fuel + 1, Species, RemainingOffspring =>
    if RemainingOffspring > 0 then
      let r := Exact.RoundRobinPass Species RemainingOffspring
      if r.2.2 then Except.ok (r.1, true) else Exact.RoundRobin fuel r.1 r.2.1
    else Except.ok (Species, false)

/-- `Trainer.Shrink` with the two decrements taken on unbounded integers. -/
def Exact.Shrink (cfg : Config) :
    Nat → List NEAT.Species → List Nat → Int → Int → Except Fault (List NEAT.Species)
  | 0, _, _, _, _ => Except.error Fault.Diverges
  | fuel + 1, Species, SpeciesWithExcess, SpecieIdx, NewDesiredPopulationSize =>
    if toUInt64 NewDesiredPopulationSize > cfg.PopulationSize then
      if ¬ (0 ≤ SpecieIdx ∧ SpecieIdx < (SpeciesWithExcess.length : Int)) then
        if SpeciesWithExcess.length = 0 then Except.error Fault.DivideByZero
        else
          Exact.Shrink cfg fuel Species SpeciesWithExcess
            (Int.tmod (SpecieIdx + 1) (SpeciesWithExcess.length : Int)) NewDesiredPopulationSize
      else
        let Specie := SpeciesWithExcess.getD SpecieIdx.toNat 0
        let SpecieIdx1 := Int.tmod (SpecieIdx + 1) (SpeciesWithExcess.length : Int)
        if (Species.getD Specie {}).DesiredPopulationSize ≤ (cfg.MinSpeciesSize : Int) then
          Exact.Shrink cfg fuel Species (TArrayRemove SpeciesWithExcess Specie) (SpecieIdx1 - 1)
            NewDesiredPopulationSize
        else
          Exact.Shrink cfg fuel
            (Species.modify
              (fun s => { s with DesiredPopulationSize := s.DesiredPopulationSize - 1 }) Specie)
            SpeciesWithExcess SpecieIdx1 (NewDesiredPopulationSize - 1)
    else Except.ok Species

/-- `Trainer.TotalDesired` on unbounded integers. -/
def Exact.TotalDesired (Species : List NEAT.Species) : Int :=
  Species.foldl (fun Total Specie => Total + Specie.DesiredPopulationSize) 0

/-- `Trainer.Quotas` with the floor kept as it is, an unbounded integer. -/
def Exact.Quotas (cfg : Config) (Species : List NEAT.Species) : List NEAT.Species :=
  let TotalAdjustedFitness0 :=
    Species.foldl (fun Total Specie => Total + Specie.AdjustedFitness) 0
  let TotalAdjustedFitness := Math.MaxDouble TotalAdjustedFitness0 0
  Species.map
    (fun Specie =>
      if TotalAdjustedFitness ≠ 0 then
        { Specie with
          DesiredPopulationSize :=
            Math.MaxInt
              ⌊Specie.AdjustedFitness / TotalAdjustedFitness * (cfg.PopulationSize : ℚ)⌋
              cfg.MinSpeciesSize }
      else { Specie with DesiredPopulationSize := cfg.MinSpeciesSize })

/-- `Trainer.UpdateReproductionCounts_Method3` with every `int` operation
    taken on unbounded integers. -/
def Exact.UpdateReproductionCounts_Method3 (cfg : Config) (Species : List NEAT.Species) :
    Except Fault (List NEAT.Species) :=
  if Species.isEmpty then Except.ok Species
  else if toUInt64 ((Species.length : Int) * (cfg.MinSpeciesSize : Int)) > cfg.PopulationSize then
    Except.ok
      (Species.map (fun Specie => { Specie with DesiredPopulationSize := cfg.MinSpeciesSize }))
  else
    let Species2 := Exact.Quotas cfg (Trainer.ShiftAdjustedFitness Species)
    let RemainingOffspring :=
      Math.MaxInt (toInt32 ((cfg.PopulationSize : Int) - Exact.TotalDesired Species2)) 0
    match Exact.RoundRobin (RemainingOffspring.toNat + 1) Species2 RemainingOffspring with
    | Except.error e => Except.error e
    | Except.ok (Species3, true) => Except.ok Species3
    | Except.ok (Species3, false) =>
      let NewDesiredPopulationSize := Exact.TotalDesired Species3
      if toUInt64 NewDesiredPopulationSize ≤ cfg.PopulationSize then Except.ok Species3
      else
        let SpeciesWithExcess := (List.range Species3.length).filter
          (fun i => decide
            ((Species3.getD i {}).DesiredPopulationSize > (cfg.MinSpeciesSize : Int)))
        if SpeciesWithExcess.isEmpty then Except.ok Species3
        else
          Exact.Shrink cfg
            (2 * (SpeciesWithExcess.length + Trainer.Excess cfg Species3) + 2)
            Species3 SpeciesWithExcess 0 NewDesiredPopulationSize

/-- Three species with the adjusted fitnesses 10, 0 and -2. -/
def threeSpecies : List Species :=
  [{ AdjustedFitness := 10, ID := 1 }, { AdjustedFitness := 0, ID := 2 },
   { AdjustedFitness := -2, ID := 3 }]

/-- A configuration whose `PopulationSize` is `2 ^ 32`, with the default
    `MinSpeciesSize = 5`. -/
def beyondIntConfig : Config := { PopulationSize := 2 ^ 32 }

/-- A configuration whose `PopulationSize` is `2 ^ 31 + 4`, with the default
    `MinSpeciesSize = 5`. -/
def pastIntConfig : Config := { PopulationSize := 2 ^ 31 + 4 }

/-! ### Trainer.cpp: the elite genomes -/

/-- The comparison `A->Fitness > B->Fitness` of two genome pointers. -/
def Trainer.FitterThan (Memory : Nat → Genome) (A B : Nat) : Bool :=
  decide ((Memory A).Fitness > (Memory B).Fitness)

/-- The comparison of the first sort of the culling loop of
    `Trainer::ReproduceSpecies`: `LHS->Fitness >= RHS->Fitness` for genomes of
    different fitness, `LHS->ID >= RHS->ID` for genomes of one fitness. -/
def Trainer.FitterOrNewer (Memory : Nat → Genome) (LHS RHS : Nat) : Bool :=
  if (Memory LHS).Fitness ≠ (Memory RHS).Fitness then
    decide ((Memory LHS).Fitness ≥ (Memory RHS).Fitness)
  else decide ((Memory LHS).ID ≥ (Memory RHS).ID)

/-- The function `CullingMethod::Elitism`: the population itself when it has
    at most `N` genomes, and otherwise the first `N` genomes of a copy sorted by
    `std::sort`, here `Sorter`, with the comparison `LHS->Fitness > RHS->Fitness`. -/
def CullingMethod.Elitism (Sorter : (α : Type) → (α → α → Bool) → List α → List α)
    (Memory : Nat → Genome) (Population : List Nat) (N : Nat) : List Nat :=
  if Population.length ≤ N then Population
  else (Sorter Nat (Trainer.FitterThan Memory) Population).take N

/-- The value of `NumToCull` the culling loop hands to
    `CullingMethod::CullPopulation` for a species of `Num` genomes. The product
    `Num * SurvivalRate` is not negative and its conversion to `size_t` is its
    floor; `Num - SpeciesElitism` is an `int` and is compared and assigned as a
    `size_t`. -/
def Trainer.NumToCull (cfg : Config) (Num : Nat) : Nat :=
  let NumToCull0 : Nat := (⌊(Num : ℚ) * cfg.SurvivalRate⌋).toNat
  let NumToCull1 := if NumToCull0 < cfg.MinSpeciesSize then cfg.MinSpeciesSize else NumToCull0
  if NumToCull1 > toUInt64 ((Num : Int) - (cfg.SpeciesElitism : Int)) then
    toUInt64 ((Num : Int) - (cfg.SpeciesElitism : Int))
  else NumToCull1

/-- The body of the culling loop of `Trainer::ReproduceSpecies` after the test
    `Genomes.Num() <= MinSpeciesSize`, with `CullingMethod` set to `Elitism`. -/
def Trainer.CullSpecies (Sorter : (α : Type) → (α → α → Bool) → List α → List α)
    (cfg : Config) (Memory : Nat → Genome) (Specie : NEAT.Species) : NEAT.Species :=
  let Sorted := Sorter Nat (Trainer.FitterOrNewer Memory) Specie.Genomes
  { Specie with
    Genomes := CullingMethod.Elitism Sorter Memory Sorted (Trainer.NumToCull cfg Sorted.length) }

/-- The culling loop of `Trainer::ReproduceSpecies`: a species of at most
    `MinSpeciesSize` genomes is passed over, and the loop is left at the first
    species that is culled to no genome. -/
def Trainer.CullLoop (Sorter : (α : Type) → (α → α → Bool) → List α → List α)
    (cfg : Config) (Memory : Nat → Genome) : List NEAT.Species → List NEAT.Species
  | [] => []
  | Specie :: Rest =>
    if Specie.Genomes.length ≤ cfg.MinSpeciesSize then
      Specie :: Trainer.CullLoop Sorter cfg Memory Rest
    else if (Trainer.CullSpecies Sorter cfg Memory Specie).Genomes.isEmpty then
      Trainer.CullSpecies Sorter cfg Memory Specie :: Rest
    else
      Trainer.CullSpecies Sorter cfg Memory Specie :: Trainer.CullLoop Sorter cfg Memory Rest

/-- The number of genomes the specification keeps:
    `k = max(⌊|S| · survival_rate⌋, min_species_size)`. -/
def CullingMethod.SpecKept (cfg : Config) (Num : Nat) : Nat :=
  max (⌊(Num : ℚ) * cfg.SurvivalRate⌋).toNat cfg.MinSpeciesSize

/-- A memory in which the genome at address `a` has the ID and the fitness `a`. -/
def cullMemory (Address : Nat) : Genome :=
  { ID := Address, Fitness := (Address : ℚ) }

/-- A trainer over `cullMemory` with the population 0..11 and two species of
    six members. -/
def cullTrainer : Trainer :=
  { Population := List.range 12,
    Species := [{ Genomes := [0, 1, 2, 3, 4, 5], ID := 1 }, { Genomes := [6, 7, 8, 9, 10, 11], ID := 2 }],
    Memory := cullMemory,
    Allocated := 12 }

/-! ### Reproduction.cpp: a child of two parents -/

/-- The function `InitialTopology::InitializeFromParents`. The genome the
    function builds itself, with a new id and the species id of one of the
    parents by `GetRandomInt(0, 1)`, is a local object that is not used again:
    what is returned is the genome the crossover function builds.
    `ECrossoverType::Average` has no `case` and falls to the `default`. -/
def InitialTopology.InitializeFromParents (RAND_MAX : Nat) (Parent1 Parent2 : Genome)
    (NewestID : Nat) (Rand : List Nat) : Except Fault (Genome × Nat × List Nat) :=
  match GetRandomInt 0 1 Rand with
  | Except.error e => Except.error e
  | Except.ok (Coin, Rand1) =>
    let LocalGenome : Genome :=
      { Config := Parent1.Config,
        SpeciesID := if Coin ≠ 0 then Parent1.SpeciesID else Parent2.SpeciesID,
        ID := Genome.GenerateNewGenomeID NewestID }
    match Parent1.Config with
    | none => Except.error Fault.NullDereference
    | some Config =>
      match Config.CrossoverType with
      | ECrossoverType.Uniform =>
        CrossoverType.Uniform RAND_MAX Parent1 Parent2 LocalGenome.ID Rand1
      | ECrossoverType.SinglePoint =>
        CrossoverType.SinglePoint Parent1 Parent2 LocalGenome.ID Rand1
      | ECrossoverType.TwoPoint => CrossoverType.TwoPoint Parent1 Parent2 LocalGenome.ID Rand1
      | ECrossoverType.Multipoint =>
        CrossoverType.Multipoint Parent1 Parent2 LocalGenome.ID Rand1
      | ECrossoverType.Average =>
        CrossoverType.Uniform RAND_MAX Parent1 Parent2 LocalGenome.ID Rand1

/-! ### Aggregations.h: the aggregation functions -/

/-- The result of `TArray<double>::Sort()`: the ascending arrangement. -/
def Aggregation.Sorted (Values : List ℚ) : List ℚ := Values.insertionSort (fun a b => a ≤ b)

/-- The function `Aggregation::Mean`. -/
def Aggregation.Mean (Values : List ℚ) : ℚ :=
  if Values.length = 0 then 0 else Values.foldl (fun Sum Value => Sum + Value) 0 / Values.length

/-- The function `Aggregation::Median`. -/
def Aggregation.Median (Values : List ℚ) : ℚ :=
  if Values.length = 0 then 0
  else
    let SortedValues := Aggregation.Sorted Values
    let n := SortedValues.length
    if n % 2 = 1 then SortedValues.getD (n / 2) 0
    else (SortedValues.getD (n / 2 - 1) 0 + SortedValues.getD (n / 2) 0) / 2

/-- The function `Aggregation::Max`: `std::max_element` keeps the first of the
    largest values. -/
def Aggregation.Max (Values : List ℚ) : ℚ :=
  match Values with
  | [] => 0
  | First :: Rest => Rest.foldl (fun Largest Value => if Largest < Value then Value else Largest) First

/-- The function `Aggregation::Min`. -/
def Aggregation.Min (Values : List ℚ) : ℚ :=
  match Values with
  | [] => 0
  | First :: Rest =>
    Rest.foldl (fun Smallest Value => if Value < Smallest then Value else Smallest) First

/-- The function `Aggregation::Sum`. -/
def Aggregation.Sum (Values : List ℚ) : ℚ := Values.foldl (fun Sum Value => Sum + Value) 0

/-- The function `Aggregation::Count`. -/
def Aggregation.Count (Values : List ℚ) : ℚ := (Values.length : ℚ)

/-- The function `Aggregation::Product`. -/
def Aggregation.Product (Values : List ℚ) : ℚ :=
  Values.foldl (fun Product Value => Product * Value) 1

/-- The function `Aggregation::Variance`. -/
def Aggregation.Variance (Values : List ℚ) : ℚ :=
  if Values.length = 0 then 0
  else
    let Mean := Aggregation.Mean Values
    Values.foldl (fun Sum Value => Sum + (Value - Mean) * (Value - Mean)) 0 / Values.length

/-- The function `Aggregation::StandardDeviation`; `std::sqrt` is the parameter
    `sqrt`. -/
def Aggregation.StandardDeviation (sqrt : ℚ → ℚ) (Values : List ℚ) : ℚ :=
  if Values.length = 0 then 0 else sqrt (Aggregation.Variance Values)

/-- The function `Aggregation::Percentile25`. -/
def Aggregation.Percentile25 (Values : List ℚ) : ℚ :=
  if Values.length < 4 then 0
  else
    let SortedValues := Aggregation.Sorted Values
    SortedValues.getD (SortedValues.length / 4) 0

/-- The function `Aggregation::Percentile75`. -/
def Aggregation.Percentile75 (Values : List ℚ) : ℚ :=
  if Values.length < 4 then 0
  else
    let SortedValues := Aggregation.Sorted Values
    SortedValues.getD (3 * SortedValues.length / 4) 0

/-- The function `Aggregation::Aggregate`: the `switch` has ten `case` labels,
    none for `EAggregation::Product`, and its `default` throws
    `std::invalid_argument`. -/
def Aggregation.Aggregate (sqrt : ℚ → ℚ) (Values : List ℚ) :
    EAggregation → Except StdException ℚ
  | EAggregation.Mean => Except.ok (Aggregation.Mean Values)
  | EAggregation.Median => Except.ok (Aggregation.Median Values)
  | EAggregation.Max => Except.ok (Aggregation.Max Values)
  | EAggregation.Min => Except.ok (Aggregation.Min Values)
  | EAggregation.Sum => Except.ok (Aggregation.Sum Values)
  | EAggregation.Count => Except.ok (Aggregation.Count Values)
  | EAggregation.Variance => Except.ok (Aggregation.Variance Values)
  | EAggregation.StandardDeviation => Except.ok (Aggregation.StandardDeviation sqrt Values)
  | EAggregation.Percentile25 => Except.ok (Aggregation.Percentile25 Values)
  | EAggregation.Percentile75 => Except.ok (Aggregation.Percentile75 Values)
  | EAggregation.Product => Except.error StdException.invalid_argument
  | EAggregation.MAX => Except.error StdException.invalid_argument

/-- The eleven aggregation kinds of the catalog. -/
def Aggregation.Catalog : List EAggregation :=
  [EAggregation.Mean, EAggregation.Median, EAggregation.Max, EAggregation.Min,
   EAggregation.Sum, EAggregation.Count, EAggregation.Product, EAggregation.Variance,
   EAggregation.StandardDeviation, EAggregation.Percentile25, EAggregation.Percentile75]

/-! ### Trainer.cpp: the end of the training loop -/

/-- The member function `Trainer::ContinueTraining`. -/
def Trainer.ContinueTraining (cfg : Config) (t : Trainer) : Bool :=
  if t.bHasBestGenome && decide (cfg.StoppingFitness > 0) &&
      decide (t.BestGenome.Fitness ≥ cfg.StoppingFitness) then false
  else if decide (cfg.MaxGenerations > 0) && decide (t.Generation ≥ cfg.MaxGenerations) then
    false
  else true

/-! ### Trainer.cpp: the evaluation of the population -/

/-- The index range `StartIdx .. EndIdx - 1` of `Trainer::EvaluatePopulationThread`
    for a population of `Num` genomes; the division is one of `int` values by
    a `NumThreads` that is not 0. -/
def Trainer.ThreadIndices (cfg : Config) (Num ThreadID : Nat) : List Nat :=
  let StartIdx := ThreadID * (Num / cfg.NumThreads)
  let EndIdx := if ThreadID = cfg.NumThreads - 1 then Num
    else (ThreadID + 1) * (Num / cfg.NumThreads)
  List.range' StartIdx (EndIdx - StartIdx)

/-- The body of the loop of `EvaluatePopulationThread`:
    `Genome->Fitness = Evaluate(Genome)` on the genome behind `Population[Idx]`.
    `Evaluate` is the pure virtual member of `Trainer`, a parameter here. -/
def Trainer.EvaluateAt (Evaluate : Genome → ℚ) (t : Trainer) (Idx : Nat) : Trainer :=
  let Genome := t.Population.getD Idx 0
  { t with
    Memory := Function.update t.Memory Genome
      { t.Memory Genome with Fitness := Evaluate (t.Memory Genome) } }

/-- The member function `Trainer::EvaluatePopulationThread`. -/
def Trainer.EvaluatePopulationThread (Evaluate : Genome → ℚ) (cfg : Config) (t : Trainer)
    (ThreadID : Nat) : Except Fault Trainer :=
  if cfg.NumThreads = 0 then Except.error Fault.DivideByZero
  else
    Except.ok
      ((Trainer.ThreadIndices cfg t.Population.length ThreadID).foldl
        (Trainer.EvaluateAt Evaluate) t)

/-- The first statement of `Trainer::EvaluatePopulation`: with
    `MultithreadedEvaluation` one thread per `ThreadID` below `NumThreads`, all
    joined, and otherwise the call `EvaluatePopulationThread(0)`. The threads
    are run one after the other; they write the fitness of the genomes at their
    own indices. -/
def Trainer.EvaluateGenomes (Evaluate : Genome → ℚ) (cfg : Config) (t : Trainer) :
    Except Fault Trainer :=
  if cfg.MultithreadedEvaluation ≠ 0 then
    (List.range cfg.NumThreads).foldlM (Trainer.EvaluatePopulationThread Evaluate cfg) t
  else Trainer.EvaluatePopulationThread Evaluate cfg t 0

/-- The copy assignment of `Genome`: every member but `Config`; the genotype
    is copied node by node with the copy constructor of `NodeGene`. -/
def Genome.Assign (This Other : Genome) : Genome :=
  { Other.Copy with Config := This.Config }

/-- The body of the loop `Check for new best genome` of `EvaluatePopulation`:
    `BestGenome = *Genome; BestGenome.Config = Config; bHasBestGenome = true`
    for a genome of a higher fitness than the remembered one, or when none is
    remembered. -/
def Trainer.CheckBest (cfg : Config) (t : Trainer) (Genome : Nat) : Trainer :=
  if !t.bHasBestGenome || decide ((t.Memory Genome).Fitness > t.BestGenome.Fitness) then
    { t with
      BestGenome := { NEAT.Genome.Assign t.BestGenome (t.Memory Genome) with Config := some cfg },
      bHasBestGenome := true }
  else t

/-- The last loop of `EvaluatePopulation` on one species: the adjusted fitness
    is the sum of `Genome->Fitness / Genomes.Num()` over the members. -/
def Trainer.AverageFitness (Memory : Nat → Genome) (Specie : NEAT.Species) : NEAT.Species :=
  { Specie with
    AdjustedFitness := Specie.Genomes.foldl
      (fun Sum Genome => Sum + (Memory Genome).Fitness / (Specie.Genomes.length : ℚ)) 0 }

/-- The member function `Trainer::EvaluatePopulation`. -/
def Trainer.EvaluatePopulation (Evaluate : Genome → ℚ) (cfg : Config) (t : Trainer) :
    Except Fault Trainer :=
  match Trainer.EvaluateGenomes Evaluate cfg t with
  | Except.error e => Except.error e
  | Except.ok t1 =>
    let t2 := t1.Population.foldl (Trainer.CheckBest cfg) t1
    Except.ok { t2 with Species := t2.Species.map (Trainer.AverageFitness t2.Memory) }

/-- The statement `Genome->Genotype.Mutate(Config)` of `Trainer::MutateOffspring`
    on the genome behind a pointer, with the registry and the coming values of
    `rand()`. -/
def Trainer.MutateGenome (RAND_MAX : Nat) (cfg : Config) (t : Trainer) (Genome : Nat)
    (Innovations : InnovationTracker) (Rand : List Nat) :
    Except Fault (Trainer × InnovationTracker × List Nat) :=
  match Genotype.Mutate RAND_MAX cfg
      { This := (t.Memory Genome).Genotype, Innovations := Innovations, Rand := Rand } with
  | Except.error e => Except.error e
  | Except.ok w =>
    Except.ok
      ({ t with Memory := Function.update t.Memory Genome { t.Memory Genome with Genotype := w.This } },
        w.Innovations, w.Rand)

/-- A fitness function for the samples: the number of nodes of the genome plus
    its id. -/
def sampleEvaluate (G : Genome) : ℚ := (G.Genotype.Nodes.Num : ℚ) + (G.ID : ℚ)

/-- A trainer with five genomes, the genome at address `a` with the id `a + 1`,
    none evaluated yet. -/
def fiveTrainer : Trainer :=
  { Population := [0, 1, 2, 3, 4],
    Memory := fun Address => { ID := Address + 1 },
    Allocated := 5 }

/-! ### Network.cpp: what the network reads of a connection gene -/

/-- Spec side, two connection genes that agree in what the constructor of
    `NeuralNetwork` reads of them: `Input`, `Output` and `Weight`. -/
def NeuralNetwork.SameEdge (a b : Nat × ConnectionGene) : Prop :=
  a.2.Input = b.2.Input ∧ a.2.Output = b.2.Output ∧ a.2.Weight = b.2.Weight

/-- The genome with the member `Enabled` of the connection under `k` set to
    `Value`. -/
def Genome.SetConnectionEnabled (G : Genome) (k : Nat) (Value : Bool) : Genome :=
  { G with
    Genotype :=
      { G.Genotype with
        Connections := G.Genotype.Connections.Add k
          { G.Genotype.Connections.At k {} with Enabled := Value } } }

/-! ### The rejection loops of `MutateAddConnection` on an unending sequence of draws -/

/-- Spec side, the values `Stream p`, ..., `Stream (p + len - 1)` of an unending
    sequence of `rand()` values. -/
def StreamFrom (Stream : Nat → Nat) (p len : Nat) : List Nat := (List.range' p len).map Stream

/-- Spec side, a sequence of `rand()` values that is fair over `Num` keys: every
    position of the key array is drawn again after every point of the sequence. -/
def FairDraws (Num : Nat) (Stream : Nat → Nat) : Prop :=
  ∀ i, i < Num → ∀ p, ∃ q, p ≤ q ∧ Stream q % Num = i

/-- A world whose two nodes are both of type `Output`. -/
def outputOnlyWorld : World :=
  { This :=
      { Nodes := (TMap.empty.Add 0 { ID := 0, NodeType := ENodeType.Output }).Add 1
          { ID := 1, NodeType := ENodeType.Output }
        Connections := TMap.empty }
    Innovations := freshTracker.Reset 2
    Rand := [] }

/-! ### Node ids and connection ids of one genome -/

/-- Spec side, the id discipline of a genotype against the registry, whose ids
    start at `Start`: every id below `Start` is a node key, every other node key
    is in the registry as the id of a node, and every connection key is in the
    registry as the id of a connection. -/
def Genotype.IdsSeparated (Start : Nat) (t : InnovationTracker) (g : Genotype) : Prop :=
  (∀ k, k < Start → g.Nodes.Contains k = true) ∧
  (∀ k, g.Nodes.Contains k = true → Start ≤ k →
    ∃ r, t.Innovations.Find k = some r ∧ r.GeneType = EGeneType.Node) ∧
  (∀ k, g.Connections.Contains k = true →
    ∃ r, t.Innovations.Find k = some r ∧ r.GeneType = EGeneType.Connection)

/-- What happens to a genome and the registry after the genome is built: a call
    of `MutateAddNode` or of `MutateAddConnection` on the genome, or a call of
    `GetInnovationID` made elsewhere, for another genome. -/
inductive IdStep where
  | AddNode
  | AddConnection
  | Elsewhere (q : Request)

/-- A sequence of such steps on a world. -/
def Genotype.RunIdSteps (cfg : Config) : List IdStep → World → Except Fault World
  | [], w => Except.ok w
  | IdStep.AddNode :: Steps, w =>
    match Genotype.MutateAddNode cfg w with
    | Except.error f => Except.error f
    | Except.ok (_, w2) => Genotype.RunIdSteps cfg Steps w2
  | IdStep.AddConnection :: Steps, w =>
    match Genotype.MutateAddConnection cfg w with
    | Except.error f => Except.error f
    | Except.ok (_, w2) => Genotype.RunIdSteps cfg Steps w2
  | IdStep.Elsewhere q :: Steps, w =>
    Genotype.RunIdSteps cfg Steps
      { w with Innovations := (w.Innovations.GetInnovationID q.1 q.2.1 q.2.2.1 q.2.2.2).2 }

/-- The value `NumInputs + NumOutputs + NumHidden + 1` that `Trainer::Initialize`
    hands to `Innovations.Reset`. -/
def Config.StartingInnovation (cfg : Config) : Nat :=
  cfg.NumInputs + cfg.NumOutputs + cfg.NumHidden + 1

/-- A configuration with one input, one output and one hidden node and the
    initial topology `Full`. -/
def fullConfig : Config :=
  { NumInputs := 1, NumOutputs := 1, NumHidden := 1, InitialTopology := EInitialTopology.Full }

/-- Spec side, the id discipline with room for `n` more ids: the registry has
    handed out the ids from `Start` up to a counter value `c` that is still `n`
    short of the end of the `uint64` range. -/
def Genotype.IdsKept (Start n : Nat) (t : InnovationTracker) (g : Genotype) : Prop :=
  ∃ c, RegistryInv Start c t ∧ c + n ≤ 2 ^ 64 ∧ g.IdsSeparated Start t

/-! ### Species.cpp, Trainer.cpp: the division of the population into species -/

/-- What `Trainer::SpeciatePopulation_Method1` reads and writes: the trainer,
    the static counter `NextSpeciesID` of `Species.cpp`, an `unsigned`, and the
    coming values of `rand()`. The statistics `AverageDistance` and
    `DistanceCalculations` it leaves behind are not kept. -/
structure Speciation where
  This : Trainer := {}
  NextSpeciesID : Nat := 0
  Rand : List Nat := []

/-- The constructor of `Species`: the representative is the genome given, and
    `ID(++NextSpeciesID)`; the new value of the counter is the `ID`. -/
def Species.Create (InRepresentative NextSpeciesID : Nat) : Species :=
  { Representative := some InRepresentative, ID := (NextSpeciesID + 1) % 2 ^ 32 }

/-- The member function `Species::AddGenome`. -/
def Species.AddGenome (Specie : Species) (Genome : Nat) : Species :=
  { Specie with Genomes := Specie.Genomes ++ [Genome] }

/-- The member function `Species::GetRandomGenome`. -/
def Species.GetRandomGenome (Specie : Species) (Rand : List Nat) :
    Except Fault (Option Nat × List Nat) :=
  if Specie.Genomes.isEmpty then Except.ok (none, Rand)
  else
    match GetRandomInt 0 ((Specie.Genomes.length : Int) - 1) Rand with
    | Except.error e => Except.error e
    | Except.ok (RandomIndex, rest) =>
      Except.ok (some (Specie.Genomes.getD RandomIndex.toNat 0), rest)

/-- The member function `Species::GetBestGenome`; `DBL_MAX` is
    `std::numeric_limits<double>::max()`. -/
def Species.GetBestGenome (DBL_MAX : ℚ) (Memory : Nat → Genome) (Specie : Species) :
    Option Nat :=
  if Specie.Genomes.isEmpty then none
  else
    (Specie.Genomes.foldl
      (fun (Best : Option Nat × ℚ) Genome =>
        if (Memory Genome).Fitness > Best.2 then (some Genome, (Memory Genome).Fitness)
        else Best)
      (none, -DBL_MAX)).1

/-- The statement `Genome->SpeciesID = ID` on the genome behind a pointer. -/
def Trainer.SetSpeciesID (Memory : Nat → Genome) (Address ID : Nat) : Nat → Genome :=
  Function.update Memory Address { Memory Address with SpeciesID := ID }

/-- The four statements that open a species for a genome, the same at the head
    of `SpeciatePopulation_Method1` and in its loop: construct the species with
    the genome as representative, `AddGenome`, set the `SpeciesID` of the
    genome, and add the species to the array. -/
def Trainer.Found (s : Speciation) (Genome : Nat) : Speciation :=
  let NewSpecies := (Species.Create Genome s.NextSpeciesID).AddGenome Genome
  { s with
    This := { s.This with
      Species := s.This.Species ++ [NewSpecies],
      Memory := Trainer.SetSpeciesID s.This.Memory Genome NewSpecies.ID },
    NextSpeciesID := NewSpecies.ID }

/-- The body of the first loop of `SpeciatePopulation_Method1`: a species with
    members takes its best or a random member as representative, and every
    species loses its members. -/
def Trainer.UpdateRepresentative (DBL_MAX : ℚ) (cfg : Config) (Memory : Nat → Genome)
    (Specie : NEAT.Species) (Rand : List Nat) : Except Fault (NEAT.Species × List Nat) :=
  if !Specie.Genomes.isEmpty then
    if cfg.ChooseBestRepresentative then
      Except.ok
        ({ Specie with
            Representative := Specie.GetBestGenome DBL_MAX Memory, Genomes := [] }, Rand)
    else
      match Specie.GetRandomGenome Rand with
      | Except.error e => Except.error e
      | Except.ok (Genome, rest) =>
        Except.ok ({ Specie with Representative := Genome, Genomes := [] }, rest)
  else Except.ok ({ Specie with Genomes := [] }, Rand)

/-- The first loop of `SpeciatePopulation_Method1`, over the species in the
    order of the array. -/
def Trainer.UpdateRepresentatives (DBL_MAX : ℚ) (cfg : Config) (Memory : Nat → Genome) :
    List NEAT.Species → List Nat → Except Fault (List NEAT.Species × List Nat)
  | [], Rand => Except.ok ([], Rand)
  | Specie :: Others, Rand =>
    match Trainer.UpdateRepresentative DBL_MAX cfg Memory Specie Rand with
    | Except.error e => Except.error e
    | Except.ok (Specie2, Rand2) =>
      match Trainer.UpdateRepresentatives DBL_MAX cfg Memory Others Rand2 with
      | Except.error e => Except.error e
      | Except.ok (Others2, Rand3) => Except.ok (Specie2 :: Others2, Rand3)

/-- The two statements `Distance = Distance::Calculate(Specie->Representative,
    Genome, Config)` and `Distance < Config->SpeciationDistanceThreshold`.
    `Euclidean` dereferences the representative, the other two methods do not
    look at the genomes. The comparison for a distance that is not finite, true
    for the negative infinity only, is the parameter `NonFinite` of the two
    genotypes. -/
def Trainer.IsNear (pow : ℚ → ℚ → ℚ) (NonFinite : Genotype → Genotype → Bool) (cfg : Config)
    (Memory : Nat → Genome) (Representative : Option Nat) (Genome : Nat) : Except Fault Bool :=
  match Representative with
  | none =>
    match cfg.DistanceMethod with
    | EDistance.Euclidean => Except.error Fault.NullDereference
    | EDistance.Manhattan =>
      Except.ok (decide ((0 : ℚ) < cfg.SpeciationDistanceThreshold))
    | EDistance.Chebyshev =>
      Except.ok (decide ((0 : ℚ) < cfg.SpeciationDistanceThreshold))
  | some Address =>
    match Distance.Calculate pow (Memory Address) (Memory Genome) cfg with
    | Except.error e => Except.error e
    | Except.ok (some Distance) =>
      Except.ok (decide (Distance < cfg.SpeciationDistanceThreshold))
    | Except.ok none =>
      Except.ok (NonFinite (Memory Address).Genotype (Memory Genome).Genotype)

/-- The inner loop of `SpeciatePopulation_Method1`: the index of the first
    species of the array near the genome, if there is one. -/
def Trainer.FindSpecies (pow : ℚ → ℚ → ℚ) (NonFinite : Genotype → Genotype → Bool)
    (cfg : Config) (Memory : Nat → Genome) (Genome : Nat) :
    List NEAT.Species → Except Fault (Option Nat)
  | [] => Except.ok none
  | Specie :: Others =>
    match Trainer.IsNear pow NonFinite cfg Memory Specie.Representative Genome with
    | Except.error e => Except.error e
    | Except.ok true => Except.ok (some 0)
    | Except.ok false =>
      match Trainer.FindSpecies pow NonFinite cfg Memory Genome Others with
      | Except.error e => Except.error e
      | Except.ok Idx => Except.ok (Idx.map (fun i => i + 1))

/-- The body of the second loop of `SpeciatePopulation_Method1` for the genome
    `Population[i]`. -/
def Trainer.Place (pow : ℚ → ℚ → ℚ) (NonFinite : Genotype → Genotype → Bool) (cfg : Config)
    (s : Speciation) (Genome : Nat) : Except Fault Speciation :=
  match Trainer.FindSpecies pow NonFinite cfg s.This.Memory Genome s.This.Species with
  | Except.error e => Except.error e
  | Except.ok (some Idx) =>
    Except.ok
      { s with
        This := { s.This with
          Species := s.This.Species.modify (fun Specie => Specie.AddGenome Genome) Idx,
          Memory := Trainer.SetSpeciesID s.This.Memory Genome (s.This.Species.getD Idx {}).ID } }
  | Except.ok none => Except.ok (Trainer.Found s Genome)

/-- The member function `Trainer::SpeciatePopulation_Method1`. `Population[0]`
    is read in a population that is not empty. -/
def Trainer.SpeciatePopulation_Method1 (pow : ℚ → ℚ → ℚ)
    (NonFinite : Genotype → Genotype → Bool) (DBL_MAX : ℚ) (cfg : Config) (s : Speciation) :
    Except Fault Speciation :=
  let bNoSpecies := s.This.Species.isEmpty
  let s1 := if bNoSpecies then Trainer.Found s (s.This.Population.getD 0 0) else s
  match Trainer.UpdateRepresentatives DBL_MAX cfg s1.This.Memory s1.This.Species s1.Rand with
  | Except.error e => Except.error e
  | Except.ok (Species2, Rand2) =>
    (s1.This.Population.drop (if bNoSpecies then 1 else 0)).foldlM
      (Trainer.Place pow NonFinite cfg)
      { s1 with This := { s1.This with Species := Species2 }, Rand := Rand2 }

/-- A trainer without species and with three genomes: the one at address 1 has
    the genes of the one at 0, the one at 2 has none of them. -/
def threeGenomes : Speciation :=
  { This :=
      { Population := [0, 1, 2],
        Memory := fun a => if a = 2 then {} else sampleGenome },
    Rand := [5] }

/-- Spec side: the genome `Genome` sits in the species at index `j` of the
    array, and in no other; its `SpeciesID` is the `ID` of that species; no
    species before `j` is near the genome; and species `j` is near it, or is one
    opened by this run (its index is `Opened` or more) with the genome as
    representative. Distances are those of the genotypes in `Memory0`. -/
def Trainer.Placed (pow : ℚ → ℚ → ℚ) (NonFinite : Genotype → Genotype → Bool) (cfg : Config)
    (Memory0 : Nat → Genome) (Opened : Nat) (t : Trainer) (Genome j : Nat) : Prop :=
  (∀ k, k < t.Species.length → (Genome ∈ (t.Species.getD k {}).Genomes ↔ k = j)) ∧
  (t.Memory Genome).SpeciesID = (t.Species.getD j {}).ID ∧
  (∀ k, k < j →
    Trainer.IsNear pow NonFinite cfg Memory0 (t.Species.getD k {}).Representative Genome =
      Except.ok false) ∧
  (Trainer.IsNear pow NonFinite cfg Memory0 (t.Species.getD j {}).Representative Genome =
      Except.ok true ∨
    (Opened ≤ j ∧ (t.Species.getD j {}).Representative = some Genome))

/-- Spec side: what holds between two rounds of the second loop of
    `SpeciatePopulation_Method1`, when the genomes `Done` have been through it. -/
def Trainer.Speciated (pow : ℚ → ℚ → ℚ) (NonFinite : Genotype → Genotype → Bool)
    (cfg : Config) (Memory0 : Nat → Genome) (Opened : Nat) (t : Trainer) (Done : List Nat) :
    Prop :=
  (∀ a, (t.Memory a).Genotype = (Memory0 a).Genotype) ∧
  (∀ k, k < t.Species.length → (t.Species.getD k {}).Representative ≠ none) ∧
  (∀ k, k < t.Species.length → ∀ g ∈ (t.Species.getD k {}).Genomes, g ∈ Done) ∧
  (∀ k, k < t.Species.length → (t.Species.getD k {}).Genomes.Nodup) ∧
  (∀ g ∈ Done, ∃ j, j < t.Species.length ∧
    Trainer.Placed pow NonFinite cfg Memory0 Opened t g j) ∧
  Opened ≤ t.Species.length

/-! ## Theorems -/

theorem lookupEntry_insert_self {V : Type} (k : Nat) (v : V) (l : List (Nat × V)) :
    lookupEntry k (insertEntry k v l) = some v := by
  induction l with
  | nil => simp [insertEntry, lookupEntry]
  | cons e t ih =>
    unfold insertEntry
    split_ifs with h1 h2
    · simp [lookupEntry]
    · simp [lookupEntry]
    · simp [lookupEntry, h2, ih]

theorem lookupEntry_insert_ne {V : Type} (k j : Nat) (v : V) (l : List (Nat × V))
    (hj : j ≠ k) : lookupEntry j (insertEntry k v l) = lookupEntry j l := by
  induction l with
  | nil => simp [insertEntry, lookupEntry, Ne.symm hj]
  | cons e t ih =>
    unfold insertEntry
    split_ifs with h1 h2
    · simp [lookupEntry, Ne.symm hj]
    · have : e.1 ≠ j := by rw [h2]; exact Ne.symm hj
      simp [lookupEntry, Ne.symm hj, this]
    · simp [lookupEntry, ih]

theorem lookupEntry_none_of_lt {V : Type} (k : Nat) (l : List (Nat × V))
    (h : ∀ b ∈ l, k < b.1) : lookupEntry k l = none := by
  induction l with
  | nil => rfl
  | cons e t ih =>
    have he : e.1 ≠ k := ne_of_gt (h e (List.mem_cons_self _ _))
    simp [lookupEntry, he, ih (fun b hb => h b (List.mem_cons_of_mem _ hb))]

theorem lookupEntry_filter {V : Type} (p : Nat × V → Bool) (k : Nat) (l : List (Nat × V))
    (hl : l.Pairwise (fun a b => a.1 < b.1)) :
    lookupEntry k (l.filter p) = (lookupEntry k l).filter (fun v => p (k, v)) := by
  induction l with
  | nil => simp [lookupEntry]
  | cons e t ih =>
    rw [List.pairwise_cons] at hl
    by_cases hk : e.1 = k
    · have hnone : lookupEntry k (t.filter p) = none :=
        lookupEntry_none_of_lt k _ (fun b hb => hk ▸ hl.1 b (List.mem_of_mem_filter hb))
      have he : e = (k, e.2) := by rw [← hk]
      by_cases hp : p e = true
      · have hp2 : p (k, e.2) = true := by rw [← he]; exact hp
        simp [List.filter_cons, hp, lookupEntry, hk, hp2, Option.filter]
      · have hp2 : p (k, e.2) = false := by rw [← he]; simpa using hp
        simp [List.filter_cons, hp, lookupEntry, hk, hp2, hnone, Option.filter]
    · by_cases hp : p e = true
      · simp [List.filter_cons, hp, lookupEntry, hk, ih hl.2]
      · simp [List.filter_cons, hp, lookupEntry, hk, ih hl.2]

theorem lookupEntry_of_mem {V : Type} (l : List (Nat × V))
    (hl : l.Pairwise (fun a b => a.1 < b.1)) (e : Nat × V) (he : e ∈ l) :
    lookupEntry e.1 l = some e.2 := by
  induction l with
  | nil => cases he
  | cons a t ih =>
    rw [List.pairwise_cons] at hl
    rcases List.mem_cons.1 he with h | h
    · simp [lookupEntry, h]
    · have : a.1 ≠ e.1 := ne_of_lt (hl.1 e h)
      simp [lookupEntry, this, ih hl.2 h]

theorem mem_of_lookupEntry {V : Type} (l : List (Nat × V)) (k : Nat) (v : V)
    (h : lookupEntry k l = some v) : (k, v) ∈ l := by
  induction l with
  | nil => cases h
  | cons a t ih =>
    unfold lookupEntry at h
    split_ifs at h with h1
    · have hv : a.2 = v := by simpa using h
      have : a = (k, v) := by rw [← h1, ← hv]
      simp [this]
    · exact List.mem_cons_of_mem _ (ih h)

theorem eraseEntry_lookup {V : Type} (k j : Nat) (l : List (Nat × V))
    (hl : l.Pairwise (fun a b => a.1 < b.1)) :
    lookupEntry j (eraseEntry k l) = if j = k then none else lookupEntry j l := by
  unfold eraseEntry
  rw [lookupEntry_filter _ j l hl]
  by_cases h : j = k
  · cases hx : lookupEntry j l <;> simp [h, Option.filter]
  · cases hx : lookupEntry j l <;> simp [h, Option.filter]

namespace TMap

variable {V : Type}

theorem ext_entries {a b : TMap V} (h : a.entries = b.entries) : a = b := by
  cases a; cases b; cases h; rfl

theorem Find_Add_self (m : TMap V) (k : Nat) (v : V) : (m.Add k v).Find k = some v :=
  lookupEntry_insert_self k v m.entries

theorem Find_Add_ne (m : TMap V) (k j : Nat) (v : V) (h : j ≠ k) :
    (m.Add k v).Find j = m.Find j :=
  lookupEntry_insert_ne k j v m.entries h

theorem Find_Add (m : TMap V) (k j : Nat) (v : V) :
    (m.Add k v).Find j = if j = k then some v else m.Find j := by
  by_cases h : j = k
  · simp [h, Find_Add_self]
  · simp [h, Find_Add_ne m k j v h]

theorem Find_Remove (m : TMap V) (k j : Nat) :
    (m.Remove k).Find j = if j = k then none else m.Find j :=
  eraseEntry_lookup k j m.entries m.ascending

theorem Find_FilterByPredicate (m : TMap V) (p : Nat × V → Bool) (k : Nat) :
    (m.FilterByPredicate p).Find k = (m.Find k).filter (fun v => p (k, v)) :=
  lookupEntry_filter p k m.entries m.ascending

theorem Find_empty (k : Nat) : (empty : TMap V).Find k = none := rfl

theorem mem_entries_iff (m : TMap V) (k : Nat) (v : V) :
    (k, v) ∈ m.entries ↔ m.Find k = some v :=
  ⟨fun h => lookupEntry_of_mem m.entries m.ascending (k, v) h,
   fun h => mem_of_lookupEntry m.entries k v h⟩

theorem Contains_iff (m : TMap V) (k : Nat) : m.Contains k = true ↔ ∃ v, m.Find k = some v := by
  simp [Contains, Option.isSome_iff_exists]

theorem mem_GetKeys_iff (m : TMap V) (k : Nat) : k ∈ m.GetKeys ↔ ∃ v, m.Find k = some v := by
  constructor
  · intro h
    rcases List.mem_map.1 h with ⟨e, he, hk⟩
    exact ⟨e.2, hk ▸ lookupEntry_of_mem m.entries m.ascending e he⟩
  · rintro ⟨v, hv⟩
    exact List.mem_map.2 ⟨(k, v), (mem_entries_iff m k v).2 hv, rfl⟩

end TMap

theorem Innovation.Matches_iff (r : Innovation) (m : EMutationType) (g : EGeneType)
    (i o : Nat) : r.Matches m g i o = true ↔ r.Tuple = (m, g, i, o) := by
  simp [Innovation.Matches, Innovation.Tuple, and_assoc]

theorem find?_first {α : Type} (p : α → Bool) (l : List α) (x : α)
    (h : l.find? p = some x) :
    ∃ l1 l2, l = l1 ++ x :: l2 ∧ p x = true ∧ ∀ y ∈ l1, p y = false := by
  induction l with
  | nil => cases h
  | cons a t ih =>
    rw [List.find?_cons] at h
    cases hp : p a with
    | true =>
      rw [hp] at h
      have hx : a = x := by simpa using h
      exact ⟨[], t, by simp [hx], hx ▸ hp, by simp⟩
    | false =>
      rw [hp] at h
      rcases ih h with ⟨l1, l2, hl, hpx, hall⟩
      refine ⟨a :: l1, l2, by simp [hl], hpx, ?_⟩
      intro y hy
      rcases List.mem_cons.1 hy with h1 | h1
      · rw [h1]; exact hp
      · exact hall y h1

theorem GetInnovationID_found (t : InnovationTracker) (m : EMutationType) (g : EGeneType)
    (i o : Nat) (hex : ∃ k r, t.Innovations.Find k = some r ∧ r.Tuple = (m, g, i, o)) :
    ∃ k r, t.Innovations.Find k = some r ∧ r.Tuple = (m, g, i, o) ∧
      (∀ j r2, j < k → t.Innovations.Find j = some r2 → r2.Tuple ≠ (m, g, i, o)) ∧
      t.GetInnovationID m g i o = (r.ID, t) := by
  obtain ⟨k, r, hk, hr⟩ := hex
  cases hf : t.Innovations.entries.find? (fun p => p.2.Matches m g i o) with
  | none =>
    exfalso
    have := List.find?_eq_none.1 hf (k, r) ((TMap.mem_entries_iff _ k r).2 hk)
    exact this ((Innovation.Matches_iff r m g i o).2 hr)
  | some p =>
    rcases find?_first _ _ _ hf with ⟨l1, l2, hl, hp, hall⟩
    have hmem : (p.1, p.2) ∈ t.Innovations.entries := by rw [hl]; simp
    refine ⟨p.1, p.2, (TMap.mem_entries_iff _ _ _).1 hmem,
      (Innovation.Matches_iff _ m g i o).1 hp, ?_, ?_⟩
    · intro j r2 hj hj2 htup
      have hmem2 : (j, r2) ∈ t.Innovations.entries := (TMap.mem_entries_iff _ _ _).2 hj2
      rw [hl] at hmem2
      have hasc := t.Innovations.ascending
      rw [hl, List.pairwise_append] at hasc
      rcases List.mem_append.1 hmem2 with h1 | h1
      · have := hall (j, r2) h1
        rw [(Innovation.Matches_iff r2 m g i o).2 htup] at this
        cases this
      · rcases List.mem_cons.1 h1 with h2 | h2
        · have : j = p.1 := by rw [← h2]
          omega
        · have := (List.pairwise_cons.1 hasc.2.1).1 (j, r2) h2
          simp at this
          omega
    · simp [InnovationTracker.GetInnovationID, hf]

theorem GetInnovationID_fresh (t : InnovationTracker) (m : EMutationType) (g : EGeneType)
    (i o : Nat) (hno : ¬ ∃ k r, t.Innovations.Find k = some r ∧ r.Tuple = (m, g, i, o)) :
    t.GetInnovationID m g i o =
      (t.NextInnovationID,
        { NextInnovationID := (t.NextInnovationID + 1) % 2 ^ 64
          Innovations := t.Innovations.Add t.NextInnovationID
            { ID := t.NextInnovationID, MutationType := m, GeneType := g,
              Input := i, Output := o } }) := by
  have hf : t.Innovations.entries.find? (fun p => p.2.Matches m g i o) = none := by
    rw [List.find?_eq_none]
    intro x hx hm
    exact hno ⟨x.1, x.2, (TMap.mem_entries_iff _ _ _).1 hx,
      (Innovation.Matches_iff _ m g i o).1 hm⟩
  simp [InnovationTracker.GetInnovationID, hf, UINT64_RANGE]

/-- C1. `GetInnovationID(m, g, in, out)`: when some record of the registry has the
    four-tuple `(m, g, in, out)`, the call returns the `ID` of such a record (the
    one with the least key) and the registry, counter included, is unchanged;
    when no record has it, the call returns the counter `n`, stores the record
    `{n, m, g, in, out}` under key `n` and advances the counter by one (as a
    `uint64`; this is `n + 1` whenever `n + 1` is representable). -/
theorem GetInnovationID_contract (t : InnovationTracker) (m : EMutationType) (g : EGeneType)
    (i o : Nat) :
    ((∃ k r, t.Innovations.Find k = some r ∧ r.Tuple = (m, g, i, o)) →
      ∃ k r, t.Innovations.Find k = some r ∧ r.Tuple = (m, g, i, o) ∧
        (∀ j r2, j < k → t.Innovations.Find j = some r2 → r2.Tuple ≠ (m, g, i, o)) ∧
        t.GetInnovationID m g i o = (r.ID, t)) ∧
    ((¬ ∃ k r, t.Innovations.Find k = some r ∧ r.Tuple = (m, g, i, o)) →
      (t.GetInnovationID m g i o).1 = t.NextInnovationID ∧
      (t.GetInnovationID m g i o).2.Innovations =
        t.Innovations.Add t.NextInnovationID
          { ID := t.NextInnovationID, MutationType := m, GeneType := g, Input := i, Output := o } ∧
      (t.GetInnovationID m g i o).2.NextInnovationID = (t.NextInnovationID + 1) % 2 ^ 64 ∧
      (t.NextInnovationID + 1 < 2 ^ 64 →
        (t.GetInnovationID m g i o).2.NextInnovationID = t.NextInnovationID + 1)) := by
  constructor
  · intro hex
    exact GetInnovationID_found t m g i o hex
  · intro hno
    rw [GetInnovationID_fresh t m g i o hno]
    refine ⟨rfl, rfl, rfl, ?_⟩
    intro hlt
    exact Nat.mod_eq_of_lt hlt

theorem Knows_iff (t : InnovationTracker) (q : Request) :
    t.Knows q = true ↔ ∃ k r, t.Innovations.Find k = some r ∧ r.Tuple = q := by
  unfold InnovationTracker.Knows
  rw [List.any_eq_true]
  constructor
  · rintro ⟨p, hp, hq⟩
    exact ⟨p.1, p.2, (TMap.mem_entries_iff _ _ _).1 hp, by simpa using hq⟩
  · rintro ⟨k, r, hk, hr⟩
    exact ⟨(k, r), (TMap.mem_entries_iff _ _ _).2 hk, by simpa using hr⟩

theorem GetInnovationID_step (s c : Nat) (t : InnovationTracker) (q : Request)
    (hinv : RegistryInv s c t) (hc : t.Knows q = false → c < 2 ^ 64) :
    ∃ c2, (c2 = c ∨ (t.Knows q = false ∧ c2 = c + 1)) ∧
      RegistryInv s c2 (t.GetInnovationID q.1 q.2.1 q.2.2.1 q.2.2.2).2 ∧
      (∀ k r, t.Innovations.Find k = some r →
        (t.GetInnovationID q.1 q.2.1 q.2.2.1 q.2.2.2).2.Innovations.Find k = some r) ∧
      ∃ r, (t.GetInnovationID q.1 q.2.1 q.2.2.1 q.2.2.2).2.Innovations.Find
          (t.GetInnovationID q.1 q.2.1 q.2.2.1 q.2.2.2).1 = some r ∧
        r.ID = (t.GetInnovationID q.1 q.2.1 q.2.2.1 q.2.2.2).1 ∧ r.Tuple = q := by
  have hknows := Knows_iff t q
  obtain ⟨m, g, i, o⟩ := q
  obtain ⟨hnext, hsc, hcle, hkeys, huniq⟩ := hinv
  by_cases hex : ∃ k r, t.Innovations.Find k = some r ∧ r.Tuple = (m, g, i, o)
  · obtain ⟨k, r, hk, hr, _, heq⟩ := GetInnovationID_found t m g i o hex
    refine ⟨c, Or.inl rfl, ?_, ?_, ?_⟩
    · simp only [heq]
      exact ⟨hnext, hsc, hcle, hkeys, huniq⟩
    · intro k2 r2 h2
      simp only [heq]
      exact h2
    · refine ⟨r, ?_, ?_, hr⟩
      · simp only [heq]
        rw [(hkeys k r hk).1]
        exact hk
      · simp only [heq]
  · have hunknown : t.Knows (m, g, i, o) = false := by
      cases hb : t.Knows (m, g, i, o) with
      | false => rfl
      | true => exact absurd (hknows.1 hb) hex
    have hc2 := hc hunknown
    have hn : t.NextInnovationID = c := by rw [hnext]; exact Nat.mod_eq_of_lt hc2
    simp only
    rw [GetInnovationID_fresh t m g i o hex]
    simp only
    refine ⟨c + 1, Or.inr ⟨hunknown, rfl⟩, ⟨?_, ?_, ?_, ?_, ?_⟩, ?_, ?_⟩
    · show (t.NextInnovationID + 1) % 2 ^ 64 = (c + 1) % 2 ^ 64
      rw [hn]
    · omega
    · omega
    · intro k r hk
      rw [TMap.Find_Add] at hk
      split_ifs at hk with hkn
      · have : r = ⟨t.NextInnovationID, m, g, i, o⟩ := by simpa using hk.symm
        subst this
        simp only
        omega
      · have := hkeys k r hk
        omega
    · intro k1 k2 r1 r2 hk1 hk2 htup
      rw [TMap.Find_Add] at hk1 hk2
      split_ifs at hk1 hk2 with e1 e2 e2
      · omega
      · exfalso
        have : r1 = ⟨t.NextInnovationID, m, g, i, o⟩ := by simpa using hk1.symm
        subst this
        exact hex ⟨k2, r2, hk2, htup.symm⟩
      · exfalso
        have : r2 = ⟨t.NextInnovationID, m, g, i, o⟩ := by simpa using hk2.symm
        subst this
        exact hex ⟨k1, r1, hk1, htup⟩
      · exact huniq k1 k2 r1 r2 hk1 hk2 htup
    · intro k r hk
      have hlt := (hkeys k r hk).2.2
      rw [TMap.Find_Add_ne _ _ _ _ (by omega)]
      exact hk
    · exact ⟨_, TMap.Find_Add_self _ _ _, rfl, rfl⟩

theorem Serve_invariant (s : Nat) (qs : List Request) :
    ∀ (c : Nat) (t : InnovationTracker), RegistryInv s c t →
      c + (qs.toFinset.filter (fun q => t.Knows q = false)).card ≤ 2 ^ 64 →
      (∃ c2, RegistryInv s c2 (t.Serve qs).2) ∧
      (∀ k r, t.Innovations.Find k = some r → (t.Serve qs).2.Innovations.Find k = some r) ∧
      (∀ (a : Nat) (q : Request), qs[a]? = some q → ∃ id r, (t.Serve qs).1[a]? = some id ∧
        (t.Serve qs).2.Innovations.Find id = some r ∧ r.ID = id ∧ r.Tuple = q) := by
  induction qs with
  | nil =>
    intro c t hinv _
    exact ⟨⟨c, hinv⟩, fun k r h => h, fun a q h => by simp at h⟩
  | cons q qs ih =>
    intro c t hinv hlen
    rw [List.toFinset_cons] at hlen
    have hqmem : t.Knows q = false →
        q ∈ (insert q qs.toFinset).filter (fun q => t.Knows q = false) := by
      intro hq
      exact Finset.mem_filter.2 ⟨Finset.mem_insert_self _ _, hq⟩
    obtain ⟨c2, hc2, hinv2, hmono, r0, hr0, hid0, htup0⟩ :=
      GetInnovationID_step s c t q hinv (by
        intro hq
        have := Finset.card_pos.2 ⟨q, hqmem hq⟩
        omega)
    have hknows2 : (t.GetInnovationID q.1 q.2.1 q.2.2.1 q.2.2.2).2.Knows q = true :=
      (Knows_iff _ _).2 ⟨_, r0, hr0, htup0⟩
    have hsub : qs.toFinset.filter
        (fun x => (t.GetInnovationID q.1 q.2.1 q.2.2.1 q.2.2.2).2.Knows x = false) ⊆
        ((insert q qs.toFinset).filter (fun x => t.Knows x = false)).erase q := by
      intro x hx
      obtain ⟨hxs, hxk⟩ := Finset.mem_filter.1 hx
      have hne : x ≠ q := by
        intro e; rw [e, hknows2] at hxk; cases hxk
      refine Finset.mem_erase.2 ⟨hne, Finset.mem_filter.2 ⟨Finset.mem_insert_of_mem hxs, ?_⟩⟩
      cases hb : t.Knows x with
      | false => rfl
      | true =>
        obtain ⟨k, r, hk, hr⟩ := (Knows_iff t x).1 hb
        have := (Knows_iff _ x).2 ⟨k, r, hmono k r hk, hr⟩
        rw [this] at hxk; cases hxk
    have hcard := Finset.card_le_card hsub
    have hbudget : c2 + (qs.toFinset.filter
        (fun x => (t.GetInnovationID q.1 q.2.1 q.2.2.1 q.2.2.2).2.Knows x = false)).card
        ≤ 2 ^ 64 := by
      rcases hc2 with h1 | ⟨hq, h1⟩
      · have := Finset.card_erase_le (s := (insert q qs.toFinset).filter
          (fun x => t.Knows x = false)) (a := q)
        omega
      · have := Finset.card_erase_add_one (hqmem hq)
        omega
    obtain ⟨hI, hM, hA⟩ := ih c2 _ hinv2 hbudget
    refine ⟨hI, fun k r h => hM k r (hmono k r h), ?_⟩
    intro a q2 ha
    cases a with
    | zero =>
      have hq : q = q2 := by simpa using ha
      subst hq
      exact ⟨_, r0, by simp [InnovationTracker.Serve], hM _ _ hr0, hid0, htup0⟩
    | succ a =>
      have ha2 : qs[a]? = some q2 := by simpa using ha
      obtain ⟨id, r, h1, h2, h3, h4⟩ := hA a q2 ha2
      exact ⟨id, r, by simpa [InnovationTracker.Serve] using h1, h2, h3, h4⟩

theorem Serve_length (qs : List Request) :
    ∀ t : InnovationTracker, (t.Serve qs).1.length = qs.length := by
  induction qs with
  | nil => intro t; rfl
  | cons q qs ih => intro t; simp [InnovationTracker.Serve, ih]

/-- C1, at concrete registries: a matching record answers with its `ID` and the
    registry is left alone; without a match the counter value 7 is handed out. -/
theorem GetInnovationID_contract_witness :
    (∃ k r, oneRecordTracker.Innovations.Find k = some r ∧
        r.Tuple = (EMutationType.AddNode, EGeneType.Node, 1, 2) ∧
        (∀ j r2, j < k → oneRecordTracker.Innovations.Find j = some r2 →
          r2.Tuple ≠ (EMutationType.AddNode, EGeneType.Node, 1, 2)) ∧
        oneRecordTracker.GetInnovationID EMutationType.AddNode EGeneType.Node 1 2
          = (r.ID, oneRecordTracker)) ∧
    ((oneRecordTracker.GetInnovationID EMutationType.AddNode EGeneType.Node 1 3).1 = 7 ∧
      (oneRecordTracker.GetInnovationID EMutationType.AddNode EGeneType.Node 1 3).2.Innovations =
        oneRecordTracker.Innovations.Add 7 ⟨7, EMutationType.AddNode, EGeneType.Node, 1, 3⟩ ∧
      (oneRecordTracker.GetInnovationID EMutationType.AddNode EGeneType.Node 1 3).2.NextInnovationID
        = (7 + 1) % 2 ^ 64 ∧
      (7 + 1 < 2 ^ 64 →
        (oneRecordTracker.GetInnovationID EMutationType.AddNode EGeneType.Node 1 3).2.NextInnovationID
          = 7 + 1)) :=
  ⟨(GetInnovationID_contract oneRecordTracker EMutationType.AddNode EGeneType.Node 1 2).1
      ⟨5, ⟨5, EMutationType.AddNode, EGeneType.Node, 1, 2⟩, by decide, by decide⟩,
   (GetInnovationID_contract oneRecordTracker EMutationType.AddNode EGeneType.Node 1 3).2 (by
      rintro ⟨k, r, hk, hr⟩
      have hmem := (TMap.mem_entries_iff _ k r).2 hk
      have hr2 : r = ⟨5, EMutationType.AddNode, EGeneType.Node, 1, 2⟩ := by
        have : (k, r) = (5, (⟨5, EMutationType.AddNode, EGeneType.Node, 1, 2⟩ : Innovation)) := by
          simpa [oneRecordTracker, TMap.Add, TMap.empty, insertEntry] using hmem
        exact (Prod.mk.inj this).2
      subst hr2
      revert hr
      decide)⟩

/-- C2, as stated, fails at the top of the `uint64` range: after
    `Reset(2^64 - 1)` the first of two different calls gets `2^64 - 1`, the
    counter wraps to 0, and the second call gets the id 0, below the start. -/
theorem Serve_wraps_below_start :
    ((freshTracker.Reset (2 ^ 64 - 1)).Serve twoCalls).1 = [2 ^ 64 - 1, 0] ∧
    ∃ id ∈ ((freshTracker.Reset (2 ^ 64 - 1)).Serve twoCalls).1, ¬ (2 ^ 64 - 1 ≤ id) := by
  decide

/-- C2, amended. For every start value `s` and every sequence of
    `GetInnovationID` calls made after `Reset(s)` that cannot wrap the counter
    (`s` plus the number of different four-tuples among the calls is at most
    `2^64`): every returned id is at least `s`; two calls return the same id if and only if their four-tuples are
    equal; every record of the registry is keyed by its own `ID`; and no two
    records share a four-tuple. -/
theorem Serve_after_Reset (t0 : InnovationTracker) (s : Nat) (qs : List Request)
    (hfit : s + qs.dedup.length ≤ 2 ^ 64) :
    (∀ id ∈ ((t0.Reset s).Serve qs).1, s ≤ id) ∧
    (∀ (a b : Nat) (qa qb : Request), qs[a]? = some qa → qs[b]? = some qb →
      ∃ ia ib, ((t0.Reset s).Serve qs).1[a]? = some ia ∧
        ((t0.Reset s).Serve qs).1[b]? = some ib ∧ (ia = ib ↔ qa = qb)) ∧
    (∀ k r, ((t0.Reset s).Serve qs).2.Innovations.Find k = some r → r.ID = k) ∧
    (∀ k1 k2 r1 r2, ((t0.Reset s).Serve qs).2.Innovations.Find k1 = some r1 →
      ((t0.Reset s).Serve qs).2.Innovations.Find k2 = some r2 →
      r1.Tuple = r2.Tuple → k1 = k2) := by
  cases qs with
  | nil =>
    refine ⟨by simp [InnovationTracker.Serve], by simp, ?_, ?_⟩
    · intro k r h
      simp [InnovationTracker.Serve, InnovationTracker.Reset, TMap.Find_empty] at h
    · intro k1 k2 r1 r2 h
      simp [InnovationTracker.Serve, InnovationTracker.Reset, TMap.Find_empty] at h
  | cons q0 qs0 =>
    have hpos : 0 < (q0 :: qs0).dedup.length := by
      apply List.length_pos.2
      intro e
      have := (List.dedup_eq_nil _).1 e
      cases this
    have hs : s < 2 ^ 64 := by omega
    have hbudget : s + ((q0 :: qs0).toFinset.filter
        (fun q => (t0.Reset s).Knows q = false)).card ≤ 2 ^ 64 := by
      have h1 := Finset.card_filter_le (q0 :: qs0).toFinset
        (fun q => (t0.Reset s).Knows q = false)
      rw [List.card_toFinset] at h1
      omega
    have hinv : RegistryInv s s (t0.Reset s) :=
      ⟨(Nat.mod_eq_of_lt hs).symm, le_refl _, le_of_lt hs,
        fun k r h => by simp [InnovationTracker.Reset, TMap.Find_empty] at h,
        fun k1 k2 r1 r2 h => by simp [InnovationTracker.Reset, TMap.Find_empty] at h⟩
    obtain ⟨⟨c2, hI⟩, _, hA⟩ := Serve_invariant s (q0 :: qs0) s _ hinv hbudget
    obtain ⟨_, _, _, hkeys, huniq⟩ := hI
    refine ⟨?_, ?_, fun k r h => (hkeys k r h).1, huniq⟩
    · intro id hid
      obtain ⟨a, ha, hget⟩ := List.getElem_of_mem hid
      rw [Serve_length] at ha
      obtain ⟨id2, r, h1, h2, _, _⟩ := hA a _ (List.getElem?_eq_getElem ha)
      rw [List.getElem?_eq_getElem (by rw [Serve_length]; exact ha), hget] at h1
      have : id = id2 := by simpa using h1
      subst this
      exact (hkeys id r h2).2.1
    · intro a b qa qb ha hb
      obtain ⟨ia, ra, h1, h2, h3, h4⟩ := hA a qa ha
      obtain ⟨ib, rb, g1, g2, g3, g4⟩ := hA b qb hb
      refine ⟨ia, ib, h1, g1, ?_, ?_⟩
      · intro e
        subst e
        rw [h2] at g2
        have : ra = rb := by simpa using g2
        rw [← h4, ← g4, this]
      · intro e
        exact huniq ia ib ra rb h2 g2 (by rw [h4, g4, e])

/-- C2 amended, at `Reset(10)` followed by three calls. -/
theorem Serve_after_Reset_witness :
    10 + threeCalls.dedup.length ≤ 2 ^ 64 ∧
    ((∀ id ∈ ((freshTracker.Reset 10).Serve threeCalls).1, 10 ≤ id) ∧
    (∀ (a b : Nat) (qa qb : Request), threeCalls[a]? = some qa → threeCalls[b]? = some qb →
      ∃ ia ib, ((freshTracker.Reset 10).Serve threeCalls).1[a]? = some ia ∧
        ((freshTracker.Reset 10).Serve threeCalls).1[b]? = some ib ∧ (ia = ib ↔ qa = qb)) ∧
    (∀ k r, ((freshTracker.Reset 10).Serve threeCalls).2.Innovations.Find k = some r → r.ID = k) ∧
    (∀ k1 k2 r1 r2, ((freshTracker.Reset 10).Serve threeCalls).2.Innovations.Find k1 = some r1 →
      ((freshTracker.Reset 10).Serve threeCalls).2.Innovations.Find k2 = some r2 →
      r1.Tuple = r2.Tuple → k1 = k2)) :=
  ⟨by decide, Serve_after_Reset freshTracker 10 threeCalls (by decide)⟩

theorem ValidConnectionFilter_iff (g : Genotype) (e : Nat × ConnectionGene) :
    g.ValidConnectionFilter e = true ↔ g.Resolves e.2 := by
  unfold Genotype.ValidConnectionFilter Genotype.Resolves TMap.Contains TMap.At
  cases h1 : g.Nodes.Find e.2.Input <;> cases h2 : g.Nodes.Find e.2.Output <;> simp

theorem mem_FilterKeysByPredicate {V : Type} (m : TMap V) (p : Nat × V → Bool) (k : Nat) :
    k ∈ m.FilterKeysByPredicate p ↔ ∃ v, m.Find k = some v ∧ p (k, v) = true := by
  unfold TMap.FilterKeysByPredicate
  constructor
  · intro h
    rcases List.mem_map.1 h with ⟨e, he, hk⟩
    rcases List.mem_filter.1 he with ⟨hmem, hp⟩
    obtain ⟨k2, v⟩ := e
    simp only at hk
    subst hk
    exact ⟨v, (TMap.mem_entries_iff m _ v).1 hmem, hp⟩
  · rintro ⟨v, hv, hp⟩
    exact List.mem_map.2 ⟨(k, v), List.mem_filter.2 ⟨(TMap.mem_entries_iff m k v).2 hv, hp⟩, rfl⟩

theorem getD_mod_mem (l : List Nat) (r : Nat) (hl : l ≠ []) :
    l.getD (r % l.length) 0 ∈ l := by
  have hpos : 0 < l.length := List.length_pos.2 hl
  have hlt : r % l.length < l.length := Nat.mod_lt _ hpos
  rw [List.getD_eq_getElem _ _ hlt]
  exact List.getElem_mem _

theorem RandomElement_cons (l : List Nat) (r : Nat) (rest : List Nat) (hl : l ≠ []) :
    RandomElement l (r :: rest) = Except.ok (l.getD (r % l.length) 0, rest) := by
  have hpos : l.length ≠ 0 := fun h => hl (List.length_eq_zero.1 h)
  simp [RandomElement, hpos]

theorem RandomElement_ok (l Rand : List Nat) (x : Nat) (rest : List Nat)
    (h : RandomElement l Rand = Except.ok (x, rest)) :
    x ∈ l ∧ ∃ r, Rand = r :: rest := by
  cases Rand with
  | nil => simp [RandomElement] at h
  | cons r rs =>
    unfold RandomElement at h
    simp only at h
    split_ifs at h with h0
    have hl : l ≠ [] := fun e => h0 (by rw [e]; rfl)
    have hx : l.getD (r % l.length) 0 = x ∧ rs = rest := by simpa using h
    exact ⟨hx.1 ▸ getD_mod_mem l r hl, r, by rw [hx.2]⟩

theorem IsEmpty_false_iff {V : Type} (m : TMap V) : m.IsEmpty = false ↔ m.GetKeys ≠ [] := by
  unfold TMap.IsEmpty TMap.GetKeys
  cases m.entries <;> simp

theorem Prune_Find_iff (g : Genotype) (k : Nat) (c : ConnectionGene) :
    g.Prune.Connections.Find k = some c ↔ (g.Connections.Find k = some c ∧ g.Resolves c) := by
  unfold Genotype.Prune
  simp only
  rw [TMap.Find_FilterByPredicate]
  cases hf : g.Connections.Find k with
  | none => simp [Option.filter]
  | some c2 =>
    by_cases hv : g.ValidConnectionFilter (k, c2) = true
    · have hres := (ValidConnectionFilter_iff g (k, c2)).1 hv
      simp only [Option.filter, hv, if_true]
      constructor
      · intro h
        have : c2 = c := by simpa using h
        subst this
        exact ⟨rfl, hres⟩
      · intro h
        exact h.1
    · have hres : ¬ g.Resolves c2 := fun h => hv ((ValidConnectionFilter_iff g (k, c2)).2 h)
      simp only [Option.filter, hv]
      constructor
      · intro h
        simp at h
      · rintro ⟨h1, h2⟩
        have : c2 = c := by simpa using h1
        subst this
        exact absurd h2 hres

theorem Prune_EndpointsResolve (g : Genotype) : g.Prune.EndpointsResolve := by
  intro k c h
  exact ((Prune_Find_iff g k c).1 h).2

/-- C3. After `Prune` every remaining connection has both endpoints in `Nodes`
    and enabled; the connections kept are exactly those of the original genotype
    that satisfied this, under the same ids and with the same fields; and the
    node map is unchanged. -/
theorem Prune_keeps_exactly_resolving (g : Genotype) :
    (∀ k c, g.Prune.Connections.Find k = some c → g.Prune.Resolves c) ∧
    (∀ k c, g.Prune.Connections.Find k = some c ↔
      (g.Connections.Find k = some c ∧ g.Resolves c)) ∧
    g.Prune.Nodes = g.Nodes := by
  refine ⟨?_, fun k c => Prune_Find_iff g k c, rfl⟩
  intro k c h
  have hres : g.Resolves c := ((Prune_Find_iff g k c).1 h).2
  exact hres

theorem PickNode_ok (Nodes : TMap NodeGene) (NodesIDs : List Nat) (Rejected : ENodeType)
    (hne : NodesIDs ≠ []) :
    ∀ (Rand : List Nat) (x : Nat) (rest : List Nat),
      PickNode Nodes NodesIDs Rejected Rand = Except.ok (x, rest) →
      x ∈ NodesIDs ∧ (Nodes.At x {}).NodeType ≠ Rejected := by
  intro Rand
  induction Rand with
  | nil => intro x rest h; simp [PickNode] at h
  | cons r rs ih =>
    intro x rest h
    unfold PickNode at h
    split_ifs at h with h0 h1
    · exact ih x rest h
    · have hx : NodesIDs.getD (r % NodesIDs.length) 0 = x ∧ rs = rest := by simpa using h
      rw [← hx.1]
      exact ⟨getD_mod_mem NodesIDs r hne, h1⟩

/-- C5. Whenever `MutateAddConnection` returns `true`, exactly one connection was
    added, under an id that was not a key before: its source is a node of the
    genotype that is not of type `Output`, its destination a node that is not of
    type `Input`, its weight is 1.0 and it is enabled; every connection present
    before and the whole node map are unchanged. Whenever it returns `false` the
    genotype is unchanged, and it returns `false` whenever the id acquired from
    the registry for the drawn pair is already a key of the connection map. -/
theorem MutateAddConnection_contract (cfg : Config) (w w2 : World) (ret : Bool)
    (h : Genotype.MutateAddConnection cfg w = Except.ok (ret, w2)) :
    (ret = true →
      ∃ id src dst nsrc ndst,
        w.This.Connections.Find id = none ∧
        w2.This.Connections = w.This.Connections.Add id
          { ID := id, Enabled := true, Input := src, Output := dst, Weight := 1 } ∧
        w2.This.Connections.Find id =
          some { ID := id, Enabled := true, Input := src, Output := dst, Weight := 1 } ∧
        (∀ j, j ≠ id → w2.This.Connections.Find j = w.This.Connections.Find j) ∧
        w.This.Nodes.Find src = some nsrc ∧ nsrc.NodeType ≠ ENodeType.Output ∧
        w.This.Nodes.Find dst = some ndst ∧ ndst.NodeType ≠ ENodeType.Input ∧
        w2.This.Nodes = w.This.Nodes) ∧
    (ret = false → w2.This = w.This) ∧
    (∀ n1 r1 n2 r2,
      PickNode w.This.Nodes w.This.Nodes.GetKeys ENodeType.Output w.Rand = Except.ok (n1, r1) →
      PickNode w.This.Nodes w.This.Nodes.GetKeys ENodeType.Input r1 = Except.ok (n2, r2) →
      w.This.Connections.Contains
        (w.Innovations.GetInnovationID EMutationType.AddConnection EGeneType.Connection
          n1 n2).1 = true →
      ret = false ∧ w2.This = w.This) := by
  unfold Genotype.MutateAddConnection at h
  simp only at h
  split_ifs at h with hemp
  · have hh : false = ret ∧ w = w2 := by simpa using h
    obtain ⟨h1, h2⟩ := hh
    subst h1 h2
    refine ⟨by simp, fun _ => rfl, fun _ _ _ _ _ _ _ => ⟨rfl, rfl⟩⟩
  · have hne : w.This.Nodes.GetKeys ≠ [] := by
      intro e; exact hemp (by rw [e]; rfl)
    cases hp1 : PickNode w.This.Nodes w.This.Nodes.GetKeys ENodeType.Output w.Rand with
    | error f => rw [hp1] at h; simp at h
    | ok p1 =>
      obtain ⟨Node1ID, rest1⟩ := p1
      rw [hp1] at h
      simp only at h
      cases hp2 : PickNode w.This.Nodes w.This.Nodes.GetKeys ENodeType.Input rest1 with
      | error f => rw [hp2] at h; simp at h
      | ok p2 =>
        obtain ⟨Node2ID, rest2⟩ := p2
        rw [hp2] at h
        simp only at h
        obtain ⟨hm1, ht1⟩ := PickNode_ok _ _ _ hne _ _ _ hp1
        obtain ⟨hm2, ht2⟩ := PickNode_ok _ _ _ hne _ _ _ hp2
        obtain ⟨nsrc, hsrc⟩ := (TMap.mem_GetKeys_iff _ _).1 hm1
        obtain ⟨ndst, hdst⟩ := (TMap.mem_GetKeys_iff _ _).1 hm2
        have ht1b : nsrc.NodeType ≠ ENodeType.Output := by
          simpa [TMap.At, hsrc] using ht1
        have ht2b : ndst.NodeType ≠ ENodeType.Input := by
          simpa [TMap.At, hdst] using ht2
        split_ifs at h with hc
        · have hh : false = ret ∧ ({ w with
              Innovations := (w.Innovations.GetInnovationID EMutationType.AddConnection
                EGeneType.Connection Node1ID Node2ID).2, Rand := rest2 } : World) = w2 := by
            simpa using h
          obtain ⟨h1, h2⟩ := hh
          subst h1 h2
          refine ⟨by simp, fun _ => rfl, fun _ _ _ _ _ _ _ => ⟨rfl, rfl⟩⟩
        · have hh := Except.ok.inj h
          have h1 : true = ret := (Prod.mk.inj hh).1
          have h2 := (Prod.mk.inj hh).2
          subst h1 h2
          have hnone : w.This.Connections.Find (w.Innovations.GetInnovationID
              EMutationType.AddConnection EGeneType.Connection Node1ID Node2ID).1 = none := by
            cases hf : w.This.Connections.Find (w.Innovations.GetInnovationID
              EMutationType.AddConnection EGeneType.Connection Node1ID Node2ID).1 with
            | none => rfl
            | some v => exact absurd (by simp [TMap.Contains, hf]) hc
          refine ⟨fun _ => ⟨_, Node1ID, Node2ID, nsrc, ndst, hnone, rfl,
            TMap.Find_Add_self _ _ _, fun j hj => TMap.Find_Add_ne _ _ _ _ hj,
            hsrc, ht1b, hdst, ht2b, rfl⟩, by simp, ?_⟩
          intro n1 r1 n2 r2 e1 e2 hcon
          have e1' := Prod.mk.inj (Except.ok.inj e1)
          rw [← e1'.2, hp2] at e2
          have e2' := Prod.mk.inj (Except.ok.inj e2)
          rw [← e1'.1, ← e2'.1] at hcon
          exact absurd hcon hc

/-- C6. With at least one `Hidden` node, `MutateRemoveNode` returns `true`: one
    node is removed, it was a node of the genotype of type `Hidden`, every other
    node is as before, and afterwards every connection has both endpoints in the
    node map and enabled, none of them the removed node. Without a `Hidden` node
    it returns `false` and changes nothing. -/
theorem MutateRemoveNode_contract (cfg : Config) (w : World) :
    ((∃ k n, w.This.Nodes.Find k = some n ∧ n.NodeType = ENodeType.Hidden) →
      ∀ r rest, w.Rand = r :: rest →
        ∃ k n w2, w.This.Nodes.Find k = some n ∧ n.NodeType = ENodeType.Hidden ∧
          Genotype.MutateRemoveNode cfg w = Except.ok (true, w2) ∧
          w2.This.Nodes = w.This.Nodes.Remove k ∧
          (∀ j, w2.This.Nodes.Find j = if j = k then none else w.This.Nodes.Find j) ∧
          (∀ j c, w2.This.Connections.Find j = some c →
            w2.This.Resolves c ∧ c.Input ≠ k ∧ c.Output ≠ k)) ∧
    ((¬ ∃ k n, w.This.Nodes.Find k = some n ∧ n.NodeType = ENodeType.Hidden) →
      Genotype.MutateRemoveNode cfg w = Except.ok (false, w)) := by
  have hiff : ∀ k, k ∈ w.This.GetFilteredNodeKeys HiddenNodeFilter
      ↔ ∃ n, w.This.Nodes.Find k = some n ∧ n.NodeType = ENodeType.Hidden := by
    intro k
    unfold Genotype.GetFilteredNodeKeys
    rw [mem_FilterKeysByPredicate]
    constructor
    · rintro ⟨v, hv, hp⟩
      refine ⟨v, hv, ?_⟩
      cases ht : v.NodeType <;> simp [HiddenNodeFilter, ht] at hp ⊢
    · rintro ⟨v, hv, hp⟩
      exact ⟨v, hv, by simp [HiddenNodeFilter, hp]⟩
  constructor
  · rintro ⟨k0, n0, hk0, hn0⟩ r rest hr
    have hmem0 := (hiff k0).2 ⟨n0, hk0, hn0⟩
    have hne : w.This.GetFilteredNodeKeys HiddenNodeFilter ≠ [] := List.ne_nil_of_mem hmem0
    have hpick := getD_mod_mem _ r hne
    generalize hkdef : (w.This.GetFilteredNodeKeys HiddenNodeFilter).getD
      (r % (w.This.GetFilteredNodeKeys HiddenNodeFilter).length) 0 = k at hpick
    obtain ⟨n, hk, hn⟩ := (hiff _).1 hpick
    have hrun : Genotype.MutateRemoveNode cfg w = Except.ok (true,
        { w with This := Genotype.Prune { w.This with Nodes := w.This.Nodes.Remove k }
                 Rand := rest }) := by
      unfold Genotype.MutateRemoveNode
      simp only
      rw [if_neg (by simpa using hne), hr, RandomElement_cons _ r rest hne, hkdef]
    refine ⟨k, n, _, hk, hn, hrun, rfl, ?_, ?_⟩
    · intro j
      exact TMap.Find_Remove _ _ _
    · intro j c hc
      have hres := Prune_EndpointsResolve _ j c hc
      have hgone : (Genotype.Prune { w.This with Nodes := w.This.Nodes.Remove k }).Nodes.Find k
          = none := by
        show (w.This.Nodes.Remove k).Find k = none
        rw [TMap.Find_Remove]; simp
      refine ⟨hres, ?_, ?_⟩
      · obtain ⟨⟨m, hm, _⟩, _⟩ := hres
        intro e
        rw [e, hgone] at hm
        cases hm
      · obtain ⟨_, ⟨m, hm, _⟩⟩ := hres
        intro e
        rw [e, hgone] at hm
        cases hm
  · intro hno
    have hnil : w.This.GetFilteredNodeKeys HiddenNodeFilter = [] := by
      apply List.eq_nil_iff_forall_not_mem.2
      intro k hk
      exact hno (by obtain ⟨n, h1, h2⟩ := (hiff k).1 hk; exact ⟨k, n, h1, h2⟩)
    unfold Genotype.MutateRemoveNode
    simp only
    rw [hnil]
    rfl

theorem Clamp_mem (Value Min Max : ℚ) (h : Min ≤ Max) :
    Min ≤ Math.Clamp Value Min Max ∧ Math.Clamp Value Min Max ≤ Max := by
  unfold Math.Clamp
  split_ifs with h1 h2
  · exact ⟨le_refl _, h⟩
  · exact ⟨h, le_refl _⟩
  · exact ⟨not_lt.1 h1, not_lt.1 h2⟩

/-- C5, on the sample genotype: the draws 0 and 1 pick the nodes 0 and 1, and the
    connection 20 from 0 to 1 is added. -/
theorem MutateAddConnection_contract_witness :
    Genotype.MutateAddConnection {} (sampleWorld [0, 1])
      = Except.ok (true, sampleAfterAddConnection) ∧
    (true = true →
      ∃ id src dst nsrc ndst,
        (sampleWorld [0, 1]).This.Connections.Find id = none ∧
        sampleAfterAddConnection.This.Connections = (sampleWorld [0, 1]).This.Connections.Add id
          { ID := id, Enabled := true, Input := src, Output := dst, Weight := 1 } ∧
        sampleAfterAddConnection.This.Connections.Find id =
          some { ID := id, Enabled := true, Input := src, Output := dst, Weight := 1 } ∧
        (∀ j, j ≠ id → sampleAfterAddConnection.This.Connections.Find j
          = (sampleWorld [0, 1]).This.Connections.Find j) ∧
        (sampleWorld [0, 1]).This.Nodes.Find src = some nsrc ∧
        nsrc.NodeType ≠ ENodeType.Output ∧
        (sampleWorld [0, 1]).This.Nodes.Find dst = some ndst ∧
        ndst.NodeType ≠ ENodeType.Input ∧
        sampleAfterAddConnection.This.Nodes = (sampleWorld [0, 1]).This.Nodes) :=
  ⟨rfl, (MutateAddConnection_contract {} (sampleWorld [0, 1]) sampleAfterAddConnection true rfl).1⟩

/-- C6, on the sample genotype, whose only hidden node is node 2. -/
theorem MutateRemoveNode_contract_witness :
    (∃ k n, (sampleWorld [0]).This.Nodes.Find k = some n ∧ n.NodeType = ENodeType.Hidden) ∧
    ∃ k n w2, (sampleWorld [0]).This.Nodes.Find k = some n ∧ n.NodeType = ENodeType.Hidden ∧
      Genotype.MutateRemoveNode {} (sampleWorld [0]) = Except.ok (true, w2) ∧
      w2.This.Nodes = (sampleWorld [0]).This.Nodes.Remove k ∧
      (∀ j, w2.This.Nodes.Find j = if j = k then none else (sampleWorld [0]).This.Nodes.Find j) ∧
      (∀ j c, w2.This.Connections.Find j = some c →
        w2.This.Resolves c ∧ c.Input ≠ k ∧ c.Output ≠ k) :=
  ⟨⟨2, { ID := 2, NodeType := ENodeType.Hidden }, rfl, rfl⟩,
   (MutateRemoveNode_contract {} (sampleWorld [0])).1
      ⟨2, { ID := 2, NodeType := ENodeType.Hidden }, rfl, rfl⟩ 0 [] rfl⟩

/-- C4, amended. Let `MutateAddNode` draw the connection `C` (under the key
    `ConnectionID`), acquire `NodeID`, `InputID` and `OutputID` from the registry
    and return `true`. If the two connection ids are distinct and neither is
    already a key of the connection map, then `C` is now disabled with its other
    members unchanged, the node map has gained the node `NodeID` of type `Hidden`,
    which was not a key before, the connection map holds `C.Input -> NodeID` with
    weight 1.0 under `InputID` and `NodeID -> C.Output` with the weight of `C`
    under `OutputID`, both enabled, and every other node and connection is
    unchanged. -/
theorem MutateAddNode_contract (cfg : Config) (w w2 : World) (ConnectionID : Nat)
    (rest : List Nat) (C : ConnectionGene) (NodeID InputID OutputID : Nat)
    (reg1 reg2 reg3 : InnovationTracker)
    (hpick : RandomElement w.This.Connections.GetKeys w.Rand = Except.ok (ConnectionID, rest))
    (hC : w.This.Connections.Find ConnectionID = some C)
    (hN : w.Innovations.GetInnovationID EMutationType.AddNode EGeneType.Node C.Input C.Output
      = (NodeID, reg1))
    (hI : reg1.GetInnovationID EMutationType.AddNode EGeneType.Connection C.Input NodeID
      = (InputID, reg2))
    (hO : reg2.GetInnovationID EMutationType.AddNode EGeneType.Connection NodeID C.Output
      = (OutputID, reg3))
    (hdistinct : InputID ≠ OutputID)
    (hfreshI : w.This.Connections.Find InputID = none)
    (hfreshO : w.This.Connections.Find OutputID = none)
    (hret : Genotype.MutateAddNode cfg w = Except.ok (true, w2)) :
    w2.This.Connections.Find ConnectionID = some { C with Enabled := false } ∧
    w.This.Nodes.Find NodeID = none ∧
    (∃ N, w2.This.Nodes.Find NodeID = some N ∧ N.NodeType = ENodeType.Hidden) ∧
    (∀ j, j ≠ NodeID → w2.This.Nodes.Find j = w.This.Nodes.Find j) ∧
    w2.This.Connections.Find InputID = some
      { ID := InputID, Enabled := true, Input := C.Input, Output := NodeID, Weight := 1 } ∧
    w2.This.Connections.Find OutputID = some
      { ID := OutputID, Enabled := true, Input := NodeID, Output := C.Output,
        Weight := C.Weight } ∧
    (∀ j, j ≠ ConnectionID → j ≠ InputID → j ≠ OutputID →
      w2.This.Connections.Find j = w.This.Connections.Find j) := by
  have hkeys : w.This.Connections.GetKeys ≠ [] :=
    List.ne_nil_of_mem (RandomElement_ok _ _ _ _ hpick).1
  have hne : w.This.Connections.IsEmpty = false := (IsEmpty_false_iff _).2 hkeys
  have hAt : w.This.Connections.At ConnectionID {} = C := by simp [TMap.At, hC]
  have hCI : ConnectionID ≠ InputID := by
    intro e; rw [e, hfreshI] at hC; cases hC
  have hCO : ConnectionID ≠ OutputID := by
    intro e; rw [e, hfreshO] at hC; cases hC
  unfold Genotype.MutateAddNode at hret
  rw [if_neg (by simp [hne]), hpick] at hret
  simp only [hAt, hN, hI, hO] at hret
  split_ifs at hret with hcont
  · simp at hret
  · have hw := (Prod.mk.inj (Except.ok.inj hret)).2
    subst hw
    have hAt2 : ((w.This.Connections.Add ConnectionID { C with Enabled := false }).Add InputID
        { ID := InputID, Enabled := true, Input := C.Input, Output := NodeID,
          Weight := 1 }).At ConnectionID {} = { C with Enabled := false } := by
      simp [TMap.At, TMap.Find_Add, hCI]
    simp only [hAt2]
    have hnone : w.This.Nodes.Find NodeID = none := by
      cases hf : w.This.Nodes.Find NodeID with
      | none => rfl
      | some v => exact absurd (by simp [TMap.Contains, hf]) hcont
    refine ⟨?_, hnone, ⟨_, TMap.Find_Add_self _ _ _, rfl⟩, ?_, ?_, ?_, ?_⟩
    · simp [TMap.Find_Add, hCI, hCO]
    · intro j hj
      exact TMap.Find_Add_ne _ _ _ _ hj
    · simp [TMap.Find_Add, hdistinct]
    · simp [TMap.Find_Add]
    · intro j h1 h2 h3
      simp [TMap.Find_Add, h1, h2, h3]

/-- C4, as stated, fails when an acquired connection id is already a key. In
    `collidingWorld` the drawn connection is `C` = 10 (0 to 1, weight 1/2); the
    registry hands out the node id 9 and the connection ids 10 and 11. The call
    returns `true`, but connection 10 is overwritten by the new connection 0 to 9
    and is enabled, and connection 11 (0 to 2 before) now runs from 9 to 9 with
    weight 1: `C` is not disabled, another connection changed, and there is no
    connection from the new node to `C.Output` with the weight of `C`. -/
theorem MutateAddNode_id_collision :
    collidingWorld.This.Connections.Find 10
      = some { ID := 10, Enabled := true, Input := 0, Output := 1, Weight := 1 / 2 } ∧
    collidingWorld.This.Connections.Find 11
      = some { ID := 11, Enabled := true, Input := 0, Output := 2, Weight := 1 } ∧
    ∃ w2, Genotype.MutateAddNode {} collidingWorld = Except.ok (true, w2) ∧
      w2.This.Connections.Find 10
        = some { ID := 10, Enabled := true, Input := 0, Output := 9, Weight := 1 } ∧
      w2.This.Connections.Find 11
        = some { ID := 11, Enabled := true, Input := 9, Output := 9, Weight := 1 } ∧
      w2.This.Connections.GetKeys = [10, 11, 12] :=
  ⟨rfl, rfl, _, rfl, rfl, rfl, rfl⟩

/-- C4 amended, on the sample genotype: connection 10 is split by the new node
    20 and the new connections 21 and 22. -/
theorem MutateAddNode_contract_witness :
    (RandomElement (sampleWorld [0]).This.Connections.GetKeys (sampleWorld [0]).Rand
        = Except.ok (10, []) ∧
      (sampleWorld [0]).This.Connections.Find 10
        = some { ID := 10, Enabled := true, Input := 0, Output := 1, Weight := 1 / 2 } ∧
      (sampleWorld [0]).Innovations.GetInnovationID EMutationType.AddNode EGeneType.Node 0 1
        = (20, sampleReg1) ∧
      sampleReg1.GetInnovationID EMutationType.AddNode EGeneType.Connection 0 20
        = (21, sampleReg2) ∧
      sampleReg2.GetInnovationID EMutationType.AddNode EGeneType.Connection 20 1
        = (22, sampleReg3) ∧
      21 ≠ 22 ∧
      (sampleWorld [0]).This.Connections.Find 21 = none ∧
      (sampleWorld [0]).This.Connections.Find 22 = none ∧
      Genotype.MutateAddNode {} (sampleWorld [0]) = Except.ok (true, sampleAfterAddNode)) ∧
    (sampleAfterAddNode.This.Connections.Find 10
        = some { ID := 10, Enabled := false, Input := 0, Output := 1, Weight := 1 / 2 } ∧
      (sampleWorld [0]).This.Nodes.Find 20 = none ∧
      (∃ N, sampleAfterAddNode.This.Nodes.Find 20 = some N ∧ N.NodeType = ENodeType.Hidden) ∧
      (∀ j, j ≠ 20 → sampleAfterAddNode.This.Nodes.Find j = (sampleWorld [0]).This.Nodes.Find j) ∧
      sampleAfterAddNode.This.Connections.Find 21 = some
        { ID := 21, Enabled := true, Input := 0, Output := 20, Weight := 1 } ∧
      sampleAfterAddNode.This.Connections.Find 22 = some
        { ID := 22, Enabled := true, Input := 20, Output := 1, Weight := 1 / 2 } ∧
      (∀ j, j ≠ 10 → j ≠ 21 → j ≠ 22 →
        sampleAfterAddNode.This.Connections.Find j = (sampleWorld [0]).This.Connections.Find j)) :=
  ⟨⟨rfl, rfl, rfl, rfl, rfl, by decide, rfl, rfl, rfl⟩,
   MutateAddNode_contract {} (sampleWorld [0]) sampleAfterAddNode 10 []
     { ID := 10, Enabled := true, Input := 0, Output := 1, Weight := 1 / 2 } 20 21 22
     sampleReg1 sampleReg2 sampleReg3 rfl rfl rfl rfl rfl (by decide) rfl rfl rfl⟩

theorem FilterKeys_eq_nil {V : Type} (m : TMap V) (p : Nat × V → Bool)
    (h : ∀ k v, m.Find k = some v → p (k, v) = false) : m.FilterKeysByPredicate p = [] := by
  apply List.eq_nil_iff_forall_not_mem.2
  intro k hk
  obtain ⟨v, hv, hp⟩ := (mem_FilterKeysByPredicate m p k).1 hk
  rw [h k v hv] at hp
  cases hp

/-- C8, on the code. Eight of the nine operators return `false` and leave
    genotype, registry and random source alone when their precondition fails
    (no connection for `MutateAddNode`, `MutateRemoveConnection`,
    `MutateModifyWeight`, `MutateToggleConnection`; no node for
    `MutateAddConnection`; no hidden node for `MutateRemoveNode`; no non-input
    node for `MutateModifyActivation`, `MutateModifyAggregation`). The ninth,
    `MutateModifyBias`, has no such test: on a genotype without nodes it
    evaluates `rand() % Nodes.Num()` with `Nodes.Num() = 0`, a division by zero,
    whatever the connections, the registry and the random values are. -/
theorem precondition_failure_outcomes (RAND_MAX : Nat) (cfg : Config) :
    (∀ w, w.This.Connections.IsEmpty = true →
      Genotype.MutateAddNode cfg w = Except.ok (false, w)) ∧
    (∀ w, w.This.Nodes.IsEmpty = true →
      Genotype.MutateAddConnection cfg w = Except.ok (false, w)) ∧
    (∀ w, (∀ k n, w.This.Nodes.Find k = some n → n.NodeType ≠ ENodeType.Hidden) →
      Genotype.MutateRemoveNode cfg w = Except.ok (false, w)) ∧
    (∀ w, w.This.Connections.IsEmpty = true →
      Genotype.MutateRemoveConnection cfg w = Except.ok (false, w)) ∧
    (∀ w, w.This.Connections.IsEmpty = true →
      Genotype.MutateModifyWeight RAND_MAX cfg w = Except.ok (false, w)) ∧
    (∀ w, (∀ k n, w.This.Nodes.Find k = some n → n.NodeType = ENodeType.Input) →
      Genotype.MutateModifyActivation cfg w = Except.ok (false, w)) ∧
    (∀ w, (∀ k n, w.This.Nodes.Find k = some n → n.NodeType = ENodeType.Input) →
      Genotype.MutateModifyAggregation cfg w = Except.ok (false, w)) ∧
    (∀ w, w.This.Connections.IsEmpty = true →
      Genotype.MutateToggleConnection cfg w = Except.ok (false, w)) ∧
    (∀ (Connections : TMap ConnectionGene) (reg : InnovationTracker) (r : Nat) (rest : List Nat),
      Genotype.MutateModifyBias RAND_MAX cfg
        { This := { Nodes := TMap.empty, Connections := Connections }
          Innovations := reg, Rand := r :: rest }
        = Except.error Fault.DivideByZero) := by
  refine ⟨?_, ?_, ?_, ?_, ?_, ?_, ?_, ?_, ?_⟩
  · intro w h
    simp [Genotype.MutateAddNode, h]
  · intro w h
    have hk : w.This.Nodes.GetKeys.isEmpty = true := by
      unfold TMap.IsEmpty at h
      unfold TMap.GetKeys
      cases he : w.This.Nodes.entries with
      | nil => rfl
      | cons a t => rw [he] at h; cases h
    simp [Genotype.MutateAddConnection, hk]
  · intro w h
    have hnil : w.This.GetFilteredNodeKeys HiddenNodeFilter = [] := by
      apply FilterKeys_eq_nil
      intro k v hv
      have := h k v hv
      cases ht : v.NodeType <;> simp [HiddenNodeFilter, ht] at this ⊢
    simp [Genotype.MutateRemoveNode, hnil]
  · intro w h
    simp [Genotype.MutateRemoveConnection, h]
  · intro w h
    simp [Genotype.MutateModifyWeight, h]
  · intro w h
    have hnil : w.This.GetFilteredNodeKeys NonInputNodeFilter = [] := by
      apply FilterKeys_eq_nil
      intro k v hv
      simp [NonInputNodeFilter, h k v hv]
    simp [Genotype.MutateModifyActivation, hnil]
  · intro w h
    have hnil : w.This.GetFilteredNodeKeys NonInputNodeFilter = [] := by
      apply FilterKeys_eq_nil
      intro k v hv
      simp [NonInputNodeFilter, h k v hv]
    simp [Genotype.MutateModifyAggregation, hnil]
  · intro w h
    simp [Genotype.MutateToggleConnection, h]
  · intro Connections reg r rest
    rfl

theorem sample_bias_value :
    Math.Clamp (0 + GetRandomDouble 32767 32767 (-1) 1) (-100) 100 = 1 := by
  norm_num [Math.Clamp, GetRandomDouble]

/-- C9, on the code: four operators return `false` after changing the genotype.
    `MutateModifyBias`, `MutateModifyActivation` and `MutateModifyAggregation`
    end in `return false` after writing the node; `MutateAddNode` disables the
    drawn connection before it finds that the node id exists and returns
    `false`. -/
theorem false_return_after_change :
    (Genotype.MutateModifyBias 32767 {} (sampleWorld [0, 32767])
        = Except.ok (false, sampleAfterModifyBias) ∧
      sampleAfterModifyBias.This ≠ (sampleWorld [0, 32767]).This) ∧
    (Genotype.MutateModifyActivation {} (sampleWorld [1, 1])
        = Except.ok (false, sampleAfterModifyActivation) ∧
      sampleAfterModifyActivation.This ≠ (sampleWorld [1, 1]).This) ∧
    (Genotype.MutateModifyAggregation {} (sampleWorld [1, 1])
        = Except.ok (false, sampleAfterModifyAggregation) ∧
      sampleAfterModifyAggregation.This ≠ (sampleWorld [1, 1]).This) ∧
    (∃ w2, Genotype.MutateAddNode {} resplitWorld = Except.ok (false, w2) ∧
      resplitWorld.This.Connections.Find 10
        = some { ID := 10, Enabled := true, Input := 0, Output := 1, Weight := 1 / 2 } ∧
      w2.This.Connections.Find 10
        = some { ID := 10, Enabled := false, Input := 0, Output := 1, Weight := 1 / 2 } ∧
      w2.This ≠ resplitWorld.This) := by
  refine ⟨⟨?_, by decide⟩, ⟨rfl, by decide⟩, ⟨rfl, by decide⟩, ⟨_, rfl, rfl, rfl, by decide⟩⟩
  have h1 : Genotype.MutateModifyBias 32767 {} (sampleWorld [0, 32767]) = Except.ok (false,
      { This := { sampleGenotype with
          Nodes := sampleGenotype.Nodes.Add 0
            { ID := 0, NodeType := ENodeType.Input, Activation := EActivation.Linear,
              Bias := Math.Clamp (0 + GetRandomDouble 32767 32767 (-1) 1) (-100) 100 } }
        Innovations := freshTracker.Reset 20
        Rand := [] }) := rfl
  rw [h1, sample_bias_value]
  rfl

theorem NodesEnabled_of_all (N : TMap NodeGene) (Connections : TMap ConnectionGene)
    (h : N.entries.all (fun e => e.2.Enabled) = true) :
    Genotype.NodesEnabled { Nodes := N, Connections := Connections } := by
  intro k n hk
  have hmem := (TMap.mem_entries_iff N k n).2 hk
  exact List.all_eq_true.1 h (k, n) hmem

theorem EndpointsResolve_of_all (g : Genotype)
    (h : g.Connections.entries.all g.ValidConnectionFilter = true) : g.EndpointsResolve := by
  intro k c hk
  have hmem := (TMap.mem_entries_iff g.Connections k c).2 hk
  exact (ValidConnectionFilter_iff g (k, c)).1 (List.all_eq_true.1 h (k, c) hmem)

theorem Resolves_of_nodes (N N2 : TMap NodeGene) (M M2 : TMap ConnectionGene)
    (c : ConnectionGene)
    (hmono : ∀ k n, N.Find k = some n → ∃ n2, N2.Find k = some n2 ∧ n2.Enabled = n.Enabled)
    (h : Genotype.Resolves { Nodes := N, Connections := M } c) :
    Genotype.Resolves { Nodes := N2, Connections := M2 } c := by
  obtain ⟨⟨a, ha, hae⟩, ⟨b, hb, hbe⟩⟩ := h
  obtain ⟨a2, ha2, hae2⟩ := hmono _ _ ha
  obtain ⟨b2, hb2, hbe2⟩ := hmono _ _ hb
  exact ⟨⟨a2, ha2, by rw [hae2, hae]⟩, ⟨b2, hb2, by rw [hbe2, hbe]⟩⟩

theorem Resolves_of_keys (g : Genotype) (hN : g.NodesEnabled) (c : ConnectionGene)
    (hi : ∃ n, g.Nodes.Find c.Input = some n) (ho : ∃ n, g.Nodes.Find c.Output = some n) :
    g.Resolves c := by
  obtain ⟨a, ha⟩ := hi
  obtain ⟨b, hb⟩ := ho
  exact ⟨⟨a, ha, hN _ _ ha⟩, ⟨b, hb, hN _ _ hb⟩⟩

theorem EndpointsResolve_Add (N : TMap NodeGene) (M : TMap ConnectionGene) (k : Nat)
    (c : ConnectionGene)
    (hE : Genotype.EndpointsResolve { Nodes := N, Connections := M })
    (hc : Genotype.Resolves { Nodes := N, Connections := M } c) :
    Genotype.EndpointsResolve { Nodes := N, Connections := M.Add k c } := by
  intro j d hj
  have hj2 : (M.Add k c).Find j = some d := hj
  rw [TMap.Find_Add] at hj2
  split_ifs at hj2 with e
  · have : c = d := by simpa using hj2
    subst this
    exact hc
  · exact hE j d hj2

theorem EndpointsResolve_Remove (N : TMap NodeGene) (M : TMap ConnectionGene) (k : Nat)
    (hE : Genotype.EndpointsResolve { Nodes := N, Connections := M }) :
    Genotype.EndpointsResolve { Nodes := N, Connections := M.Remove k } := by
  intro j d hj
  have hj2 : (M.Remove k).Find j = some d := hj
  rw [TMap.Find_Remove] at hj2
  split_ifs at hj2 with e
  exact hE j d hj2

theorem EndpointsResolve_nodes (N N2 : TMap NodeGene) (M : TMap ConnectionGene)
    (hmono : ∀ k n, N.Find k = some n → ∃ n2, N2.Find k = some n2 ∧ n2.Enabled = n.Enabled)
    (hE : Genotype.EndpointsResolve { Nodes := N, Connections := M }) :
    Genotype.EndpointsResolve { Nodes := N2, Connections := M } := by
  intro j d hj
  exact Resolves_of_nodes N N2 M M d hmono (hE j d hj)

theorem At_of_Find {V : Type} (m : TMap V) (k : Nat) (v dflt : V) (h : m.Find k = some v) :
    m.At k dflt = v := by
  simp [TMap.At, h]

/-- Writing one member other than `Enabled` of the node under an existing key:
    every key keeps its `Enabled` flag. -/
theorem node_write_mono (N : TMap NodeGene) (k : Nat) (v : NodeGene)
    (hv : v.Enabled = (N.At k {}).Enabled) (hk : ∃ n, N.Find k = some n) :
    (∀ j n, N.Find j = some n → ∃ n2, (N.Add k v).Find j = some n2 ∧ n2.Enabled = n.Enabled) ∧
    (∀ j n2, (N.Add k v).Find j = some n2 → ∃ n, N.Find j = some n ∧ n2.Enabled = n.Enabled) := by
  obtain ⟨n0, hn0⟩ := hk
  rw [At_of_Find N k n0 {} hn0] at hv
  constructor
  · intro j n hj
    by_cases e : j = k
    · subst e
      rw [hn0] at hj
      have : n0 = n := by simpa using hj
      subst this
      exact ⟨v, TMap.Find_Add_self _ _ _, hv⟩
    · exact ⟨n, by rw [TMap.Find_Add_ne _ _ _ _ e]; exact hj, rfl⟩
  · intro j n2 hj
    rw [TMap.Find_Add] at hj
    split_ifs at hj with e
    · have : v = n2 := by simpa using hj
      subst this
      exact ⟨n0, by rw [e]; exact hn0, hv⟩
    · exact ⟨n2, hj, rfl⟩

theorem Sound_node_write (g : Genotype) (k : Nat) (v : NodeGene)
    (hv : v.Enabled = (g.Nodes.At k {}).Enabled) (hk : ∃ n, g.Nodes.Find k = some n)
    (hN : g.NodesEnabled) (hE : g.EndpointsResolve) :
    Genotype.NodesEnabled { g with Nodes := g.Nodes.Add k v } ∧
    Genotype.EndpointsResolve { g with Nodes := g.Nodes.Add k v } := by
  obtain ⟨h1, h2⟩ := node_write_mono g.Nodes k v hv hk
  constructor
  · intro j n2 hj
    obtain ⟨n, hn, he⟩ := h2 j n2 hj
    rw [he]
    exact hN j n hn
  · exact EndpointsResolve_nodes g.Nodes _ g.Connections h1 hE

theorem Sound_connection_write (g : Genotype) (k : Nat) (c d : ConnectionGene)
    (hc : g.Connections.Find k = some c) (hi : d.Input = c.Input) (ho : d.Output = c.Output)
    (hE : g.EndpointsResolve) :
    Genotype.EndpointsResolve { g with Connections := g.Connections.Add k d } := by
  apply EndpointsResolve_Add g.Nodes g.Connections k d hE
  have := hE k c hc
  unfold Genotype.Resolves at this ⊢
  rw [hi, ho]
  exact this

theorem Find_Add_exists {V : Type} (m : TMap V) (k j : Nat) (v : V)
    (h : ∃ x, m.Find j = some x) : ∃ x, (m.Add k v).Find j = some x := by
  rw [TMap.Find_Add]
  split_ifs
  · exact ⟨v, rfl⟩
  · exact h

theorem ok_inj {α : Type} (a b : α) (h : (Except.ok a : Except Fault α) = Except.ok b) :
    a = b := Except.ok.inj h

theorem AddNode_core (N : TMap NodeGene) (M : TMap ConnectionGene)
    (NodeID ConnectionID InputID OutputID : Nat) (v : NodeGene) (C : ConnectionGene)
    (hS : Genotype.Sound { Nodes := N, Connections := M }) (hv : v.Enabled = true)
    (hnone : N.Find NodeID = none) (hC : M.Find ConnectionID = some C) :
    Genotype.Sound
      { Nodes := N.Add NodeID v
        Connections :=
          ((M.Add ConnectionID { C with Enabled := false }).Add InputID
            { ID := InputID, Enabled := true, Input := C.Input, Output := NodeID,
              Weight := 1 }).Add OutputID
            { ID := OutputID, Enabled := true, Input := NodeID,
              Output := (((M.Add ConnectionID { C with Enabled := false }).Add InputID
                { ID := InputID, Enabled := true, Input := C.Input, Output := NodeID,
                  Weight := 1 }).At ConnectionID {}).Output,
              Weight := (((M.Add ConnectionID { C with Enabled := false }).Add InputID
                { ID := InputID, Enabled := true, Input := C.Input, Output := NodeID,
                  Weight := 1 }).At ConnectionID {}).Weight } } := by
  obtain ⟨hN, hE⟩ := hS
  have hmono : ∀ k m, N.Find k = some m →
      ∃ m2, (N.Add NodeID v).Find k = some m2 ∧ m2.Enabled = m.Enabled := by
    intro k m hk
    have hne : k ≠ NodeID := by
      intro e; rw [e, hnone] at hk; cases hk
    exact ⟨m, by rw [TMap.Find_Add_ne _ _ _ _ hne]; exact hk, rfl⟩
  have hN2 : Genotype.NodesEnabled { Nodes := N.Add NodeID v, Connections := M } := by
    intro k m hk
    have hk2 : (N.Add NodeID v).Find k = some m := hk
    rw [TMap.Find_Add] at hk2
    split_ifs at hk2 with e
    · have : v = m := by simpa using hk2
      rw [← this]; exact hv
    · exact hN k m hk2
  have hnode : ∃ m, (N.Add NodeID v).Find NodeID = some m ∧ m.Enabled = true :=
    ⟨v, TMap.Find_Add_self _ _ _, hv⟩
  have hE0 : Genotype.EndpointsResolve { Nodes := N.Add NodeID v, Connections := M } :=
    EndpointsResolve_nodes N _ M hmono hE
  have hCres : Genotype.Resolves { Nodes := N.Add NodeID v, Connections := M } C :=
    hE0 ConnectionID C hC
  have hE1 := EndpointsResolve_Add (N.Add NodeID v) M ConnectionID { C with Enabled := false }
    hE0 hCres
  have hE2 := EndpointsResolve_Add (N.Add NodeID v)
    (M.Add ConnectionID { C with Enabled := false }) InputID
    { ID := InputID, Enabled := true, Input := C.Input, Output := NodeID, Weight := 1 }
    hE1 ⟨hCres.1, hnode⟩
  obtain ⟨C2, hC2⟩ := Find_Add_exists (M.Add ConnectionID { C with Enabled := false })
    InputID ConnectionID
    { ID := InputID, Enabled := true, Input := C.Input, Output := NodeID, Weight := 1 }
    ⟨_, TMap.Find_Add_self _ _ _⟩
  have hC2res := hE2 ConnectionID C2 hC2
  rw [At_of_Find _ _ C2 {} hC2]
  exact ⟨hN2, EndpointsResolve_Add _ _ _ _ hE2 ⟨hnode, hC2res.2⟩⟩

theorem MutateAddNode_Sound (cfg : Config) (w w2 : World) (ret : Bool)
    (hS : w.This.Sound) (h : Genotype.MutateAddNode cfg w = Except.ok (ret, w2)) :
    w2.This.Sound := by
  unfold Genotype.MutateAddNode at h
  split_ifs at h with hemp
  · have := (Prod.mk.inj (ok_inj _ _ h)).2
    subst this
    exact hS
  · cases hp : RandomElement w.This.Connections.GetKeys w.Rand with
    | error f => rw [hp] at h; simp at h
    | ok p =>
      obtain ⟨ConnectionID, rest⟩ := p
      rw [hp] at h
      simp only at h
      obtain ⟨C, hC⟩ := (TMap.mem_GetKeys_iff _ _).1 (RandomElement_ok _ _ _ _ hp).1
      rw [At_of_Find _ _ C {} hC] at h
      generalize w.Innovations.GetInnovationID EMutationType.AddNode EGeneType.Node
        C.Input C.Output = n at h
      generalize n.2.GetInnovationID EMutationType.AddNode EGeneType.Connection
        C.Input n.1 = i at h
      generalize i.2.GetInnovationID EMutationType.AddNode EGeneType.Connection
        n.1 C.Output = o at h
      split_ifs at h with hcont
      · have := (Prod.mk.inj (ok_inj _ _ h)).2
        subst this
        exact ⟨hS.1, Sound_connection_write w.This ConnectionID C _ hC rfl rfl hS.2⟩
      · have := (Prod.mk.inj (ok_inj _ _ h)).2
        subst this
        have hnone : w.This.Nodes.Find n.1 = none := by
          cases hf : w.This.Nodes.Find n.1 with
          | none => rfl
          | some v => exact absurd (by simp [TMap.Contains, hf]) hcont
        exact AddNode_core w.This.Nodes w.This.Connections n.1 ConnectionID i.1 o.1 _ C
          hS rfl hnone hC

theorem MutateAddConnection_Sound (cfg : Config) (w w2 : World) (ret : Bool)
    (hS : w.This.Sound) (h : Genotype.MutateAddConnection cfg w = Except.ok (ret, w2)) :
    w2.This.Sound := by
  unfold Genotype.MutateAddConnection at h
  simp only at h
  split_ifs at h with hemp
  · have := (Prod.mk.inj (ok_inj _ _ h)).2
    subst this
    exact hS
  · have hne : w.This.Nodes.GetKeys ≠ [] := by
      intro e; exact hemp (by rw [e]; rfl)
    cases hp1 : PickNode w.This.Nodes w.This.Nodes.GetKeys ENodeType.Output w.Rand with
    | error f => rw [hp1] at h; simp at h
    | ok p1 =>
      obtain ⟨Node1ID, rest1⟩ := p1
      rw [hp1] at h
      simp only at h
      cases hp2 : PickNode w.This.Nodes w.This.Nodes.GetKeys ENodeType.Input rest1 with
      | error f => rw [hp2] at h; simp at h
      | ok p2 =>
        obtain ⟨Node2ID, rest2⟩ := p2
        rw [hp2] at h
        simp only at h
        have hm1 := (TMap.mem_GetKeys_iff _ _).1 (PickNode_ok _ _ _ hne _ _ _ hp1).1
        have hm2 := (TMap.mem_GetKeys_iff _ _).1 (PickNode_ok _ _ _ hne _ _ _ hp2).1
        split_ifs at h with hc
        · have := (Prod.mk.inj (ok_inj _ _ h)).2
          subst this
          exact hS
        · have := (Prod.mk.inj (ok_inj _ _ h)).2
          subst this
          exact ⟨hS.1, EndpointsResolve_Add _ _ _ _ hS.2
            (Resolves_of_keys w.This hS.1 _ hm1 hm2)⟩

theorem MutateRemoveNode_Sound (cfg : Config) (w w2 : World) (ret : Bool)
    (hS : w.This.Sound) (h : Genotype.MutateRemoveNode cfg w = Except.ok (ret, w2)) :
    w2.This.Sound := by
  unfold Genotype.MutateRemoveNode at h
  simp only at h
  split_ifs at h with hemp
  · have := (Prod.mk.inj (ok_inj _ _ h)).2
    subst this
    exact hS
  · cases hp : RandomElement (w.This.GetFilteredNodeKeys HiddenNodeFilter) w.Rand with
    | error f => rw [hp] at h; simp at h
    | ok p =>
      obtain ⟨NodeID, rest⟩ := p
      rw [hp] at h
      simp only at h
      have := (Prod.mk.inj (ok_inj _ _ h)).2
      subst this
      refine ⟨?_, Prune_EndpointsResolve _⟩
      intro k n hk
      have hk2 : (w.This.Nodes.Remove NodeID).Find k = some n := hk
      rw [TMap.Find_Remove] at hk2
      split_ifs at hk2 with e
      exact hS.1 k n hk2

theorem MutateRemoveConnection_Sound (cfg : Config) (w w2 : World) (ret : Bool)
    (hS : w.This.Sound) (h : Genotype.MutateRemoveConnection cfg w = Except.ok (ret, w2)) :
    w2.This.Sound := by
  unfold Genotype.MutateRemoveConnection at h
  split_ifs at h with hemp
  · have := (Prod.mk.inj (ok_inj _ _ h)).2
    subst this
    exact hS
  · cases hp : RandomElement w.This.Connections.GetKeys w.Rand with
    | error f => rw [hp] at h; simp at h
    | ok p =>
      obtain ⟨ConnectionID, rest⟩ := p
      rw [hp] at h
      simp only at h
      have := (Prod.mk.inj (ok_inj _ _ h)).2
      subst this
      exact ⟨hS.1, EndpointsResolve_Remove _ _ _ hS.2⟩

theorem MutateModifyWeight_Sound (RAND_MAX : Nat) (cfg : Config) (w w2 : World) (ret : Bool)
    (hS : w.This.Sound)
    (h : Genotype.MutateModifyWeight RAND_MAX cfg w = Except.ok (ret, w2)) :
    w2.This.Sound := by
  unfold Genotype.MutateModifyWeight at h
  split_ifs at h with hemp
  · have := (Prod.mk.inj (ok_inj _ _ h)).2
    subst this
    exact hS
  · cases hp : RandomElement w.This.Connections.GetKeys w.Rand with
    | error f => rw [hp] at h; simp at h
    | ok p =>
      obtain ⟨ConnectionID, rest⟩ := p
      rw [hp] at h
      obtain ⟨C, hC⟩ := (TMap.mem_GetKeys_iff _ _).1 (RandomElement_ok _ _ _ _ hp).1
      cases rest with
      | nil => simp at h
      | cons d rest =>
        simp only at h
        have := (Prod.mk.inj (ok_inj _ _ h)).2
        subst this
        rw [At_of_Find _ _ C {} hC]
        exact ⟨hS.1, Sound_connection_write w.This ConnectionID C _ hC rfl rfl hS.2⟩

theorem MutateToggleConnection_Sound (cfg : Config) (w w2 : World) (ret : Bool)
    (hS : w.This.Sound) (h : Genotype.MutateToggleConnection cfg w = Except.ok (ret, w2)) :
    w2.This.Sound := by
  unfold Genotype.MutateToggleConnection at h
  split_ifs at h with hemp
  · have := (Prod.mk.inj (ok_inj _ _ h)).2
    subst this
    exact hS
  · cases hp : RandomElement w.This.Connections.GetKeys w.Rand with
    | error f => rw [hp] at h; simp at h
    | ok p =>
      obtain ⟨ConnectionID, rest⟩ := p
      rw [hp] at h
      obtain ⟨C, hC⟩ := (TMap.mem_GetKeys_iff _ _).1 (RandomElement_ok _ _ _ _ hp).1
      simp only at h
      have := (Prod.mk.inj (ok_inj _ _ h)).2
      subst this
      rw [At_of_Find _ _ C {} hC]
      exact ⟨hS.1, Sound_connection_write w.This ConnectionID C _ hC rfl rfl hS.2⟩

theorem MutateModifyBias_Sound (RAND_MAX : Nat) (cfg : Config) (w w2 : World) (ret : Bool)
    (hS : w.This.Sound)
    (h : Genotype.MutateModifyBias RAND_MAX cfg w = Except.ok (ret, w2)) :
    w2.This.Sound := by
  unfold Genotype.MutateModifyBias at h
  cases hp : RandomElement w.This.Nodes.GetKeys w.Rand with
  | error f => rw [hp] at h; simp at h
  | ok p =>
    obtain ⟨NodeID, rest⟩ := p
    rw [hp] at h
    have hk := (TMap.mem_GetKeys_iff _ _).1 (RandomElement_ok _ _ _ _ hp).1
    cases rest with
    | nil => simp at h
    | cons d rest =>
      simp only at h
      have := (Prod.mk.inj (ok_inj _ _ h)).2
      subst this
      exact Sound_node_write w.This NodeID _ rfl hk hS.1 hS.2

theorem MutateModifyActivation_Sound (cfg : Config) (w w2 : World) (ret : Bool)
    (hS : w.This.Sound)
    (h : Genotype.MutateModifyActivation cfg w = Except.ok (ret, w2)) :
    w2.This.Sound := by
  unfold Genotype.MutateModifyActivation at h
  simp only at h
  split_ifs at h with hemp hlen
  · have := (Prod.mk.inj (ok_inj _ _ h)).2
    subst this
    exact hS
  · cases hp : RandomElement (w.This.GetFilteredNodeKeys NonInputNodeFilter) w.Rand with
    | error f => rw [hp] at h; simp at h
    | ok p =>
      obtain ⟨NodeID, rest⟩ := p
      rw [hp] at h
      cases rest <;> simp at h
  · cases hp : RandomElement (w.This.GetFilteredNodeKeys NonInputNodeFilter) w.Rand with
    | error f => rw [hp] at h; simp at h
    | ok p =>
      obtain ⟨NodeID, rest⟩ := p
      rw [hp] at h
      obtain ⟨n, hn, _⟩ := (mem_FilterKeysByPredicate _ _ _).1 (RandomElement_ok _ _ _ _ hp).1
      cases rest with
      | nil => simp at h
      | cons d rest =>
        simp only at h
        have := (Prod.mk.inj (ok_inj _ _ h)).2
        subst this
        exact Sound_node_write w.This NodeID _ rfl ⟨n, hn⟩ hS.1 hS.2

theorem MutateModifyAggregation_Sound (cfg : Config) (w w2 : World) (ret : Bool)
    (hS : w.This.Sound)
    (h : Genotype.MutateModifyAggregation cfg w = Except.ok (ret, w2)) :
    w2.This.Sound := by
  unfold Genotype.MutateModifyAggregation at h
  simp only at h
  split_ifs at h with hemp hlen
  · have := (Prod.mk.inj (ok_inj _ _ h)).2
    subst this
    exact hS
  · cases hp : RandomElement (w.This.GetFilteredNodeKeys NonInputNodeFilter) w.Rand with
    | error f => rw [hp] at h; simp at h
    | ok p =>
      obtain ⟨NodeID, rest⟩ := p
      rw [hp] at h
      cases rest <;> simp at h
  · cases hp : RandomElement (w.This.GetFilteredNodeKeys NonInputNodeFilter) w.Rand with
    | error f => rw [hp] at h; simp at h
    | ok p =>
      obtain ⟨NodeID, rest⟩ := p
      rw [hp] at h
      obtain ⟨n, hn, _⟩ := (mem_FilterKeysByPredicate _ _ _).1 (RandomElement_ok _ _ _ _ hp).1
      cases rest with
      | nil => simp at h
      | cons d rest =>
        simp only at h
        have := (Prod.mk.inj (ok_inj _ _ h)).2
        subst this
        exact Sound_node_write w.This NodeID _ rfl ⟨n, hn⟩ hS.1 hS.2

theorem MutateKind_Sound (RAND_MAX : Nat) (cfg : Config) (Kind : EMutationType)
    (w w2 : World) (ret : Bool) (hS : w.This.Sound)
    (h : Genotype.MutateKind RAND_MAX cfg Kind w = Except.ok (ret, w2)) : w2.This.Sound := by
  cases Kind
  · exact MutateAddNode_Sound cfg w w2 ret hS h
  · exact MutateAddConnection_Sound cfg w w2 ret hS h
  · exact MutateRemoveNode_Sound cfg w w2 ret hS h
  · exact MutateRemoveConnection_Sound cfg w w2 ret hS h
  · exact MutateModifyWeight_Sound RAND_MAX cfg w w2 ret hS h
  · exact MutateModifyBias_Sound RAND_MAX cfg w w2 ret hS h
  · exact MutateModifyActivation_Sound cfg w w2 ret hS h
  · exact MutateModifyAggregation_Sound cfg w w2 ret hS h
  · exact MutateToggleConnection_Sound cfg w w2 ret hS h
  · have := (Prod.mk.inj (ok_inj _ _ h)).2
    subst this
    exact hS

theorem MutateGated_Sound (RAND_MAX : Nat) (cfg : Config) (Kind : EMutationType)
    (w w2 : World) (hS : w.This.Sound)
    (h : Genotype.MutateGated RAND_MAX cfg Kind w = Except.ok w2) : w2.This.Sound := by
  unfold Genotype.MutateGated at h
  cases hr : w.Rand with
  | nil => rw [hr] at h; simp at h
  | cons r rest =>
    rw [hr] at h
    simp only at h
    split_ifs at h with hgate
    · cases hk : Genotype.MutateKind RAND_MAX cfg Kind { w with Rand := rest } with
      | error f => rw [hk] at h; simp at h
      | ok p =>
        obtain ⟨ret, w3⟩ := p
        rw [hk] at h
        simp only at h
        have := ok_inj _ _ h
        subst this
        exact MutateKind_Sound RAND_MAX cfg Kind { w with Rand := rest } w3 ret hS hk
    · have := ok_inj _ _ h
      subst this
      exact hS

theorem MutateEach_Sound (RAND_MAX : Nat) (cfg : Config) (Kinds : List EMutationType) :
    ∀ (w w2 : World), w.This.Sound →
      Genotype.MutateEach RAND_MAX cfg Kinds w = Except.ok w2 → w2.This.Sound := by
  induction Kinds with
  | nil =>
    intro w w2 hS h
    have := ok_inj _ _ h
    subst this
    exact hS
  | cons Kind Kinds ih =>
    intro w w2 hS h
    unfold Genotype.MutateEach at h
    cases hg : Genotype.MutateGated RAND_MAX cfg Kind w with
    | error f => rw [hg] at h; simp at h
    | ok w3 =>
      rw [hg] at h
      simp only at h
      exact ih w3 w2 (MutateGated_Sound RAND_MAX cfg Kind w w3 hS hg) h

theorem Mutate_Sound (RAND_MAX : Nat) (cfg : Config) (w w2 : World) (hS : w.This.Sound)
    (h : Genotype.Mutate RAND_MAX cfg w = Except.ok w2) : w2.This.Sound := by
  unfold Genotype.Mutate at h
  split_ifs at h with hsingle
  · cases hr : w.Rand with
    | nil => rw [hr] at h; simp at h
    | cons r rest =>
      rw [hr] at h
      simp only at h
      exact MutateGated_Sound RAND_MAX cfg _ { w with Rand := rest } w2 hS h
  · exact MutateEach_Sound RAND_MAX cfg MultiOrder w w2 hS h

/-- C10, as stated, fails on a genotype that holds a disabled node:
    `disabledNodeWorld` has no connection, so every connection resolves, and
    `MutateAddConnection` adds the connection 2 from node 0 to the disabled
    node 1 (the operator never looks at `Enabled`). -/
theorem MutateAddConnection_reaches_disabled_node :
    disabledNodeWorld.This.EndpointsResolve ∧
    ∃ w2, Genotype.MutateAddConnection {} disabledNodeWorld = Except.ok (true, w2) ∧
      w2.This.Connections.Find 2
        = some { ID := 2, Enabled := true, Input := 0, Output := 1, Weight := 1 } ∧
      w2.This.Nodes.Find 1
        = some { ID := 1, NodeType := ENodeType.Output, Enabled := false } ∧
      ¬ w2.This.EndpointsResolve := by
  refine ⟨EndpointsResolve_of_all _ rfl, _, rfl, rfl, rfl, ?_⟩
  intro hE
  obtain ⟨_, ⟨n, hn, he⟩⟩ := hE 2 _ rfl
  have h1 : n = { ID := 1, NodeType := ENodeType.Output, Enabled := false } :=
    (Option.some.inj hn).symm
  rw [h1] at he
  cases he

/-- C10, amended. For every genotype whose nodes are all enabled and in which
    every connection has its `Input` and `Output` among the keys of the node map:
    after `Genotype::Mutate` (whatever `SingleMutation` is, so in Single and in
    Multi mode) and after each of the nine operators (`MutateKind` at the nine
    kinds), for every outcome of the random draws on which the call returns, every
    connection again has both endpoints in the node map and enabled, and every
    node is still enabled. -/
theorem mutation_preserves_resolvability (RAND_MAX : Nat) (cfg : Config) (w : World)
    (hN : w.This.NodesEnabled) (hE : w.This.EndpointsResolve) :
    (∀ w2, Genotype.Mutate RAND_MAX cfg w = Except.ok w2 →
      w2.This.EndpointsResolve ∧ w2.This.NodesEnabled) ∧
    (∀ Kind ret w2, Genotype.MutateKind RAND_MAX cfg Kind w = Except.ok (ret, w2) →
      w2.This.EndpointsResolve ∧ w2.This.NodesEnabled) := by
  constructor
  · intro w2 h
    have hS := Mutate_Sound RAND_MAX cfg w w2 ⟨hN, hE⟩ h
    exact ⟨hS.2, hS.1⟩
  · intro Kind ret w2 h
    have hS := MutateKind_Sound RAND_MAX cfg Kind w w2 ret ⟨hN, hE⟩ h
    exact ⟨hS.2, hS.1⟩

theorem sample_gate_open : Math.Random 32767 0 1 < ({} : Config).AddNodeMutationRate := by
  norm_num [Math.Random, Math.Random2]

/-- In Single mode the draws 0, 0, 0 choose `AddNode`, open its gate and split
    connection 10 of the sample genotype. -/
theorem sample_single_Mutate :
    Genotype.Mutate 32767 { SingleMutation := true } (sampleWorld [0, 0, 0])
      = Except.ok sampleAfterAddNode := by
  have hgate : Math.Random 32767 0 1
      < ({ SingleMutation := true } : Config).RateOf (EMutationType.ofIndex (0 % 9)) :=
    sample_gate_open
  unfold Genotype.Mutate
  rw [if_pos rfl]
  show Genotype.MutateGated 32767 { SingleMutation := true } (EMutationType.ofIndex (0 % 9))
    (sampleWorld [0, 0]) = Except.ok sampleAfterAddNode
  unfold Genotype.MutateGated
  show (if Math.Random 32767 0 1
      < ({ SingleMutation := true } : Config).RateOf (EMutationType.ofIndex (0 % 9)) then
      (match Genotype.MutateKind 32767 { SingleMutation := true } (EMutationType.ofIndex (0 % 9))
          (sampleWorld [0]) with
        | Except.error f => Except.error f
        | Except.ok (_, w2) => Except.ok w2)
      else Except.ok (sampleWorld [0])) = Except.ok sampleAfterAddNode
  rw [if_pos hgate]
  rfl

/-- C10 amended, on the sample genotype: it satisfies both hypotheses, `Mutate`
    in Single mode and `MutateAddNode` return on it, and the results resolve. -/
theorem mutation_preserves_resolvability_witness :
    (sampleWorld [0, 0, 0]).This.NodesEnabled ∧ (sampleWorld [0, 0, 0]).This.EndpointsResolve ∧
    (sampleAfterAddNode.This.EndpointsResolve ∧ sampleAfterAddNode.This.NodesEnabled) ∧
    ((∀ w2, Genotype.Mutate 32767 {} (sampleWorld [0]) = Except.ok w2 →
        w2.This.EndpointsResolve ∧ w2.This.NodesEnabled) ∧
      (∀ Kind ret w2, Genotype.MutateKind 32767 {} Kind (sampleWorld [0]) = Except.ok (ret, w2) →
        w2.This.EndpointsResolve ∧ w2.This.NodesEnabled)) :=
  ⟨NodesEnabled_of_all _ _ rfl, EndpointsResolve_of_all _ rfl,
   (mutation_preserves_resolvability 32767 { SingleMutation := true } (sampleWorld [0, 0, 0])
      (NodesEnabled_of_all _ _ rfl) (EndpointsResolve_of_all _ rfl)).1 sampleAfterAddNode
      sample_single_Mutate,
   mutation_preserves_resolvability 32767 {} (sampleWorld [0])
      (NodesEnabled_of_all _ _ rfl) (EndpointsResolve_of_all _ rfl)⟩

/-! ### Initial topologies -/

theorem insertEntry_length {V : Type} (k : Nat) (v : V) (l : List (Nat × V))
    (h : l.Pairwise (fun a b => a.1 < b.1)) :
    (insertEntry k v l).length =
      if (lookupEntry k l).isSome then l.length else l.length + 1 := by
  induction l with
  | nil => simp [insertEntry, lookupEntry]
  | cons e t ih =>
    rw [List.pairwise_cons] at h
    unfold insertEntry lookupEntry
    split_ifs with h1 h2 h3 h4 h5 h6
    all_goals first
      | omega
      | simp
    all_goals first
      | (have hn := lookupEntry_none_of_lt k t (fun b hb => lt_trans h1 (h.1 b hb))
         simp_all)
      | (have h2 := ih h.2
         simp_all)

theorem TMap.Num_Add {V : Type} (m : TMap V) (k : Nat) (v : V) :
    (m.Add k v).Num = if m.Contains k then m.Num else m.Num + 1 := by
  unfold TMap.Num TMap.Add TMap.Contains TMap.Find
  exact insertEntry_length k v m.entries m.ascending

theorem foldl_AssignNode (v : Nat → NodeGene) (off : Nat) :
    ∀ (n : Nat) (N0 : TMap NodeGene), (∀ k, off ≤ k → N0.Find k = none) →
      ((List.range n).foldl (fun N i => AssignNode N (i + off) (v i)) N0).Num = N0.Num + n ∧
      (∀ k, ((List.range n).foldl (fun N i => AssignNode N (i + off) (v i)) N0).Find k =
        if off ≤ k ∧ k < off + n then some (NodeGene.Assign {} (v (k - off)))
        else N0.Find k) := by
  intro n
  induction n with
  | zero =>
    intro N0 _
    refine ⟨rfl, fun k => ?_⟩
    have : ¬ (off ≤ k ∧ k < off + 0) := by omega
    rw [if_neg this]
    rfl
  | succ n ih =>
    intro N0 h0
    obtain ⟨hnum, hfind⟩ := ih N0 h0
    rw [List.range_succ, List.foldl_append]
    simp only [List.foldl_cons, List.foldl_nil]
    have hfresh : ((List.range n).foldl (fun N i => AssignNode N (i + off) (v i)) N0).Find
        (n + off) = none := by
      rw [hfind]
      have : ¬ (off ≤ n + off ∧ n + off < off + n) := by omega
      rw [if_neg this]
      exact h0 _ (by omega)
    generalize (List.range n).foldl (fun N i => AssignNode N (i + off) (v i)) N0 = N1 at *
    constructor
    · unfold AssignNode
      rw [TMap.Num_Add]
      simp only [TMap.Contains, hfresh, Option.isSome_none, Bool.false_eq_true, if_false]
      omega
    · intro k
      unfold AssignNode
      rw [TMap.Find_Add]
      by_cases hk : k = n + off
      · subst hk
        have h1 : off ≤ n + off ∧ n + off < off + (n + 1) := by omega
        rw [if_pos rfl, if_pos h1]
        simp only [TMap.At, hfresh, Option.getD_none, Nat.add_sub_cancel]
      · rw [if_neg hk, hfind]
        by_cases h2 : off ≤ k ∧ k < off + n
        · have h3 : off ≤ k ∧ k < off + (n + 1) := by omega
          rw [if_pos h2, if_pos h3]
        · have h3 : ¬ (off ≤ k ∧ k < off + (n + 1)) := by omega
          rw [if_neg h2, if_neg h3]

theorem None_ok (cfg : Config) (G : Genome) (hcfg : G.Config = some cfg)
    (hG : G.Genotype = emptyGenotype) :
    ∃ N : TMap NodeGene,
      InitialTopology.None G = Except.ok { G with Genotype := ⟨N, TMap.empty⟩ } ∧
      N.Num = cfg.NumInputs + 1 + cfg.NumOutputs + cfg.NumHidden ∧
      ∀ k, N.Find k =
        if k ≤ cfg.NumInputs then
          some { ID := k, NodeType := ENodeType.Input, Activation := EActivation.Linear }
        else if k ≤ cfg.NumInputs + cfg.NumOutputs then
          some { ID := k, NodeType := ENodeType.Output,
                 Activation := cfg.DefaultActivationFunction }
        else if k ≤ cfg.NumInputs + cfg.NumOutputs + cfg.NumHidden then
          some { ID := k, NodeType := ENodeType.Hidden,
                 Activation := cfg.DefaultActivationFunction }
        else none := by
  obtain ⟨n1, f1⟩ := foldl_AssignNode
    (fun i => { ID := i, NodeType := ENodeType.Input, Activation := EActivation.Linear, Bias := 0 })
    0 (cfg.NumInputs + 1) TMap.empty (fun k _ => rfl)
  obtain ⟨n2, f2⟩ := foldl_AssignNode
    (fun i => { ID := i + cfg.NumInputs + 1, NodeType := ENodeType.Output,
                Activation := cfg.DefaultActivationFunction,
                Aggregation := cfg.DefaultAggregationFunction })
    (cfg.NumInputs + 1) cfg.NumOutputs _ (fun k hk => by
      rw [f1 k, if_neg (by omega)]; rfl)
  obtain ⟨n3, f3⟩ := foldl_AssignNode
    (fun i => { ID := i + cfg.NumInputs + cfg.NumOutputs + 1, NodeType := ENodeType.Hidden,
                Activation := cfg.DefaultActivationFunction,
                Aggregation := cfg.DefaultAggregationFunction })
    (cfg.NumInputs + cfg.NumOutputs + 1) cfg.NumHidden _ (fun k hk => by
      rw [f2 k, if_neg (by omega), f1 k, if_neg (by omega)]; rfl)
  have hnum := n3
  rw [n2, n1] at hnum
  have hfind : ∀ k, _ =
      (if k ≤ cfg.NumInputs then
        some ({ ID := k, NodeType := ENodeType.Input, Activation := EActivation.Linear } : NodeGene)
      else if k ≤ cfg.NumInputs + cfg.NumOutputs then
        some { ID := k, NodeType := ENodeType.Output,
               Activation := cfg.DefaultActivationFunction }
      else if k ≤ cfg.NumInputs + cfg.NumOutputs + cfg.NumHidden then
        some { ID := k, NodeType := ENodeType.Hidden,
               Activation := cfg.DefaultActivationFunction }
      else none) := fun k => (f3 k).trans (by
    rw [f2 k, f1 k]
    by_cases h1 : k ≤ cfg.NumInputs
    · rw [if_neg (by omega), if_neg (by omega), if_pos (by omega), if_pos h1]
      simp [NodeGene.Assign]
    · rw [if_neg h1]
      by_cases h2 : k ≤ cfg.NumInputs + cfg.NumOutputs
      · rw [if_neg (by omega), if_pos (by omega), if_pos h2]
        simp only [NodeGene.Assign, Option.some.injEq, NodeGene.mk.injEq, and_true, true_and]
        omega
      · rw [if_neg h2]
        by_cases h3 : k ≤ cfg.NumInputs + cfg.NumOutputs + cfg.NumHidden
        · rw [if_pos (by omega), if_pos h3]
          simp only [NodeGene.Assign, Option.some.injEq, NodeGene.mk.injEq, and_true, true_and]
          omega
        · rw [if_neg (by omega), if_neg (by omega), if_neg (by omega), if_neg h3]
          rfl)
  refine ⟨_, ?_, ?_, hfind⟩
  · unfold InitialTopology.None
    rw [hcfg, hG]
    simp only [emptyGenotype]
    have e3 : ∀ i : Nat, i + cfg.NumInputs + cfg.NumOutputs + 1 =
        i + (cfg.NumInputs + cfg.NumOutputs + 1) := by intro i; omega
    simp only [e3]
    rfl
  · rw [hnum]
    show 0 + _ + _ + _ = _
    omega

/-- C11, as the code behaves: for every config with `I` inputs, `O` outputs and
    `H` hidden nodes, `InitialTopology::None` on an empty genome returns, leaves
    the connection map empty and yields exactly `I+1+O+H` nodes; ids `0..I` are
    `Input` nodes with activation `Linear`, ids `I+1..I+O` are `Output` nodes and
    ids `I+O+1..I+O+H` are `Hidden` nodes, both kinds with the config's
    `DefaultActivationFunction`. Every node carries the aggregation `Mean`,
    whatever `DefaultAggregationFunction` is: the value passed to the
    constructor is not copied by the assignment into the node map. -/
theorem None_nodes (cfg : Config) (G : Genome) (hcfg : G.Config = some cfg)
    (hG : G.Genotype = emptyGenotype) :
    ∃ G1, InitialTopology.None G = Except.ok G1 ∧
      G1.Genotype.Connections = TMap.empty ∧
      G1.Genotype.Nodes.Num = cfg.NumInputs + 1 + cfg.NumOutputs + cfg.NumHidden ∧
      (∀ k, k ≤ cfg.NumInputs →
        G1.Genotype.Nodes.Find k = some
          { ID := k, Enabled := true, NodeType := ENodeType.Input,
            Activation := EActivation.Linear, Aggregation := EAggregation.Mean, Bias := 0 }) ∧
      (∀ k, cfg.NumInputs < k → k ≤ cfg.NumInputs + cfg.NumOutputs →
        G1.Genotype.Nodes.Find k = some
          { ID := k, Enabled := true, NodeType := ENodeType.Output,
            Activation := cfg.DefaultActivationFunction, Aggregation := EAggregation.Mean,
            Bias := 0 }) ∧
      (∀ k, cfg.NumInputs + cfg.NumOutputs < k →
        k ≤ cfg.NumInputs + cfg.NumOutputs + cfg.NumHidden →
        G1.Genotype.Nodes.Find k = some
          { ID := k, Enabled := true, NodeType := ENodeType.Hidden,
            Activation := cfg.DefaultActivationFunction, Aggregation := EAggregation.Mean,
            Bias := 0 }) ∧
      (∀ k, cfg.NumInputs + cfg.NumOutputs + cfg.NumHidden < k →
        G1.Genotype.Nodes.Find k = none) := by
  obtain ⟨N, hrun, hnum, hfind⟩ := None_ok cfg G hcfg hG
  refine ⟨_, hrun, rfl, hnum, ?_, ?_, ?_, ?_⟩
  · intro k h1
    show N.Find k = _
    rw [hfind k, if_pos h1]
  · intro k h1 h2
    show N.Find k = _
    rw [hfind k, if_neg (by omega), if_pos h2]
  · intro k h1 h2
    show N.Find k = _
    rw [hfind k, if_neg (by omega), if_neg (by omega), if_pos h2]
  · intro k h1
    show N.Find k = _
    rw [hfind k, if_neg (by omega), if_neg (by omega), if_neg (by omega)]

/-- C11 at the default configuration with one input, one output and one hidden
    node: the output node 2 and the hidden node 3 carry `Mean`, while the
    config's `DefaultAggregationFunction` is `Product`. -/
theorem None_nodes_witness :
    smallConfig.DefaultAggregationFunction = EAggregation.Product ∧
    ∃ G1, InitialTopology.None smallGenome = Except.ok G1 ∧
      G1.Genotype.Nodes.Num = 4 ∧
      G1.Genotype.Nodes.Find 2 = some
        { ID := 2, NodeType := ENodeType.Output, Activation := EActivation.Sigmoid,
          Aggregation := EAggregation.Mean } ∧
      G1.Genotype.Nodes.Find 3 = some
        { ID := 3, NodeType := ENodeType.Hidden, Activation := EActivation.Sigmoid,
          Aggregation := EAggregation.Mean } := by
  obtain ⟨G1, hrun, _, hnum, _, hout, hhid, _⟩ := None_nodes smallConfig smallGenome rfl rfl
  exact ⟨rfl, G1, hrun, hnum, hout 2 (by decide) (by decide), hhid 3 (by decide) (by decide)⟩

theorem foldlM_pairs {σ : Type} (C : σ → Nat × Nat → Except Fault σ) (g : Nat → List (Nat × Nat)) :
    ∀ (l : List Nat) (s0 : σ),
      l.foldlM (fun s a => (g a).foldlM C s) s0 = (l.flatMap g).foldlM C s0 := by
  intro l
  induction l with
  | nil => intro s0; rfl
  | cons a l ih =>
    intro s0
    rw [List.foldlM_cons, List.flatMap_cons, List.foldlM_append]
    congr 1
    funext s
    exact ih s

theorem Full_eq (cfg : Config) (G G1 : Genome) (t : InnovationTracker)
    (hnone : InitialTopology.None G = Except.ok G1) (hcfg : G1.Config = some cfg) :
    InitialTopology.Full G t =
      (InitialTopology.FullPairs cfg).foldlM
        (fun s p => InitialTopology.Connect p.1 p.2 s) (G1, t) := by
  unfold InitialTopology.Full InitialTopology.FullPairs
  rw [hnone]
  show (match G1.Config with
    | none => Except.error Fault.NullDereference
    | some Config => _) = _
  rw [hcfg]
  simp only
  simp only [List.foldlM_append, ← foldlM_pairs, List.foldlM_map]

theorem TMap.ext_Find {V : Type} (m1 m2 : TMap V) (h : ∀ k, m1.Find k = m2.Find k) :
    m1 = m2 := by
  apply TMap.ext_entries
  have hnd : ∀ m : TMap V, m.entries.Nodup := fun m =>
    m.ascending.imp (fun {a b} hab e => by rw [e] at hab; exact lt_irrefl _ hab)
  have hperm : m1.entries.Perm m2.entries := by
    refine (List.perm_ext_iff_of_nodup (hnd m1) (hnd m2)).2 ?_
    rintro ⟨k, v⟩
    rw [TMap.mem_entries_iff, TMap.mem_entries_iff, h k]
  haveI : IsAntisymm (Nat × V) (fun a b => a.1 < b.1) :=
    ⟨fun a b h1 h2 => absurd h1 (lt_asymm h2)⟩
  exact List.eq_of_perm_of_sorted hperm m1.ascending m2.ascending

theorem RegistryWF_Reset (t0 : InnovationTracker) (s : Nat) (hs : s < 2 ^ 64) :
    RegistryWF (t0.Reset s) := by
  refine ⟨hs, ?_, ?_⟩
  · intro k r h
    cases h
  · intro k1 k2 r1 r2 h
    cases h

theorem RegistryWF_GetInnovationID (t : InnovationTracker) (q : Request) (hwf : RegistryWF t) :
    RegistryWF (t.GetInnovationID q.1 q.2.1 q.2.2.1 q.2.2.2).2 ∧
    (∃ r, (t.GetInnovationID q.1 q.2.1 q.2.2.1 q.2.2.2).2.Innovations.Find
        (t.GetInnovationID q.1 q.2.1 q.2.2.1 q.2.2.2).1 = some r ∧ r.Tuple = q) ∧
    (t.Knows q = true → (t.GetInnovationID q.1 q.2.1 q.2.2.1 q.2.2.2).2 = t) ∧
    (t.Knows q = false →
      (t.GetInnovationID q.1 q.2.1 q.2.2.1 q.2.2.2).2.NextInnovationID =
        (t.NextInnovationID + 1) % 2 ^ 64 ∧
      ∀ k, (t.GetInnovationID q.1 q.2.1 q.2.2.1 q.2.2.2).2.Innovations.Find k =
        if k = t.NextInnovationID then
          some { ID := t.NextInnovationID, MutationType := q.1, GeneType := q.2.1,
                 Input := q.2.2.1, Output := q.2.2.2 }
        else t.Innovations.Find k) := by
  have hknows := Knows_iff t q
  obtain ⟨m, g, i, o⟩ := q
  obtain ⟨hnext, hkeys, huniq⟩ := hwf
  by_cases hex : ∃ k r, t.Innovations.Find k = some r ∧ r.Tuple = (m, g, i, o)
  · obtain ⟨k, r, hk, hr, _, heq⟩ := GetInnovationID_found t m g i o hex
    simp only [heq]
    refine ⟨⟨hnext, hkeys, huniq⟩, ⟨r, ?_, hr⟩, fun _ => trivial, ?_⟩
    · rw [hkeys k r hk]; exact hk
    · intro hno
      rw [hknows.2 hex] at hno
      cases hno
  · have hunknown : t.Knows (m, g, i, o) = false := by
      cases hb : t.Knows (m, g, i, o) with
      | false => rfl
      | true => exact absurd (hknows.1 hb) hex
    simp only [GetInnovationID_fresh t m g i o hex]
    refine ⟨⟨Nat.mod_lt _ (by norm_num), ?_, ?_⟩, ⟨_, TMap.Find_Add_self _ _ _, rfl⟩, ?_, ?_⟩
    · intro k r hk
      rw [TMap.Find_Add] at hk
      split_ifs at hk with hkn
      · have : r = ⟨t.NextInnovationID, m, g, i, o⟩ := (Option.some.inj hk).symm
        rw [this, hkn]
      · exact hkeys k r hk
    · intro k1 k2 r1 r2 hk1 hk2 htup
      rw [TMap.Find_Add] at hk1 hk2
      split_ifs at hk1 hk2 with e1 e2 e2
      · rw [e1, e2]
      · exfalso
        have : r1 = ⟨t.NextInnovationID, m, g, i, o⟩ := (Option.some.inj hk1).symm
        subst this
        exact hex ⟨k2, r2, hk2, htup.symm⟩
      · exfalso
        have : r2 = ⟨t.NextInnovationID, m, g, i, o⟩ := (Option.some.inj hk2).symm
        subst this
        exact hex ⟨k1, r1, hk1, htup⟩
      · exact huniq k1 k2 r1 r2 hk1 hk2 htup
    · intro hk
      rw [hunknown] at hk
      cases hk
    · intro _
      exact ⟨trivial, fun k => TMap.Find_Add _ _ _ _⟩

theorem Connect_step (G : Genome) (t : InnovationTracker) (a b : Nat)
    (na nb : NodeGene)
    (ha : G.Genotype.Nodes.Find a = some na) (hna : na.ID = a)
    (hb : G.Genotype.Nodes.Find b = some nb) (hnb : nb.ID = b)
    (hwf : RegistryWF t)
    (hroom : t.Knows (InitialTopology.RequestOf a b) = false →
      t.Innovations.Find t.NextInnovationID = none)
    (hA : InitialTopology.Registered G.Genotype.Connections t) :
    ∃ G2 t2, InitialTopology.Connect a b (G, t) = Except.ok (G2, t2) ∧
      G2.Genotype.Nodes = G.Genotype.Nodes ∧ G2.Config = G.Config ∧
      RegistryWF t2 ∧
      (∀ k r, t.Innovations.Find k = some r → t2.Innovations.Find k = some r) ∧
      (t.Knows (InitialTopology.RequestOf a b) = true → t2 = t) ∧
      (t.Knows (InitialTopology.RequestOf a b) = false →
        t2.NextInnovationID = (t.NextInnovationID + 1) % 2 ^ 64 ∧
        ∀ k, k ≠ t.NextInnovationID → t2.Innovations.Find k = t.Innovations.Find k) ∧
      InitialTopology.Registered G2.Genotype.Connections t2 ∧
      (∀ id x, G.Genotype.Connections.Find id = some x →
        G2.Genotype.Connections.Find id = some x) ∧
      (∃ id, G2.Genotype.Connections.Find id = some
        { ID := id, Enabled := true, Input := a, Output := b, Weight := 1 }) ∧
      (∀ id x, G2.Genotype.Connections.Find id = some x →
        G.Genotype.Connections.Find id = some x ∨ (x.Input = a ∧ x.Output = b)) ∧
      ((∀ id x, G.Genotype.Connections.Find id = some x → ¬ (x.Input = a ∧ x.Output = b)) →
        G2.Genotype.Connections.Num = G.Genotype.Connections.Num + 1) := by
  obtain ⟨hwf2, ⟨r0, hr0, htup0⟩, hknown, hfresh⟩ :=
    RegistryWF_GetInnovationID t (InitialTopology.RequestOf a b) hwf
  simp only [InitialTopology.RequestOf] at hwf2 hr0 hknown hfresh
  generalize hres : t.GetInnovationID EMutationType.AddConnection EGeneType.Connection a b = res
    at hwf2 hr0 hknown hfresh
  have hmono : ∀ k r, t.Innovations.Find k = some r → res.2.Innovations.Find k = some r := by
    intro k r hk
    cases hkn : t.Knows (InitialTopology.RequestOf a b) with
    | true => rw [hknown hkn]; exact hk
    | false =>
      rw [(hfresh hkn).2 k, if_neg]
      · exact hk
      · intro e
        rw [e, hroom hkn] at hk
        cases hk
  have hfresh2 : t.Knows (InitialTopology.RequestOf a b) = false →
      res.2.NextInnovationID = (t.NextInnovationID + 1) % 2 ^ 64 ∧
      ∀ k, k ≠ t.NextInnovationID → res.2.Innovations.Find k = t.Innovations.Find k := by
    intro hkn
    refine ⟨(hfresh hkn).1, fun k hk => ?_⟩
    rw [(hfresh hkn).2 k, if_neg hk]
  have hrun : InitialTopology.Connect a b (G, t) =
      if G.Genotype.Connections.Contains res.1 then Except.ok (G, res.2)
      else Except.ok
        ({ G with
            Genotype :=
              { G.Genotype with
                Connections := G.Genotype.Connections.Add res.1
                  { ID := res.1, Input := a, Output := b, Weight := 1 } } },
          res.2) := by
    simp only [InitialTopology.Connect, ha, hb, hna, hnb, hres]
  have hAmono : InitialTopology.Registered G.Genotype.Connections res.2 := by
    intro id x hx
    obtain ⟨h1, r, h2, h3⟩ := hA id x hx
    exact ⟨h1, r, hmono _ _ h2, h3⟩
  by_cases hcont : G.Genotype.Connections.Contains res.1 = true
  · rw [if_pos hcont] at hrun
    obtain ⟨x, hx⟩ := (TMap.Contains_iff _ _).1 hcont
    obtain ⟨hxform, r, hr, hrt⟩ := hAmono _ _ hx
    have hrr : r = r0 := by rw [hr0] at hr; exact (Option.some.inj hr).symm
    rw [hrr, htup0] at hrt
    have hxa : x.Input = a ∧ x.Output = b := by
      simp only [InitialTopology.RequestOf, Prod.mk.injEq, true_and] at hrt
      exact ⟨hrt.1.symm, hrt.2.symm⟩
    refine ⟨G, res.2, hrun, rfl, rfl, hwf2, hmono, hknown, hfresh2, hAmono,
      fun _ _ h => h, ⟨res.1, ?_⟩, fun _ _ h => Or.inl h, ?_⟩
    · rw [hx, hxform, hxa.1, hxa.2]
    · intro hno
      exact absurd hxa (hno _ _ hx)
  · rw [if_neg hcont] at hrun
    have hnone : G.Genotype.Connections.Find res.1 = none := by
      cases hf : G.Genotype.Connections.Find res.1 with
      | none => rfl
      | some x => exact absurd ((TMap.Contains_iff _ _).2 ⟨x, hf⟩) hcont
    refine ⟨_, res.2, hrun, rfl, rfl, hwf2, hmono, hknown, hfresh2, ?_, ?_,
      ⟨res.1, TMap.Find_Add_self _ _ _⟩, ?_, ?_⟩
    · intro id x hx
      simp only [TMap.Find_Add] at hx
      split_ifs at hx with hid
      · have hxe : x = { ID := res.1, Input := a, Output := b, Weight := 1 } :=
          (Option.some.inj hx).symm
        subst hid
        refine ⟨by rw [hxe], r0, hr0, ?_⟩
        rw [htup0, hxe]
      · exact hAmono id x hx
    · intro id x hx
      simp only
      rw [TMap.Find_Add_ne _ _ _ _ (by intro e; rw [e, hnone] at hx; cases hx)]
      exact hx
    · intro id x hx
      simp only [TMap.Find_Add] at hx
      split_ifs at hx with hid
      · have hxe : x = { ID := res.1, Input := a, Output := b, Weight := 1 } :=
          (Option.some.inj hx).symm
        exact Or.inr (by rw [hxe]; exact ⟨rfl, rfl⟩)
      · exact Or.inl hx
    · intro _
      simp only
      rw [TMap.Num_Add]
      simp [hcont]

theorem ConnectAll_ok (N : TMap NodeGene) :
    ∀ (L : List (Nat × Nat)) (G : Genome) (t : InnovationTracker),
      G.Genotype.Nodes = N →
      (∀ p ∈ L, ∃ na nb, N.Find p.1 = some na ∧ na.ID = p.1 ∧
        N.Find p.2 = some nb ∧ nb.ID = p.2) →
      RegistryWF t →
      ((t.FreshIDs L.length ∧ L.length ≤ 2 ^ 64) ∨
        ∀ p ∈ L, t.Knows (InitialTopology.RequestOf p.1 p.2) = true) →
      InitialTopology.Registered G.Genotype.Connections t →
      ∃ G2 t2,
        L.foldlM (fun s p => InitialTopology.Connect p.1 p.2 s) (G, t) = Except.ok (G2, t2) ∧
        G2.Genotype.Nodes = N ∧ G2.Config = G.Config ∧ RegistryWF t2 ∧
        (∀ k r, t.Innovations.Find k = some r → t2.Innovations.Find k = some r) ∧
        ((∀ p ∈ L, t.Knows (InitialTopology.RequestOf p.1 p.2) = true) → t2 = t) ∧
        InitialTopology.Registered G2.Genotype.Connections t2 ∧
        (∀ id x, G.Genotype.Connections.Find id = some x →
          G2.Genotype.Connections.Find id = some x) ∧
        (∀ p ∈ L, ∃ id, G2.Genotype.Connections.Find id = some
          { ID := id, Enabled := true, Input := p.1, Output := p.2, Weight := 1 }) ∧
        (∀ id x, G2.Genotype.Connections.Find id = some x →
          G.Genotype.Connections.Find id = some x ∨ (x.Input, x.Output) ∈ L) ∧
        (L.Nodup →
          (∀ id x, G.Genotype.Connections.Find id = some x → (x.Input, x.Output) ∉ L) →
          G2.Genotype.Connections.Num = G.Genotype.Connections.Num + L.length) := by
  intro L
  induction L with
  | nil =>
    intro G t hN _ hwf _ hA
    exact ⟨G, t, rfl, hN, rfl, hwf, fun _ _ h => h, fun _ => rfl, hA, fun _ _ h => h,
      fun p hp => absurd hp (List.not_mem_nil p), fun _ _ h => Or.inl h, fun _ _ => rfl⟩
  | cons p L ih =>
    intro G t hN hnodes hwf hbudget hA
    obtain ⟨na, nb, ha, hna, hb, hnb⟩ := hnodes p (List.mem_cons_self _ _)
    rw [← hN] at ha hb
    have hnext := hwf.1
    have hroom : t.Knows (InitialTopology.RequestOf p.1 p.2) = false →
        t.Innovations.Find t.NextInnovationID = none := by
      intro hk
      rcases hbudget with h | h
      · have h0 := h.1 0 (by simp)
        rw [Nat.add_zero, Nat.mod_eq_of_lt hnext] at h0
        exact h0
      · rw [h p (List.mem_cons_self _ _)] at hk
        cases hk
    obtain ⟨G1, t1, hrun1, hN1, hC1, hwf1, hmono1, hknown1, hfresh1, hA1, hkeep1, hnew1,
      horig1, hnum1⟩ := Connect_step G t p.1 p.2 na nb ha hna hb hnb hwf hroom hA
    have hknows_mono : ∀ q, t.Knows q = true → t1.Knows q = true := by
      intro q hq
      obtain ⟨k, r, hk, hr⟩ := (Knows_iff t q).1 hq
      exact (Knows_iff t1 q).2 ⟨k, r, hmono1 k r hk, hr⟩
    have hbudget1 : (t1.FreshIDs L.length ∧ L.length ≤ 2 ^ 64) ∨
        ∀ q ∈ L, t1.Knows (InitialTopology.RequestOf q.1 q.2) = true := by
      rcases hbudget with h | h
      · left
        obtain ⟨hf, hlen⟩ := h
        simp only [List.length_cons] at hf hlen
        refine ⟨?_, by omega⟩
        cases hkn : t.Knows (InitialTopology.RequestOf p.1 p.2) with
        | true =>
          rw [hknown1 hkn]
          exact fun j hj => hf j (by omega)
        | false =>
          obtain ⟨e1, e2⟩ := hfresh1 hkn
          intro j hj
          have hj2 := hf (j + 1) (by omega)
          have e3 : (t1.NextInnovationID + j) % 2 ^ 64 =
              (t.NextInnovationID + (j + 1)) % 2 ^ 64 := by
            rw [e1]; omega
          rw [e3, e2 _ (by omega)]
          exact hj2
      · right
        intro q hq
        exact hknows_mono _ (h q (List.mem_cons_of_mem _ hq))
    obtain ⟨G2, t2, hrun2, hN2, hC2, hwf2, hmono2, hknown2, hA2, hkeep2, hnew2,
      horig2, hnum2⟩ := ih G1 t1 (hN1.trans hN)
        (fun q hq => hnodes q (List.mem_cons_of_mem _ hq)) hwf1 hbudget1 hA1
    refine ⟨G2, t2, ?_, hN2, hC2.trans hC1, hwf2,
      fun k r h => hmono2 k r (hmono1 k r h), ?_, hA2,
      fun id x h => hkeep2 id x (hkeep1 id x h), ?_, ?_, ?_⟩
    · rw [List.foldlM_cons, hrun1]
      exact hrun2
    · intro hall
      have e1 := hknown1 (hall p (List.mem_cons_self _ _))
      have e2 := hknown2 (fun q hq => by
        rw [e1]; exact hall q (List.mem_cons_of_mem _ hq))
      rw [e2, e1]
    · intro q hq
      rcases List.mem_cons.1 hq with h | h
      · obtain ⟨id, hid⟩ := hnew1
        exact ⟨id, by rw [h]; exact hkeep2 id _ hid⟩
      · exact hnew2 q h
    · intro id x hx
      rcases horig2 id x hx with h | h
      · rcases horig1 id x h with h1 | h1
        · exact Or.inl h1
        · right
          rw [h1.1, h1.2]
          exact List.mem_cons_self _ _
      · exact Or.inr (List.mem_cons_of_mem _ h)
    · intro hnd hfresh
      rw [List.nodup_cons] at hnd
      have h1 := hnum1 (fun id x hx hab => hfresh id x hx (by
        rw [hab.1, hab.2]; exact List.mem_cons_self _ _))
      have h2 := hnum2 hnd.2 (fun id x hx hmem => by
        rcases horig1 id x hx with h | h
        · exact hfresh id x h (List.mem_cons_of_mem _ hmem)
        · rw [h.1, h.2] at hmem
          exact hnd.1 hmem)
      rw [h2, h1, List.length_cons]
      omega

theorem mem_FullPairs (cfg : Config) (a b : Nat) :
    (a, b) ∈ InitialTopology.FullPairs cfg ↔ InitialTopology.FullPair cfg a b := by
  unfold InitialTopology.FullPairs InitialTopology.FullPair
  simp only [List.mem_append, List.mem_flatMap, List.mem_map, List.mem_range, Prod.mk.injEq]
  constructor
  · rintro (⟨i, hi, ⟨j, hj, h1, h2⟩ | ⟨j, hj, h1, h2⟩⟩ | ⟨i, hi, j, hj, h1, h2⟩)
    · left; omega
    · right; left; omega
    · right; right; omega
  · rintro (h | h | h)
    · exact Or.inl ⟨a, by omega, Or.inl ⟨b - (cfg.NumInputs + cfg.NumOutputs + 1), by omega,
        rfl, by omega⟩⟩
    · exact Or.inl ⟨a, by omega, Or.inr ⟨b - (cfg.NumInputs + 1), by omega, rfl, by omega⟩⟩
    · exact Or.inr ⟨a - (cfg.NumInputs + cfg.NumOutputs + 1), by omega,
        b - (cfg.NumInputs + 1), by omega, by omega, by omega⟩

theorem FullPairs_nodup (cfg : Config) : (InitialTopology.FullPairs cfg).Nodup := by
  unfold InitialTopology.FullPairs
  rw [List.nodup_append]
  refine ⟨?_, ?_, ?_⟩
  · rw [List.nodup_flatMap]
    refine ⟨fun Idx _ => ?_, ?_⟩
    · rw [List.nodup_append]
      refine ⟨(List.nodup_range _).map ?_, (List.nodup_range _).map ?_, ?_⟩
      · intro x y h
        simp only [Prod.mk.injEq, true_and] at h
        omega
      · intro x y h
        simp only [Prod.mk.injEq, true_and] at h
        omega
      · intro p h1 h2
        simp only [List.mem_map, List.mem_range] at h1 h2
        obtain ⟨j1, hj1, e1⟩ := h1
        obtain ⟨j2, hj2, e2⟩ := h2
        rw [← e2] at e1
        simp only [Prod.mk.injEq, true_and] at e1
        omega
    · refine (List.nodup_range _).imp ?_
      intro x y hne p h1 h2
      simp only [List.mem_append, List.mem_map, List.mem_range] at h1 h2
      have e1 : p.1 = x := by
        rcases h1 with ⟨j, _, e⟩ | ⟨j, _, e⟩ <;> rw [← e]
      have e2 : p.1 = y := by
        rcases h2 with ⟨j, _, e⟩ | ⟨j, _, e⟩ <;> rw [← e]
      exact hne (e1.symm.trans e2)
  · rw [List.nodup_flatMap]
    refine ⟨fun Idx _ => (List.nodup_range _).map ?_, ?_⟩
    · intro x y h
      simp only [Prod.mk.injEq, true_and] at h
      omega
    · refine (List.nodup_range _).imp ?_
      intro x y hne p h1 h2
      simp only [List.mem_map, List.mem_range] at h1 h2
      obtain ⟨j1, _, e1⟩ := h1
      obtain ⟨j2, _, e2⟩ := h2
      rw [← e2] at e1
      simp only [Prod.mk.injEq] at e1
      omega
  · intro p h1 h2
    simp only [List.mem_flatMap, List.mem_append, List.mem_map, List.mem_range] at h1 h2
    obtain ⟨i2, hi2, j2, _, e2⟩ := h2
    have hp : cfg.NumInputs < p.1 := by rw [← e2]; simp only; omega
    rcases h1 with ⟨i1, hi1, ⟨j, _, e⟩ | ⟨j, _, e⟩⟩
    · rw [← e] at hp; simp only at hp; omega
    · rw [← e] at hp; simp only at hp; omega

theorem FullPairs_length (cfg : Config) :
    (InitialTopology.FullPairs cfg).length =
      (cfg.NumInputs + 1) * cfg.NumHidden + (cfg.NumInputs + 1) * cfg.NumOutputs +
        cfg.NumHidden * cfg.NumOutputs := by
  unfold InitialTopology.FullPairs
  simp only [List.length_append, List.length_flatMap, List.length_map, List.length_range,
    Function.comp_def, List.map_const', List.sum_replicate, smul_eq_mul]
  ring

theorem Registered_transfer (t : InnovationTracker) (L : List (Nat × Nat))
    (M1 M2 : TMap ConnectionGene) (hwf : RegistryWF t)
    (hA1 : InitialTopology.Registered M1 t) (hA2 : InitialTopology.Registered M2 t)
    (horig1 : ∀ id x, M1.Find id = some x → (x.Input, x.Output) ∈ L)
    (hnew2 : ∀ p ∈ L, ∃ id, M2.Find id = some
      { ID := id, Enabled := true, Input := p.1, Output := p.2, Weight := 1 })
    (k : Nat) (x : ConnectionGene) (hx : M1.Find k = some x) : M2.Find k = some x := by
  obtain ⟨hform, r, hr, hrt⟩ := hA1 k x hx
  obtain ⟨id, hid⟩ := hnew2 _ (horig1 k x hx)
  obtain ⟨_, r2, hr2, hrt2⟩ := hA2 id _ hid
  have hk : k = id := hwf.2.2 k id r r2 hr hr2 (hrt.trans hrt2.symm)
  rw [hk, hid, hform, hk]

theorem Registered_unique (t : InnovationTracker) (L : List (Nat × Nat))
    (M1 M2 : TMap ConnectionGene) (hwf : RegistryWF t)
    (hA1 : InitialTopology.Registered M1 t) (hA2 : InitialTopology.Registered M2 t)
    (horig1 : ∀ id x, M1.Find id = some x → (x.Input, x.Output) ∈ L)
    (horig2 : ∀ id x, M2.Find id = some x → (x.Input, x.Output) ∈ L)
    (hnew1 : ∀ p ∈ L, ∃ id, M1.Find id = some
      { ID := id, Enabled := true, Input := p.1, Output := p.2, Weight := 1 })
    (hnew2 : ∀ p ∈ L, ∃ id, M2.Find id = some
      { ID := id, Enabled := true, Input := p.1, Output := p.2, Weight := 1 }) :
    M1 = M2 := by
  apply TMap.ext_Find
  intro k
  cases h1 : M1.Find k with
  | some x => exact (Registered_transfer t L M1 M2 hwf hA1 hA2 horig1 hnew2 k x h1).symm
  | none =>
    cases h2 : M2.Find k with
    | none => rfl
    | some x =>
      have := Registered_transfer t L M2 M1 hwf hA2 hA1 horig2 hnew1 k x h2
      rw [h1] at this
      cases this

theorem Full_ok (cfg : Config) (G : Genome) (t : InnovationTracker)
    (hcfg : G.Config = some cfg) (hG : G.Genotype = emptyGenotype)
    (hwf : RegistryWF t)
    (hbudget : (t.FreshIDs (InitialTopology.FullPairs cfg).length ∧
        (InitialTopology.FullPairs cfg).length ≤ 2 ^ 64) ∨
      ∀ p ∈ InitialTopology.FullPairs cfg,
        t.Knows (InitialTopology.RequestOf p.1 p.2) = true) :
    ∃ G2 t2, InitialTopology.Full G t = Except.ok (G2, t2) ∧ RegistryWF t2 ∧
      ((∀ p ∈ InitialTopology.FullPairs cfg,
        t.Knows (InitialTopology.RequestOf p.1 p.2) = true) → t2 = t) ∧
      InitialTopology.Registered G2.Genotype.Connections t2 ∧
      (∀ p ∈ InitialTopology.FullPairs cfg, ∃ id, G2.Genotype.Connections.Find id = some
        { ID := id, Enabled := true, Input := p.1, Output := p.2, Weight := 1 }) ∧
      (∀ id x, G2.Genotype.Connections.Find id = some x →
        (x.Input, x.Output) ∈ InitialTopology.FullPairs cfg) ∧
      G2.Genotype.Connections.Num = (InitialTopology.FullPairs cfg).length := by
  obtain ⟨N, hnone, _, hfind⟩ := None_ok cfg G hcfg hG
  have hnodes : ∀ p ∈ InitialTopology.FullPairs cfg, ∃ na nb,
      N.Find p.1 = some na ∧ na.ID = p.1 ∧ N.Find p.2 = some nb ∧ nb.ID = p.2 := by
    rintro ⟨a, b⟩ hp
    have hfp := (mem_FullPairs cfg a b).1 hp
    have hnode : ∀ k, k ≤ cfg.NumInputs + cfg.NumOutputs + cfg.NumHidden →
        ∃ n, N.Find k = some n ∧ n.ID = k := by
      intro k hk
      rw [hfind k]
      split_ifs with h1 h2
      · exact ⟨_, rfl, rfl⟩
      · exact ⟨_, rfl, rfl⟩
      · exact ⟨_, rfl, rfl⟩
    unfold InitialTopology.FullPair at hfp
    obtain ⟨na, h1, h2⟩ := hnode a (by omega)
    obtain ⟨nb, h3, h4⟩ := hnode b (by omega)
    exact ⟨na, nb, h1, h2, h3, h4⟩
  obtain ⟨G2, t2, hrun, _, _, hwf2, _, hknown, hA2, _, hnew, horig, hnum⟩ :=
    ConnectAll_ok N (InitialTopology.FullPairs cfg)
      { G with Genotype := ⟨N, TMap.empty⟩ } t rfl hnodes hwf hbudget
      (fun id x hx => by cases hx)
  refine ⟨G2, t2, ?_, hwf2, hknown, hA2, hnew, ?_, ?_⟩
  · rw [Full_eq cfg G _ t hnone hcfg]
    exact hrun
  · intro id x hx
    rcases horig id x hx with h | h
    · cases h
    · exact h
  · have := hnum (FullPairs_nodup cfg) (fun id x hx => by cases hx)
    rw [this]
    show 0 + _ = _
    omega

/-- C12: for every config with `I` inputs, `O` outputs and `H` hidden nodes
    (`int` values), every registry state that `Reset` and `GetInnovationID` can
    produce and in which the next `(I+1)*H + (I+1)*O + H*O` counter values are
    unused, `InitialTopology::Full` on an empty genome returns and yields exactly
    `(I+1)*H + (I+1)*O + H*O` connections: one for every (input or bias, hidden),
    (input or bias, output) and (hidden, output) pair, each under its own id
    with weight 1 and enabled, no other connection, and no pair twice; a second
    genome built by `Full` afterwards under the same config has the same
    connection map. -/
theorem Full_contract (cfg : Config) (G G' : Genome) (t : InnovationTracker)
    (hI : cfg.NumInputs < 2 ^ 31) (hO : cfg.NumOutputs < 2 ^ 31) (hH : cfg.NumHidden < 2 ^ 31)
    (hcfg : G.Config = some cfg) (hG : G.Genotype = emptyGenotype)
    (hcfg' : G'.Config = some cfg) (hG' : G'.Genotype = emptyGenotype)
    (hwf : RegistryWF t)
    (hfresh : t.FreshIDs ((cfg.NumInputs + 1) * cfg.NumHidden +
      (cfg.NumInputs + 1) * cfg.NumOutputs + cfg.NumHidden * cfg.NumOutputs)) :
    ∃ G1 t1, InitialTopology.Full G t = Except.ok (G1, t1) ∧
      G1.Genotype.Connections.Num =
        (cfg.NumInputs + 1) * cfg.NumHidden + (cfg.NumInputs + 1) * cfg.NumOutputs +
          cfg.NumHidden * cfg.NumOutputs ∧
      (∀ a b, InitialTopology.FullPair cfg a b →
        ∃ id, G1.Genotype.Connections.Find id = some
          { ID := id, Enabled := true, Input := a, Output := b, Weight := 1 }) ∧
      (∀ id x, G1.Genotype.Connections.Find id = some x →
        InitialTopology.FullPair cfg x.Input x.Output ∧ x.ID = id ∧ x.Weight = 1 ∧
          x.Enabled = true) ∧
      (∀ id1 id2 x1 x2, G1.Genotype.Connections.Find id1 = some x1 →
        G1.Genotype.Connections.Find id2 = some x2 →
        x1.Input = x2.Input → x1.Output = x2.Output → id1 = id2) ∧
      ∃ G2 t2, InitialTopology.Full G' t1 = Except.ok (G2, t2) ∧
        G2.Genotype.Connections = G1.Genotype.Connections := by
  have hlen := FullPairs_length cfg
  have hP : (InitialTopology.FullPairs cfg).length ≤ 2 ^ 64 := by
    rw [hlen]
    have h1 : (cfg.NumInputs + 1) * cfg.NumHidden ≤ 2 ^ 31 * 2 ^ 31 :=
      Nat.mul_le_mul (by omega) (by omega)
    have h2 : (cfg.NumInputs + 1) * cfg.NumOutputs ≤ 2 ^ 31 * 2 ^ 31 :=
      Nat.mul_le_mul (by omega) (by omega)
    have h3 : cfg.NumHidden * cfg.NumOutputs ≤ 2 ^ 31 * 2 ^ 31 :=
      Nat.mul_le_mul (by omega) (by omega)
    have h4 : 2 ^ 31 * 2 ^ 31 + 2 ^ 31 * 2 ^ 31 + 2 ^ 31 * 2 ^ 31 ≤ 2 ^ 64 := by norm_num
    omega
  obtain ⟨G1, t1, hrun1, hwf1, _, hA1, hnew1, horig1, hnum1⟩ :=
    Full_ok cfg G t hcfg hG hwf (Or.inl ⟨by rw [hlen]; exact hfresh, hP⟩)
  have hknown : ∀ p ∈ InitialTopology.FullPairs cfg,
      t1.Knows (InitialTopology.RequestOf p.1 p.2) = true := by
    intro p hp
    obtain ⟨id, hid⟩ := hnew1 p hp
    obtain ⟨_, r, hr, hrt⟩ := hA1 id _ hid
    exact (Knows_iff t1 _).2 ⟨id, r, hr, hrt⟩
  obtain ⟨G2, t2, hrun2, _, hsame, hA2, hnew2, horig2, _⟩ :=
    Full_ok cfg G' t1 hcfg' hG' hwf1 (Or.inr hknown)
  have ht2 := hsame hknown
  rw [ht2] at hA2
  refine ⟨G1, t1, hrun1, hnum1.trans hlen, ?_, ?_, ?_, G2, t2, hrun2,
    Registered_unique t1 _ _ _ hwf1 hA2 hA1 horig2 horig1 hnew2 hnew1⟩
  · intro a b hab
    exact hnew1 (a, b) ((mem_FullPairs cfg a b).2 hab)
  · intro id x hx
    obtain ⟨hform, _⟩ := hA1 id x hx
    refine ⟨(mem_FullPairs cfg _ _).1 (horig1 id x hx), ?_, ?_, ?_⟩
    · rw [hform]
    · rw [hform]
    · rw [hform]
  · intro id1 id2 x1 x2 h1 h2 hin hout
    obtain ⟨_, r1, hr1, hrt1⟩ := hA1 id1 x1 h1
    obtain ⟨_, r2, hr2, hrt2⟩ := hA1 id2 x2 h2
    rw [hin, hout] at hrt1
    exact hwf1.2.2 id1 id2 r1 r2 hr1 hr2 (hrt1.trans hrt2.symm)

/-- C12 at the configuration with one input, one output and one hidden node and
    the registry after `Reset(4)`: `Full` yields 5 connections, and a second
    build afterwards yields the same connection map. -/
theorem Full_contract_witness :
    ∃ G1 t1, InitialTopology.Full smallGenome (freshTracker.Reset 4) = Except.ok (G1, t1) ∧
      G1.Genotype.Connections.Num = 5 ∧
      ∃ G2 t2, InitialTopology.Full smallGenome t1 = Except.ok (G2, t2) ∧
        G2.Genotype.Connections = G1.Genotype.Connections := by
  obtain ⟨G1, t1, hrun, hnum, _, _, _, hsecond⟩ :=
    Full_contract smallConfig smallGenome smallGenome (freshTracker.Reset 4)
      (by decide) (by decide) (by decide) rfl rfl rfl rfl
      (RegistryWF_Reset _ 4 (by norm_num)) (fun _ _ => rfl)
  exact ⟨G1, t1, hrun, hnum, hsecond⟩

/-! ### Distance -/

theorem classify_foldl (p : Nat → Bool) :
    ∀ (l m d : List Nat), l.Nodup → (∀ x ∈ l, x ∉ m) →
      l.foldl (fun (Keys : List Nat × List Nat) id =>
          if p id = true then (AddUnique Keys.1 id, Keys.2) else (Keys.1, Keys.2 ++ [id]))
        (m, d) = (m ++ l.filter p, d ++ l.filter (fun k => !p k)) := by
  intro l
  induction l with
  | nil => intro m d _ _; simp
  | cons a l ih =>
    intro m d hnd hm
    rw [List.nodup_cons] at hnd
    have ha : a ∉ m := hm a (List.mem_cons_self _ _)
    rw [List.foldl_cons]
    by_cases hp : p a = true
    · rw [if_pos hp]
      have hu : AddUnique m a = m ++ [a] := by simp [AddUnique, ha]
      simp only [hu]
      rw [ih (m ++ [a]) d hnd.2 (fun x hx hxm => by
        rcases List.mem_append.1 hxm with h | h
        · exact hm x (List.mem_cons_of_mem _ hx) h
        · have : x = a := by simpa using h
          rw [this] at hx
          exact hnd.1 hx)]
      simp [hp]
    · rw [if_neg hp]
      simp only
      rw [ih m (d ++ [a]) hnd.2 (fun x hx => hm x (List.mem_cons_of_mem _ hx))]
      simp [hp]

theorem append_foldl (q : Nat → Bool) :
    ∀ (l d : List Nat),
      l.foldl (fun (Keys : List Nat) id => if (!q id) = true then Keys ++ [id] else Keys) d =
        d ++ l.filter (fun k => !q k) := by
  intro l
  induction l with
  | nil => intro d; simp
  | cons a l ih =>
    intro d
    rw [List.foldl_cons]
    by_cases hq : q a = true
    · have h1 : ¬ ((!q a) = true) := by simp [hq]
      have e : List.filter (fun k => !q k) (a :: l) = List.filter (fun k => !q k) l := by
        simp [List.filter_cons, hq]
      rw [if_neg h1, ih d, e]
    · have h1 : (!q a) = true := by simpa using hq
      have e : List.filter (fun k => !q k) (a :: l) = a :: List.filter (fun k => !q k) l := by
        simp [List.filter_cons, hq]
      rw [if_pos h1, ih (d ++ [a]), e, List.append_assoc]
      rfl

theorem TMap.GetKeys_nodup {V : Type} (m : TMap V) : m.GetKeys.Nodup := by
  unfold TMap.GetKeys
  have h : (m.entries.map Prod.fst).Pairwise (fun a b => a < b) :=
    List.pairwise_map.2 m.ascending
  exact h.imp (fun hab => ne_of_lt hab)

theorem Double.add_mul_sum (a t S : Option ℚ) (k : ℚ) :
    Double.add (Double.add a (Double.mul (some k) t)) (Double.mul (some k) S) =
      Double.add a (Double.mul (some k) (Double.add t S)) := by
  cases a <;> cases t <;> cases S <;> simp [Double.add, Double.mul]
  ring

theorem sum_foldlM (step : Option ℚ → Nat → Except Fault (Option ℚ)) (k : ℚ)
    (term : Nat → Option ℚ) :
    ∀ (l : List Nat) (a : Option ℚ),
      (∀ id ∈ l, ∀ Sum, step Sum id =
        Except.ok (Double.add Sum (Double.mul (some k) (term id)))) →
      l.foldlM step a =
        Except.ok (Double.add a (Double.mul (some k) (Double.sum (l.map term)))) := by
  intro l
  induction l with
  | nil =>
    intro a _
    cases a <;> simp [Double.add, Double.mul, Double.sum, pure, Except.pure]
  | cons x l ih =>
    intro a h
    rw [List.foldlM_cons, h x (List.mem_cons_self _ _) a]
    show l.foldlM step _ = _
    rw [ih _ (fun id hid => h id (List.mem_cons_of_mem _ hid))]
    rw [Double.add_mul_sum]
    rfl

theorem node_foldlM (step : List Nat × List Nat × List Nat → Nat →
      Except Fault (List Nat × List Nat × List Nat)) (p s : Nat → Bool) :
    ∀ (l m d e : List Nat), l.Nodup → (∀ x ∈ l, x ∉ m) →
      (∀ id ∈ l, ∀ Keys, step Keys id = Except.ok
        (if p id = true then
          (if s id = true then (AddUnique Keys.1 id, Keys.2.1, Keys.2.2)
           else (Keys.1, Keys.2.1 ++ [id], Keys.2.2))
         else (Keys.1, Keys.2.1, Keys.2.2 ++ [id]))) →
      l.foldlM step (m, d, e) = Except.ok
        (m ++ l.filter (fun k => p k && s k), d ++ l.filter (fun k => p k && !s k),
          e ++ l.filter (fun k => !p k)) := by
  intro l
  induction l with
  | nil => intro m d e _ _ _; simp [pure, Except.pure]
  | cons a l ih =>
    intro m d e hnd hm h
    rw [List.nodup_cons] at hnd
    have ha : a ∉ m := hm a (List.mem_cons_self _ _)
    have hu : AddUnique m a = m ++ [a] := by simp [AddUnique, ha]
    have hrest : ∀ id ∈ l, ∀ Keys, step Keys id = Except.ok
        (if p id = true then
          (if s id = true then (AddUnique Keys.1 id, Keys.2.1, Keys.2.2)
           else (Keys.1, Keys.2.1 ++ [id], Keys.2.2))
         else (Keys.1, Keys.2.1, Keys.2.2 ++ [id])) :=
      fun id hid => h id (List.mem_cons_of_mem _ hid)
    rw [List.foldlM_cons, h a (List.mem_cons_self _ _) (m, d, e)]
    by_cases hp : p a = true
    · by_cases hs : s a = true
      · rw [if_pos hp, if_pos hs]
        show l.foldlM step (AddUnique m a, d, e) = _
        rw [hu, ih (m ++ [a]) d e hnd.2 (fun x hx hxm => by
          rcases List.mem_append.1 hxm with h1 | h1
          · exact hm x (List.mem_cons_of_mem _ hx) h1
          · have : x = a := by simpa using h1
            rw [this] at hx
            exact hnd.1 hx) hrest]
        simp [hp, hs]
      · rw [if_pos hp, if_neg hs]
        show l.foldlM step (m, d ++ [a], e) = _
        rw [ih m (d ++ [a]) e hnd.2 (fun x hx => hm x (List.mem_cons_of_mem _ hx)) hrest]
        simp [hp, hs]
    · rw [if_neg hp]
      show l.foldlM step (m, d, e ++ [a]) = _
      rw [ih m d (e ++ [a]) hnd.2 (fun x hx => hm x (List.mem_cons_of_mem _ hx)) hrest]
      simp [hp]

theorem Math.Max_eq (A B : Nat) : Math.Max A B = max A B := by
  unfold Math.Max
  split_ifs with h
  · exact (max_eq_left (le_of_lt h)).symm
  · exact (max_eq_right (not_lt.1 h)).symm

theorem Double.zero_add (a : Option ℚ) : Double.add (some 0) a = a := by
  cases a <;> simp [Double.add]

theorem Euclidean_eq_spec (pow : ℚ → ℚ → ℚ) (A B : Genome) (cfg : Config) :
    Distance.Euclidean pow A B cfg = Except.ok (Distance.EuclideanSpec pow A B cfg) := by
  have hc := classify_foldl (fun id => (B.Genotype.Connections.Find id).isSome)
    A.Genotype.Connections.GetKeys [] [] (TMap.GetKeys_nodup _) (fun _ _ h => by cases h)
  have hc2 := append_foldl (fun id => (A.Genotype.Connections.Find id).isSome)
    B.Genotype.Connections.GetKeys
  have hn2 := append_foldl (fun id => (A.Genotype.Nodes.Find id).isSome)
    B.Genotype.Nodes.GetKeys
  simp only [Distance.Euclidean, hc, hc2, hn2, List.nil_append]
  rw [sum_foldlM _ cfg.MatchingGeneCoefficient
    (fun k => StdPow pow |(A.Genotype.Connections.At k {}).Weight -
      (B.Genotype.Connections.At k {}).Weight| cfg.DistanceExponent) _ (some 0) (by
    intro id hid Sum
    obtain ⟨h1, h2⟩ := List.mem_filter.1 hid
    obtain ⟨c1, hc1⟩ := (TMap.mem_GetKeys_iff _ _).1 h1
    obtain ⟨c2, hc2⟩ := Option.isSome_iff_exists.1 h2
    simp only [hc1, hc2, TMap.At, Option.getD_some])]
  rw [node_foldlM _ (fun id => (B.Genotype.Nodes.Find id).isSome) (Distance.SameKind A B)
    A.Genotype.Nodes.GetKeys [] [] [] (TMap.GetKeys_nodup _) (fun _ _ h => by cases h) (by
    intro id hid Keys
    obtain ⟨n1, hn1⟩ := (TMap.mem_GetKeys_iff _ _).1 hid
    cases hb : B.Genotype.Nodes.Find id with
    | none => simp only [hn1, hb, Option.isSome_none, Bool.false_eq_true, if_false]
    | some n2 =>
      simp only [hn1, Option.isSome_some, if_true, Distance.SameKind, TMap.At, hb,
        Option.getD_some, decide_eq_true_eq]
      split_ifs <;> rfl)]
  simp only [bind, Except.bind, List.nil_append]
  rw [sum_foldlM _ cfg.MatchingGeneCoefficient
    (fun k => StdPow pow |(A.Genotype.Nodes.At k {}).Bias -
      (B.Genotype.Nodes.At k {}).Bias| cfg.DistanceExponent) _ (some 0) (by
    intro id hid Sum
    obtain ⟨h1, h2⟩ := List.mem_filter.1 hid
    obtain ⟨n1, hn1⟩ := (TMap.mem_GetKeys_iff _ _).1 h1
    simp only [Bool.and_eq_true] at h2
    obtain ⟨n2, hn2⟩ := Option.isSome_iff_exists.1 h2.1
    simp only [hn1, hn2, TMap.At, Option.getD_some])]
  simp only [Distance.EuclideanSpec, Math.Max_eq, TMap.Contains, List.length_append,
    Double.zero_add]

/-- C13: `Distance::Euclidean(A, B)` returns, and its value is `k_match` times
    the sum over the connection ids present in both of `|wA - wB|^exponent`,
    plus `k_match` times the sum over the node ids present in both with equal
    activation and aggregation of `|biasA - biasB|^exponent`, plus `k_excess`
    times the number of node ids present in both with differing activation or
    aggregation over `M`, plus `k_excess` times the number of node ids and
    connection ids present in exactly one genome over `M`, with `M` the larger
    gene count; and `DisjointGeneCoefficient` does not influence the result. -/
theorem Euclidean_formula (pow : ℚ → ℚ → ℚ) (A B : Genome) (cfg : Config) (d : ℚ) :
    Distance.Euclidean pow A B cfg = Except.ok (Distance.EuclideanSpec pow A B cfg) ∧
    Distance.Euclidean pow A B { cfg with DisjointGeneCoefficient := d } =
      Distance.Euclidean pow A B cfg := by
  refine ⟨Euclidean_eq_spec pow A B cfg, ?_⟩
  rw [Euclidean_eq_spec, Euclidean_eq_spec]
  rfl

theorem Double.sum_replicate (n : Nat) (x : ℚ) :
    Double.sum (List.replicate n (some x)) = some (n * x) := by
  induction n with
  | zero => simp [Double.sum]
  | succ n ih =>
    rw [List.replicate_succ]
    unfold Double.sum at ih ⊢
    rw [List.foldr_cons, ih]
    simp only [Double.add, Nat.cast_succ, Option.some.injEq]
    ring

theorem TMap.filter_keys_comm {V W : Type} (m1 : TMap V) (m2 : TMap W) :
    m1.GetKeys.filter (fun k => m2.Contains k) = m2.GetKeys.filter (fun k => m1.Contains k) := by
  have hs : ∀ {U : Type} (m : TMap U), m.GetKeys.Pairwise (fun a b => a < b) := by
    intro U m
    exact List.pairwise_map.2 m.ascending
  have hperm : (m1.GetKeys.filter (fun k => m2.Contains k)).Perm
      (m2.GetKeys.filter (fun k => m1.Contains k)) := by
    refine (List.perm_ext_iff_of_nodup ((TMap.GetKeys_nodup m1).filter _)
      ((TMap.GetKeys_nodup m2).filter _)).2 ?_
    intro k
    simp only [List.mem_filter, TMap.mem_GetKeys_iff, TMap.Contains_iff]
    exact And.comm
  exact List.eq_of_perm_of_sorted hperm ((hs m1).sublist (List.filter_sublist _))
    ((hs m2).sublist (List.filter_sublist _))

theorem SameKind_comm (A B : Genome) (k : Nat) :
    Distance.SameKind A B k = Distance.SameKind B A k := by
  unfold Distance.SameKind
  rw [decide_eq_decide]
  constructor <;> rintro ⟨h1, h2⟩ <;> exact ⟨h1.symm, h2.symm⟩

theorem EuclideanSpec_comm (pow : ℚ → ℚ → ℚ) (A B : Genome) (cfg : Config) :
    Distance.EuclideanSpec pow A B cfg = Distance.EuclideanSpec pow B A cfg := by
  have hconn := TMap.filter_keys_comm A.Genotype.Connections B.Genotype.Connections
  have hnode := TMap.filter_keys_comm A.Genotype.Nodes B.Genotype.Nodes
  have hff : ∀ (p s : Nat → Bool) (l : List Nat),
      l.filter (fun k => p k && s k) = (l.filter p).filter s := by
    intro p s l
    rw [List.filter_filter]
    congr 1
    funext k
    exact Bool.and_comm _ _
  have hsame : A.Genotype.Nodes.GetKeys.filter
      (fun k => B.Genotype.Nodes.Contains k && Distance.SameKind A B k) =
      B.Genotype.Nodes.GetKeys.filter
        (fun k => A.Genotype.Nodes.Contains k && Distance.SameKind B A k) := by
    rw [hff (fun k => B.Genotype.Nodes.Contains k) (fun k => Distance.SameKind A B k),
      hff (fun k => A.Genotype.Nodes.Contains k) (fun k => Distance.SameKind B A k), hnode]
    congr 1
    funext k
    exact SameKind_comm A B k
  have hdiff : A.Genotype.Nodes.GetKeys.filter
      (fun k => B.Genotype.Nodes.Contains k && !Distance.SameKind A B k) =
      B.Genotype.Nodes.GetKeys.filter
        (fun k => A.Genotype.Nodes.Contains k && !Distance.SameKind B A k) := by
    rw [hff (fun k => B.Genotype.Nodes.Contains k) (fun k => !Distance.SameKind A B k),
      hff (fun k => A.Genotype.Nodes.Contains k) (fun k => !Distance.SameKind B A k), hnode]
    congr 1
    funext k
    rw [SameKind_comm A B k]
  unfold Distance.EuclideanSpec
  simp only [hconn, hsame, hdiff]
  rw [max_comm (A.Genotype.Nodes.Num + A.Genotype.Connections.Num)]
  rw [Nat.add_comm (List.filter (fun k => !B.Genotype.Nodes.Contains k)
    A.Genotype.Nodes.GetKeys).length]
  rw [Nat.add_comm (List.filter (fun k => !B.Genotype.Connections.Contains k)
    A.Genotype.Connections.GetKeys).length]
  simp only [abs_sub_comm (A.Genotype.Connections.At _ _).Weight,
    abs_sub_comm (A.Genotype.Nodes.At _ _).Bias]

/-- C15: for all genomes `a`, `b` and every config,
    `Distance::Calculate(a, b, config)` and `Distance::Calculate(b, a, config)`
    are the same value. -/
theorem Calculate_comm (pow : ℚ → ℚ → ℚ) (a b : Genome) (cfg : Config) :
    Distance.Calculate pow a b cfg = Distance.Calculate pow b a cfg := by
  unfold Distance.Calculate
  cases cfg.DistanceMethod with
  | Euclidean =>
    simp only
    rw [Euclidean_eq_spec, Euclidean_eq_spec, EuclideanSpec_comm]
  | Manhattan => rfl
  | Chebyshev => rfl

/-! ### The network -/

theorem NeuronIndex_lt (ID : Nat) : ∀ (l : List NeuronNode) (i : Nat),
    NeuronIndex ID l = some i → i < l.length := by
  intro l
  induction l with
  | nil => intro i h; cases h
  | cons x l ih =>
    intro i h
    unfold NeuronIndex at h
    split_ifs at h with hx
    · cases h
      simp
    · cases hr : NeuronIndex ID l with
      | none => rw [hr] at h; cases h
      | some j =>
        rw [hr] at h
        have := ih j hr
        have hi : j + 1 = i := by simpa using h
        rw [← hi, List.length_cons]
        omega

theorem NeuronIndex_isSome (ID : Nat) : ∀ l : List NeuronNode,
    (NeuronIndex ID l).isSome = true ↔ ∃ n ∈ l, n.ID = ID := by
  intro l
  induction l with
  | nil => simp [NeuronIndex]
  | cons x l ih =>
    unfold NeuronIndex
    split_ifs with hx
    · simp [hx]
    · rw [Option.isSome_map', ih]
      simp [hx]

theorem GetNeuronByID_valid (Network : NeuralNetwork) (ID : Nat) (r : NeuronRef)
    (h : Network.GetNeuronByID ID = some r) : Network.RefValid r := by
  unfold NeuralNetwork.GetNeuronByID at h
  cases h1 : NeuronIndex ID Network.InputNeurons with
  | some i =>
    rw [h1] at h
    cases h
    exact NeuronIndex_lt ID _ i h1
  | none =>
    rw [h1] at h
    cases h2 : NeuronIndex ID Network.HiddenNeurons with
    | some i =>
      rw [h2] at h
      cases h
      exact NeuronIndex_lt ID _ i h2
    | none =>
      rw [h2] at h
      cases h3 : NeuronIndex ID Network.OutputNeurons with
      | some i =>
        rw [h3] at h
        cases h
        exact NeuronIndex_lt ID _ i h3
      | none =>
        rw [h3] at h
        cases h

theorem GetNeuronByID_isSome (Network : NeuralNetwork) (ID : Nat) :
    (Network.GetNeuronByID ID).isSome = true ↔
      ∃ n, (n ∈ Network.InputNeurons ∨ n ∈ Network.HiddenNeurons ∨ n ∈ Network.OutputNeurons) ∧
        n.ID = ID := by
  have h1 := NeuronIndex_isSome ID Network.InputNeurons
  have h2 := NeuronIndex_isSome ID Network.HiddenNeurons
  have h3 := NeuronIndex_isSome ID Network.OutputNeurons
  unfold NeuralNetwork.GetNeuronByID
  cases e1 : NeuronIndex ID Network.InputNeurons with
  | some i =>
    rw [e1] at h1
    obtain ⟨n, hn, hid⟩ := h1.1 rfl
    simp only [Option.isSome_some, true_iff]
    exact ⟨n, Or.inl hn, hid⟩
  | none =>
    rw [e1] at h1
    cases e2 : NeuronIndex ID Network.HiddenNeurons with
    | some i =>
      rw [e2] at h2
      obtain ⟨n, hn, hid⟩ := h2.1 rfl
      simp only [Option.isSome_some, true_iff]
      exact ⟨n, Or.inr (Or.inl hn), hid⟩
    | none =>
      rw [e2] at h2
      cases e3 : NeuronIndex ID Network.OutputNeurons with
      | some i =>
        rw [e3] at h3
        obtain ⟨n, hn, hid⟩ := h3.1 rfl
        simp only [Option.isSome_some, true_iff]
        exact ⟨n, Or.inr (Or.inr hn), hid⟩
      | none =>
        rw [e3] at h3
        simp only [Option.isSome_none, Bool.false_eq_true, false_iff]
        rintro ⟨n, hn | hn | hn, hid⟩
        · exact absurd (h1.2 ⟨n, hn, hid⟩) (by simp)
        · exact absurd (h2.2 ⟨n, hn, hid⟩) (by simp)
        · exact absurd (h3.2 ⟨n, hn, hid⟩) (by simp)

theorem AddEdge_ok (Network : NeuralNetwork) (e : Nat × ConnectionGene)
    (h1 : (Network.GetNeuronByID e.2.Input).isSome = true)
    (h2 : (Network.GetNeuronByID e.2.Output).isSome = true) :
    Network.AddEdge e =
      Except.ok { Network with Connections := Network.Connections ++ [Network.EdgeOf e] } := by
  obtain ⟨a, ha⟩ := Option.isSome_iff_exists.1 h1
  obtain ⟨b, hb⟩ := Option.isSome_iff_exists.1 h2
  simp [NeuralNetwork.AddEdge, NeuronConnection.New, NeuralNetwork.EdgeOf, ha, hb, bind,
    Except.bind]

theorem AddEdge_fail (Network : NeuralNetwork) (e : Nat × ConnectionGene)
    (h : ¬ ((Network.GetNeuronByID e.2.Input).isSome = true ∧
      (Network.GetNeuronByID e.2.Output).isSome = true)) :
    Network.AddEdge e = Except.error Fault.Breakpoint := by
  unfold NeuralNetwork.AddEdge NeuronConnection.New
  cases ha : Network.GetNeuronByID e.2.Input with
  | none => rfl
  | some a =>
    cases hb : Network.GetNeuronByID e.2.Output with
    | none => rfl
    | some b =>
      rw [ha, hb] at h
      exact absurd ⟨rfl, rfl⟩ h

theorem AddEdge_foldlM_ok : ∀ (E : List (Nat × ConnectionGene)) (Network : NeuralNetwork),
    (∀ e ∈ E, (Network.GetNeuronByID e.2.Input).isSome = true ∧
      (Network.GetNeuronByID e.2.Output).isSome = true) →
    E.foldlM NeuralNetwork.AddEdge Network =
      Except.ok { Network with Connections := Network.Connections ++ E.map Network.EdgeOf } := by
  intro E
  induction E with
  | nil => intro Network _; simp [pure, Except.pure]
  | cons e E ih =>
    intro Network h
    obtain ⟨h1, h2⟩ := h e (List.mem_cons_self _ _)
    rw [List.foldlM_cons, AddEdge_ok Network e h1 h2]
    show E.foldlM NeuralNetwork.AddEdge _ = _
    rw [ih { Network with Connections := Network.Connections ++ [Network.EdgeOf e] }
      (fun x hx => h x (List.mem_cons_of_mem _ hx))]
    simp only [List.map_cons, List.append_assoc, List.singleton_append]
    rfl

theorem AddEdge_foldlM_fail : ∀ (E : List (Nat × ConnectionGene)) (Network : NeuralNetwork),
    (∃ e ∈ E, ¬ ((Network.GetNeuronByID e.2.Input).isSome = true ∧
      (Network.GetNeuronByID e.2.Output).isSome = true)) →
    E.foldlM NeuralNetwork.AddEdge Network = Except.error Fault.Breakpoint := by
  intro E
  induction E with
  | nil => intro Network h; obtain ⟨e, he, _⟩ := h; cases he
  | cons e E ih =>
    intro Network h
    rw [List.foldlM_cons]
    by_cases hok : (Network.GetNeuronByID e.2.Input).isSome = true ∧
        (Network.GetNeuronByID e.2.Output).isSome = true
    · rw [AddEdge_ok Network e hok.1 hok.2]
      show E.foldlM NeuralNetwork.AddEdge _ = _
      apply ih { Network with Connections := Network.Connections ++ [Network.EdgeOf e] }
      obtain ⟨x, hx, hbad⟩ := h
      rcases List.mem_cons.1 hx with e1 | e1
      · rw [e1] at hbad
        exact absurd hok hbad
      · exact ⟨x, e1, hbad⟩
    · rw [AddEdge_fail Network e hok]
      rfl

theorem New_built (G : Genome) (Network : NeuralNetwork)
    (h : NeuralNetwork.New G = Except.ok Network) :
    Network = { NeuralNetwork.Neurons G with
      Connections := G.Genotype.Connections.entries.map (NeuralNetwork.Neurons G).EdgeOf } ∧
    (∀ e ∈ G.Genotype.Connections.entries,
      ((NeuralNetwork.Neurons G).GetNeuronByID e.2.Input).isSome = true ∧
      ((NeuralNetwork.Neurons G).GetNeuronByID e.2.Output).isSome = true) ∧
    Network.Linked := by
  unfold NeuralNetwork.New at h
  by_cases hall : ∀ e ∈ G.Genotype.Connections.entries,
      ((NeuralNetwork.Neurons G).GetNeuronByID e.2.Input).isSome = true ∧
      ((NeuralNetwork.Neurons G).GetNeuronByID e.2.Output).isSome = true
  · rw [AddEdge_foldlM_ok _ _ hall] at h
    have hN : Network = { NeuralNetwork.Neurons G with
        Connections := G.Genotype.Connections.entries.map (NeuralNetwork.Neurons G).EdgeOf } := by
      have := Except.ok.inj h
      rw [← this]
      rfl
    refine ⟨hN, hall, ?_⟩
    intro c hc
    rw [hN] at hc
    obtain ⟨e, he, hce⟩ := List.mem_map.1 hc
    obtain ⟨h1, h2⟩ := hall e he
    obtain ⟨a, ha⟩ := Option.isSome_iff_exists.1 h1
    obtain ⟨b, hb⟩ := Option.isSome_iff_exists.1 h2
    refine ⟨a, b, ?_, ?_, ?_, ?_⟩
    · rw [← hce]; exact ha
    · rw [← hce]; exact hb
    · rw [hN]; exact GetNeuronByID_valid (NeuralNetwork.Neurons G) _ a ha
    · rw [hN]; exact GetNeuronByID_valid (NeuralNetwork.Neurons G) _ b hb
  · have hbad : ∃ e ∈ G.Genotype.Connections.entries,
        ¬ (((NeuralNetwork.Neurons G).GetNeuronByID e.2.Input).isSome = true ∧
          ((NeuralNetwork.Neurons G).GetNeuronByID e.2.Output).isSome = true) := by
      by_contra hno
      apply hall
      intro e he
      by_contra hne
      exact hno ⟨e, he, hne⟩
    rw [AddEdge_foldlM_fail _ _ hbad] at h
    cases h

theorem Arrow_ok (Network : NeuralNetwork) (r : NeuronRef) (h : Network.RefValid r) :
    ∃ n, Network.Arrow (some r) = Except.ok n := by
  unfold NeuralNetwork.Arrow
  cases r with
  | Input i =>
    have hi : i < Network.InputNeurons.length := h
    simp [NeuralNetwork.Deref, List.getElem?_eq_getElem hi]
  | Hidden i =>
    have hi : i < Network.HiddenNeurons.length := h
    simp [NeuralNetwork.Deref, List.getElem?_eq_getElem hi]
  | Output i =>
    have hi : i < Network.OutputNeurons.length := h
    simp [NeuralNetwork.Deref, List.getElem?_eq_getElem hi]

theorem WeighInput_foldlM_ok (Network : NeuralNetwork) (NeuronID : Nat) :
    ∀ (C : List NeuronConnection) (Inputs : List ℚ),
      (∀ c ∈ C, ∃ a b, c.Input = some a ∧ c.Output = some b ∧
        Network.RefValid a ∧ Network.RefValid b) →
      ∃ l, C.foldlM (Network.WeighInput NeuronID) Inputs = Except.ok l := by
  intro C
  induction C with
  | nil => intro Inputs _; exact ⟨Inputs, rfl⟩
  | cons c C ih =>
    intro Inputs h
    obtain ⟨a, b, ha, hb, hva, hvb⟩ := h c (List.mem_cons_self _ _)
    obtain ⟨na, hna⟩ := Arrow_ok Network a hva
    obtain ⟨nb, hnb⟩ := Arrow_ok Network b hvb
    have hstep : ∃ l, Network.WeighInput NeuronID Inputs c = Except.ok l := by
      unfold NeuralNetwork.WeighInput
      rw [ha, hb, hna, hnb]
      by_cases hid : nb.ID = NeuronID
      · exact ⟨Inputs ++ [(na.Activation + na.Bias) * c.Weight], by
          simp [bind, Except.bind, hid]⟩
      · exact ⟨Inputs, by simp [bind, Except.bind, hid]⟩
    obtain ⟨l, hl⟩ := hstep
    obtain ⟨l2, hl2⟩ := ih l (fun x hx => h x (List.mem_cons_of_mem _ hx))
    exact ⟨l2, by rw [List.foldlM_cons, hl]; exact hl2⟩

theorem GetWeightedInputs_ok (Network : NeuralNetwork) (h : Network.Linked) (NeuronID : Nat) :
    ∃ l, Network.GetWeightedInputs NeuronID = Except.ok l :=
  WeighInput_foldlM_ok Network NeuronID Network.Connections [] h

theorem modify_map_ID (l : List NeuronNode) (n : Nat) (v : ℚ) :
    (l.modify (fun Neuron => { Neuron with Activation := v }) n).map (fun Neuron => Neuron.ID) =
      l.map (fun Neuron => Neuron.ID) := by
  apply List.ext_getElem?
  intro i
  rw [List.getElem?_map, List.getElem?_map, List.getElem?_modify]
  cases l[i]? with
  | none => rfl
  | some a =>
    by_cases h : n = i
    · simp [h]
    · simp [h]

theorem Linked_of_frame (Network Network2 : NeuralNetwork)
    (hC : Network2.Connections = Network.Connections)
    (hI : Network2.InputNeurons.length = Network.InputNeurons.length)
    (hH : Network2.HiddenNeurons.length = Network.HiddenNeurons.length)
    (hO : Network2.OutputNeurons.length = Network.OutputNeurons.length)
    (h : Network.Linked) : Network2.Linked := by
  have hv : ∀ r, Network.RefValid r → Network2.RefValid r := by
    intro r hr
    cases r with
    | Input i => show i < _; rw [hI]; exact hr
    | Hidden i => show i < _; rw [hH]; exact hr
    | Output i => show i < _; rw [hO]; exact hr
  intro c hc
  rw [hC] at hc
  obtain ⟨a, b, ha, hb, hva, hvb⟩ := h c hc
  exact ⟨a, b, ha, hb, hv a hva, hv b hvb⟩

theorem SameFrame_refl (Network : NeuralNetwork) : Network.SameFrame Network :=
  ⟨rfl, rfl, rfl, rfl, rfl, rfl⟩

theorem SameFrame_trans (A B C : NeuralNetwork) (h1 : A.SameFrame B) (h2 : B.SameFrame C) :
    A.SameFrame C := by
  refine ⟨h2.1.trans h1.1, h2.2.1.trans h1.2.1, h2.2.2.1.trans h1.2.2.1, ?_, ?_, ?_⟩
  · exact h2.2.2.2.1.trans h1.2.2.2.1
  · exact h2.2.2.2.2.1.trans h1.2.2.2.2.1
  · exact h2.2.2.2.2.2.trans h1.2.2.2.2.2

theorem SameFrame_Linked (A B : NeuralNetwork) (h : A.SameFrame B) (hL : A.Linked) :
    B.Linked :=
  Linked_of_frame A B h.2.1 (by rw [h.2.2.1]) h.2.2.2.1 h.2.2.2.2.1 hL

theorem SetActivation_frame (Network : NeuralNetwork) (r : NeuronRef) (v : ℚ)
    (hr : ∀ i, r ≠ NeuronRef.Input i) : Network.SameFrame (Network.SetActivation r v) := by
  cases r with
  | Input i => exact absurd rfl (hr i)
  | Hidden i =>
    refine ⟨rfl, rfl, rfl, ?_, rfl, rfl⟩
    simp [NeuralNetwork.SetActivation]
  | Output i =>
    refine ⟨rfl, rfl, rfl, rfl, ?_, ?_⟩
    · simp [NeuralNetwork.SetActivation]
    · exact modify_map_ID _ _ _

theorem modify_map_Throws (l : List NeuronNode) (n : Nat) (v : ℚ) :
    (l.modify (fun Neuron => { Neuron with Activation := v }) n).map NeuronNode.Throws =
      l.map NeuronNode.Throws := by
  apply List.ext_getElem?
  intro i
  rw [List.getElem?_map, List.getElem?_map, List.getElem?_modify]
  cases l[i]? with
  | none => rfl
  | some a =>
    by_cases h : n = i
    · simp [h, NeuronNode.Throws]
    · simp [h]

theorem SameKinds_refl (Network : NeuralNetwork) : Network.SameKinds Network := ⟨rfl, rfl⟩

theorem SameKinds_trans (A B C : NeuralNetwork) (h1 : A.SameKinds B) (h2 : B.SameKinds C) :
    A.SameKinds C :=
  ⟨h2.1.trans h1.1, h2.2.trans h1.2⟩

theorem SetActivation_kinds (Network : NeuralNetwork) (r : NeuronRef) (v : ℚ) :
    Network.SameKinds (Network.SetActivation r v) := by
  cases r with
  | Input i => exact ⟨rfl, rfl⟩
  | Hidden i => exact ⟨modify_map_Throws _ _ _, rfl⟩
  | Output i => exact ⟨rfl, modify_map_Throws _ _ _⟩

theorem ThrowsAt_Hidden (Network : NeuralNetwork) (i : Nat) :
    Network.ThrowsAt (NeuronRef.Hidden i) =
      ((Network.HiddenNeurons.map NeuronNode.Throws)[i]?).getD false := by
  show (match Network.HiddenNeurons[i]? with
    | some Neuron => Neuron.Throws
    | none => false) = _
  rw [List.getElem?_map]
  cases Network.HiddenNeurons[i]? <;> rfl

theorem ThrowsAt_Output (Network : NeuralNetwork) (i : Nat) :
    Network.ThrowsAt (NeuronRef.Output i) =
      ((Network.OutputNeurons.map NeuronNode.Throws)[i]?).getD false := by
  show (match Network.OutputNeurons[i]? with
    | some Neuron => Neuron.Throws
    | none => false) = _
  rw [List.getElem?_map]
  cases Network.OutputNeurons[i]? <;> rfl

theorem ThrowsAt_of_SameKinds (A B : NeuralNetwork) (h : A.SameKinds B) (r : NeuronRef)
    (hr : ∀ i, r ≠ NeuronRef.Input i) : B.ThrowsAt r = A.ThrowsAt r := by
  cases r with
  | Input i => exact absurd rfl (hr i)
  | Hidden i => rw [ThrowsAt_Hidden, ThrowsAt_Hidden, h.1]
  | Output i => rw [ThrowsAt_Output, ThrowsAt_Output, h.2]

theorem Arrow_Deref (Network : NeuralNetwork) (r : NeuronRef) (n : NeuronNode)
    (h : Network.Arrow (some r) = Except.ok n) : Network.Deref r = some n := by
  unfold NeuralNetwork.Arrow at h
  simp only [Option.bind] at h
  cases hd : Network.Deref r with
  | none => rw [hd] at h; cases h
  | some m =>
    rw [hd] at h
    injection h with h
    rw [h]

/-- `NeuronNode::Activate` returns on a neuron whose two methods have a
    `case`. -/
theorem Activate_ok (Transfer : List ℚ → EAggregation → EActivation → Option ℚ)
    (Network : NeuralNetwork) (r : NeuronRef) (hL : Network.Linked) (hr : Network.RefValid r)
    (hnt : Network.ThrowsAt r = false) :
    ∃ v, NeuralNetwork.Activate Transfer Network r = Except.ok (Network.SetActivation r v) := by
  obtain ⟨n, hn⟩ := Arrow_ok Network r hr
  obtain ⟨l, hl⟩ := GetWeightedInputs_ok Network hL n.ID
  have hd := Arrow_Deref Network r n hn
  have hthrows : n.Throws = false := by
    unfold NeuralNetwork.ThrowsAt at hnt
    rw [hd] at hnt
    exact hnt
  unfold NeuronNode.Throws at hthrows
  rw [Bool.or_eq_false_iff, Bool.not_eq_false', Bool.not_eq_false'] at hthrows
  refine ⟨(Transfer l n.AggregationType n.ActivationType).getD 0, ?_⟩
  unfold NeuralNetwork.Activate
  rw [hn]
  show (do
    let Inputs ← Network.GetWeightedInputs n.ID
    if Aggregation.HasCase n.AggregationType = false then Except.error Fault.InvalidArgument
    else if Activation.HasCase n.ActivationType = false then Except.error Fault.InvalidArgument
    else
      Except.ok (Network.SetActivation r
        ((Transfer Inputs n.AggregationType n.ActivationType).getD 0))) = _
  rw [hl]
  show (if Aggregation.HasCase n.AggregationType = false then Except.error Fault.InvalidArgument
    else if Activation.HasCase n.ActivationType = false then Except.error Fault.InvalidArgument
    else
      Except.ok (Network.SetActivation r
        ((Transfer l n.AggregationType n.ActivationType).getD 0))) = _
  rw [if_neg (by rw [hthrows.1]; decide), if_neg (by rw [hthrows.2]; decide)]

/-- `NeuronNode::Activate` throws on a neuron one of whose methods has no
    `case`. -/
theorem Activate_throws (Transfer : List ℚ → EAggregation → EActivation → Option ℚ)
    (Network : NeuralNetwork) (r : NeuronRef) (hL : Network.Linked) (hr : Network.RefValid r)
    (ht : Network.ThrowsAt r = true) :
    NeuralNetwork.Activate Transfer Network r = Except.error Fault.InvalidArgument := by
  obtain ⟨n, hn⟩ := Arrow_ok Network r hr
  obtain ⟨l, hl⟩ := GetWeightedInputs_ok Network hL n.ID
  have hd := Arrow_Deref Network r n hn
  have hthrows : n.Throws = true := by
    unfold NeuralNetwork.ThrowsAt at ht
    rw [hd] at ht
    exact ht
  unfold NeuronNode.Throws at hthrows
  unfold NeuralNetwork.Activate
  rw [hn]
  show (do
    let Inputs ← Network.GetWeightedInputs n.ID
    if Aggregation.HasCase n.AggregationType = false then Except.error Fault.InvalidArgument
    else if Activation.HasCase n.ActivationType = false then Except.error Fault.InvalidArgument
    else
      Except.ok (Network.SetActivation r
        ((Transfer Inputs n.AggregationType n.ActivationType).getD 0))) = _
  rw [hl]
  show (if Aggregation.HasCase n.AggregationType = false then Except.error Fault.InvalidArgument
    else if Activation.HasCase n.ActivationType = false then Except.error Fault.InvalidArgument
    else
      Except.ok (Network.SetActivation r
        ((Transfer l n.AggregationType n.ActivationType).getD 0))) = _
  by_cases h1 : Aggregation.HasCase n.AggregationType = false
  · rw [if_pos h1]
  · rw [if_neg h1]
    have h2 : Activation.HasCase n.ActivationType = false := by
      cases ha : Aggregation.HasCase n.AggregationType with
      | false => exact absurd ha h1
      | true =>
        rw [ha] at hthrows
        simpa using hthrows
    rw [if_pos h2]

theorem Activate_foldlM_ok (Transfer : List ℚ → EAggregation → EActivation → Option ℚ)
    (mk : Nat → NeuronRef) (hmk : ∀ i j, mk i ≠ NeuronRef.Input j) :
    ∀ (Idxs : List Nat) (Network : NeuralNetwork), Network.Linked →
      (∀ i ∈ Idxs, Network.RefValid (mk i)) →
      (∀ i ∈ Idxs, Network.ThrowsAt (mk i) = false) →
      ∃ Network2, Idxs.foldlM (fun N Idx => NeuralNetwork.Activate Transfer N (mk Idx)) Network =
          Except.ok Network2 ∧ Network.SameFrame Network2 ∧ Network.SameKinds Network2 := by
  intro Idxs
  induction Idxs with
  | nil => intro Network _ _ _; exact ⟨Network, rfl, SameFrame_refl _, SameKinds_refl _⟩
  | cons i Idxs ih =>
    intro Network hL hv hnt
    obtain ⟨v, hrun⟩ := Activate_ok Transfer Network (mk i) hL (hv i (List.mem_cons_self _ _))
      (hnt i (List.mem_cons_self _ _))
    have hf := SetActivation_frame Network (mk i) v (hmk i)
    have hk := SetActivation_kinds Network (mk i) v
    have hL2 := SameFrame_Linked _ _ hf hL
    have hv2 : ∀ j ∈ Idxs, (Network.SetActivation (mk i) v).RefValid (mk j) := by
      intro j hj
      have := hv j (List.mem_cons_of_mem _ hj)
      cases hm : mk j with
      | Input k => exact absurd hm (hmk j k)
      | Hidden k =>
        rw [hm] at this
        show k < _
        rw [hf.2.2.2.1]
        exact this
      | Output k =>
        rw [hm] at this
        show k < _
        rw [hf.2.2.2.2.1]
        exact this
    have hnt2 : ∀ j ∈ Idxs, (Network.SetActivation (mk i) v).ThrowsAt (mk j) = false := by
      intro j hj
      rw [ThrowsAt_of_SameKinds _ _ hk (mk j) (hmk j)]
      exact hnt j (List.mem_cons_of_mem _ hj)
    obtain ⟨N2, hrun2, hf2, hk2⟩ := ih _ hL2 hv2 hnt2
    refine ⟨N2, ?_, SameFrame_trans _ _ _ hf hf2, SameKinds_trans _ _ _ hk hk2⟩
    rw [List.foldlM_cons, hrun]
    exact hrun2

theorem Activate_foldlM_throws (Transfer : List ℚ → EAggregation → EActivation → Option ℚ)
    (mk : Nat → NeuronRef) (hmk : ∀ i j, mk i ≠ NeuronRef.Input j) :
    ∀ (Idxs : List Nat) (Network : NeuralNetwork), Network.Linked →
      (∀ i ∈ Idxs, Network.RefValid (mk i)) →
      (∃ i ∈ Idxs, Network.ThrowsAt (mk i) = true) →
      Idxs.foldlM (fun N Idx => NeuralNetwork.Activate Transfer N (mk Idx)) Network =
        Except.error Fault.InvalidArgument := by
  intro Idxs
  induction Idxs with
  | nil =>
    intro Network _ _ h
    obtain ⟨i, hi, _⟩ := h
    exact absurd hi (List.not_mem_nil i)
  | cons i Idxs ih =>
    intro Network hL hv ht
    by_cases hi : Network.ThrowsAt (mk i) = true
    · rw [List.foldlM_cons,
        Activate_throws Transfer Network (mk i) hL (hv i (List.mem_cons_self _ _)) hi]
      rfl
    · have hi2 : Network.ThrowsAt (mk i) = false := by
        cases h : Network.ThrowsAt (mk i) with
        | false => rfl
        | true => exact absurd h hi
      obtain ⟨v, hrun⟩ := Activate_ok Transfer Network (mk i) hL (hv i (List.mem_cons_self _ _))
        hi2
      have hf := SetActivation_frame Network (mk i) v (hmk i)
      have hk := SetActivation_kinds Network (mk i) v
      have hL2 := SameFrame_Linked _ _ hf hL
      have hv2 : ∀ j ∈ Idxs, (Network.SetActivation (mk i) v).RefValid (mk j) := by
        intro j hj
        have := hv j (List.mem_cons_of_mem _ hj)
        cases hm : mk j with
        | Input k => exact absurd hm (hmk j k)
        | Hidden k =>
          rw [hm] at this
          show k < _
          rw [hf.2.2.2.1]
          exact this
        | Output k =>
          rw [hm] at this
          show k < _
          rw [hf.2.2.2.2.1]
          exact this
      obtain ⟨j, hj, hjt⟩ := ht
      have hj2 : j ∈ Idxs := by
        rcases List.mem_cons.1 hj with e | h
        · rw [e] at hjt
          exact absurd hjt hi
        · exact h
      rw [List.foldlM_cons, hrun]
      exact ih _ hL2 hv2 ⟨j, hj2, by rw [ThrowsAt_of_SameKinds _ _ hk (mk j) (hmk j)]; exact hjt⟩

theorem any_eq_false_index (l : List NeuronNode) :
    l.any NeuronNode.Throws = false ↔
      ∀ i, i < l.length → ((l.map NeuronNode.Throws)[i]?).getD false = false := by
  rw [List.any_eq_false]
  constructor
  · intro h i hi
    rw [List.getElem?_map, List.getElem?_eq_getElem hi]
    have := h l[i] (List.getElem_mem hi)
    simpa using this
  · intro h x hx
    obtain ⟨i, hi, e⟩ := List.mem_iff_getElem.1 hx
    have := h i hi
    rw [List.getElem?_map, List.getElem?_eq_getElem hi, e] at this
    simpa using this

theorem Throws_false_iff (Network : NeuralNetwork) :
    Network.Throws = false ↔
      (∀ i, i < Network.HiddenNeurons.length →
        Network.ThrowsAt (NeuronRef.Hidden i) = false) ∧
      (∀ i, i < Network.OutputNeurons.length →
        Network.ThrowsAt (NeuronRef.Output i) = false) := by
  unfold NeuralNetwork.Throws
  rw [Bool.or_eq_false_iff, any_eq_false_index, any_eq_false_index]
  simp only [ThrowsAt_Hidden, ThrowsAt_Output]

theorem Throws_of_SameKinds (A B : NeuralNetwork) (h : A.SameKinds B)
    (hH : B.HiddenNeurons.length = A.HiddenNeurons.length)
    (hO : B.OutputNeurons.length = A.OutputNeurons.length) : B.Throws = A.Throws := by
  have key : B.Throws = false ↔ A.Throws = false := by
    rw [Throws_false_iff, Throws_false_iff, hH, hO]
    simp only [ThrowsAt_Hidden, ThrowsAt_Output, h.1, h.2]
  cases hb : B.Throws with
  | false => exact (key.1 hb).symm
  | true =>
    cases ha : A.Throws with
    | false => rw [key.2 ha] at hb; cases hb
    | true => rfl

theorem WriteInputs_length : ∀ (L : List NeuronNode) (x : List ℚ),
    (WriteInputs L x).length = L.length := by
  intro L
  induction L with
  | nil => intro x; cases x <;> rfl
  | cons n L ih =>
    intro x
    cases x with
    | nil => rfl
    | cons x0 xs => simp [WriteInputs, ih]

theorem WriteInputs_ID : ∀ (L : List NeuronNode) (x : List ℚ),
    (WriteInputs L x).map (fun Neuron => Neuron.ID) = L.map (fun Neuron => Neuron.ID) := by
  intro L
  induction L with
  | nil => intro x; cases x <;> rfl
  | cons n L ih =>
    intro x
    cases x with
    | nil => rfl
    | cons x0 xs => simp [WriteInputs, ih]

theorem ActivateBias_cons_cons (a b : NeuronNode) (L : List NeuronNode) :
    ActivateBias (a :: b :: L) = a :: ActivateBias (b :: L) := rfl

theorem ActivateBias_length : ∀ L : List NeuronNode, (ActivateBias L).length = L.length := by
  intro L
  induction L with
  | nil => rfl
  | cons a L ih =>
    cases L with
    | nil => rfl
    | cons b L => rw [ActivateBias_cons_cons, List.length_cons, ih]; rfl

theorem ActivateBias_ID : ∀ L : List NeuronNode,
    (ActivateBias L).map (fun Neuron => Neuron.ID) = L.map (fun Neuron => Neuron.ID) := by
  intro L
  induction L with
  | nil => rfl
  | cons a L ih =>
    cases L with
    | nil => rfl
    | cons b L => rw [ActivateBias_cons_cons, List.map_cons, ih]; rfl

theorem Inputs_written : ∀ (L : List NeuronNode) (x : List ℚ), L.length = x.length + 1 →
    (∀ k, k < x.length →
      ((ActivateBias (WriteInputs L x))[k]?).map (fun Neuron => Neuron.Activation) = x[k]?) ∧
    (ActivateBias (WriteInputs L x)).getLast?.map (fun Neuron => Neuron.Activation) = some 1 := by
  intro L
  induction L with
  | nil => intro x h; simp at h
  | cons n L ih =>
    intro x h
    cases x with
    | nil =>
      have hL : L = [] := by
        simp only [List.length_cons, List.length_nil, Nat.zero_add, Nat.add_left_eq_self] at h
        exact List.length_eq_zero.1 h
      subst hL
      refine ⟨fun k hk => absurd hk (by simp), rfl⟩
    | cons x0 xs =>
      have hlen : L.length = xs.length + 1 := by simpa using h
      obtain ⟨h1, h2⟩ := ih xs hlen
      have hne : ∃ b R, WriteInputs L xs = b :: R := by
        have := WriteInputs_length L xs
        cases hw : WriteInputs L xs with
        | nil => rw [hw] at this; simp at this; omega
        | cons b R => exact ⟨b, R, rfl⟩
      obtain ⟨b, R, hbR⟩ := hne
      have hstep : ActivateBias (WriteInputs (n :: L) (x0 :: xs)) =
          { n with Activation := x0 } :: ActivateBias (WriteInputs L xs) := by
        show ActivateBias ({ n with Activation := x0 } :: WriteInputs L xs) = _
        rw [hbR, ActivateBias_cons_cons]
      rw [hstep]
      constructor
      · intro k hk
        cases k with
        | zero => simp
        | succ k =>
          simp only [List.getElem?_cons_succ]
          exact h1 k (by simpa using hk)
      · cases hab : ActivateBias (WriteInputs L xs) with
        | nil =>
          have := ActivateBias_length (WriteInputs L xs)
          rw [hab, hbR] at this
          simp at this
        | cons c R2 =>
          rw [hab] at h2
          rw [List.getLast?_cons_cons]
          exact h2

theorem Evaluate_run (Transfer : List ℚ → EAggregation → EActivation → Option ℚ)
    (Network : NeuralNetwork) (cfg : Config) (x : List ℚ)
    (hcfg : Network.Config = some cfg) (hL : Network.Linked) :
    (Network.InputNeurons.length ≠ x.length + 1 →
      ∃ Network2, NeuralNetwork.Evaluate Transfer Network x = Except.ok ([], Network2)) ∧
    (Network.InputNeurons.length = x.length + 1 → Network.Throws = false →
      ∃ Network2, NeuralNetwork.Evaluate Transfer Network x =
          Except.ok (Network2.OutputNeurons.map (fun Neuron => Neuron.Activation), Network2) ∧
        Network2.OutputNeurons.length = Network.OutputNeurons.length ∧
        Network2.OutputNeurons.map (fun Neuron => Neuron.ID) =
          Network.OutputNeurons.map (fun Neuron => Neuron.ID) ∧
        Network2.InputNeurons.map (fun Neuron => Neuron.ID) =
          Network.InputNeurons.map (fun Neuron => Neuron.ID) ∧
        (∀ k, k < x.length →
          (Network2.InputNeurons[k]?).map (fun Neuron => Neuron.Activation) = x[k]?) ∧
        Network2.InputNeurons.getLast?.map (fun Neuron => Neuron.Activation) = some 1) ∧
    (Network.InputNeurons.length = x.length + 1 → Network.Throws = true →
      NeuralNetwork.Evaluate Transfer Network x = Except.error Fault.InvalidArgument) := by
  obtain ⟨N1, hN1, hC1, hI1, hH1, hO1, hIID, hOID⟩ : ∃ N1 : NeuralNetwork,
      N1 = (if cfg.ResetNetworkActivations = true then
        { Network with
          InputNeurons := Network.InputNeurons.map (fun Neuron => { Neuron with Activation := 0 })
          HiddenNeurons := Network.HiddenNeurons.map (fun Neuron => { Neuron with Activation := 0 })
          OutputNeurons := Network.OutputNeurons.map (fun Neuron => { Neuron with Activation := 0 }) }
        else Network) ∧
      N1.Connections = Network.Connections ∧
      N1.InputNeurons.length = Network.InputNeurons.length ∧
      N1.HiddenNeurons.length = Network.HiddenNeurons.length ∧
      N1.OutputNeurons.length = Network.OutputNeurons.length ∧
      N1.InputNeurons.map (fun Neuron => Neuron.ID) =
        Network.InputNeurons.map (fun Neuron => Neuron.ID) ∧
      N1.OutputNeurons.map (fun Neuron => Neuron.ID) =
        Network.OutputNeurons.map (fun Neuron => Neuron.ID) := by
    refine ⟨_, rfl, ?_⟩
    split_ifs
    · simp
    · simp
  have hK1 : Network.SameKinds N1 := by
    rw [hN1]
    split_ifs
    · constructor
      · show List.map NeuronNode.Throws (List.map _ Network.HiddenNeurons) = _
        rw [List.map_map]
        exact List.map_congr_left (fun a _ => rfl)
      · show List.map NeuronNode.Throws (List.map _ Network.OutputNeurons) = _
        rw [List.map_map]
        exact List.map_congr_left (fun a _ => rfl)
    · exact ⟨rfl, rfl⟩
  have hL1 : N1.Linked := Linked_of_frame Network N1 hC1 hI1 hH1 hO1 hL
  have hrun : NeuralNetwork.Evaluate Transfer Network x =
      if N1.InputNeurons.length ≠ x.length + 1 then Except.ok ([], N1)
      else (do
        let Network2 : NeuralNetwork :=
          { N1 with InputNeurons := ActivateBias (WriteInputs N1.InputNeurons x) }
        let Network3 ← (List.range Network2.HiddenNeurons.length).foldlM
          (fun Network Idx => NeuralNetwork.Activate Transfer Network (NeuronRef.Hidden Idx))
          Network2
        let Network4 ← (List.range Network3.OutputNeurons.length).foldlM
          (fun Network Idx => NeuralNetwork.Activate Transfer Network (NeuronRef.Output Idx))
          Network3
        Except.ok (Network4.OutputNeurons.map (fun Neuron => Neuron.Activation), Network4)) := by
    unfold NeuralNetwork.Evaluate
    rw [hN1]
    simp only [hcfg]
  have hlen2 : (ActivateBias (WriteInputs N1.InputNeurons x)).length = N1.InputNeurons.length := by
    rw [ActivateBias_length, WriteInputs_length]
  have hL2 : NeuralNetwork.Linked
      { N1 with InputNeurons := ActivateBias (WriteInputs N1.InputNeurons x) } :=
    Linked_of_frame N1 _ rfl hlen2 rfl rfl hL1
  have hK2 : Network.SameKinds
      { N1 with InputNeurons := ActivateBias (WriteInputs N1.InputNeurons x) } :=
    ⟨hK1.1, hK1.2⟩
  have hT2 : NeuralNetwork.Throws
      { N1 with InputNeurons := ActivateBias (WriteInputs N1.InputNeurons x) } =
      Network.Throws := Throws_of_SameKinds _ _ hK2 hH1 hO1
  refine ⟨?_, ?_, ?_⟩
  · intro hne
    rw [← hI1] at hne
    exact ⟨N1, by rw [hrun, if_pos hne]⟩
  · intro heq hnt
    rw [← hI1] at heq
    rw [hrun, if_neg (by simpa using heq)]
    rw [← hT2, Throws_false_iff] at hnt
    obtain ⟨N3, hrun3, hf3, hk3⟩ := Activate_foldlM_ok Transfer NeuronRef.Hidden
      (fun i j h => by cases h) (List.range N1.HiddenNeurons.length)
      { N1 with InputNeurons := ActivateBias (WriteInputs N1.InputNeurons x) } hL2
      (fun i hi => List.mem_range.1 hi) (fun i hi => hnt.1 i (List.mem_range.1 hi))
    have hL3 := SameFrame_Linked _ _ hf3 hL2
    obtain ⟨N4, hrun4, hf4, _⟩ := Activate_foldlM_ok Transfer NeuronRef.Output
      (fun i j h => by cases h) (List.range N3.OutputNeurons.length) N3 hL3
      (fun i hi => List.mem_range.1 hi)
      (fun i hi => by
        rw [ThrowsAt_of_SameKinds _ _ hk3 (NeuronRef.Output i) (fun j h => by cases h)]
        exact hnt.2 i (by
          have := List.mem_range.1 hi
          rw [hf3.2.2.2.2.1] at this
          exact this))
    have hf := SameFrame_trans _ _ _ hf3 hf4
    obtain ⟨_, _, hI, _, hO, hOI⟩ := hf
    have hI4 : N4.InputNeurons = ActivateBias (WriteInputs N1.InputNeurons x) := hI
    obtain ⟨hw1, hw2⟩ := Inputs_written N1.InputNeurons x heq
    refine ⟨N4, ?_, ?_, ?_, ?_, ?_, ?_⟩
    · simp only
      rw [hrun3]
      simp only [bind, Except.bind]
      rw [hrun4]
    · exact hO.trans hO1
    · exact hOI.trans hOID
    · rw [hI4, ActivateBias_ID, WriteInputs_ID]
      exact hIID
    · rw [hI4]
      exact hw1
    · rw [hI4]
      exact hw2
  · intro heq ht
    rw [← hI1] at heq
    rw [hrun, if_neg (by simpa using heq)]
    rw [← hT2] at ht
    by_cases hA : ∀ i, i < N1.HiddenNeurons.length →
        NeuralNetwork.ThrowsAt
          { N1 with InputNeurons := ActivateBias (WriteInputs N1.InputNeurons x) }
          (NeuronRef.Hidden i) = false
    · have hB : ∃ i, i < N1.OutputNeurons.length ∧
          NeuralNetwork.ThrowsAt
            { N1 with InputNeurons := ActivateBias (WriteInputs N1.InputNeurons x) }
            (NeuronRef.Output i) = true := by
        by_contra hno
        have hall : ∀ i, i < N1.OutputNeurons.length →
            NeuralNetwork.ThrowsAt
              { N1 with InputNeurons := ActivateBias (WriteInputs N1.InputNeurons x) }
              (NeuronRef.Output i) = false := by
          intro i hi
          cases hv : NeuralNetwork.ThrowsAt
              { N1 with InputNeurons := ActivateBias (WriteInputs N1.InputNeurons x) }
              (NeuronRef.Output i) with
          | false => rfl
          | true => exact absurd ⟨i, hi, hv⟩ hno
        have := (Throws_false_iff
          { N1 with InputNeurons := ActivateBias (WriteInputs N1.InputNeurons x) }).2 ⟨hA, hall⟩
        rw [this] at ht
        cases ht
      obtain ⟨N3, hrun3, hf3, hk3⟩ := Activate_foldlM_ok Transfer NeuronRef.Hidden
        (fun i j h => by cases h) (List.range N1.HiddenNeurons.length)
        { N1 with InputNeurons := ActivateBias (WriteInputs N1.InputNeurons x) } hL2
        (fun i hi => List.mem_range.1 hi) (fun i hi => hA i (List.mem_range.1 hi))
      have hL3 := SameFrame_Linked _ _ hf3 hL2
      obtain ⟨i, hi, hit⟩ := hB
      have herr := Activate_foldlM_throws Transfer NeuronRef.Output
        (fun i j h => by cases h) (List.range N3.OutputNeurons.length) N3 hL3
        (fun i hi => List.mem_range.1 hi)
        ⟨i, List.mem_range.2 (by rw [hf3.2.2.2.2.1]; exact hi), by
          rw [ThrowsAt_of_SameKinds _ _ hk3 (NeuronRef.Output i) (fun j h => by cases h)]
          exact hit⟩
      simp only
      rw [hrun3]
      simp only [bind, Except.bind]
      rw [herr]
    · have hB : ∃ i, i < N1.HiddenNeurons.length ∧
          NeuralNetwork.ThrowsAt
            { N1 with InputNeurons := ActivateBias (WriteInputs N1.InputNeurons x) }
            (NeuronRef.Hidden i) = true := by
        by_contra hno
        apply hA
        intro i hi
        cases hv : NeuralNetwork.ThrowsAt
            { N1 with InputNeurons := ActivateBias (WriteInputs N1.InputNeurons x) }
            (NeuronRef.Hidden i) with
        | false => rfl
        | true => exact absurd ⟨i, hi, hv⟩ hno
      obtain ⟨i, hi, hit⟩ := hB
      have herr := Activate_foldlM_throws Transfer NeuronRef.Hidden
        (fun i j h => by cases h) (List.range N1.HiddenNeurons.length)
        { N1 with InputNeurons := ActivateBias (WriteInputs N1.InputNeurons x) } hL2
        (fun i hi => List.mem_range.1 hi) ⟨i, List.mem_range.2 hi, hit⟩
      simp only
      rw [herr]
      rfl

theorem NeuronIndex_ID (ID : Nat) : ∀ (l : List NeuronNode) (i : Nat),
    NeuronIndex ID l = some i → (l[i]?).map (fun Neuron => Neuron.ID) = some ID := by
  intro l
  induction l with
  | nil => intro i h; cases h
  | cons x l ih =>
    intro i h
    unfold NeuronIndex at h
    split_ifs at h with hx
    · cases h
      simp [hx]
    · cases hr : NeuronIndex ID l with
      | none => rw [hr] at h; cases h
      | some j =>
        rw [hr] at h
        have hi : j + 1 = i := by simpa using h
        rw [← hi, List.getElem?_cons_succ]
        exact ih j hr

theorem GetNeuronByID_ID (Network : NeuralNetwork) (ID : Nat) (r : NeuronRef)
    (h : Network.GetNeuronByID ID = some r) :
    (Network.Deref r).map (fun Neuron => Neuron.ID) = some ID := by
  unfold NeuralNetwork.GetNeuronByID at h
  cases h1 : NeuronIndex ID Network.InputNeurons with
  | some i =>
    rw [h1] at h
    cases h
    exact NeuronIndex_ID ID _ i h1
  | none =>
    rw [h1] at h
    cases h2 : NeuronIndex ID Network.HiddenNeurons with
    | some i =>
      rw [h2] at h
      cases h
      exact NeuronIndex_ID ID _ i h2
    | none =>
      rw [h2] at h
      cases h3 : NeuronIndex ID Network.OutputNeurons with
      | some i =>
        rw [h3] at h
        cases h
        exact NeuronIndex_ID ID _ i h3
      | none =>
        rw [h3] at h
        cases h

theorem ofGene_ID (n : NodeGene) : (NeuronNode.ofGene n).ID = n.ID := rfl

theorem Neurons_has_ID (G : Genome) (ID : Nat) :
    ((NeuralNetwork.Neurons G).GetNeuronByID ID).isSome = true ↔
      ∃ k n, G.Genotype.Nodes.Find k = some n ∧ n.ID = ID := by
  rw [GetNeuronByID_isSome]
  have hmem : ∀ (t : ENodeType) (x : NeuronNode),
      x ∈ (G.Genotype.GetFilteredNodeKeys (fun Pair => decide (Pair.2.NodeType = t))).map
        (fun NodeID => NeuronNode.ofGene (G.Genotype.Nodes.At NodeID {})) ↔
      ∃ k n, G.Genotype.Nodes.Find k = some n ∧ n.NodeType = t ∧ x = NeuronNode.ofGene n := by
    intro t x
    rw [List.mem_map]
    constructor
    · rintro ⟨k, hk, hx⟩
      obtain ⟨n, hn, hp⟩ := (mem_FilterKeysByPredicate _ _ k).1 hk
      refine ⟨k, n, hn, by simpa using hp, ?_⟩
      rw [← hx, At_of_Find _ _ _ _ hn]
    · rintro ⟨k, n, hn, ht, hx⟩
      refine ⟨k, (mem_FilterKeysByPredicate _ _ k).2 ⟨n, hn, by simpa using ht⟩, ?_⟩
      rw [hx, At_of_Find _ _ _ _ hn]
  constructor
  · rintro ⟨x, hx, hid⟩
    rcases hx with hx | hx | hx
    · obtain ⟨k, n, hn, _, hxe⟩ := (hmem ENodeType.Input x).1 hx
      exact ⟨k, n, hn, by rw [← hid, hxe]; rfl⟩
    · obtain ⟨k, n, hn, _, hxe⟩ := (hmem ENodeType.Hidden x).1 hx
      exact ⟨k, n, hn, by rw [← hid, hxe]; rfl⟩
    · obtain ⟨k, n, hn, _, hxe⟩ := (hmem ENodeType.Output x).1 hx
      exact ⟨k, n, hn, by rw [← hid, hxe]; rfl⟩
  · rintro ⟨k, n, hn, hid⟩
    refine ⟨NeuronNode.ofGene n, ?_, by rw [ofGene_ID, hid]⟩
    cases ht : n.NodeType with
    | Input => exact Or.inl ((hmem ENodeType.Input _).2 ⟨k, n, hn, ht, rfl⟩)
    | Hidden => exact Or.inr (Or.inl ((hmem ENodeType.Hidden _).2 ⟨k, n, hn, ht, rfl⟩))
    | Output => exact Or.inr (Or.inr ((hmem ENodeType.Output _).2 ⟨k, n, hn, ht, rfl⟩))

theorem Evaluate_total (Transfer : List ℚ → EAggregation → EActivation → Option ℚ)
    (Network : NeuralNetwork) (x : List ℚ) (hL : Network.Linked) :
    (Network.Throws = false →
      ∃ out Network2, NeuralNetwork.Evaluate Transfer Network x = Except.ok (out, Network2)) ∧
    ((∃ out Network2, NeuralNetwork.Evaluate Transfer Network x = Except.ok (out, Network2)) ∨
      NeuralNetwork.Evaluate Transfer Network x = Except.error Fault.InvalidArgument) := by
  cases hc : Network.Config with
  | none =>
    have h : ∃ out Network2, NeuralNetwork.Evaluate Transfer Network x =
        Except.ok (out, Network2) := ⟨[], Network, by simp [NeuralNetwork.Evaluate, hc]⟩
    exact ⟨fun _ => h, Or.inl h⟩
  | some cfg =>
    obtain ⟨h1, h2, h3⟩ := Evaluate_run Transfer Network cfg x hc hL
    by_cases hlen : Network.InputNeurons.length = x.length + 1
    · refine ⟨fun hnt => ?_, ?_⟩
      · obtain ⟨N2, hrun, _⟩ := h2 hlen hnt
        exact ⟨_, N2, hrun⟩
      · cases ht : Network.Throws with
        | false =>
          obtain ⟨N2, hrun, _⟩ := h2 hlen ht
          exact Or.inl ⟨_, N2, hrun⟩
        | true => exact Or.inr (h3 hlen ht)
    · obtain ⟨N2, hrun⟩ := h1 hlen
      exact ⟨fun _ => ⟨_, N2, hrun⟩, Or.inl ⟨_, N2, hrun⟩⟩

theorem ofGene_Throws (n : NodeGene) :
    (NeuronNode.ofGene n).Throws = true ↔ n.Activation = EActivation.MAX := by
  have e : (NeuronNode.ofGene n).Throws = !Activation.HasCase n.Activation := rfl
  rw [e]
  cases n.Activation <;> decide

theorem mem_Neurons (G : Genome) (t : ENodeType) (x : NeuronNode) :
    x ∈ (G.Genotype.GetFilteredNodeKeys (fun Pair => decide (Pair.2.NodeType = t))).map
      (fun NodeID => NeuronNode.ofGene (G.Genotype.Nodes.At NodeID {})) ↔
    ∃ k n, G.Genotype.Nodes.Find k = some n ∧ n.NodeType = t ∧ x = NeuronNode.ofGene n := by
  rw [List.mem_map]
  constructor
  · rintro ⟨k, hk, hx⟩
    obtain ⟨n, hn, hp⟩ := (mem_FilterKeysByPredicate _ _ k).1 hk
    refine ⟨k, n, hn, by simpa using hp, ?_⟩
    rw [← hx, At_of_Find _ _ _ _ hn]
  · rintro ⟨k, n, hn, ht, hx⟩
    refine ⟨k, (mem_FilterKeysByPredicate _ _ k).2 ⟨n, hn, by simpa using ht⟩, ?_⟩
    rw [hx, At_of_Find _ _ _ _ hn]

/-- In a network the constructor has built, `NeuronNode::Activate` throws on
    some neuron exactly when a Hidden or Output node of the genome has the
    activation `MAX`: the aggregation of every neuron is `Mean`, since the
    constructor of `NeuronNode` takes the gene by value. -/
theorem New_Throws (G : Genome) (Network : NeuralNetwork)
    (h : NeuralNetwork.New G = Except.ok Network) :
    Network.Throws = true ↔
      ∃ k n, G.Genotype.Nodes.Find k = some n ∧ n.NodeType ≠ ENodeType.Input ∧
        n.Activation = EActivation.MAX := by
  obtain ⟨hN, _, _⟩ := New_built G Network h
  have e : Network.Throws =
      (((G.Genotype.GetFilteredNodeKeys
          (fun Pair => decide (Pair.2.NodeType = ENodeType.Hidden))).map
          (fun NodeID => NeuronNode.ofGene (G.Genotype.Nodes.At NodeID {}))).any
          NeuronNode.Throws ||
        ((G.Genotype.GetFilteredNodeKeys
          (fun Pair => decide (Pair.2.NodeType = ENodeType.Output))).map
          (fun NodeID => NeuronNode.ofGene (G.Genotype.Nodes.At NodeID {}))).any
          NeuronNode.Throws) := by
    rw [hN]
    rfl
  rw [e, Bool.or_eq_true, List.any_eq_true, List.any_eq_true]
  constructor
  · rintro (⟨x, hx, hxt⟩ | ⟨x, hx, hxt⟩)
    · obtain ⟨k, n, hn, ht, hxe⟩ := (mem_Neurons G ENodeType.Hidden x).1 hx
      rw [hxe] at hxt
      exact ⟨k, n, hn, by rw [ht]; decide, (ofGene_Throws n).1 hxt⟩
    · obtain ⟨k, n, hn, ht, hxe⟩ := (mem_Neurons G ENodeType.Output x).1 hx
      rw [hxe] at hxt
      exact ⟨k, n, hn, by rw [ht]; decide, (ofGene_Throws n).1 hxt⟩
  · rintro ⟨k, n, hn, ht, hmax⟩
    cases hty : n.NodeType with
    | Input => exact absurd hty ht
    | Hidden =>
      exact Or.inl ⟨_, (mem_Neurons G ENodeType.Hidden _).2 ⟨k, n, hn, hty, rfl⟩,
        (ofGene_Throws n).2 hmax⟩
    | Output =>
      exact Or.inr ⟨_, (mem_Neurons G ENodeType.Output _).2 ⟨k, n, hn, hty, rfl⟩,
        (ofGene_Throws n).2 hmax⟩

theorem FilterKeys_pairwise {V : Type} (m : TMap V) (p : Nat × V → Bool) :
    (m.FilterKeysByPredicate p).Pairwise (fun a b => a < b) := by
  unfold TMap.FilterKeysByPredicate
  exact List.pairwise_map.2 (m.ascending.sublist (List.filter_sublist _))

/-- C16, counterexample: the genome with the input node 0 and the output node
    1 of activation `MAX` has a non-null config and is built into a network with
    one Input and one Output neuron; on the input `[]`, where `|x| + 1` is the
    number of Input neurons, `Evaluate` returns no array: `Activation::Activate`
    throws `std::invalid_argument`. -/
theorem Evaluate_throws_on_MAX :
    ∃ Network, NeuralNetwork.New maxOutputGenome = Except.ok Network ∧
      maxOutputGenome.Config = some {} ∧
      ([] : List ℚ).length + 1 = Network.InputNeurons.length ∧
      Network.OutputNeurons.length = 1 ∧
      ∀ Transfer : List ℚ → EAggregation → EActivation → Option ℚ,
        NeuralNetwork.Evaluate Transfer Network [] = Except.error Fault.InvalidArgument := by
  obtain ⟨Network, hnet⟩ : ∃ Network, NeuralNetwork.New maxOutputGenome = Except.ok Network :=
    ⟨_, rfl⟩
  obtain ⟨hN, _, hL⟩ := New_built _ _ hnet
  have hI : Network.InputNeurons.length = 1 := by rw [hN]; rfl
  have hO : Network.OutputNeurons.length = 1 := by rw [hN]; rfl
  have hc : Network.Config = some {} := by rw [hN]; rfl
  have ht : Network.Throws = true :=
    (New_Throws _ _ hnet).2 ⟨1, _, rfl, by decide, rfl⟩
  refine ⟨Network, hnet, rfl, hI.symm, hO, fun Transfer => ?_⟩
  exact (Evaluate_run Transfer Network {} [] hc hL).2.2 hI ht

/-- C16, amended: for every network built from a genome with a non-null config
    and every input vector `x`. The network has one Input neuron per Input node
    and one Output neuron per Output node of the genome, and `Activate` throws on
    one of its neurons exactly when a Hidden or Output node has the activation
    `MAX`. When no neuron throws, or `|x| + 1` differs from the number of Input
    neurons, `Evaluate(x)` returns; the result is the empty array if and only if
    `|x| + 1` differs from the number of Input neurons or there is no Output
    neuron, and when `|x| + 1` is the number of Input neurons it has exactly one
    entry per Output neuron. When a neuron throws and `|x| + 1` is the number of
    Input neurons, `Evaluate(x)` ends in `std::invalid_argument`. -/
theorem Evaluate_shape (Transfer : List ℚ → EAggregation → EActivation → Option ℚ)
    (G : Genome) (cfg : Config) (Network : NeuralNetwork) (x : List ℚ)
    (hcfg : G.Config = some cfg) (hnet : NeuralNetwork.New G = Except.ok Network) :
    Network.InputNeurons.length = (G.Genotype.GetFilteredNodeKeys
      (fun Pair => decide (Pair.2.NodeType = ENodeType.Input))).length ∧
    Network.OutputNeurons.length = (G.Genotype.GetFilteredNodeKeys
      (fun Pair => decide (Pair.2.NodeType = ENodeType.Output))).length ∧
    (Network.Throws = true ↔
      ∃ k n, G.Genotype.Nodes.Find k = some n ∧ n.NodeType ≠ ENodeType.Input ∧
        n.Activation = EActivation.MAX) ∧
    (Network.Throws = false ∨ x.length + 1 ≠ Network.InputNeurons.length →
      ∃ out Network2, NeuralNetwork.Evaluate Transfer Network x = Except.ok (out, Network2) ∧
        (out = [] ↔ (x.length + 1 ≠ Network.InputNeurons.length ∨
          Network.OutputNeurons.length = 0)) ∧
        (x.length + 1 = Network.InputNeurons.length →
          out.length = Network.OutputNeurons.length)) ∧
    (Network.Throws = true → x.length + 1 = Network.InputNeurons.length →
      NeuralNetwork.Evaluate Transfer Network x = Except.error Fault.InvalidArgument) := by
  obtain ⟨hN, _, hL⟩ := New_built G Network hnet
  have hc : Network.Config = some cfg := by rw [hN]; exact hcfg
  refine ⟨by rw [hN]; simp [NeuralNetwork.Neurons], by rw [hN]; simp [NeuralNetwork.Neurons],
    New_Throws G Network hnet, ?_, ?_⟩
  · obtain ⟨h1, h2, _⟩ := Evaluate_run Transfer Network cfg x hc hL
    intro hcase
    by_cases hlen : Network.InputNeurons.length = x.length + 1
    · have hnt : Network.Throws = false := by
        rcases hcase with h | h
        · exact h
        · exact absurd hlen.symm h
      obtain ⟨N2, hrun, hO, _⟩ := h2 hlen hnt
      refine ⟨_, N2, hrun, ?_, ?_⟩
      · rw [List.map_eq_nil_iff, ← List.length_eq_zero, hO]
        constructor
        · intro h; exact Or.inr h
        · rintro (h | h)
          · exact absurd hlen.symm h
          · exact h
      · intro _
        rw [List.length_map, hO]
    · obtain ⟨N2, hrun⟩ := h1 hlen
      refine ⟨[], N2, hrun, ?_, ?_⟩
      · exact ⟨fun _ => Or.inl (fun e => hlen e.symm), fun _ => rfl⟩
      · intro e
        exact absurd e.symm hlen
  · intro ht hlen
    exact (Evaluate_run Transfer Network cfg x hc hL).2.2 hlen.symm ht

/-- C16 at the genome with two input nodes and one output node, whose
    activations are `Linear`: the input `[1/2]` gives one output, the input `[]`
    gives none. -/
theorem Evaluate_shape_witness :
    ∃ Network, NeuralNetwork.New twoInputGenome = Except.ok Network ∧
      (∃ out Network2, NeuralNetwork.Evaluate sampleTransfer Network [1 / 2] =
        Except.ok (out, Network2) ∧ out.length = 1) ∧
      (∃ Network2, NeuralNetwork.Evaluate sampleTransfer Network [] =
        Except.ok ([], Network2)) := by
  obtain ⟨Network, hnet⟩ : ∃ Network, NeuralNetwork.New twoInputGenome = Except.ok Network :=
    ⟨_, rfl⟩
  have hI : Network.InputNeurons.length = 2 := by
    rw [(New_built _ _ hnet).1]; rfl
  have hO : Network.OutputNeurons.length = 1 := by
    rw [(New_built _ _ hnet).1]; rfl
  have hnt : Network.Throws = false := by
    rw [(New_built _ _ hnet).1]; rfl
  obtain ⟨_, _, _, h4, _⟩ :=
    Evaluate_shape sampleTransfer twoInputGenome {} Network [1 / 2] rfl hnet
  obtain ⟨out, N2, hrun, _, hlen⟩ := h4 (Or.inl hnt)
  obtain ⟨_, _, _, h40, _⟩ :=
    Evaluate_shape sampleTransfer twoInputGenome {} Network [] rfl hnet
  obtain ⟨out0, N0, hrun0, hiff, _⟩ := h40 (Or.inl hnt)
  refine ⟨Network, hnet, ⟨out, N2, hrun, ?_⟩, ⟨N0, ?_⟩⟩
  · rw [hlen (by rw [hI]; rfl), hO]
  · have : out0 = [] := hiff.2 (Or.inl (by rw [hI]; decide))
    rw [this] at hrun0
    exact hrun0

theorem Evaluate_written (Transfer : List ℚ → EAggregation → EActivation → Option ℚ)
    (G : Genome) (cfg : Config) (Network : NeuralNetwork) (x : List ℚ)
    (hcfg : G.Config = some cfg) (hnet : NeuralNetwork.New G = Except.ok Network)
    (hx : x.length + 1 = Network.InputNeurons.length) (hnt : Network.Throws = false) :
    ∃ out Network2, NeuralNetwork.Evaluate Transfer Network x = Except.ok (out, Network2) ∧
      (G.Genotype.GetFilteredNodeKeys
        (fun Pair => decide (Pair.2.NodeType = ENodeType.Input))).Pairwise (fun a b => a < b) ∧
      Network2.InputNeurons.map (fun Neuron => Neuron.ID) =
        (G.Genotype.GetFilteredNodeKeys
          (fun Pair => decide (Pair.2.NodeType = ENodeType.Input))).map
          (fun k => (G.Genotype.Nodes.At k {}).ID) ∧
      (∀ k, k < x.length →
        (Network2.InputNeurons[k]?).map (fun Neuron => Neuron.Activation) = x[k]?) ∧
      Network2.InputNeurons.getLast?.map (fun Neuron => Neuron.Activation) = some 1 ∧
      out = Network2.OutputNeurons.map (fun Neuron => Neuron.Activation) ∧
      (G.Genotype.GetFilteredNodeKeys
        (fun Pair => decide (Pair.2.NodeType = ENodeType.Output))).Pairwise (fun a b => a < b) ∧
      Network2.OutputNeurons.map (fun Neuron => Neuron.ID) =
        (G.Genotype.GetFilteredNodeKeys
          (fun Pair => decide (Pair.2.NodeType = ENodeType.Output))).map
          (fun k => (G.Genotype.Nodes.At k {}).ID) ∧
      ((∀ k n, G.Genotype.Nodes.Find k = some n → n.ID = k) →
        Network2.InputNeurons.map (fun Neuron => Neuron.ID) =
          G.Genotype.GetFilteredNodeKeys
            (fun Pair => decide (Pair.2.NodeType = ENodeType.Input)) ∧
        Network2.OutputNeurons.map (fun Neuron => Neuron.ID) =
          G.Genotype.GetFilteredNodeKeys
            (fun Pair => decide (Pair.2.NodeType = ENodeType.Output))) := by
  obtain ⟨hN, _, hL⟩ := New_built G Network hnet
  have hc : Network.Config = some cfg := by rw [hN]; exact hcfg
  obtain ⟨_, h2, _⟩ := Evaluate_run Transfer Network cfg x hc hL
  obtain ⟨N2, hrun, _, hOID, hIID, hw, hlast⟩ := h2 hx.symm hnt
  have hIn : Network.InputNeurons.map (fun Neuron => Neuron.ID) =
      (G.Genotype.GetFilteredNodeKeys
        (fun Pair => decide (Pair.2.NodeType = ENodeType.Input))).map
        (fun k => (G.Genotype.Nodes.At k {}).ID) := by
    rw [hN]
    simp only [NeuralNetwork.Neurons, List.map_map]
    rfl
  have hOut : Network.OutputNeurons.map (fun Neuron => Neuron.ID) =
      (G.Genotype.GetFilteredNodeKeys
        (fun Pair => decide (Pair.2.NodeType = ENodeType.Output))).map
        (fun k => (G.Genotype.Nodes.At k {}).ID) := by
    rw [hN]
    simp only [NeuralNetwork.Neurons, List.map_map]
    rfl
  have hkeys : (∀ k n, G.Genotype.Nodes.Find k = some n → n.ID = k) →
      ∀ (p : Nat × NodeGene → Bool),
        (G.Genotype.GetFilteredNodeKeys p).map (fun k => (G.Genotype.Nodes.At k {}).ID) =
          G.Genotype.GetFilteredNodeKeys p := by
    intro hid p
    conv_rhs => rw [← List.map_id (G.Genotype.GetFilteredNodeKeys p)]
    apply List.map_congr_left
    intro k hk
    obtain ⟨n, hn, _⟩ := (mem_FilterKeysByPredicate _ _ k).1 hk
    rw [At_of_Find _ _ _ _ hn]
    exact hid k n hn
  refine ⟨_, N2, hrun, FilterKeys_pairwise _ _, hIID.trans hIn, hw, hlast, rfl,
    FilterKeys_pairwise _ _, hOID.trans hOut, ?_⟩
  intro hid
  exact ⟨(hIID.trans hIn).trans (hkeys hid _), (hOID.trans hOut).trans (hkeys hid _)⟩

/-- C18, counterexample: the genome with the input node 0, the disabled output
    node 1 and the connection 0 -> 1 is built into a network that holds the edge
    from neuron 0 to neuron 1, and evaluating it passes the bias through that
    edge; for the genome whose connection ends in the id 7 of no node, the
    constructor stops at `BREAKPOINT()` instead of leaving the edge out. -/
theorem New_keeps_disabled_endpoint :
    disabledEndpointGenome.Genotype.Nodes.Find 1 =
      some { ID := 1, NodeType := ENodeType.Output, Enabled := false } ∧
    NeuralNetwork.New disabledEndpointGenome = Except.ok disabledEndpointNetwork ∧
    disabledEndpointNetwork.Connections =
      [{ Input := some (NeuronRef.Input 0), Output := some (NeuronRef.Output 0), Weight := 1 }] ∧
    (∃ Network2, NeuralNetwork.Evaluate sampleTransfer disabledEndpointNetwork [] =
      Except.ok ([1], Network2)) ∧
    NeuralNetwork.New danglingGenome = Except.error Fault.Breakpoint := by
  refine ⟨rfl, rfl, rfl, ?_, rfl⟩
  refine ⟨{ disabledEndpointNetwork with
    InputNeurons := [{ ID := 0, ActivationType := EActivation.Linear, Activation := 1 }]
    OutputNeurons := [{ ID := 1, Activation := 1 }] }, ?_⟩
  simp [NeuralNetwork.Evaluate, disabledEndpointNetwork, ActivateBias, WriteInputs,
    NeuralNetwork.Activate, NeuralNetwork.Arrow, NeuralNetwork.Deref,
    NeuralNetwork.GetWeightedInputs, NeuralNetwork.WeighInput, NeuralNetwork.SetActivation,
    sampleTransfer, bind, Except.bind, List.range, List.range.loop, List.modify, pure,
    Except.pure, Aggregation.HasCase, Activation.HasCase]

/-- C18, amended: the constructor never reads an `Enabled` flag. If every
    connection gene's `Input` and `Output` are the `ID` of some node, the network
    is built and holds exactly one edge per connection gene, in key order, with
    the gene's weight, from a neuron with the id `Input` to a neuron with the id
    `Output`. If some connection gene's `Input` or `Output` is the `ID` of no
    node, the constructor stops at `BREAKPOINT()` and no network is built. A
    network that was built is evaluated, on every input, without dereferencing
    a missing neuron: `Evaluate` returns, or it ends in the
    `std::invalid_argument` of `Activation::Activate`, and it returns whenever
    no Hidden or Output node has the activation `MAX`. -/
theorem New_edges (G : Genome) :
    ((∀ e ∈ G.Genotype.Connections.entries,
        (∃ k n, G.Genotype.Nodes.Find k = some n ∧ n.ID = e.2.Input) ∧
        (∃ k n, G.Genotype.Nodes.Find k = some n ∧ n.ID = e.2.Output)) →
      ∃ Network, NeuralNetwork.New G = Except.ok Network ∧
        Network.Connections.length = G.Genotype.Connections.Num ∧
        ∀ (i : Nat) (e : Nat × ConnectionGene), G.Genotype.Connections.entries[i]? = some e →
          ∃ a b, Network.Connections[i]? =
              some ({ Input := some a, Output := some b, Weight := e.2.Weight } :
                NeuronConnection) ∧
            (Network.Deref a).map (fun Neuron => Neuron.ID) = some e.2.Input ∧
            (Network.Deref b).map (fun Neuron => Neuron.ID) = some e.2.Output) ∧
    ((∃ e ∈ G.Genotype.Connections.entries,
        ¬ ((∃ k n, G.Genotype.Nodes.Find k = some n ∧ n.ID = e.2.Input) ∧
          (∃ k n, G.Genotype.Nodes.Find k = some n ∧ n.ID = e.2.Output))) →
      NeuralNetwork.New G = Except.error Fault.Breakpoint) ∧
    (∀ Network, NeuralNetwork.New G = Except.ok Network →
      ∀ (Transfer : List ℚ → EAggregation → EActivation → Option ℚ) (x : List ℚ),
        ((∃ out Network2,
            NeuralNetwork.Evaluate Transfer Network x = Except.ok (out, Network2)) ∨
          NeuralNetwork.Evaluate Transfer Network x = Except.error Fault.InvalidArgument) ∧
        ((∀ k n, G.Genotype.Nodes.Find k = some n → n.NodeType ≠ ENodeType.Input →
            n.Activation ≠ EActivation.MAX) →
          ∃ out Network2,
            NeuralNetwork.Evaluate Transfer Network x = Except.ok (out, Network2))) := by
  refine ⟨?_, ?_, ?_⟩
  · intro hall
    have hall2 : ∀ e ∈ G.Genotype.Connections.entries,
        ((NeuralNetwork.Neurons G).GetNeuronByID e.2.Input).isSome = true ∧
        ((NeuralNetwork.Neurons G).GetNeuronByID e.2.Output).isSome = true := by
      intro e he
      exact ⟨(Neurons_has_ID G _).2 (hall e he).1, (Neurons_has_ID G _).2 (hall e he).2⟩
    refine ⟨_, AddEdge_foldlM_ok _ _ hall2, ?_, ?_⟩
    · simp [NeuralNetwork.Neurons, TMap.Num]
    · intro i e hie
      have hmem : e ∈ G.Genotype.Connections.entries := List.mem_iff_getElem?.2 ⟨i, hie⟩
      obtain ⟨h1, h2⟩ := hall2 e hmem
      obtain ⟨a, ha⟩ := Option.isSome_iff_exists.1 h1
      obtain ⟨b, hb⟩ := Option.isSome_iff_exists.1 h2
      refine ⟨a, b, ?_, GetNeuronByID_ID (NeuralNetwork.Neurons G) _ a ha,
        GetNeuronByID_ID (NeuralNetwork.Neurons G) _ b hb⟩
      show ((NeuralNetwork.Neurons G).Connections ++
        G.Genotype.Connections.entries.map (NeuralNetwork.Neurons G).EdgeOf)[i]? = _
      rw [show (NeuralNetwork.Neurons G).Connections = [] from rfl, List.nil_append,
        List.getElem?_map, hie]
      simp [NeuralNetwork.EdgeOf, ha, hb]
  · rintro ⟨e, he, hbad⟩
    apply AddEdge_foldlM_fail
    refine ⟨e, he, ?_⟩
    rw [Neurons_has_ID, Neurons_has_ID]
    exact hbad
  · intro Network hnet Transfer x
    obtain ⟨h1, h2⟩ := Evaluate_total Transfer Network x (New_built G Network hnet).2.2
    refine ⟨h2, fun hno => h1 ?_⟩
    cases ht : Network.Throws with
    | false => rfl
    | true =>
      obtain ⟨k, n, hn, hty, hmax⟩ := (New_Throws G Network hnet).1 ht
      exact absurd hmax (hno k n hn hty)

/-- C18, amended, at the genome with a disabled output node: its one connection
    gene becomes the one edge of the network. -/
theorem New_edges_witness :
    ∃ Network, NeuralNetwork.New disabledEndpointGenome = Except.ok Network ∧
      Network.Connections.length = 1 := by
  obtain ⟨Network, hnet, hlen, _⟩ := (New_edges disabledEndpointGenome).1 (by
    intro e he
    have : e = (10, { ID := 10, Input := 0, Output := 1 }) := by
      simpa [disabledEndpointGenome, TMap.Add, TMap.empty, insertEntry] using he
    rw [this]
    exact ⟨⟨0, _, rfl, rfl⟩, ⟨1, _, rfl, rfl⟩⟩)
  exact ⟨Network, hnet, hlen⟩

theorem lookupEntry_map {V W : Type} (f : V → W) (k : Nat) : ∀ l : List (Nat × V),
    lookupEntry k (l.map (fun e => (e.1, f e.2))) = (lookupEntry k l).map f := by
  intro l
  induction l with
  | nil => rfl
  | cons e l ih =>
    simp only [List.map_cons, lookupEntry]
    split_ifs with h
    · rfl
    · exact ih

theorem TMap.Find_MapValues {V W : Type} (m : TMap V) (f : V → W) (k : Nat) :
    (m.MapValues f).Find k = (m.Find k).map f :=
  lookupEntry_map f k m.entries

theorem TMap.FilterKeys_MapValues {V W : Type} (m : TMap V) (f : V → W) (p : Nat × W → Bool) :
    (m.MapValues f).FilterKeysByPredicate p =
      m.FilterKeysByPredicate (fun e => p (e.1, f e.2)) := by
  unfold TMap.FilterKeysByPredicate TMap.MapValues
  simp only [List.filter_map, List.map_map]
  rfl

theorem Copy_keys (G : Genome) (t : ENodeType) :
    G.Copy.Genotype.GetFilteredNodeKeys (fun Pair => decide (Pair.2.NodeType = t)) =
      G.Genotype.GetFilteredNodeKeys (fun Pair => decide (Pair.2.NodeType = t)) := by
  unfold Genotype.GetFilteredNodeKeys Genome.Copy
  rw [TMap.FilterKeys_MapValues]
  rfl

theorem Copy_ID (G : Genome) (k : Nat) :
    (G.Copy.Genotype.Nodes.At k {}).ID = (G.Genotype.Nodes.At k {}).ID := by
  unfold TMap.At Genome.Copy
  rw [TMap.Find_MapValues]
  cases G.Genotype.Nodes.Find k <;> rfl

theorem CreateNeuralNetwork_some (G : Genome) (Network : NeuralNetwork)
    (h : G.CreateNeuralNetwork = Except.ok (some Network)) :
    (∃ cfg, G.Copy.Config = some cfg) ∧ NeuralNetwork.New G.Copy = Except.ok Network := by
  unfold Genome.CreateNeuralNetwork at h
  cases hc : G.Config with
  | none => rw [hc] at h; cases h
  | some cfg =>
    rw [hc] at h
    refine ⟨⟨cfg, hc⟩, ?_⟩
    cases hn : NeuralNetwork.New G.Copy with
    | error f => rw [hn] at h; cases h
    | ok N =>
      rw [hn] at h
      have := Except.ok.inj h
      rw [Option.some.inj this]

/-- C17, counterexample: the genome with the input nodes 0 and 1, the hidden
    node 2 of activation `MAX` and the output node 3 is built into a network
    with two Input neurons; on every input of the right length 1, `Evaluate`
    returns no vector: it ends in the `std::invalid_argument` that
    `Activation::Activate` throws on the hidden neuron. -/
theorem Evaluate_throws_on_hidden_MAX :
    ∃ Network, maxHiddenGenome.CreateNeuralNetwork = Except.ok (some Network) ∧
      Network.InputNeurons.length = 2 ∧
      ∀ (Transfer : List ℚ → EAggregation → EActivation → Option ℚ) (v : ℚ),
        NeuralNetwork.Evaluate Transfer Network [v] = Except.error Fault.InvalidArgument := by
  obtain ⟨Network, hnet⟩ :
      ∃ Network, maxHiddenGenome.CreateNeuralNetwork = Except.ok (some Network) := ⟨_, rfl⟩
  obtain ⟨_, hnew⟩ := CreateNeuralNetwork_some _ _ hnet
  obtain ⟨hN, _, hL⟩ := New_built _ _ hnew
  have hI : Network.InputNeurons.length = 2 := by rw [hN]; rfl
  have hc : Network.Config = some {} := by rw [hN]; rfl
  have ht : Network.Throws = true :=
    (New_Throws _ _ hnew).2 ⟨2, _, rfl, by decide, rfl⟩
  exact ⟨Network, hnet, hI, fun Transfer v =>
    (Evaluate_run Transfer Network {} [v] hc hL).2.2 hI ht⟩

/-- C17, amended: for every network `CreateNeuralNetwork` returns for a genome
    and every input `x` with `|x| + 1` Input neurons. `Activate` throws on a
    neuron of the network exactly when a Hidden or Output node of the genome has
    the activation `MAX`, and `Evaluate(x)` then ends in `std::invalid_argument`.
    Otherwise `Evaluate(x)` returns; afterwards the Input and the Output neurons
    stand in ascending order of their node keys, the `k`-th Input neuron holds
    `x[k]` for `k < |x|`, the last Input neuron (the bias) holds 1, and the
    returned vector lists the activations of the Output neurons in that order;
    when every node sits under its own `ID`, the neuron ids are those keys. -/
theorem Evaluate_activations (Transfer : List ℚ → EAggregation → EActivation → Option ℚ)
    (G : Genome) (Network : NeuralNetwork) (x : List ℚ)
    (hnet : G.CreateNeuralNetwork = Except.ok (some Network))
    (hx : x.length + 1 = Network.InputNeurons.length) :
    (Network.Throws = true ↔
      ∃ k n, G.Genotype.Nodes.Find k = some n ∧ n.NodeType ≠ ENodeType.Input ∧
        n.Activation = EActivation.MAX) ∧
    (Network.Throws = true →
      NeuralNetwork.Evaluate Transfer Network x = Except.error Fault.InvalidArgument) ∧
    (Network.Throws = false →
      ∃ out Network2, NeuralNetwork.Evaluate Transfer Network x = Except.ok (out, Network2) ∧
        (G.Genotype.GetFilteredNodeKeys
          (fun Pair => decide (Pair.2.NodeType = ENodeType.Input))).Pairwise (fun a b => a < b) ∧
        Network2.InputNeurons.map (fun Neuron => Neuron.ID) =
          (G.Genotype.GetFilteredNodeKeys
            (fun Pair => decide (Pair.2.NodeType = ENodeType.Input))).map
            (fun k => (G.Genotype.Nodes.At k {}).ID) ∧
        (∀ k, k < x.length →
          (Network2.InputNeurons[k]?).map (fun Neuron => Neuron.Activation) = x[k]?) ∧
        Network2.InputNeurons.getLast?.map (fun Neuron => Neuron.Activation) = some 1 ∧
        out = Network2.OutputNeurons.map (fun Neuron => Neuron.Activation) ∧
        (G.Genotype.GetFilteredNodeKeys
          (fun Pair => decide (Pair.2.NodeType = ENodeType.Output))).Pairwise
            (fun a b => a < b) ∧
        Network2.OutputNeurons.map (fun Neuron => Neuron.ID) =
          (G.Genotype.GetFilteredNodeKeys
            (fun Pair => decide (Pair.2.NodeType = ENodeType.Output))).map
            (fun k => (G.Genotype.Nodes.At k {}).ID) ∧
        ((∀ k n, G.Genotype.Nodes.Find k = some n → n.ID = k) →
          Network2.InputNeurons.map (fun Neuron => Neuron.ID) =
            G.Genotype.GetFilteredNodeKeys
              (fun Pair => decide (Pair.2.NodeType = ENodeType.Input)) ∧
          Network2.OutputNeurons.map (fun Neuron => Neuron.ID) =
            G.Genotype.GetFilteredNodeKeys
              (fun Pair => decide (Pair.2.NodeType = ENodeType.Output)))) := by
  obtain ⟨⟨cfg, hcfg⟩, hnew⟩ := CreateNeuralNetwork_some G Network hnet
  obtain ⟨hN, _, hL⟩ := New_built _ _ hnew
  have hc : Network.Config = some cfg := by rw [hN]; exact hcfg
  refine ⟨?_, fun ht => (Evaluate_run Transfer Network cfg x hc hL).2.2 hx.symm ht, ?_⟩
  · rw [New_Throws _ _ hnew]
    constructor
    · rintro ⟨k, n, hn, hty, hmax⟩
      unfold Genome.Copy at hn
      simp only [TMap.Find_MapValues] at hn
      cases hf : G.Genotype.Nodes.Find k with
      | none => rw [hf] at hn; cases hn
      | some n0 =>
        rw [hf] at hn
        have e : n = NodeGene.Copy n0 := (Option.some.inj hn).symm
        rw [e] at hty hmax
        exact ⟨k, n0, hf, hty, hmax⟩
    · rintro ⟨k, n, hn, hty, hmax⟩
      refine ⟨k, NodeGene.Copy n, ?_, hty, hmax⟩
      unfold Genome.Copy
      simp only [TMap.Find_MapValues]
      rw [hn]
      rfl
  · intro hnt
    obtain ⟨out, N2, hrun, hp1, hin, hw, hlast, hout, hp2, hoid, hkeys⟩ :=
      Evaluate_written Transfer G.Copy cfg Network x hcfg hnew hx hnt
    rw [Copy_keys] at hp1 hin hp2 hoid hkeys
    simp only [Copy_ID] at hin hoid
    refine ⟨out, N2, hrun, hp1, hin, hw, hlast, hout, hp2, hoid, ?_⟩
    intro hid
    rw [Copy_keys] at hkeys
    apply hkeys
    intro k n hn
    unfold Genome.Copy at hn
    simp only [TMap.Find_MapValues] at hn
    cases hf : G.Genotype.Nodes.Find k with
    | none => rw [hf] at hn; cases hn
    | some n0 =>
      rw [hf] at hn
      have : n = NodeGene.Copy n0 := (Option.some.inj hn).symm
      rw [this]
      exact hid k n0 hf

/-- C17 at the genome with the input nodes 0 and 1 and the output node 2, on the
    input `[1/2]`: afterwards neuron 0 holds 1/2 and neuron 1, the bias, holds
    1, and the returned vector is the activation of neuron 2. -/
theorem Evaluate_activations_witness :
    ∃ Network out Network2, twoInputGenome.CreateNeuralNetwork = Except.ok (some Network) ∧
      NeuralNetwork.Evaluate sampleTransfer Network [1 / 2] = Except.ok (out, Network2) ∧
      Network2.InputNeurons.map (fun Neuron => Neuron.ID) = [0, 1] ∧
      (Network2.InputNeurons[0]?).map (fun Neuron => Neuron.Activation) = some (1 / 2) ∧
      Network2.InputNeurons.getLast?.map (fun Neuron => Neuron.Activation) = some 1 ∧
      out = Network2.OutputNeurons.map (fun Neuron => Neuron.Activation) ∧
      Network2.OutputNeurons.map (fun Neuron => Neuron.ID) = [2] := by
  obtain ⟨Network, hnet⟩ :
      ∃ Network, twoInputGenome.CreateNeuralNetwork = Except.ok (some Network) := ⟨_, rfl⟩
  have hI : Network.InputNeurons.length = 2 := by
    rw [(New_built _ _ (CreateNeuralNetwork_some _ _ hnet).2).1]; rfl
  have hnt : Network.Throws = false := by
    rw [(New_built _ _ (CreateNeuralNetwork_some _ _ hnet).2).1]; rfl
  obtain ⟨out, N2, hrun, _, hin, hw, hlast, hout, _, hoid, _⟩ :=
    (Evaluate_activations sampleTransfer twoInputGenome Network [1 / 2] hnet
      (by rw [hI]; rfl)).2.2 hnt
  exact ⟨Network, out, N2, hnet, hrun, hin.trans rfl, hw 0 (by decide), hlast, hout,
    hoid.trans rfl⟩

/-! ### The text form -/

theorem digitChar_ne_newline (d : Nat) (h : d < 10) : Nat.digitChar d ≠ '\n' := by
  interval_cases d <;> decide

theorem toDigitsCore_clean : ∀ (fuel n : Nat) (ds : List Char),
    (∀ c ∈ ds, c ≠ '\n') → ∀ c ∈ Nat.toDigitsCore 10 fuel n ds, c ≠ '\n' := by
  intro fuel
  induction fuel with
  | zero => intro n ds h; simpa [Nat.toDigitsCore] using h
  | succ fuel ih =>
    intro n ds h
    have hd : ∀ c ∈ Nat.digitChar (n % 10) :: ds, c ≠ '\n' := by
      intro c hc
      rcases List.mem_cons.1 hc with e | e
      · rw [e]; exact digitChar_ne_newline _ (Nat.mod_lt _ (by norm_num))
      · exact h c e
    unfold Nat.toDigitsCore
    simp only
    split_ifs
    · exact hd
    · exact ih _ _ hd

theorem to_string_clean (n : Nat) : '\n' ∉ to_string n := by
  intro h
  exact toDigitsCore_clean _ _ [] (fun c hc => by cases hc) _ h rfl

theorem to_string_double_clean (q : ℚ) : '\n' ∉ to_string_double q := by
  intro h
  unfold to_string_double at h
  simp only [List.mem_append, List.mem_cons] at h
  rcases h with (h | h) | h | h
  · split_ifs at h
    · simp at h
    · simp at h
  · exact to_string_clean _ h
  · exact absurd h (by decide)
  · exact to_string_clean _ (List.mem_of_mem_tail h)

theorem NodeType_ToString_clean (t : ENodeType) : '\n' ∉ NodeType.ToString t := by
  cases t <;> decide

theorem Activation_ToString_clean (t : EActivation) : '\n' ∉ Activation.ToString t := by
  cases t <;> decide

theorem Aggregation_ToString_clean (t : EAggregation) : '\n' ∉ Aggregation.ToString t := by
  cases t <;> decide

theorem SerializeLines_shape (g : Genotype) : ∀ l ∈ g.SerializeLines,
    '\n' ∉ l ∧ (l = "nodes:".toList ∨ l = "connections:".toList ∨ ∃ r, l = ' ' :: r) := by
  intro l hl
  unfold Genotype.SerializeLines at hl
  simp only [List.mem_append, List.mem_flatMap, List.mem_cons, List.mem_singleton,
    List.not_mem_nil, or_false] at hl
  have hbool : ∀ b : Bool, '\n' ∉ (if b = true then "true".toList else "false".toList) := by
    intro b; cases b <;> decide
  have happ : ∀ (a b : List Char), '\n' ∉ a → '\n' ∉ b → '\n' ∉ a ++ b := by
    intro a b ha hb h
    rcases List.mem_append.1 h with h1 | h1
    · exact ha h1
    · exact hb h1
  rcases hl with ((hl | ⟨e, _, hl⟩) | hl) | ⟨e, _, hl⟩
  · rw [hl]; exact ⟨by decide, Or.inl rfl⟩
  · rcases hl with hl | hl | hl | hl | hl | hl <;> rw [hl]
    · exact ⟨happ _ _ (happ _ _ (by decide) (to_string_clean _)) (by decide),
        Or.inr (Or.inr ⟨_, rfl⟩)⟩
    · exact ⟨happ _ _ (by decide) (NodeType_ToString_clean _), Or.inr (Or.inr ⟨_, rfl⟩)⟩
    · exact ⟨happ _ _ (by decide) (to_string_double_clean _), Or.inr (Or.inr ⟨_, rfl⟩)⟩
    · exact ⟨happ _ _ (by decide) (Aggregation_ToString_clean _), Or.inr (Or.inr ⟨_, rfl⟩)⟩
    · exact ⟨happ _ _ (by decide) (Activation_ToString_clean _), Or.inr (Or.inr ⟨_, rfl⟩)⟩
    · exact ⟨happ _ _ (by decide) (hbool _), Or.inr (Or.inr ⟨_, rfl⟩)⟩
  · rw [hl]; exact ⟨by decide, Or.inr (Or.inl rfl)⟩
  · rcases hl with hl | hl | hl | hl | hl <;> rw [hl]
    · exact ⟨happ _ _ (happ _ _ (by decide) (to_string_clean _)) (by decide),
        Or.inr (Or.inr ⟨_, rfl⟩)⟩
    · exact ⟨happ _ _ (by decide) (to_string_clean _), Or.inr (Or.inr ⟨_, rfl⟩)⟩
    · exact ⟨happ _ _ (by decide) (to_string_clean _), Or.inr (Or.inr ⟨_, rfl⟩)⟩
    · exact ⟨happ _ _ (by decide) (to_string_double_clean _), Or.inr (Or.inr ⟨_, rfl⟩)⟩
    · exact ⟨happ _ _ (by decide) (hbool _), Or.inr (Or.inr ⟨_, rfl⟩)⟩

theorem GetLines_line (l rest : List Char) (h : '\n' ∉ l) :
    GetLines (l ++ '\n' :: rest) = l :: GetLines rest := by
  induction l with
  | nil => simp [GetLines]
  | cons c l ih =>
    have hc : c ≠ '\n' := fun e => h (by rw [e]; exact List.mem_cons_self _ _)
    have hl : '\n' ∉ l := fun e => h (List.mem_cons_of_mem _ e)
    rw [List.cons_append, GetLines, if_neg hc, ih hl]

theorem GetLines_unlines : ∀ ls : List (List Char), (∀ l ∈ ls, '\n' ∉ l) →
    GetLines (ls.flatMap (fun Line => Line ++ ['\n'])) = ls := by
  intro ls
  induction ls with
  | nil => intro _; rfl
  | cons l ls ih =>
    intro h
    rw [List.flatMap_cons, List.append_assoc, List.singleton_append,
      GetLines_line l _ (h l (List.mem_cons_self _ _)),
      ih (fun x hx => h x (List.mem_cons_of_mem _ hx))]

theorem SplitAt_head (c x : Char) (xs key v : List Char) (hx : x ≠ c)
    (h : SplitAt c (x :: xs) = some (key, v)) : ∃ r, key = x :: r := by
  rw [SplitAt, if_neg hx] at h
  cases hs : SplitAt c xs with
  | none => rw [hs] at h; cases h
  | some p =>
    rw [hs] at h
    simp only [Option.map_some', Option.some.injEq, Prod.mk.injEq] at h
    exact ⟨p.1, h.1.symm⟩

theorem YamlGet_ParseYaml (k : List Char) : ∀ (ls : List (List Char))
    (m : List (List Char × List Char)), YamlGet m k = [] →
    (∀ l ∈ ls, ∀ key v, SplitAt ':' l = some (key, v) → key = k → v = []) →
    YamlGet (ls.foldl
      (fun yamlMap line =>
        match SplitAt ':' line with
        | some (key, value) => (key, value) :: yamlMap
        | none => yamlMap) m) k = [] := by
  intro ls
  induction ls with
  | nil => intro m hm _; exact hm
  | cons l ls ih =>
    intro m hm h
    rw [List.foldl_cons]
    apply ih
    · cases hs : SplitAt ':' l with
      | none => exact hm
      | some p =>
        obtain ⟨key, v⟩ := p
        simp only
        by_cases hk : key = k
        · have hv := h l (List.mem_cons_self _ _) key v hs hk
          simp [YamlGet, List.find?, hk, hv]
        · have : YamlGet ((key, v) :: m) k = YamlGet m k := by
            simp [YamlGet, List.find?, hk]
          rw [this]
          exact hm
    · exact fun x hx => h x (List.mem_cons_of_mem _ hx)

theorem Serialize_yaml (g : Genotype) :
    YamlGet (ParseYaml (GetLines g.Serialize)) "nodes".toList = [] ∧
    YamlGet (ParseYaml (GetLines g.Serialize)) "connections".toList = [] := by
  have hshape := SerializeLines_shape g
  have hlines : GetLines g.Serialize = g.SerializeLines :=
    GetLines_unlines _ (fun l hl => (hshape l hl).1)
  rw [hlines]
  have hkey : ∀ k : List Char, (k = "nodes".toList ∨ k = "connections".toList) →
      ∀ l ∈ g.SerializeLines, ∀ key v, SplitAt ':' l = some (key, v) → key = k → v = [] := by
    intro k hk l hl key v hs hkey
    rcases (hshape l hl).2 with e | e | ⟨r, e⟩
    · rw [e] at hs
      have : SplitAt ':' "nodes:".toList = some ("nodes".toList, []) := by decide
      rw [this] at hs
      simp only [Option.some.injEq, Prod.mk.injEq] at hs
      exact hs.2.symm
    · rw [e] at hs
      have : SplitAt ':' "connections:".toList = some ("connections".toList, []) := by decide
      rw [this] at hs
      simp only [Option.some.injEq, Prod.mk.injEq] at hs
      exact hs.2.symm
    · rw [e] at hs
      obtain ⟨r2, hr2⟩ := SplitAt_head ':' ' ' r key v (by decide) hs
      rw [hkey] at hr2
      rcases hk with hk | hk
      · rw [hk] at hr2
        have h0 : ('n' : Char) = ' ' :=
          List.head_eq_of_cons_eq (show 'n' :: "odes".toList = ' ' :: r2 from hr2)
        exact absurd h0 (by decide)
      · rw [hk] at hr2
        have h0 : ('c' : Char) = ' ' :=
          List.head_eq_of_cons_eq (show 'c' :: "onnections".toList = ' ' :: r2 from hr2)
        exact absurd h0 (by decide)
  exact ⟨YamlGet_ParseYaml _ _ [] rfl (hkey _ (Or.inl rfl)),
    YamlGet_ParseYaml _ _ [] rfl (hkey _ (Or.inr rfl))⟩

theorem Deserialize_of_empty_entries (stod : List Char → Except StdException ℚ)
    (This : Genotype) (Data : List Char)
    (h1 : YamlGet (ParseYaml (GetLines Data)) "nodes".toList = [])
    (h2 : YamlGet (ParseYaml (GetLines Data)) "connections".toList = []) :
    Genotype.Deserialize stod This Data = (true, This) := by
  unfold Genotype.Deserialize
  simp only [h1, h2, GetLines, ParseLines, ite_self]

/-- C19, as the code behaves: for every genotype `g` and every genotype the text
    is read into, `Deserialize(Serialize(g))` returns true and leaves that
    genotype as it was; read into an empty genotype, no node and no connection
    of `g` comes back. `Serialize` writes `nodes:` and `connections:` on lines of
    their own, and `Deserialize` reads the node and connection lists from the
    rest of exactly those lines. -/
theorem Deserialize_Serialize (stod : List Char → Except StdException ℚ) (g This : Genotype) :
    Genotype.Deserialize stod This g.Serialize = (true, This) ∧
    (Genotype.Deserialize stod emptyGenotype g.Serialize).2.Nodes.Num = 0 ∧
    (Genotype.Deserialize stod emptyGenotype g.Serialize).2.Connections.Num = 0 := by
  have h := fun T => Deserialize_of_empty_entries stod T g.Serialize (Serialize_yaml g).1
    (Serialize_yaml g).2
  refine ⟨h This, ?_, ?_⟩
  · rw [h emptyGenotype]; rfl
  · rw [h emptyGenotype]; rfl

theorem GetLines_clean : ∀ (s : List Char), ∀ l ∈ GetLines s, '\n' ∉ l := by
  intro s
  induction s with
  | nil => intro l hl; cases hl
  | cons c cs ih =>
    intro l hl
    unfold GetLines at hl
    split_ifs at hl with hc
    · rcases List.mem_cons.1 hl with e | e
      · rw [e]; exact List.not_mem_nil _
      · exact ih l e
    · cases hg : GetLines cs with
      | nil =>
        rw [hg] at hl
        have : l = [c] := by simpa using hl
        rw [this]
        intro h
        have h2 : '\n' = c := by simpa using h
        exact hc h2.symm
      | cons Line Lines =>
        rw [hg] at hl ih
        rcases List.mem_cons.1 hl with e | e
        · rw [e]
          intro h
          rcases List.mem_cons.1 h with h1 | h1
          · exact hc h1.symm
          · exact ih Line (List.mem_cons_self _ _) h1
        · exact ih l (List.mem_cons_of_mem _ e)

theorem SplitAt_clean (c : Char) : ∀ (l key v : List Char), SplitAt c l = some (key, v) →
    '\n' ∉ l → '\n' ∉ v := by
  intro l
  induction l with
  | nil => intro key v h; cases h
  | cons x xs ih =>
    intro key v h hl
    have hxs : '\n' ∉ xs := fun e => hl (List.mem_cons_of_mem _ e)
    unfold SplitAt at h
    split_ifs at h with hx
    · simp only [Option.some.injEq, Prod.mk.injEq] at h
      rw [← h.2]
      exact hxs
    · cases hs : SplitAt c xs with
      | none => rw [hs] at h; cases h
      | some p =>
        rw [hs] at h
        simp only [Option.map_some', Option.some.injEq, Prod.mk.injEq] at h
        rw [← h.2]
        exact ih p.1 p.2 hs hxs

theorem ParseYaml_clean (ls : List (List Char)) (hls : ∀ l ∈ ls, '\n' ∉ l) :
    ∀ e ∈ ParseYaml ls, '\n' ∉ e.2 := by
  unfold ParseYaml
  have hgen : ∀ (ls : List (List Char)) (m : List (List Char × List Char)),
      (∀ l ∈ ls, '\n' ∉ l) → (∀ e ∈ m, '\n' ∉ e.2) →
      ∀ e ∈ ls.foldl
        (fun yamlMap line =>
          match SplitAt ':' line with
          | some (key, value) => (key, value) :: yamlMap
          | none => yamlMap) m, '\n' ∉ e.2 := by
    intro ls
    induction ls with
    | nil => intro m _ hm; exact hm
    | cons l ls ih =>
      intro m hl hm
      rw [List.foldl_cons]
      apply ih _ (fun x hx => hl x (List.mem_cons_of_mem _ hx))
      cases hs : SplitAt ':' l with
      | none => exact hm
      | some p =>
        obtain ⟨key, v⟩ := p
        intro e he
        rcases List.mem_cons.1 he with e1 | e1
        · rw [e1]
          exact SplitAt_clean ':' l key v hs (hl l (List.mem_cons_self _ _))
        · exact hm e e1
  exact hgen ls [] hls (fun e he => by cases he)

theorem YamlGet_clean (m : List (List Char × List Char)) (k : List Char)
    (hm : ∀ e ∈ m, '\n' ∉ e.2) : '\n' ∉ YamlGet m k := by
  unfold YamlGet
  cases hf : m.find? (fun e => decide (e.1 = k)) with
  | none => exact List.not_mem_nil _
  | some e => exact hm e (List.mem_of_find?_eq_some hf)

theorem GetLines_eq_nil : ∀ s : List Char, GetLines s = [] → s = [] := by
  intro s
  cases s with
  | nil => intro _; rfl
  | cons d ds =>
    intro e
    exfalso
    unfold GetLines at e
    by_cases hd : d = '\n'
    · rw [if_pos hd] at e
      cases e
    · rw [if_neg hd] at e
      cases hg : GetLines ds with
      | nil => rw [hg] at e; cases e
      | cons a b => rw [hg] at e; cases e

theorem GetLines_of_clean : ∀ s : List Char, '\n' ∉ s → GetLines s = [] ∨ GetLines s = [s] := by
  intro s
  induction s with
  | nil => intro _; exact Or.inl rfl
  | cons c cs ih =>
    intro h
    have hc : c ≠ '\n' := fun e => h (by rw [e]; exact List.mem_cons_self _ _)
    have hcs : '\n' ∉ cs := fun e => h (List.mem_cons_of_mem _ e)
    right
    rw [GetLines, if_neg hc]
    rcases ih hcs with e | e
    · rw [e, GetLines_eq_nil cs e]
    · rw [e]

theorem ParseLines_short {σ : Type} (Body : σ → List Char → Except StdException σ)
    (s : List Char) (hs : '\n' ∉ s) (State : σ) :
    ((ParseLines Body (GetLines s) State).2 ≠ none →
      (ParseLines Body (GetLines s) State).1 = State) ∧
    ((ParseLines Body (GetLines s) State).1 = State ∨
      ∃ l, Body State l = Except.ok (ParseLines Body (GetLines s) State).1) := by
  rcases GetLines_of_clean s hs with e | e
  · rw [e]
    exact ⟨fun _ => rfl, Or.inl rfl⟩
  · rw [e]
    unfold ParseLines
    cases hb : Body State s with
    | error x => exact ⟨fun _ => rfl, Or.inl rfl⟩
    | ok S2 =>
      simp only [ParseLines]
      exact ⟨fun h => absurd rfl h, Or.inr ⟨s, hb⟩⟩

theorem DeserializeNode_ok (stod : List Char → Except StdException ℚ)
    (yamlMap : List (List Char × List Char)) (Nodes Nodes2 : TMap NodeGene) (l : List Char)
    (h : DeserializeNode stod yamlMap Nodes l = Except.ok Nodes2) :
    Nodes2 = Nodes ∨ ∃ nodeId Node, Nodes2 = AssignNode Nodes nodeId Node := by
  unfold DeserializeNode at h
  cases hs : SplitAt '-' l with
  | none =>
    rw [hs] at h
    exact Or.inl (Except.ok.inj h).symm
  | some p =>
    rw [hs] at h
    simp only [bind, Except.bind] at h
    cases h1 : stoull p.2 with
    | error e => rw [h1] at h; cases h
    | ok nodeId =>
      rw [h1] at h
      simp only at h
      cases h2 : stod (YamlGet yamlMap ("nodes.".toList ++ p.2 ++ ".bias".toList)) with
      | error e => rw [h2] at h; cases h
      | ok bias =>
        rw [h2] at h
        simp only at h
        cases h3 : Activation.FromString
            (YamlGet yamlMap ("nodes.".toList ++ p.2 ++ ".activation".toList)) with
        | error e => rw [h3] at h; cases h
        | ok act =>
          rw [h3] at h
          exact Or.inr ⟨_, _, (Except.ok.inj h).symm⟩

/-- C20, counterexample: on a text whose `nodes` entry parses and whose
    `connections` entry does not (`stoull("x")` throws), `Deserialize` called on
    the empty genotype returns false and leaves node 5 behind. -/
theorem Deserialize_leaves_node :
    Genotype.Deserialize sampleStod emptyGenotype halfParsedText =
      (false,
        { Nodes := TMap.empty.Add 5
            { ID := 5, Enabled := false, NodeType := ENodeType.Hidden,
              Activation := EActivation.Linear, Aggregation := EAggregation.Mean, Bias := 0 }
          Connections := TMap.empty }) := by
  decide

/-- C20, amended: `Deserialize` returns a boolean for every text, every
    exception thrown while parsing ending in its handler; whenever it returns
    false the connection map is what it was before the call, and the node map is
    what it was before the call or differs from it by the one assignment
    `Nodes[nodeId] = ...` made before the connections entry failed to parse. -/
theorem Deserialize_failure (stod : List Char → Except StdException ℚ) (This : Genotype)
    (Data : List Char) (h : (Genotype.Deserialize stod This Data).1 = false) :
    (Genotype.Deserialize stod This Data).2.Connections = This.Connections ∧
    ((Genotype.Deserialize stod This Data).2.Nodes = This.Nodes ∨
      ∃ nodeId Node,
        (Genotype.Deserialize stod This Data).2.Nodes = AssignNode This.Nodes nodeId Node) := by
  have hclean : ∀ k, '\n' ∉ YamlGet (ParseYaml (GetLines Data)) k :=
    fun k => YamlGet_clean _ k (ParseYaml_clean _ (GetLines_clean Data))
  obtain ⟨hN1, hN2⟩ := ParseLines_short
    (DeserializeNode stod (ParseYaml (GetLines Data)))
    (YamlGet (ParseYaml (GetLines Data)) "nodes".toList) (hclean _) This.Nodes
  have hC := fun S => (ParseLines_short
    (DeserializeConnection stod (ParseYaml (GetLines Data)))
    (YamlGet (ParseYaml (GetLines Data)) "connections".toList) (hclean _) S).1
  have hnode : ∀ N2 : TMap NodeGene,
      (N2 = This.Nodes ∨ ∃ l, DeserializeNode stod (ParseYaml (GetLines Data)) This.Nodes l =
        Except.ok N2) →
      N2 = This.Nodes ∨ ∃ nodeId Node, N2 = AssignNode This.Nodes nodeId Node := by
    rintro N2 (e | ⟨l, hl⟩)
    · exact Or.inl e
    · exact DeserializeNode_ok stod _ _ _ l hl
  unfold Genotype.Deserialize at h ⊢
  simp only at h ⊢
  by_cases hn : YamlHas (ParseYaml (GetLines Data)) "nodes".toList = true
  · simp only [hn, if_true] at h ⊢
    cases he : (ParseLines (DeserializeNode stod (ParseYaml (GetLines Data)))
        (GetLines (YamlGet (ParseYaml (GetLines Data)) "nodes".toList)) This.Nodes).2 with
    | some e =>
      simp only [he]
      exact ⟨trivial, Or.inl (hN1 (by rw [he]; exact Option.some_ne_none e))⟩
    | none =>
      simp only [he] at h ⊢
      by_cases hc : YamlHas (ParseYaml (GetLines Data)) "connections".toList = true
      · simp only [hc, if_true] at h ⊢
        cases he2 : (ParseLines (DeserializeConnection stod (ParseYaml (GetLines Data)))
            (GetLines (YamlGet (ParseYaml (GetLines Data)) "connections".toList))
            This.Connections).2 with
        | some e =>
          simp only [he2]
          exact ⟨hC _ (by rw [he2]; exact Option.some_ne_none e), hnode _ hN2⟩
        | none =>
          rw [he2] at h
          cases h
      · simp only [hc] at h
        cases h
  · simp only [hn] at h ⊢
    by_cases hc : YamlHas (ParseYaml (GetLines Data)) "connections".toList = true
    · simp only [hc, if_true] at h ⊢
      cases he2 : (ParseLines (DeserializeConnection stod (ParseYaml (GetLines Data)))
          (GetLines (YamlGet (ParseYaml (GetLines Data)) "connections".toList))
          This.Connections).2 with
      | some e =>
        simp only [he2]
        exact ⟨hC _ (by rw [he2]; exact Option.some_ne_none e), Or.inl rfl⟩
      | none =>
        rw [he2] at h
        cases h
    · simp only [hc] at h
      cases h

/-- C20, amended, on the text whose connections entry does not parse: the call
    returns false, the connection map is unchanged, and the node map is the
    empty one with node 5 assigned. -/
theorem Deserialize_failure_witness :
    (Genotype.Deserialize sampleStod emptyGenotype halfParsedText).1 = false ∧
    (Genotype.Deserialize sampleStod emptyGenotype halfParsedText).2.Connections =
      emptyGenotype.Connections ∧
    ((Genotype.Deserialize sampleStod emptyGenotype halfParsedText).2.Nodes =
        emptyGenotype.Nodes ∨
      ∃ nodeId Node, (Genotype.Deserialize sampleStod emptyGenotype halfParsedText).2.Nodes =
        AssignNode emptyGenotype.Nodes nodeId Node) :=
  ⟨by decide, Deserialize_failure sampleStod emptyGenotype halfParsedText (by decide)⟩

/-! ### Crossover -/

theorem mem_foldl_AddUnique (k : Nat) :
    ∀ (l acc : List Nat), k ∈ l.foldl AddUnique acc ↔ k ∈ acc ∨ k ∈ l := by
  intro l
  induction l with
  | nil => intro acc; simp
  | cons a t ih =>
    intro acc
    rw [List.foldl_cons, ih]
    unfold AddUnique
    by_cases h : a ∈ acc
    · rw [if_pos h]
      constructor
      · rintro (h1 | h1)
        · exact Or.inl h1
        · exact Or.inr (List.mem_cons_of_mem _ h1)
      · rintro (h1 | h1)
        · exact Or.inl h1
        · rcases List.mem_cons.1 h1 with h2 | h2
          · exact Or.inl (h2 ▸ h)
          · exact Or.inr h2
    · rw [if_neg h]
      simp only [List.mem_append, List.mem_singleton, List.mem_cons]
      tauto

theorem nodup_foldl_AddUnique :
    ∀ (l acc : List Nat), acc.Nodup → (l.foldl AddUnique acc).Nodup := by
  intro l
  induction l with
  | nil => intro acc h; simpa using h
  | cons a t ih =>
    intro acc h
    rw [List.foldl_cons]
    apply ih
    unfold AddUnique
    by_cases ha : a ∈ acc
    · rw [if_pos ha]; exact h
    · rw [if_neg ha]
      exact List.Nodup.append h (List.nodup_singleton a) (by simpa using ha)

theorem mem_CombinedKeys (K1 K2 : List Nat) (k : Nat) :
    k ∈ CrossoverType.CombinedKeys K1 K2 ↔ k ∈ K1 ∨ k ∈ K2 := by
  unfold CrossoverType.CombinedKeys
  rw [mem_foldl_AddUnique, mem_foldl_AddUnique]
  simp

theorem CombinedKeys_nodup (K1 K2 : List Nat) : (CrossoverType.CombinedKeys K1 K2).Nodup :=
  nodup_foldl_AddUnique _ _ (nodup_foldl_AddUnique _ _ List.nodup_nil)

theorem NodeGene.Assign_Copy (v : NodeGene) : NodeGene.Assign (NodeGene.Copy v) v = NodeGene.Copy v :=
  rfl

theorem NodeGene.Copy_Aggregation (v : NodeGene) :
    (NodeGene.Copy v).Aggregation = EAggregation.Mean := rfl

/-- A loop of stores `M[k] = S k` leaves under every key it visits the value `S`
    names, when the step stores `S k0` under `k0` and nothing else. -/
theorem inherit_foldl {V : Type} (step : TMap V → Nat → TMap V) (S : Nat → Option V)
    (hstep : ∀ M k0, (∀ k, M.Find k = none ∨ M.Find k = S k) →
      ∀ k, (step M k0).Find k = if k = k0 then S k0 else M.Find k) :
    ∀ (Keys : List Nat) (M : TMap V), (∀ k, M.Find k = none ∨ M.Find k = S k) →
      ∀ k, (Keys.foldl step M).Find k = if k ∈ Keys then S k else M.Find k := by
  intro Keys
  induction Keys with
  | nil => intro M _ k; simp
  | cons k0 ks ih =>
    intro M hM k
    rw [List.foldl_cons]
    have hM1 : ∀ k, (step M k0).Find k = none ∨ (step M k0).Find k = S k := by
      intro j
      rw [hstep M k0 hM j]
      by_cases hj : j = k0
      · rw [if_pos hj, hj]; exact Or.inr rfl
      · rw [if_neg hj]; exact hM j
    rw [ih (step M k0) hM1 k, hstep M k0 hM k]
    by_cases h1 : k ∈ ks
    · rw [if_pos h1, if_pos (List.mem_cons_of_mem _ h1)]
    · rw [if_neg h1]
      by_cases h2 : k = k0
      · rw [if_pos h2, if_pos (by rw [h2]; exact List.mem_cons_self _ _), h2]
      · rw [if_neg h2, if_neg (by simp [h1, h2])]

theorem AssignNode_Find (Nodes : TMap NodeGene) (k0 : Nat) (v : NodeGene) (S : Option NodeGene)
    (hM : Nodes.Find k0 = none ∨ Nodes.Find k0 = S.map NodeGene.Copy) (hS : S = some v) (k : Nat) :
    (AssignNode Nodes k0 v).Find k =
      if k = k0 then S.map NodeGene.Copy else Nodes.Find k := by
  unfold AssignNode
  rw [TMap.Find_Add]
  by_cases hk : k = k0
  · rw [if_pos hk, if_pos hk]
    subst hS
    unfold TMap.At
    rcases hM with h | h
    · rw [h]; rfl
    · rw [h]; rfl
  · rw [if_neg hk, if_neg hk]

theorem TMap.Contains_of_Find {V : Type} (m : TMap V) (k : Nat) (v : V) (h : m.Find k = some v) :
    m.Contains k = true := by
  unfold TMap.Contains
  rw [h]; rfl

theorem TMap.Contains_of_none {V : Type} (m : TMap V) (k : Nat) (h : m.Find k = none) :
    m.Contains k = false := by
  unfold TMap.Contains
  rw [h]; rfl

theorem InheritNode_Find (Parent1 Parent2 : Genome) (t : Nat → Bool) (M : TMap NodeGene)
    (k0 : Nat)
    (hM : ∀ k, M.Find k = none ∨ M.Find k =
      (CrossoverType.Source t Parent1.Genotype.Nodes Parent2.Genotype.Nodes k).map NodeGene.Copy)
    (k : Nat) :
    (CrossoverType.InheritNode Parent1 Parent2 t M k0).Find k =
      if k = k0 then
        (CrossoverType.Source t Parent1.Genotype.Nodes Parent2.Genotype.Nodes k0).map NodeGene.Copy
      else M.Find k := by
  have hM0 := hM k0
  unfold CrossoverType.InheritNode
  unfold CrossoverType.Source at hM0 ⊢
  cases h1 : Parent1.Genotype.Nodes.Find k0 with
  | none =>
    cases h2 : Parent2.Genotype.Nodes.Find k0 with
    | none =>
      rw [h1, h2] at hM0
      simp only [TMap.Contains_of_none _ _ h1, TMap.Contains_of_none _ _ h2, Bool.and_self,
        Bool.false_eq_true, if_false, Option.map_none']
      by_cases hk : k = k0
      · rw [if_pos hk, hk]
        rcases hM0 with h | h <;> simpa using h
      · rw [if_neg hk]
    | some b =>
      rw [h1, h2] at hM0
      simp only [TMap.Contains_of_none _ _ h1, TMap.Contains_of_Find _ _ _ h2, Bool.false_and,
        Bool.false_eq_true, if_false, if_true, At_of_Find _ _ _ _ h2]
      exact AssignNode_Find M k0 b (some b) hM0 rfl k
  | some a =>
    cases h2 : Parent2.Genotype.Nodes.Find k0 with
    | none =>
      rw [h1, h2] at hM0
      simp only [TMap.Contains_of_Find _ _ _ h1, TMap.Contains_of_none _ _ h2, Bool.and_false,
        Bool.false_eq_true, if_false, if_true, At_of_Find _ _ _ _ h1]
      exact AssignNode_Find M k0 a (some a) hM0 rfl k
    | some b =>
      rw [h1, h2] at hM0
      simp only [TMap.Contains_of_Find _ _ _ h1, TMap.Contains_of_Find _ _ _ h2, Bool.and_self,
        if_true, At_of_Find _ _ _ _ h1, At_of_Find _ _ _ _ h2]
      by_cases ht : t k0 = true
      · have hM1 : M.Find k0 = none ∨ M.Find k0 = (some a).map NodeGene.Copy := by
          simpa [ht] using hM0
        simp only [ht, if_true]
        exact AssignNode_Find M k0 a (some a) hM1 rfl k
      · have hM1 : M.Find k0 = none ∨ M.Find k0 = (some b).map NodeGene.Copy := by
          simpa [ht] using hM0
        simp only [ht, if_false, Bool.false_eq_true]
        exact AssignNode_Find M k0 b (some b) hM1 rfl k

theorem InheritConnection_Find (Parent1 Parent2 : Genome) (t : Nat → Bool)
    (M : TMap ConnectionGene) (k0 : Nat)
    (hM : ∀ k, M.Find k = none ∨ M.Find k =
      CrossoverType.Source t Parent1.Genotype.Connections Parent2.Genotype.Connections k)
    (k : Nat) :
    (CrossoverType.InheritConnection Parent1 Parent2 t M k0).Find k =
      if k = k0 then
        CrossoverType.Source t Parent1.Genotype.Connections Parent2.Genotype.Connections k0
      else M.Find k := by
  have hM0 := hM k0
  unfold CrossoverType.InheritConnection
  unfold CrossoverType.Source at hM0 ⊢
  cases h1 : Parent1.Genotype.Connections.Find k0 with
  | none =>
    cases h2 : Parent2.Genotype.Connections.Find k0 with
    | none =>
      rw [h1, h2] at hM0
      simp only [TMap.Contains_of_none _ _ h1, TMap.Contains_of_none _ _ h2, Bool.and_self,
        Bool.false_eq_true, if_false]
      by_cases hk : k = k0
      · rw [if_pos hk, hk]
        rcases hM0 with h | h <;> simpa using h
      · rw [if_neg hk]
    | some b =>
      simp only [TMap.Contains_of_none _ _ h1, TMap.Contains_of_Find _ _ _ h2, Bool.false_and,
        Bool.false_eq_true, if_false, if_true, At_of_Find _ _ _ _ h2]
      exact TMap.Find_Add M k0 k b
  | some a =>
    cases h2 : Parent2.Genotype.Connections.Find k0 with
    | none =>
      simp only [TMap.Contains_of_Find _ _ _ h1, TMap.Contains_of_none _ _ h2, Bool.and_false,
        Bool.false_eq_true, if_false, if_true, At_of_Find _ _ _ _ h1]
      exact TMap.Find_Add M k0 k a
    | some b =>
      simp only [TMap.Contains_of_Find _ _ _ h1, TMap.Contains_of_Find _ _ _ h2, Bool.and_self,
        if_true, At_of_Find _ _ _ _ h1, At_of_Find _ _ _ _ h2]
      by_cases ht : t k0 = true
      · rw [if_pos ht, if_pos ht]
        exact TMap.Find_Add M k0 k a
      · rw [if_neg ht, if_neg ht]
        exact TMap.Find_Add M k0 k b

theorem Source_none {V : Type} (t : Nat → Bool) (M1 M2 : TMap V) (k : Nat)
    (h : k ∉ CrossoverType.CombinedKeys M1.GetKeys M2.GetKeys) :
    CrossoverType.Source t M1 M2 k = none := by
  rw [mem_CombinedKeys, TMap.mem_GetKeys_iff, TMap.mem_GetKeys_iff] at h
  unfold CrossoverType.Source
  cases h1 : M1.Find k with
  | some a => exact absurd (Or.inl ⟨a, h1⟩) h
  | none =>
    cases h2 : M2.Find k with
    | some b => exact absurd (Or.inr ⟨b, h2⟩) h
    | none => rfl

/-- What the two loops of a crossover function leave in the child. -/
theorem Inherit_Find (Parent1 Parent2 : Genome) (t : Nat → Bool) (ID k : Nat) :
    (CrossoverType.Inherit Parent1 Parent2 t ID).Genotype.Nodes.Find k =
        (CrossoverType.Source t Parent1.Genotype.Nodes Parent2.Genotype.Nodes k).map
          NodeGene.Copy ∧
      (CrossoverType.Inherit Parent1 Parent2 t ID).Genotype.Connections.Find k =
        CrossoverType.Source t Parent1.Genotype.Connections Parent2.Genotype.Connections k := by
  constructor
  · have h := inherit_foldl (CrossoverType.InheritNode Parent1 Parent2 t)
      (fun k => (CrossoverType.Source t Parent1.Genotype.Nodes Parent2.Genotype.Nodes k).map
        NodeGene.Copy)
      (fun M k0 hM k => InheritNode_Find Parent1 Parent2 t M k0 hM k)
      (CrossoverType.CombinedKeys Parent1.Genotype.Nodes.GetKeys Parent2.Genotype.Nodes.GetKeys)
      TMap.empty (fun k => Or.inl (TMap.Find_empty k)) k
    show TMap.Find (List.foldl _ _ _) k = _
    rw [h]
    by_cases hk : k ∈ CrossoverType.CombinedKeys Parent1.Genotype.Nodes.GetKeys
        Parent2.Genotype.Nodes.GetKeys
    · rw [if_pos hk]
    · rw [if_neg hk, Source_none t _ _ k hk]; rfl
  · have h := inherit_foldl (CrossoverType.InheritConnection Parent1 Parent2 t)
      (fun k => CrossoverType.Source t Parent1.Genotype.Connections
        Parent2.Genotype.Connections k)
      (fun M k0 hM k => InheritConnection_Find Parent1 Parent2 t M k0 hM k)
      (CrossoverType.CombinedKeys Parent1.Genotype.Connections.GetKeys
        Parent2.Genotype.Connections.GetKeys)
      TMap.empty (fun k => Or.inl (TMap.Find_empty k)) k
    show TMap.Find (List.foldl _ _ _) k = _
    rw [h]
    by_cases hk : k ∈ CrossoverType.CombinedKeys Parent1.Genotype.Connections.GetKeys
        Parent2.Genotype.Connections.GetKeys
    · rw [if_pos hk]
    · rw [if_neg hk, Source_none t _ _ k hk]; rfl

theorem Source_congr {V : Type} (t t2 : Nat → Bool) (M1 M2 : TMap V) (k : Nat)
    (h : t k = t2 k) : CrossoverType.Source t M1 M2 k = CrossoverType.Source t2 M1 M2 k := by
  unfold CrossoverType.Source
  rw [h]

theorem toUInt64_natCast (n : Nat) (h : n < 2 ^ 64) : toUInt64 (n : Int) = n := by
  unfold toUInt64
  have : ((n : Int) % 2 ^ 64) = (n : Int) := Int.emod_eq_of_lt (by omega) (by exact_mod_cast h)
  rw [this]; simp

theorem GetRandomInt_cons (m r : Nat) (rest : List Nat) (h : 0 < m) :
    GetRandomInt 0 ((m : Int) - 1) (r :: rest) = Except.ok (((r % m : Nat) : Int), rest) := by
  have e : (m : Int) - 1 - 0 + 1 = (m : Int) := by ring
  have hne : (m : Int) ≠ 0 := by exact_mod_cast (Nat.pos_iff_ne_zero.1 h)
  show (if (m : Int) - 1 - 0 + 1 = 0 then Except.error Fault.DivideByZero
    else Except.ok (Int.tmod (r : Int) ((m : Int) - 1 - 0 + 1) + 0, rest)) = _
  rw [e, if_neg hne, Int.add_zero, ← Int.ofNat_tmod]

theorem DrawPoints_foldlM (m : Nat) (hm : 0 < m) :
    ∀ (l : List Nat) (acc : List Int) (Rand : List Nat), l.length ≤ Rand.length →
      l.foldlM (CrossoverType.DrawPoint ((m : Int) - 1)) (acc, Rand) =
        Except.ok
          (acc ++ (Rand.take l.length).map (fun r => ((r % m : Nat) : Int)),
            Rand.drop l.length) := by
  intro l
  induction l with
  | nil => intro acc Rand _; simp [pure, Except.pure]
  | cons a t ih =>
    intro acc Rand h
    cases Rand with
    | nil => simp at h
    | cons r rest =>
      have e : CrossoverType.DrawPoint ((m : Int) - 1) (acc, r :: rest) a =
          Except.ok (acc ++ [((r % m : Nat) : Int)], rest) := by
        unfold CrossoverType.DrawPoint
        rw [GetRandomInt_cons m r rest hm]
      rw [List.foldlM_cons, e]
      simp only [bind, Except.bind]
      rw [ih (acc ++ [((r % m : Nat) : Int)]) rest (by simpa using h)]
      simp

theorem DrawPoints_ok (m n : Nat) (hm : 0 < m) (Rand : List Nat) (h : n ≤ Rand.length) :
    CrossoverType.DrawPoints ((m : Int) - 1) n Rand =
      Except.ok ((Rand.take n).map (fun r => ((r % m : Nat) : Int)), Rand.drop n) := by
  unfold CrossoverType.DrawPoints
  rw [DrawPoints_foldlM m hm (List.range n) [] Rand (by simpa using h)]
  simp

theorem MultipointUseParent1_eq (Key : Nat) :
    ∀ Points : List Int,
      CrossoverType.MultipointUseParent1 Points Key = !decide (Key ∈ Points.map toUInt64) := by
  intro Points
  induction Points with
  | nil => simp [CrossoverType.MultipointUseParent1]
  | cons p t ih =>
    unfold CrossoverType.MultipointUseParent1
    by_cases h : Key = toUInt64 p
    · rw [if_pos h]; simp [h]
    · rw [if_neg h, ih]
      simp [h]

theorem TwoPointUseParent1_eq (a b Key : Nat) (ha : a < 2 ^ 64) (hb : b < 2 ^ 64) :
    CrossoverType.TwoPointUseParent1 (a : Int) (b : Int) Key =
      !(decide (a ≤ Key) && decide (Key < b)) := by
  unfold CrossoverType.TwoPointUseParent1
  rw [toUInt64_natCast a ha, toUInt64_natCast b hb]
  by_cases h1 : Key < a
  · rw [if_pos h1]
    have : ¬ a ≤ Key := by omega
    simp [this]
  · rw [if_neg h1]
    have h3 : a ≤ Key := by omega
    by_cases h2 : Key < b
    · rw [if_pos h2]; simp [h2, h3]
    · rw [if_neg h2]; simp [h2]

theorem point_lt (Parent1 Parent2 : Genome) (r : Nat)
    (h1 : 0 < Parent1.Genotype.Nodes.Num) (h2 : 0 < Parent2.Genotype.Nodes.Num)
    (hint : Parent1.Genotype.Nodes.Num < 2 ^ 31) :
    r % min Parent1.Genotype.Nodes.Num Parent2.Genotype.Nodes.Num < 2 ^ 64 := by
  have hm : 0 < min Parent1.Genotype.Nodes.Num Parent2.Genotype.Nodes.Num := by
    rw [Nat.lt_min]; exact ⟨h1, h2⟩
  have h3 := Nat.mod_lt r hm
  have h4 : min Parent1.Genotype.Nodes.Num Parent2.Genotype.Nodes.Num ≤
      Parent1.Genotype.Nodes.Num := Nat.min_le_left _ _
  have h5 : (2 : Nat) ^ 31 < 2 ^ 64 := by norm_num
  omega

/-- The loop of `Uniform` over the combined keys comes to the loop of the other
    crossover functions for some test `t`, which records the coin of each key. -/
theorem uniform_foldlM {V : Type}
    (ustep : TMap V × List Nat → Nat → Except Fault (TMap V × List Nat))
    (pstep : (Nat → Bool) → TMap V → Nat → TMap V) (shared : Nat → Bool)
    (H1 : ∀ (M : TMap V) (Rand : List Nat) (k0 : Nat), (shared k0 = true → Rand ≠ []) →
      ∃ b, ∀ t : Nat → Bool, t k0 = b →
        ustep (M, Rand) k0 =
          Except.ok (pstep t M k0, Rand.drop (if shared k0 = true then 1 else 0)))
    (H2 : ∀ (t t2 : Nat → Bool) (M : TMap V) (k : Nat), t k = t2 k → pstep t M k = pstep t2 M k) :
    ∀ (Keys : List Nat), Keys.Nodup → ∀ (M : TMap V) (Rand : List Nat),
      (Keys.filter shared).length ≤ Rand.length →
      ∃ t, Keys.foldlM ustep (M, Rand) =
        Except.ok (Keys.foldl (pstep t) M, Rand.drop (Keys.filter shared).length) := by
  intro Keys
  induction Keys with
  | nil => intro _ M Rand _; exact ⟨fun _ => true, by simp [pure, Except.pure]⟩
  | cons k0 ks ih =>
    intro hnd M Rand hlen
    rw [List.nodup_cons] at hnd
    have hne : shared k0 = true → Rand ≠ [] := by
      intro hs hR
      rw [hR, List.filter_cons, if_pos hs] at hlen
      simp at hlen
    obtain ⟨b, hb⟩ := H1 M Rand k0 hne
    have hlen2 : (ks.filter shared).length ≤
        (Rand.drop (if shared k0 = true then 1 else 0)).length := by
      rw [List.length_drop]
      rw [List.filter_cons] at hlen
      by_cases hs : shared k0 = true
      · rw [if_pos hs] at hlen ⊢
        simp only [List.length_cons] at hlen
        omega
      · rw [if_neg hs] at hlen ⊢
        omega
    obtain ⟨t2, ht2⟩ := ih hnd.2 (pstep (fun _ => b) M k0)
      (Rand.drop (if shared k0 = true then 1 else 0)) hlen2
    refine ⟨fun x => if x = k0 then b else t2 x, ?_⟩
    rw [List.foldlM_cons, hb (fun _ => b) rfl]
    simp only [bind, Except.bind]
    rw [ht2, List.foldl_cons]
    have e1 : pstep (fun x => if x = k0 then b else t2 x) M k0 = pstep (fun _ => b) M k0 :=
      H2 _ _ M k0 (by simp)
    have e2 : ∀ (l : List Nat) (N : TMap V), k0 ∉ l →
        l.foldl (pstep (fun x => if x = k0 then b else t2 x)) N = l.foldl (pstep t2) N := by
      intro l
      induction l with
      | nil => intro N _; rfl
      | cons a u ihu =>
        intro N hk
        rw [List.foldl_cons, List.foldl_cons]
        have ha : a ≠ k0 := fun e => hk (by rw [e]; exact List.mem_cons_self _ _)
        rw [H2 (fun x => if x = k0 then b else t2 x) t2 N a (by simp [ha])]
        exact ihu _ (fun hm => hk (List.mem_cons_of_mem _ hm))
    rw [e1, e2 ks _ hnd.1]
    congr 2
    rw [List.drop_drop, List.filter_cons]
    by_cases hs : shared k0 = true
    · rw [if_pos hs, if_pos hs]; simp [Nat.add_comm]
    · rw [if_neg hs, if_neg hs]; simp

theorem UniformNode_step (RAND_MAX : Nat) (Parent1 Parent2 : Genome) (M : TMap NodeGene)
    (Rand : List Nat) (k0 : Nat)
    (hne : (Parent1.Genotype.Nodes.Contains k0 && Parent2.Genotype.Nodes.Contains k0) = true →
      Rand ≠ []) :
    ∃ b, ∀ t : Nat → Bool, t k0 = b →
      CrossoverType.UniformNode RAND_MAX Parent1 Parent2 (M, Rand) k0 =
        Except.ok (CrossoverType.InheritNode Parent1 Parent2 t M k0,
          Rand.drop (if (Parent1.Genotype.Nodes.Contains k0 &&
            Parent2.Genotype.Nodes.Contains k0) = true then 1 else 0)) := by
  unfold CrossoverType.UniformNode CrossoverType.InheritNode
  by_cases hs : (Parent1.Genotype.Nodes.Contains k0 && Parent2.Genotype.Nodes.Contains k0) = true
  · cases Rand with
    | nil => exact absurd rfl (hne hs)
    | cons r rest =>
      refine ⟨decide (GetRandomDouble RAND_MAX r 0 1 < 1 / 2), ?_⟩
      intro t ht
      simp only [hs, if_true, ht, List.drop_succ_cons, List.drop_zero, decide_eq_true_eq]
      split_ifs <;> rfl
  · refine ⟨true, ?_⟩
    intro t _
    simp only [hs, if_false, List.drop_zero, Bool.false_eq_true]
    split_ifs <;> rfl

theorem UniformConnection_step (RAND_MAX : Nat) (Parent1 Parent2 : Genome)
    (M : TMap ConnectionGene) (Rand : List Nat) (k0 : Nat)
    (hne : (Parent1.Genotype.Connections.Contains k0 &&
      Parent2.Genotype.Connections.Contains k0) = true → Rand ≠ []) :
    ∃ b, ∀ t : Nat → Bool, t k0 = b →
      CrossoverType.UniformConnection RAND_MAX Parent1 Parent2 (M, Rand) k0 =
        Except.ok (CrossoverType.InheritConnection Parent1 Parent2 t M k0,
          Rand.drop (if (Parent1.Genotype.Connections.Contains k0 &&
            Parent2.Genotype.Connections.Contains k0) = true then 1 else 0)) := by
  unfold CrossoverType.UniformConnection CrossoverType.InheritConnection
  by_cases hs : (Parent1.Genotype.Connections.Contains k0 &&
      Parent2.Genotype.Connections.Contains k0) = true
  · cases Rand with
    | nil => exact absurd rfl (hne hs)
    | cons r rest =>
      refine ⟨decide (GetRandomDouble RAND_MAX r 0 1 < 1 / 2), ?_⟩
      intro t ht
      simp only [hs, if_true, ht, List.drop_succ_cons, List.drop_zero, decide_eq_true_eq]
      split_ifs <;> rfl
  · refine ⟨true, ?_⟩
    intro t _
    simp only [hs, if_false, List.drop_zero, Bool.false_eq_true]
    split_ifs <;> rfl

theorem InheritNode_congr (Parent1 Parent2 : Genome) (t t2 : Nat → Bool) (M : TMap NodeGene)
    (k : Nat) (h : t k = t2 k) :
    CrossoverType.InheritNode Parent1 Parent2 t M k =
      CrossoverType.InheritNode Parent1 Parent2 t2 M k := by
  unfold CrossoverType.InheritNode
  rw [h]

theorem InheritConnection_congr (Parent1 Parent2 : Genome) (t t2 : Nat → Bool)
    (M : TMap ConnectionGene) (k : Nat) (h : t k = t2 k) :
    CrossoverType.InheritConnection Parent1 Parent2 t M k =
      CrossoverType.InheritConnection Parent1 Parent2 t2 M k := by
  unfold CrossoverType.InheritConnection
  rw [h]

/-- The function `Uniform` returns when the draws suffice, and its child is the
    child of the common loops for a test on the nodes and one on the
    connections. -/
theorem Uniform_ok (RAND_MAX : Nat) (Parent1 Parent2 : Genome) (NewestID : Nat)
    (Rand : List Nat)
    (h : (CrossoverType.Shared Parent1.Genotype.Nodes Parent2.Genotype.Nodes).length +
      (CrossoverType.Shared Parent1.Genotype.Connections Parent2.Genotype.Connections).length ≤
        Rand.length) :
    ∃ (tn tc : Nat → Bool) (rest : List Nat),
      CrossoverType.Uniform RAND_MAX Parent1 Parent2 NewestID Rand =
        Except.ok
          ({ ID := Genome.GenerateNewGenomeID NewestID, Config := Parent1.Config,
             Genotype :=
              { Nodes := (CrossoverType.Inherit Parent1 Parent2 tn 0).Genotype.Nodes,
                Connections := (CrossoverType.Inherit Parent1 Parent2 tc 0).Genotype.Connections } },
            Genome.GenerateNewGenomeID NewestID, rest) := by
  unfold CrossoverType.Shared at h
  obtain ⟨tn, htn⟩ := uniform_foldlM (CrossoverType.UniformNode RAND_MAX Parent1 Parent2)
    (CrossoverType.InheritNode Parent1 Parent2)
    (fun k => Parent1.Genotype.Nodes.Contains k && Parent2.Genotype.Nodes.Contains k)
    (fun M R k0 hne => UniformNode_step RAND_MAX Parent1 Parent2 M R k0 hne)
    (fun t t2 M k hk => InheritNode_congr Parent1 Parent2 t t2 M k hk)
    _ (CombinedKeys_nodup Parent1.Genotype.Nodes.GetKeys Parent2.Genotype.Nodes.GetKeys)
    TMap.empty Rand (by omega)
  obtain ⟨tc, htc⟩ := uniform_foldlM (CrossoverType.UniformConnection RAND_MAX Parent1 Parent2)
    (CrossoverType.InheritConnection Parent1 Parent2)
    (fun k => Parent1.Genotype.Connections.Contains k &&
      Parent2.Genotype.Connections.Contains k)
    (fun M R k0 hne => UniformConnection_step RAND_MAX Parent1 Parent2 M R k0 hne)
    (fun t t2 M k hk => InheritConnection_congr Parent1 Parent2 t t2 M k hk)
    _ (CombinedKeys_nodup Parent1.Genotype.Connections.GetKeys
      Parent2.Genotype.Connections.GetKeys)
    TMap.empty
    (Rand.drop ((CrossoverType.CombinedKeys Parent1.Genotype.Nodes.GetKeys
      Parent2.Genotype.Nodes.GetKeys).filter
        (fun k => Parent1.Genotype.Nodes.Contains k &&
          Parent2.Genotype.Nodes.Contains k)).length)
    (by rw [List.length_drop]; omega)
  refine ⟨tn, tc,
    List.drop
      ((CrossoverType.CombinedKeys Parent1.Genotype.Connections.GetKeys
        Parent2.Genotype.Connections.GetKeys).filter
          (fun k => Parent1.Genotype.Connections.Contains k &&
            Parent2.Genotype.Connections.Contains k)).length
      (List.drop
        ((CrossoverType.CombinedKeys Parent1.Genotype.Nodes.GetKeys
          Parent2.Genotype.Nodes.GetKeys).filter
            (fun k => Parent1.Genotype.Nodes.Contains k &&
              Parent2.Genotype.Nodes.Contains k)).length
        Rand), ?_⟩
  unfold CrossoverType.Uniform
  simp only [bind, Except.bind, htn, htc]
  rfl

theorem Source_cases {V : Type} (t : Nat → Bool) (M1 M2 : TMap V) (k : Nat) (v : V)
    (h : CrossoverType.Source t M1 M2 k = some v) : M1.Find k = some v ∨ M2.Find k = some v := by
  unfold CrossoverType.Source at h
  cases h1 : M1.Find k with
  | none =>
    cases h2 : M2.Find k with
    | none => rw [h1, h2] at h; exact absurd h (by simp)
    | some b => rw [h1, h2] at h; exact Or.inr h
  | some a =>
    cases h2 : M2.Find k with
    | none => rw [h1, h2] at h; exact Or.inl h
    | some b =>
      rw [h1, h2] at h
      by_cases ht : t k = true
      · left; simpa [ht] using h
      · right; simpa [ht] using h

theorem Source_isSome {V : Type} (t : Nat → Bool) (M1 M2 : TMap V) (k : Nat) :
    (CrossoverType.Source t M1 M2 k).isSome = (M1.Contains k || M2.Contains k) := by
  unfold CrossoverType.Source TMap.Contains
  cases M1.Find k <;> cases M2.Find k <;> rfl

/-- C27, as the code behaves: `CrossoverType::Uniform` returns when `rand()`
    has a value for every key both parents hold. The node keys of the child are
    the union of the parents' node keys and its connection keys the union of
    their connection keys. Every connection of the child is the connection one
    parent holds under that key, member by member, so no weight is an average.
    Every node of the child is the node one parent holds under that key as
    `NodeGene::operator=` copies it: `ID`, `Enabled`, `Type`, `Activation` and
    `Bias` are the parent's, and `Aggregation` is the `Mean` of a
    default-constructed node, whatever the parent's aggregation. -/
theorem Uniform_child (RAND_MAX : Nat) (Parent1 Parent2 : Genome) (NewestID : Nat)
    (Rand : List Nat)
    (h : (CrossoverType.Shared Parent1.Genotype.Nodes Parent2.Genotype.Nodes).length +
      (CrossoverType.Shared Parent1.Genotype.Connections Parent2.Genotype.Connections).length ≤
        Rand.length) :
    ∃ Child rest,
      CrossoverType.Uniform RAND_MAX Parent1 Parent2 NewestID Rand =
        Except.ok (Child, Genome.GenerateNewGenomeID NewestID, rest) ∧
      (∀ k, Child.Genotype.Nodes.Contains k =
        (Parent1.Genotype.Nodes.Contains k || Parent2.Genotype.Nodes.Contains k)) ∧
      (∀ k, Child.Genotype.Connections.Contains k =
        (Parent1.Genotype.Connections.Contains k || Parent2.Genotype.Connections.Contains k)) ∧
      (∀ k c, Child.Genotype.Connections.Find k = some c →
        Parent1.Genotype.Connections.Find k = some c ∨
          Parent2.Genotype.Connections.Find k = some c) ∧
      (∀ k n, Child.Genotype.Nodes.Find k = some n →
        n.Aggregation = EAggregation.Mean ∧
        ((∃ p, Parent1.Genotype.Nodes.Find k = some p ∧ n = NodeGene.Copy p) ∨
          (∃ p, Parent2.Genotype.Nodes.Find k = some p ∧ n = NodeGene.Copy p))) := by
  obtain ⟨tn, tc, rest, hrun⟩ := Uniform_ok RAND_MAX Parent1 Parent2 NewestID Rand h
  refine ⟨_, rest, hrun, ?_, ?_, ?_, ?_⟩
  · intro k
    show (TMap.Find _ k).isSome = _
    rw [(Inherit_Find Parent1 Parent2 tn 0 k).1, Option.isSome_map', Source_isSome]
  · intro k
    show (TMap.Find _ k).isSome = _
    rw [(Inherit_Find Parent1 Parent2 tc 0 k).2, Source_isSome]
  · intro k c hc
    have hc2 : (CrossoverType.Inherit Parent1 Parent2 tc 0).Genotype.Connections.Find k =
        some c := hc
    rw [(Inherit_Find Parent1 Parent2 tc 0 k).2] at hc2
    exact Source_cases tc _ _ k c hc2
  · intro k n hn
    have hn2 : (CrossoverType.Inherit Parent1 Parent2 tn 0).Genotype.Nodes.Find k = some n := hn
    rw [(Inherit_Find Parent1 Parent2 tn 0 k).1] at hn2
    obtain ⟨p, hp, hpn⟩ := Option.map_eq_some'.1 hn2
    refine ⟨by rw [← hpn]; rfl, ?_⟩
    rcases Source_cases tn _ _ k p hp with h1 | h1
    · exact Or.inl ⟨p, h1, hpn.symm⟩
    · exact Or.inr ⟨p, h1, hpn.symm⟩

/-- C27 on two parents that both hold node 0, with aggregation `Sum` in
    parent 1 and `Mean` in parent 2 and different biases: whatever the coins,
    node 0 of the child aggregates with `Mean`, and when its bias is the bias of
    parent 1 it is not the node of parent 1. -/
theorem Uniform_child_witness :
    (crossParent1.Genotype.Nodes.Find 0).map (fun n => n.Aggregation) = some EAggregation.Sum ∧
    ∃ Child rest,
      CrossoverType.Uniform 32767 crossParent1 crossParent2 0 [0, 32767, 0, 0] =
        Except.ok (Child, 1, rest) ∧
      (∃ n, Child.Genotype.Nodes.Find 0 = some n ∧ n.Aggregation = EAggregation.Mean) ∧
      (∃ c, Child.Genotype.Connections.Find 7 = some c ∧ (c.Weight = 1 ∨ c.Weight = 3)) := by
  obtain ⟨Child, rest, hrun, hn, hc, hcopy, hnode⟩ :=
    Uniform_child 32767 crossParent1 crossParent2 0 [0, 32767, 0, 0] (by decide)
  refine ⟨by decide, Child, rest, hrun, ?_, ?_⟩
  · have h0 := hn 0
    rw [show (crossParent1.Genotype.Nodes.Contains 0 || crossParent2.Genotype.Nodes.Contains 0) =
      true from by decide] at h0
    obtain ⟨n, hfind⟩ := (TMap.Contains_iff _ _).1 h0
    exact ⟨n, hfind, (hnode 0 n hfind).1⟩
  · have h7 := hc 7
    rw [show (crossParent1.Genotype.Connections.Contains 7 ||
      crossParent2.Genotype.Connections.Contains 7) = true from by decide] at h7
    obtain ⟨c, hfind⟩ := (TMap.Contains_iff _ _).1 h7
    refine ⟨c, hfind, ?_⟩
    rcases hcopy 7 c hfind with h1 | h1
    · left
      have e : crossParent1.Genotype.Connections.Find 7 =
          some { ID := 7, Input := 0, Output := 1, Weight := 1 } := by decide
      rw [e] at h1
      rw [← Option.some.inj h1]
    · right
      have e : crossParent2.Genotype.Connections.Find 7 =
          some { ID := 7, Input := 0, Output := 1, Weight := 3 } := by decide
      rw [e] at h1
      rw [← Option.some.inj h1]

/-- C28, as the code behaves: on parents with at least one node each
    `CrossoverType::SinglePoint` draws the crossover point `cp = rand() % min(N1, N2)`
    and returns a child that holds exactly the keys of the parents. A connection
    both parents hold is the connection of parent 1 when its key is below `cp`
    and the connection of parent 2 otherwise, and a connection one parent holds
    is that parent's. The nodes are chosen by the same rule, and each is stored
    as `NodeGene::operator=` copies it: with the aggregation `Mean` of a
    default-constructed node, so a node of the child equals the parent's node
    only if the parent's node aggregates with `Mean`. -/
theorem SinglePoint_child (Parent1 Parent2 : Genome) (NewestID r : Nat) (rest : List Nat)
    (h1 : 0 < Parent1.Genotype.Nodes.Num) (h2 : 0 < Parent2.Genotype.Nodes.Num)
    (hint : Parent1.Genotype.Nodes.Num < 2 ^ 31) :
    ∃ Child,
      CrossoverType.SinglePoint Parent1 Parent2 NewestID (r :: rest) =
        Except.ok (Child, Genome.GenerateNewGenomeID NewestID, rest) ∧
      ∀ k,
        Child.Genotype.Connections.Find k =
          CrossoverType.Source
            (fun id => decide
              (id < r % min Parent1.Genotype.Nodes.Num Parent2.Genotype.Nodes.Num))
            Parent1.Genotype.Connections Parent2.Genotype.Connections k ∧
        Child.Genotype.Nodes.Find k =
          (CrossoverType.Source
            (fun id => decide
              (id < r % min Parent1.Genotype.Nodes.Num Parent2.Genotype.Nodes.Num))
            Parent1.Genotype.Nodes Parent2.Genotype.Nodes k).map NodeGene.Copy ∧
        ∀ n, Child.Genotype.Nodes.Find k = some n → n.Aggregation = EAggregation.Mean := by
  have hm : 0 < min Parent1.Genotype.Nodes.Num Parent2.Genotype.Nodes.Num := by
    rw [Nat.lt_min]; exact ⟨h1, h2⟩
  refine ⟨CrossoverType.Inherit Parent1 Parent2
    (fun Key => decide (Key < toUInt64
      ((r % min Parent1.Genotype.Nodes.Num Parent2.Genotype.Nodes.Num : Nat) : Int)))
    (Genome.GenerateNewGenomeID NewestID), ?_, ?_⟩
  · unfold CrossoverType.SinglePoint CrossoverType.MaxPoint
    simp only [bind, Except.bind, GetRandomInt_cons _ r rest hm]
  · intro k
    rw [toUInt64_natCast _ (point_lt Parent1 Parent2 r h1 h2 hint)]
    have hf := Inherit_Find Parent1 Parent2
      (fun id => decide (id < r % min Parent1.Genotype.Nodes.Num Parent2.Genotype.Nodes.Num))
      (Genome.GenerateNewGenomeID NewestID) k
    refine ⟨hf.2, hf.1, ?_⟩
    intro n hn
    rw [hf.1] at hn
    obtain ⟨p, _, hpn⟩ := Option.map_eq_some'.1 hn
    rw [← hpn]; rfl

/-- C28 on two parents with three nodes each and the draw 1: node 0 lies
    below the crossover point 1 and comes from parent 1, where it aggregates
    with `Sum`; in the child it aggregates with `Mean`. -/
theorem SinglePoint_child_witness :
    crossParent1.Genotype.Nodes.Find 0 =
      some { ID := 0, NodeType := ENodeType.Input, Bias := 1, Aggregation := EAggregation.Sum } ∧
    ∃ Child,
      CrossoverType.SinglePoint crossParent1 crossParent2 0 [1] = Except.ok (Child, 1, []) ∧
      Child.Genotype.Nodes.Find 0 =
        some { ID := 0, NodeType := ENodeType.Input, Bias := 1,
               Aggregation := EAggregation.Mean } ∧
      Child.Genotype.Connections.Find 7 =
        some { ID := 7, Input := 0, Output := 1, Weight := 3 } := by
  obtain ⟨Child, hrun, hfind⟩ :=
    SinglePoint_child crossParent1 crossParent2 0 1 [] (by decide) (by decide) (by decide)
  refine ⟨by decide, Child, hrun, ?_, ?_⟩
  · rw [(hfind 0).2.1]; decide
  · rw [(hfind 7).1]; decide

/-- C29, as the code behaves: `CrossoverType::TwoPoint` draws
    `cp1 = rand() % min(N1, N2)` and then `cp2` the same way and never orders
    them. A gene both parents hold comes from parent 2 when `cp1 <= id < cp2` and
    from parent 1 otherwise, so when `cp2 <= cp1` every such gene comes from
    parent 1, the ids from `cp2` up to `cp1` included. (A node is stored as
    `NodeGene::operator=` copies it.) -/
theorem TwoPoint_child (Parent1 Parent2 : Genome) (NewestID r1 r2 : Nat) (rest : List Nat)
    (h1 : 0 < Parent1.Genotype.Nodes.Num) (h2 : 0 < Parent2.Genotype.Nodes.Num)
    (hint : Parent1.Genotype.Nodes.Num < 2 ^ 31) :
    ∃ Child,
      CrossoverType.TwoPoint Parent1 Parent2 NewestID (r1 :: r2 :: rest) =
        Except.ok (Child, Genome.GenerateNewGenomeID NewestID, rest) ∧
      (∀ k,
        Child.Genotype.Connections.Find k =
          CrossoverType.Source
            (fun id => !(decide
                (r1 % min Parent1.Genotype.Nodes.Num Parent2.Genotype.Nodes.Num ≤ id) &&
              decide (id < r2 % min Parent1.Genotype.Nodes.Num Parent2.Genotype.Nodes.Num)))
            Parent1.Genotype.Connections Parent2.Genotype.Connections k ∧
        Child.Genotype.Nodes.Find k =
          (CrossoverType.Source
            (fun id => !(decide
                (r1 % min Parent1.Genotype.Nodes.Num Parent2.Genotype.Nodes.Num ≤ id) &&
              decide (id < r2 % min Parent1.Genotype.Nodes.Num Parent2.Genotype.Nodes.Num)))
            Parent1.Genotype.Nodes Parent2.Genotype.Nodes k).map NodeGene.Copy) ∧
      (r2 % min Parent1.Genotype.Nodes.Num Parent2.Genotype.Nodes.Num ≤
          r1 % min Parent1.Genotype.Nodes.Num Parent2.Genotype.Nodes.Num →
        ∀ k,
          Child.Genotype.Connections.Find k =
            CrossoverType.Source (fun _ => true)
              Parent1.Genotype.Connections Parent2.Genotype.Connections k ∧
          Child.Genotype.Nodes.Find k =
            (CrossoverType.Source (fun _ => true)
              Parent1.Genotype.Nodes Parent2.Genotype.Nodes k).map NodeGene.Copy) := by
  have hm : 0 < min Parent1.Genotype.Nodes.Num Parent2.Genotype.Nodes.Num := by
    rw [Nat.lt_min]; exact ⟨h1, h2⟩
  have key : ∀ k,
      (CrossoverType.Inherit Parent1 Parent2
          (CrossoverType.TwoPointUseParent1
            ((r1 % min Parent1.Genotype.Nodes.Num Parent2.Genotype.Nodes.Num : Nat) : Int)
            ((r2 % min Parent1.Genotype.Nodes.Num Parent2.Genotype.Nodes.Num : Nat) : Int))
          (Genome.GenerateNewGenomeID NewestID)).Genotype.Connections.Find k =
        CrossoverType.Source
          (fun id => !(decide
              (r1 % min Parent1.Genotype.Nodes.Num Parent2.Genotype.Nodes.Num ≤ id) &&
            decide (id < r2 % min Parent1.Genotype.Nodes.Num Parent2.Genotype.Nodes.Num)))
          Parent1.Genotype.Connections Parent2.Genotype.Connections k ∧
      (CrossoverType.Inherit Parent1 Parent2
          (CrossoverType.TwoPointUseParent1
            ((r1 % min Parent1.Genotype.Nodes.Num Parent2.Genotype.Nodes.Num : Nat) : Int)
            ((r2 % min Parent1.Genotype.Nodes.Num Parent2.Genotype.Nodes.Num : Nat) : Int))
          (Genome.GenerateNewGenomeID NewestID)).Genotype.Nodes.Find k =
        (CrossoverType.Source
          (fun id => !(decide
              (r1 % min Parent1.Genotype.Nodes.Num Parent2.Genotype.Nodes.Num ≤ id) &&
            decide (id < r2 % min Parent1.Genotype.Nodes.Num Parent2.Genotype.Nodes.Num)))
          Parent1.Genotype.Nodes Parent2.Genotype.Nodes k).map NodeGene.Copy := by
    intro k
    have hf := Inherit_Find Parent1 Parent2
      (CrossoverType.TwoPointUseParent1
        ((r1 % min Parent1.Genotype.Nodes.Num Parent2.Genotype.Nodes.Num : Nat) : Int)
        ((r2 % min Parent1.Genotype.Nodes.Num Parent2.Genotype.Nodes.Num : Nat) : Int))
      (Genome.GenerateNewGenomeID NewestID) k
    have e := TwoPointUseParent1_eq _ _ k (point_lt Parent1 Parent2 r1 h1 h2 hint)
      (point_lt Parent1 Parent2 r2 h1 h2 hint)
    rw [hf.1, hf.2]
    exact ⟨Source_congr _ _ _ _ k e, congrArg _ (Source_congr _ _ _ _ k e)⟩
  refine ⟨_, ?_, key, ?_⟩
  · unfold CrossoverType.TwoPoint CrossoverType.MaxPoint
    simp only [bind, Except.bind, GetRandomInt_cons _ r1 (r2 :: rest) hm,
      GetRandomInt_cons _ r2 rest hm]
  · intro hle k
    have e : (!(decide (r1 % min Parent1.Genotype.Nodes.Num Parent2.Genotype.Nodes.Num ≤ k) &&
        decide (k < r2 % min Parent1.Genotype.Nodes.Num Parent2.Genotype.Nodes.Num))) = true := by
      by_cases hk : r1 % min Parent1.Genotype.Nodes.Num Parent2.Genotype.Nodes.Num ≤ k
      · have : ¬ k < r2 % min Parent1.Genotype.Nodes.Num Parent2.Genotype.Nodes.Num := by omega
        simp [this]
      · simp [hk]
    rw [(key k).1, (key k).2]
    exact ⟨Source_congr _ _ _ _ k e, congrArg _ (Source_congr _ _ _ _ k e)⟩

/-- C29 on two parents with the nodes 0, 1, 2 and the draws 2 and 0: the
    crossover points are 2 and 0, node 1 lies between them, and the child holds
    node 1 with the bias 1 of parent 1, not the bias 3 of parent 2. -/
theorem TwoPoint_child_witness :
    (crossParent2.Genotype.Nodes.Find 1).map (fun n => n.Bias) = some 3 ∧
    ∃ Child,
      CrossoverType.TwoPoint crossParent1 crossParent2 0 [2, 0] = Except.ok (Child, 1, []) ∧
      (Child.Genotype.Nodes.Find 1).map (fun n => n.Bias) = some 1 := by
  obtain ⟨Child, hrun, _, hall⟩ :=
    TwoPoint_child crossParent1 crossParent2 0 2 0 [] (by decide) (by decide) (by decide)
  refine ⟨by decide, Child, hrun, ?_⟩
  rw [(hall (by decide) 1).2]; decide

/-- C30, as the code behaves: `CrossoverType::Multipoint` draws
    `Config->CrossoverPoints` points `rand() % min(N1, N2)`, sorts them, and
    tests a key both parents hold for equality with the points: the gene comes
    from parent 2 when its id is one of the points and from parent 1 otherwise,
    however many points lie below the id. (A node is stored as
    `NodeGene::operator=` copies it.) -/
theorem Multipoint_child (Parent1 Parent2 : Genome) (Config : Config) (NewestID : Nat)
    (Rand : List Nat) (hcfg : Parent1.Config = some Config)
    (h1 : 0 < Parent1.Genotype.Nodes.Num) (h2 : 0 < Parent2.Genotype.Nodes.Num)
    (hint : Parent1.Genotype.Nodes.Num < 2 ^ 31)
    (hdraws : Config.CrossoverPoints ≤ Rand.length) :
    ∃ Child,
      CrossoverType.Multipoint Parent1 Parent2 NewestID Rand =
        Except.ok (Child, Genome.GenerateNewGenomeID NewestID,
          Rand.drop Config.CrossoverPoints) ∧
      ∀ k,
        Child.Genotype.Connections.Find k =
          CrossoverType.Source
            (fun id => !decide (id ∈ (Rand.take Config.CrossoverPoints).map
              (fun r => r % min Parent1.Genotype.Nodes.Num Parent2.Genotype.Nodes.Num)))
            Parent1.Genotype.Connections Parent2.Genotype.Connections k ∧
        Child.Genotype.Nodes.Find k =
          (CrossoverType.Source
            (fun id => !decide (id ∈ (Rand.take Config.CrossoverPoints).map
              (fun r => r % min Parent1.Genotype.Nodes.Num Parent2.Genotype.Nodes.Num)))
            Parent1.Genotype.Nodes Parent2.Genotype.Nodes k).map NodeGene.Copy := by
  have hm : 0 < min Parent1.Genotype.Nodes.Num Parent2.Genotype.Nodes.Num := by
    rw [Nat.lt_min]; exact ⟨h1, h2⟩
  refine ⟨CrossoverType.Inherit Parent1 Parent2
    (CrossoverType.MultipointUseParent1
      (((Rand.take Config.CrossoverPoints).map
        (fun r => ((r % min Parent1.Genotype.Nodes.Num Parent2.Genotype.Nodes.Num : Nat) :
          Int))).insertionSort (fun a b => a ≤ b)))
    (Genome.GenerateNewGenomeID NewestID), ?_, ?_⟩
  · unfold CrossoverType.Multipoint CrossoverType.MaxPoint
    rw [hcfg]
    simp only [bind, Except.bind, DrawPoints_ok _ _ hm Rand hdraws]
  · intro k
    have hf := Inherit_Find Parent1 Parent2
      (CrossoverType.MultipointUseParent1
        (((Rand.take Config.CrossoverPoints).map
          (fun r => ((r % min Parent1.Genotype.Nodes.Num Parent2.Genotype.Nodes.Num : Nat) :
            Int))).insertionSort (fun a b => a ≤ b)))
      (Genome.GenerateNewGenomeID NewestID) k
    have e : CrossoverType.MultipointUseParent1
        (((Rand.take Config.CrossoverPoints).map
          (fun r => ((r % min Parent1.Genotype.Nodes.Num Parent2.Genotype.Nodes.Num : Nat) :
            Int))).insertionSort (fun a b => a ≤ b)) k =
        !decide (k ∈ (Rand.take Config.CrossoverPoints).map
          (fun r => r % min Parent1.Genotype.Nodes.Num Parent2.Genotype.Nodes.Num)) := by
      rw [MultipointUseParent1_eq]
      congr 1
      apply decide_eq_decide.2
      rw [(List.Perm.map toUInt64 (List.perm_insertionSort _ _)).mem_iff, List.map_map]
      have e2 : ∀ r : Nat, (toUInt64 ∘ fun r =>
          ((r % min Parent1.Genotype.Nodes.Num Parent2.Genotype.Nodes.Num : Nat) : Int)) r =
          r % min Parent1.Genotype.Nodes.Num Parent2.Genotype.Nodes.Num := fun r =>
        toUInt64_natCast _ (point_lt Parent1 Parent2 r h1 h2 hint)
      rw [List.map_congr_left (fun r _ => e2 r)]
    rw [hf.1, hf.2]
    exact ⟨Source_congr _ _ _ _ k e, congrArg _ (Source_congr _ _ _ _ k e)⟩

/-- C30 on two parents with the nodes 0, 1, 2, the default two crossover
    points and the draws 1 and 1: both points are 1, so an even number of points
    lies at or below node 1, and the child holds node 1 with the bias 3 of
    parent 2; node 2, above both points, comes from parent 1 like node 0. -/
theorem Multipoint_child_witness :
    (crossParent1.Genotype.Nodes.Find 1).map (fun n => n.Bias) = some 1 ∧
    ∃ Child,
      CrossoverType.Multipoint crossParent1 crossParent2 0 [1, 1] = Except.ok (Child, 1, []) ∧
      (Child.Genotype.Nodes.Find 1).map (fun n => n.Bias) = some 3 ∧
      (Child.Genotype.Nodes.Find 2).map (fun n => n.Bias) = some 1 := by
  obtain ⟨Child, hrun, hfind⟩ :=
    Multipoint_child crossParent1 crossParent2 {} 0 [1, 1] rfl (by decide) (by decide)
      (by decide) (by decide)
  refine ⟨by decide, Child, hrun, ?_, ?_⟩
  · rw [(hfind 1).2]; decide
  · rw [(hfind 2).2]; decide

/-! ### The renumbering of the gene keys -/

theorem StdSort.Insertion_Permutes : StdSort.Permutes StdSort.Insertion :=
  fun _ _ l => List.perm_insertionSort _ l

theorem TMap.mem_GetValues {V : Type} (m : TMap V) (v : V) :
    v ∈ m.GetValues ↔ ∃ k, m.Find k = some v := by
  unfold TMap.GetValues
  constructor
  · intro h
    obtain ⟨e, he, hv⟩ := List.mem_map.1 h
    exact ⟨e.1, by rw [← hv]; exact (TMap.mem_entries_iff m e.1 e.2).1 he⟩
  · rintro ⟨k, hk⟩
    exact List.mem_map.2 ⟨(k, v), (TMap.mem_entries_iff m k v).2 hk, rfl⟩

theorem TMap.GetValues_length {V : Type} (m : TMap V) : m.GetValues.length = m.Num := by
  unfold TMap.GetValues TMap.Num
  rw [List.length_map]

theorem RenameEndpoint_core (a b : Nat) (c : ConnectionGene) :
    (Genotype.RenameEndpoint a b c).ID = c.ID ∧
    (Genotype.RenameEndpoint a b c).Weight = c.Weight ∧
    (Genotype.RenameEndpoint a b c).Enabled = c.Enabled := by
  unfold Genotype.RenameEndpoint
  dsimp only
  split_ifs <;> exact ⟨rfl, rfl, rfl⟩

theorem getD_modify_ID (l : List NodeGene) (j i : Nat) :
    (l.modify (fun Node => { Node with ID := j }) j).getD i {} =
      if i = j ∧ i < l.length then { l.getD i {} with ID := j } else l.getD i {} := by
  rw [List.getD_eq_getElem?_getD, List.getD_eq_getElem?_getD, List.getElem?_modify]
  by_cases hi : i < l.length
  · rw [List.getElem?_eq_getElem hi]
    by_cases hij : i = j
    · subst hij
      simp [hi]
    · have : ¬ (i = j ∧ i < l.length) := fun h => hij h.1
      rw [if_neg this]
      simp [Ne.symm hij]
  · have : ¬ (i = j ∧ i < l.length) := fun h => hi h.2
    rw [if_neg this, List.getElem?_eq_none (by omega)]
    rfl

/-- The first loop of `ReduceGeneKeys` leaves the `i`-th node of `TempNodes`
    with the id `i` and touches no other member of a node; of a connection it
    touches `Input` and `Output` only. -/
theorem RenameNode_foldl :
    ∀ (n : Nat) (s : List NodeGene × TMap ConnectionGene), n ≤ s.1.length →
      ((List.range n).foldl Genotype.RenameNode s).1.length = s.1.length ∧
      (∀ i, i < n → (((List.range n).foldl Genotype.RenameNode s).1.getD i {}).ID = i) ∧
      (∀ i, (((List.range n).foldl Genotype.RenameNode s).1.getD i {}).Aggregation =
        (s.1.getD i {}).Aggregation) ∧
      (∀ k, (((List.range n).foldl Genotype.RenameNode s).2.Find k).map
          (fun c => (c.ID, c.Weight, c.Enabled)) =
        (s.2.Find k).map (fun c => (c.ID, c.Weight, c.Enabled))) := by
  intro n
  induction n with
  | zero => intro s _; exact ⟨rfl, fun i hi => absurd hi (by omega), fun _ => rfl, fun _ => rfl⟩
  | succ n ih =>
    intro s hn
    obtain ⟨hlen, hid, hagg, hcore⟩ := ih s (by omega)
    rw [List.range_succ, List.foldl_append]
    simp only [List.foldl_cons, List.foldl_nil]
    generalize (List.range n).foldl Genotype.RenameNode s = s1 at *
    unfold Genotype.RenameNode
    dsimp only
    by_cases he : n = (s1.1.getD n {}).ID
    · rw [if_pos he]
      refine ⟨hlen, ?_, hagg, hcore⟩
      intro i hi
      by_cases hin : i = n
      · rw [hin]; exact he.symm
      · exact hid i (by omega)
    · rw [if_neg he]
      refine ⟨by rw [List.length_modify]; exact hlen, ?_, ?_, ?_⟩
      · intro i hi
        show ((s1.1.modify (fun Node => { Node with ID := n }) n).getD i {}).ID = i
        rw [getD_modify_ID]
        by_cases hin : i = n
        · rw [if_pos ⟨hin, by omega⟩, hin]
        · rw [if_neg (fun h => hin h.1)]
          exact hid i (by omega)
      · intro i
        show ((s1.1.modify (fun Node => { Node with ID := n }) n).getD i {}).Aggregation = _
        rw [getD_modify_ID]
        split_ifs
        · exact hagg i
        · exact hagg i
      · intro k
        show ((s1.2.MapValues _).Find k).map _ = _
        rw [TMap.Find_MapValues, Option.map_map, ← hcore k]
        cases s1.2.Find k with
        | none => rfl
        | some c =>
          simp only [Option.map_some', Function.comp]
          obtain ⟨h1, h2, h3⟩ := RenameEndpoint_core (s1.1.getD n {}).ID n c
          rw [h1, h2, h3]

/-- The loop `for (Node : TempNodes) Nodes[Node.ID] = Node` on nodes whose ids
    count up from `off`. -/
theorem foldl_AssignNode_list :
    ∀ (L : List NodeGene) (off : Nat) (M : TMap NodeGene),
      (∀ i, i < L.length → (L.getD i {}).ID = off + i) → (∀ k, off ≤ k → M.Find k = none) →
      (L.foldl (fun Nodes Node => AssignNode Nodes Node.ID Node) M).Num = M.Num + L.length ∧
      ∀ k, (L.foldl (fun Nodes Node => AssignNode Nodes Node.ID Node) M).Find k =
        if off ≤ k ∧ k < off + L.length then some (NodeGene.Copy (L.getD (k - off) {}))
        else M.Find k := by
  intro L
  induction L with
  | nil =>
    intro off M _ _
    refine ⟨rfl, fun k => ?_⟩
    rw [if_neg (by simp)]
    rfl
  | cons x t ih =>
    intro off M hid hM
    have hx : x.ID = off := by simpa using hid 0 (by simp)
    rw [List.foldl_cons]
    have hM1 : ∀ k, (AssignNode M x.ID x).Find k =
        if k = off then some (NodeGene.Copy x) else M.Find k := by
      intro k
      unfold AssignNode
      rw [TMap.Find_Add, hx]
      by_cases hk : k = off
      · rw [if_pos hk, if_pos hk]
        unfold TMap.At
        rw [hM off (le_refl _)]
        rfl
      · rw [if_neg hk, if_neg hk]
    have hnum1 : (AssignNode M x.ID x).Num = M.Num + 1 := by
      unfold AssignNode
      rw [TMap.Num_Add, hx, TMap.Contains_of_none _ _ (hM off (le_refl _))]
      rfl
    obtain ⟨hnum, hfind⟩ := ih (off + 1) (AssignNode M x.ID x)
      (fun i hi => by
        have := hid (i + 1) (by simpa using hi)
        simp only [List.getD_cons_succ] at this
        omega)
      (fun k hk => by rw [hM1 k, if_neg (by omega)]; exact hM k (by omega))
    refine ⟨by rw [hnum, hnum1, List.length_cons]; omega, fun k => ?_⟩
    rw [hfind k, hM1 k, List.length_cons]
    by_cases h1 : off + 1 ≤ k ∧ k < off + 1 + t.length
    · rw [if_pos h1, if_pos (by omega)]
      have : k - off = (k - (off + 1)) + 1 := by omega
      rw [this, List.getD_cons_succ]
    · rw [if_neg h1]
      by_cases h2 : k = off
      · rw [if_pos h2, if_pos (by omega), h2, Nat.sub_self, List.getD_cons_zero]
      · rw [if_neg h2, if_neg (by omega)]

theorem foldl_Add_skip :
    ∀ (L : List ConnectionGene) (M : TMap ConnectionGene) (k : Nat),
      k ∉ L.map (fun c => c.ID) →
      (L.foldl (fun Connections Connection => Connections.Add Connection.ID Connection) M).Find k =
        M.Find k := by
  intro L
  induction L with
  | nil => intro M k _; rfl
  | cons x t ih =>
    intro M k hk
    rw [List.foldl_cons, ih _ k (fun h => hk (by simp [h])), TMap.Find_Add]
    rw [if_neg (fun h => hk (by simp [h]))]

/-- The loop `for (Connection : TempConnections) Connections[Connection.ID] = Connection`
    stores every connection under its own id. -/
theorem foldl_Add_mem :
    ∀ (L : List ConnectionGene) (M : TMap ConnectionGene),
      (L.map (fun c => c.ID)).Nodup → ∀ c ∈ L,
      (L.foldl (fun Connections Connection => Connections.Add Connection.ID Connection) M).Find
        c.ID = some c := by
  intro L
  induction L with
  | nil => intro M _ c hc; cases hc
  | cons x t ih =>
    intro M hnd c hc
    rw [List.map_cons, List.nodup_cons] at hnd
    rw [List.foldl_cons]
    rcases List.mem_cons.1 hc with h | h
    · rw [h, foldl_Add_skip t _ x.ID hnd.1, TMap.Find_Add, if_pos rfl]
    · exact ih _ hnd.2 c h

/-- C21, as the code behaves: for every sorting function and every genotype
    whose connections sit under their own ids, after `ReduceGeneKeys` the keys of
    the node map are exactly `0..N-1`, the node map still has `N` nodes and every
    node sits under its own id, as the claim says; but every node aggregates with
    `Mean`, whatever it did before, and every key of the connection map is still
    a key of the connection map, with a connection of that id, weight and enabled
    flag: the connection keys are not renumbered to `N..N+C-1`. -/
theorem ReduceGeneKeys_keys (Sorter : (α : Type) → (α → α → Bool) → List α → List α)
    (g : Genotype) (hsort : StdSort.Permutes Sorter) (hkeys : g.ConnectionsKeyed) :
    (∀ k, (g.ReduceGeneKeys Sorter).Nodes.Contains k = decide (k < g.Nodes.Num)) ∧
    (g.ReduceGeneKeys Sorter).Nodes.Num = g.Nodes.Num ∧
    (∀ k n, (g.ReduceGeneKeys Sorter).Nodes.Find k = some n →
      n.ID = k ∧ n.Aggregation = EAggregation.Mean) ∧
    (∀ k c, g.Connections.Find k = some c →
      ∃ c2, (g.ReduceGeneKeys Sorter).Connections.Find k = some c2 ∧
        c2.ID = k ∧ c2.Weight = c.Weight ∧ c2.Enabled = c.Enabled) := by
  have hperm := hsort NodeGene (fun LHS RHS => decide (LHS.ID < RHS.ID))
    (g.Nodes.GetValues.map NodeGene.Copy)
  have hlenT : (Sorter NodeGene (fun LHS RHS => decide (LHS.ID < RHS.ID))
      (g.Nodes.GetValues.map NodeGene.Copy)).length = g.Nodes.Num := by
    rw [hperm.length_eq, List.length_map, TMap.GetValues_length]
  have hlen0 : (g.Nodes.GetValues.map NodeGene.Copy).length = g.Nodes.Num := by
    rw [List.length_map, TMap.GetValues_length]
  obtain ⟨hlen, hid, hagg, hcore⟩ := RenameNode_foldl g.Nodes.Num
    (Sorter NodeGene (fun LHS RHS => decide (LHS.ID < RHS.ID))
      (g.Nodes.GetValues.map NodeGene.Copy), g.Connections) (by rw [hlenT])
  obtain ⟨hnum, hfind⟩ := foldl_AssignNode_list
    ((List.range g.Nodes.Num).foldl Genotype.RenameNode
      (Sorter NodeGene (fun LHS RHS => decide (LHS.ID < RHS.ID))
        (g.Nodes.GetValues.map NodeGene.Copy), g.Connections)).1 0 TMap.empty
    (fun i hi => by rw [Nat.zero_add]; exact hid i (by rw [hlen, hlenT] at hi; exact hi))
    (fun k _ => TMap.Find_empty k)
  rw [hlen, hlenT] at hnum hfind
  have hN : ∀ k, (g.ReduceGeneKeys Sorter).Nodes.Find k =
      if k < g.Nodes.Num then
        some (NodeGene.Copy (((List.range g.Nodes.Num).foldl Genotype.RenameNode
          (Sorter NodeGene (fun LHS RHS => decide (LHS.ID < RHS.ID))
            (g.Nodes.GetValues.map NodeGene.Copy), g.Connections)).1.getD k {}))
      else none := by
    intro k
    unfold Genotype.ReduceGeneKeys
    simp only [hlen0]
    rw [hfind k]
    simp [TMap.Find_empty]
  refine ⟨?_, ?_, ?_, ?_⟩
  · intro k
    unfold TMap.Contains
    rw [hN k]
    by_cases hk : k < g.Nodes.Num
    · rw [if_pos hk]; simp [hk]
    · rw [if_neg hk]; simp [hk]
  · unfold Genotype.ReduceGeneKeys
    simp only [hlen0]
    rw [hnum]
    show 0 + g.Nodes.Num = g.Nodes.Num
    omega
  · intro k n hn
    rw [hN k] at hn
    by_cases hk : k < g.Nodes.Num
    · rw [if_pos hk] at hn
      have hn2 := Option.some.inj hn
      rw [← hn2]
      exact ⟨hid k hk, rfl⟩
    · rw [if_neg hk] at hn; cases hn
  · intro k c hc
    have hcore1 := hcore k
    rw [show (g.Connections.Find k) = some c from hc] at hcore1
    obtain ⟨c1, hc1, hcc⟩ := Option.map_eq_some'.1 hcore1
    simp only [Prod.mk.injEq] at hcc
    have hck : c.ID = k := hkeys (k, c) ((TMap.mem_entries_iff _ k c).2 hc)
    have hids : ∀ v ∈ (((List.range g.Nodes.Num).foldl Genotype.RenameNode
        (Sorter NodeGene (fun LHS RHS => decide (LHS.ID < RHS.ID))
          (g.Nodes.GetValues.map NodeGene.Copy), g.Connections)).2).entries, v.2.ID = v.1 := by
      intro v hv
      have h1 := (TMap.mem_entries_iff _ v.1 v.2).1 hv
      have h2 := hcore v.1
      rw [h1] at h2
      obtain ⟨c0, hc0, hcc0⟩ := Option.map_eq_some'.1 h2.symm
      simp only [Prod.mk.injEq] at hcc0
      rw [← hcc0.1]
      exact hkeys (v.1, c0) ((TMap.mem_entries_iff _ v.1 c0).2 hc0)
    have hpermC := hsort ConnectionGene (fun LHS RHS => decide (LHS.ID < RHS.ID))
      (((List.range g.Nodes.Num).foldl Genotype.RenameNode
        (Sorter NodeGene (fun LHS RHS => decide (LHS.ID < RHS.ID))
          (g.Nodes.GetValues.map NodeGene.Copy), g.Connections)).2).GetValues
    have hnd : ((Sorter ConnectionGene (fun LHS RHS => decide (LHS.ID < RHS.ID))
        (((List.range g.Nodes.Num).foldl Genotype.RenameNode
          (Sorter NodeGene (fun LHS RHS => decide (LHS.ID < RHS.ID))
            (g.Nodes.GetValues.map NodeGene.Copy), g.Connections)).2).GetValues).map
        (fun c => c.ID)).Nodup := by
      have e : (((List.range g.Nodes.Num).foldl Genotype.RenameNode
          (Sorter NodeGene (fun LHS RHS => decide (LHS.ID < RHS.ID))
            (g.Nodes.GetValues.map NodeGene.Copy), g.Connections)).2).GetValues.map
            (fun c => c.ID) =
          TMap.GetKeys (((List.range g.Nodes.Num).foldl Genotype.RenameNode
            (Sorter NodeGene (fun LHS RHS => decide (LHS.ID < RHS.ID))
              (g.Nodes.GetValues.map NodeGene.Copy), g.Connections)).2) := by
        unfold TMap.GetValues TMap.GetKeys
        rw [List.map_map]
        exact List.map_congr_left (fun v hv => hids v hv)
      rw [(hpermC.map _).nodup_iff, e]
      exact TMap.GetKeys_nodup _
    have hmem : c1 ∈ Sorter ConnectionGene (fun LHS RHS => decide (LHS.ID < RHS.ID))
        (((List.range g.Nodes.Num).foldl Genotype.RenameNode
          (Sorter NodeGene (fun LHS RHS => decide (LHS.ID < RHS.ID))
            (g.Nodes.GetValues.map NodeGene.Copy), g.Connections)).2).GetValues :=
      hpermC.mem_iff.2 ((TMap.mem_GetValues _ c1).2 ⟨k, hc1⟩)
    refine ⟨c1, ?_, by rw [hcc.1, hck], hcc.2.1, hcc.2.2⟩
    have := foldl_Add_mem _
      ((List.range' g.Nodes.Num
          (((List.range g.Nodes.Num).foldl Genotype.RenameNode
            (Sorter NodeGene (fun LHS RHS => decide (LHS.ID < RHS.ID))
              (g.Nodes.GetValues.map NodeGene.Copy), g.Connections)).2).GetValues.length).foldl
        (Genotype.RenumberConnection g.Nodes.Num
          (Sorter ConnectionGene (fun LHS RHS => decide (LHS.ID < RHS.ID))
            (((List.range g.Nodes.Num).foldl Genotype.RenameNode
              (Sorter NodeGene (fun LHS RHS => decide (LHS.ID < RHS.ID))
                (g.Nodes.GetValues.map NodeGene.Copy), g.Connections)).2).GetValues))
        TMap.empty) hnd c1 hmem
    rw [hcc.1, hck] at this
    unfold Genotype.ReduceGeneKeys
    simp only [hlen0]
    exact this

/-- C21 at the genotype with the nodes 0, 1, 5 and the connections 9 and 10:
    the nodes get the keys 0, 1, 2, node 2 (the former node 5, which aggregated
    with `Sum`) aggregates with `Mean`, and the connection map holds four
    connections under the keys 0, 1, 9, 10 instead of two under the keys 3, 4;
    those under 0 and 1 are default-constructed connections from node 0 to node
    0 with the ids 3 and 4. -/
theorem ReduceGeneKeys_keys_witness :
    gappedGenotype.Nodes.Num = 3 ∧ gappedGenotype.Connections.Num = 2 ∧
    (gappedGenotype.ReduceGeneKeys StdSort.Insertion).Nodes.GetKeys = [0, 1, 2] ∧
    (∀ n, (gappedGenotype.ReduceGeneKeys StdSort.Insertion).Nodes.Find 2 = some n →
      n.Aggregation = EAggregation.Mean) ∧
    (gappedGenotype.ReduceGeneKeys StdSort.Insertion).Connections.GetKeys = [0, 1, 9, 10] ∧
    (gappedGenotype.ReduceGeneKeys StdSort.Insertion).Connections.Find 0 =
      some { ID := 3, Input := 0, Output := 0, Weight := 1 } ∧
    (gappedGenotype.ReduceGeneKeys StdSort.Insertion).Connections.Find 9 =
      some { ID := 9, Input := 0, Output := 2, Weight := 2 } := by
  have h := ReduceGeneKeys_keys StdSort.Insertion gappedGenotype StdSort.Insertion_Permutes
    (by decide)
  exact ⟨by decide, by decide, by decide, fun n hn => (h.2.2.1 2 n hn).2, by decide, by decide,
    by decide⟩

/-! ### Stagnation -/

/-- C22, counterexample: a species that is not stagnant and has neither a
    representative nor members, with an adjusted fitness above its best, is not
    marked stagnant by the first loop of `CheckForStagnation`; it is treated as
    improved. -/
theorem MarkStagnant_keeps_orphan :
    orphanSpecies.Representative = none ∧ orphanSpecies.Genomes = [] ∧
    orphanSpecies.IsStagnant = false ∧
    (Trainer.MarkStagnant {} { Species := [orphanSpecies] }).Species =
      [{ orphanSpecies with BestAdjustedFitness := 1, IsStagnant := false }] := by
  refine ⟨rfl, rfl, rfl, ?_⟩
  simp [Trainer.MarkStagnant, Trainer.UpdateStagnation, orphanSpecies]

/-- C22, amended: the first loop of `CheckForStagnation` updates a species that
    is not yet stagnant as follows. If its adjusted fitness is above its best,
    the best becomes the adjusted fitness, `Stagnation` becomes 0 and the
    species is not marked stagnant, whether or not it has a representative or
    members. Otherwise a species without representative is marked stagnant,
    with or without members, and a species with a representative has
    `Stagnation` increased by one (modulo `2^32`, which is an increase by
    exactly one below `MaxStagnation`) and is marked stagnant if and only if
    (`|Population| > 2 * PopulationSize` and the new `Stagnation` is at
    least `MaxStagnation / 3`, the quotient of the integer division) or the new
    `Stagnation` is at least `MaxStagnation`. -/
theorem MarkStagnant_species (cfg : Config) (t : Trainer) (i : Nat) (s : Species)
    (hs : t.Species[i]? = some s) (hns : s.IsStagnant = false) :
    ∃ s2, (Trainer.MarkStagnant cfg t).Species[i]? = some s2 ∧
      (s.AdjustedFitness > s.BestAdjustedFitness →
        s2 = { s with BestAdjustedFitness := s.AdjustedFitness, Stagnation := 0 } ∧
        s2.IsStagnant = false) ∧
      (¬ s.AdjustedFitness > s.BestAdjustedFitness → s.Representative = none →
        s2 = { s with IsStagnant := true }) ∧
      (¬ s.AdjustedFitness > s.BestAdjustedFitness → s.Representative ≠ none →
        s2 = { s with Stagnation := s2.Stagnation, IsStagnant := s2.IsStagnant } ∧
        s2.Stagnation = (s.Stagnation + 1) % 2 ^ 32 ∧
        (s.Stagnation < cfg.MaxStagnation → cfg.MaxStagnation < 2 ^ 32 →
          s2.Stagnation = s.Stagnation + 1) ∧
        (s2.IsStagnant = true ↔
          (t.Population.length > 2 * cfg.PopulationSize ∧
            s2.Stagnation ≥ cfg.MaxStagnation / 3) ∨
          s2.Stagnation ≥ cfg.MaxStagnation)) := by
  refine ⟨Trainer.UpdateStagnation cfg t.Population.length s, ?_, ?_, ?_, ?_⟩
  · show (t.Species.map _)[i]? = _
    rw [List.getElem?_map, hs]; rfl
  · intro h
    unfold Trainer.UpdateStagnation
    rw [if_neg (by simp [hns]), if_pos h]
    exact ⟨rfl, hns⟩
  · intro h hr
    unfold Trainer.UpdateStagnation
    rw [if_neg (by simp [hns]), if_neg h, if_pos (by simp [hr])]
  · intro h hr
    have hr2 : ¬ s.Representative.isNone = true := by
      cases hrep : s.Representative with
      | none => exact absurd hrep hr
      | some _ => simp
    have hcast : ((t.Population.length : ℚ) > 2 * (cfg.PopulationSize : ℚ)) ↔
        t.Population.length > 2 * cfg.PopulationSize := by
      constructor
      · intro h1
        have : ((2 * cfg.PopulationSize : Nat) : ℚ) < (t.Population.length : ℚ) := by
          push_cast; exact h1
        exact_mod_cast this
      · intro h1
        have : ((2 * cfg.PopulationSize : Nat) : ℚ) < (t.Population.length : ℚ) := by
          exact_mod_cast h1
        push_cast at this; exact this
    unfold Trainer.UpdateStagnation
    rw [if_neg (by simp [hns]), if_neg h, if_neg hr2]
    dsimp only
    have hmod : s.Stagnation < cfg.MaxStagnation → cfg.MaxStagnation < 2 ^ 32 →
        (s.Stagnation + 1) % 2 ^ 32 = s.Stagnation + 1 := by
      intro h1 h2
      exact Nat.mod_eq_of_lt (by omega)
    by_cases h1 : (t.Population.length : ℚ) > 2 * (cfg.PopulationSize : ℚ) ∧
        (s.Stagnation + 1) % 2 ^ 32 ≥ cfg.MaxStagnation / 3
    · rw [if_pos h1]
      refine ⟨rfl, rfl, hmod, ?_⟩
      simp only [true_iff]
      exact Or.inl ⟨hcast.1 h1.1, h1.2⟩
    · rw [if_neg h1]
      by_cases h2 : (s.Stagnation + 1) % 2 ^ 32 ≥ cfg.MaxStagnation
      · rw [if_pos h2]
        refine ⟨rfl, rfl, hmod, ?_⟩
        simp only [true_iff]
        exact Or.inr h2
      · rw [if_neg h2]
        refine ⟨rfl, rfl, hmod, ?_⟩
        rw [hns]
        simp only [Bool.false_eq_true, false_iff, not_or]
        exact ⟨fun h3 => h1 ⟨hcast.2 h3.1, h3.2⟩, h2⟩

/-- C22 at a species in its 27th stagnant generation under the default
    configuration (`MaxStagnation` 27): `Stagnation` goes from 26 to 27 and the
    species is marked stagnant. -/
theorem MarkStagnant_species_witness :
    ∃ s2, (Trainer.MarkStagnant {} agingTrainer).Species[0]? = some s2 ∧
      s2.Stagnation = 27 ∧ s2.IsStagnant = true := by
  obtain ⟨s2, hs2, _, _, h⟩ := MarkStagnant_species {} agingTrainer 0
    { Representative := some 0, Genomes := [0], Stagnation := 26, ID := 1 } rfl rfl
  obtain ⟨_, _, hinc, hiff⟩ := h (by norm_num) (by simp)
  have h27 : s2.Stagnation = 27 := hinc (by decide) (by decide)
  refine ⟨s2, hs2, h27, hiff.2 (Or.inr ?_)⟩
  rw [h27]

theorem RemoveStagnant_eq (Population : List Nat) (Specie : Species) :
    Trainer.RemoveStagnant Population Specie =
      Population.filter (fun g => !(Specie.IsStagnant && (decide (g ∈ Specie.Genomes) ||
        decide (Specie.Representative = some g)))) := by
  have hfold : ∀ (l : List Nat) (P : List Nat),
      l.foldl TArrayRemove P = P.filter (fun g => !decide (g ∈ l)) := by
    intro l
    induction l with
    | nil => intro P; simp
    | cons a u ih =>
      intro P
      rw [List.foldl_cons, ih]
      unfold TArrayRemove
      rw [List.filter_filter]
      apply List.filter_congr
      intro x _
      by_cases hxa : x = a
      · simp [hxa]
      · by_cases hxu : x ∈ u
        · simp [hxu]
        · simp [hxa, hxu]
  unfold Trainer.RemoveStagnant
  by_cases hst : Specie.IsStagnant = true
  · rw [if_neg (by simp [hst])]
    cases hrep : Specie.Representative with
    | none =>
      rw [hfold]
      apply List.filter_congr
      intro x _
      simp [hst]
    | some r =>
      dsimp only
      rw [hfold]
      unfold TArrayRemove
      rw [List.filter_filter]
      apply List.filter_congr
      intro x _
      by_cases hxr : x = r
      · simp [hst, hxr]
      · have : ¬ r = x := fun e => hxr e.symm
        simp [hst, hxr, this]
  · rw [if_pos (by simpa using hst)]
    have hst2 : Specie.IsStagnant = false := by simpa using hst
    symm
    rw [List.filter_eq_self]
    intro x _
    simp [hst2]

/-- The loop over `SpeciesCopy` leaves the genomes that are neither a member
    nor the representative of a stagnant species. -/
theorem foldl_RemoveStagnant (L : List Species) :
    ∀ P : List Nat, L.foldl Trainer.RemoveStagnant P =
      P.filter (fun g => !L.any
        (fun Specie => Specie.IsStagnant && (decide (g ∈ Specie.Genomes) ||
          decide (Specie.Representative = some g)))) := by
  induction L with
  | nil => intro P; simp
  | cons s rest ih =>
    intro P
    rw [List.foldl_cons, ih, RemoveStagnant_eq, List.filter_filter]
    apply List.filter_congr
    intro x _
    simp only [List.any_cons, Bool.not_or, Bool.and_comm]

theorem Refill_foldlM (RAND_MAX : Nat) (cfg : Config) :
    ∀ (l : List Nat) (t t2 : Trainer) (w w2 : Seeding),
      l.foldlM (Trainer.AddInitialized RAND_MAX cfg) (t, w) = Except.ok (t2, w2) →
      t2.Species = t.Species ∧
      t2.Population = t.Population ++ List.range' t.Allocated l.length ∧
      t2.Allocated = t.Allocated + l.length ∧
      (∀ a, a < t.Allocated → t2.Memory a = t.Memory a) ∧
      (∀ a, t.Allocated ≤ a → a < t.Allocated + l.length →
        ∃ w0 w1, InitialTopology.InitializeGenome RAND_MAX cfg w0 =
          Except.ok (t2.Memory a, w1)) := by
  intro l
  induction l with
  | nil =>
    intro t t2 w w2 h
    simp only [List.foldlM_nil, pure, Except.pure, Except.ok.injEq, Prod.mk.injEq] at h
    rw [← h.1]
    exact ⟨rfl, by simp, rfl, fun _ _ => rfl, fun a h1 h2 => absurd h2 (by simp; omega)⟩
  | cons x u ih =>
    intro t t2 w w2 h
    rw [List.foldlM_cons] at h
    cases hinit : InitialTopology.InitializeGenome RAND_MAX cfg w with
    | error e =>
      simp [Trainer.AddInitialized, hinit, bind, Except.bind] at h
    | ok r =>
      have hstep : Trainer.AddInitialized RAND_MAX cfg (t, w) x =
          Except.ok
            ({ t with
                Population := t.Population ++ [t.Allocated],
                Memory := Function.update t.Memory t.Allocated r.1,
                Allocated := t.Allocated + 1 }, r.2) := by
        unfold Trainer.AddInitialized
        simp only [hinit]
      rw [hstep] at h
      simp only [bind, Except.bind] at h
      obtain ⟨h1, h2, h3, h4, h5⟩ := ih _ t2 _ w2 h
      refine ⟨h1, ?_, ?_, ?_, ?_⟩
      · rw [h2]
        simp [List.range'_succ]
      · rw [h3]; simp only [List.length_cons]; omega
      · intro a ha
        rw [h4 a (by simp only []; omega)]
        simp only []
        rw [Function.update_noteq (by omega)]
      · intro a ha1 ha2
        by_cases hat : a = t.Allocated
        · refine ⟨w, r.2, ?_⟩
          rw [h4 a (by simp only []; omega), hat]
          simp only [Function.update_same]
          exact hinit
        · exact h5 a (by simp only []; omega) (by simp only [List.length_cons] at ha2 ⊢; omega)

theorem InitializeGenome_None (RAND_MAX : Nat) (cfg : Config) (w : Seeding)
    (h : cfg.InitialTopology = EInitialTopology.None) :
    ∃ G w2, InitialTopology.InitializeGenome RAND_MAX cfg w = Except.ok (G, w2) := by
  obtain ⟨N, hN, _⟩ := None_ok cfg
    { Config := some cfg, ID := Genome.GenerateNewGenomeID w.NewestID } rfl rfl
  unfold InitialTopology.InitializeGenome
  simp only [h, hN]
  exact ⟨_, _, rfl⟩

theorem Refill_None (RAND_MAX : Nat) (cfg : Config)
    (h : cfg.InitialTopology = EInitialTopology.None) :
    ∀ (l : List Nat) (s : Trainer × Seeding),
      ∃ s2, l.foldlM (Trainer.AddInitialized RAND_MAX cfg) s = Except.ok s2 := by
  intro l
  induction l with
  | nil => intro s; exact ⟨s, rfl⟩
  | cons x u ih =>
    intro s
    obtain ⟨G, w2, hG⟩ := InitializeGenome_None RAND_MAX cfg s.2 h
    rw [List.foldlM_cons]
    unfold Trainer.AddInitialized
    simp only [hG, bind, Except.bind]
    exact ih _

/-- C23, counterexample: two species, the first stagnant with the
    representative 0, the second not stagnant with the members 0 and 1. Genome 0
    is in the population and a member of the surviving species, and the purge
    removes it from the population. -/
theorem PurgeStagnant_drops_shared_genome :
    0 ∈ sharedTrainer.Population ∧
    ∃ t2 w2, Trainer.PurgeStagnant 32767 {} (sharedTrainer, {}) = Except.ok (t2, w2) ∧
      t2.Population = [1] ∧
      t2.Species =
        [{ Representative := some 1, Genomes := [0, 1], AdjustedFitness := 1, ID := 2 }] := by
  refine ⟨by decide, _, _, rfl, by decide, by decide⟩

/-- C23, amended: with at most one species the rest of `CheckForStagnation`
    removes no species and no genome. With more than one species the species
    list is left with the species that are not stagnant and have a
    representative or a member, and the population with the genomes that are
    neither a member nor the representative of a stagnant species (so a genome
    of a surviving species goes when it is also the representative or a member
    of a stagnant one). If no genome is left, the population is refilled with
    `PopulationSize` genomes at fresh addresses, each one the result of
    `InitializeGenome`, whenever these initialisations return, as they do for
    the initial topology `None`. -/
theorem PurgeStagnant_contract (RAND_MAX : Nat) (cfg : Config) (t : Trainer) (w : Seeding)
    (hP : cfg.PopulationSize < 2 ^ 32) :
    (t.Species.length ≤ 1 → Trainer.PurgeStagnant RAND_MAX cfg (t, w) = Except.ok (t, w)) ∧
    (∀ s ∈ t.Species.filter (fun Specie => !Trainer.IsPurged Specie),
      s.IsStagnant = false ∧ (s.Representative ≠ none ∨ s.Genomes ≠ [])) ∧
    (∀ g, g ∈ Trainer.Kept t ↔ g ∈ t.Population ∧
      ∀ s ∈ t.Species, s.IsStagnant = true → g ∉ s.Genomes ∧ s.Representative ≠ some g) ∧
    (1 < t.Species.length → Trainer.Kept t ≠ [] →
      Trainer.PurgeStagnant RAND_MAX cfg (t, w) =
        Except.ok
          ({ t with
              Population := Trainer.Kept t,
              Species := t.Species.filter (fun Specie => !Trainer.IsPurged Specie) }, w)) ∧
    (1 < t.Species.length → Trainer.Kept t = [] →
      (∀ t2 w2, Trainer.PurgeStagnant RAND_MAX cfg (t, w) = Except.ok (t2, w2) →
        t2.Species = t.Species.filter (fun Specie => !Trainer.IsPurged Specie) ∧
        t2.Population = List.range' t.Allocated cfg.PopulationSize ∧
        (∀ a, a < t.Allocated → t2.Memory a = t.Memory a) ∧
        (∀ a ∈ t2.Population, ∃ w0 w1,
          InitialTopology.InitializeGenome RAND_MAX cfg w0 = Except.ok (t2.Memory a, w1))) ∧
      (cfg.InitialTopology = EInitialTopology.None →
        ∃ t2 w2, Trainer.PurgeStagnant RAND_MAX cfg (t, w) = Except.ok (t2, w2))) := by
  have hkept : t.Species.foldl Trainer.RemoveStagnant t.Population = Trainer.Kept t :=
    foldl_RemoveStagnant t.Species t.Population
  refine ⟨?_, ?_, ?_, ?_, ?_⟩
  · intro h
    unfold Trainer.PurgeStagnant
    rw [if_pos h]
  · intro s hs
    have h2 := (List.mem_filter.1 hs).2
    unfold Trainer.IsPurged at h2
    have hst : s.IsStagnant = false := by
      cases h : s.IsStagnant with
      | false => rfl
      | true => rw [h] at h2; simp at h2
    refine ⟨hst, ?_⟩
    rw [hst] at h2
    by_contra hcon
    rw [not_or, not_not, not_not] at hcon
    rw [hcon.1, hcon.2] at h2
    simp at h2
  · intro g
    unfold Trainer.Kept
    rw [List.mem_filter]
    constructor
    · rintro ⟨hg, hany⟩
      refine ⟨hg, fun s hs hst => ?_⟩
      have hn : ¬ (t.Species.any (fun Specie => Specie.IsStagnant &&
          (decide (g ∈ Specie.Genomes) || decide (Specie.Representative = some g))) = true) := by
        simpa using hany
      rw [List.any_eq_true] at hn
      constructor
      · intro hm
        exact hn ⟨s, hs, by simp [hst, hm]⟩
      · intro hr
        exact hn ⟨s, hs, by simp [hst, hr]⟩
    · rintro ⟨hg, hall⟩
      refine ⟨hg, ?_⟩
      rw [Bool.not_eq_true', ← Bool.not_eq_true, List.any_eq_true]
      rintro ⟨s, hs, hs2⟩
      simp only [Bool.and_eq_true, Bool.or_eq_true, decide_eq_true_eq] at hs2
      rcases hs2.2 with h1 | h1
      · exact (hall s hs hs2.1).1 h1
      · exact (hall s hs hs2.1).2 h1
  · intro h1 hk
    unfold Trainer.PurgeStagnant
    rw [if_neg (not_le.2 h1)]
    simp only [hkept]
    rw [if_neg (by simpa [List.isEmpty_iff] using hk)]
  · intro h1 hk
    have hrun : Trainer.PurgeStagnant RAND_MAX cfg (t, w) =
        (List.range cfg.PopulationSize).foldlM (Trainer.AddInitialized RAND_MAX cfg)
          ({ t with
              Population := [],
              Species := t.Species.filter (fun Specie => !Trainer.IsPurged Specie) }, w) := by
      unfold Trainer.PurgeStagnant
      rw [if_neg (not_le.2 h1)]
      simp only [hkept, hk, List.isEmpty_nil, if_true]
      unfold Trainer.Refill
      rw [if_neg (not_le.2 hP)]
    refine ⟨?_, ?_⟩
    · intro t2 w2 h2
      rw [hrun] at h2
      obtain ⟨e1, e2, _, e4, e5⟩ := Refill_foldlM RAND_MAX cfg _ _ t2 _ w2 h2
      simp only [List.length_range, List.nil_append] at e1 e2 e4 e5
      refine ⟨e1, e2, e4, ?_⟩
      intro a ha
      rw [e2, List.mem_range'_1] at ha
      exact e5 a ha.1 ha.2
    · intro hnone
      rw [hrun]
      obtain ⟨s2, hs2⟩ := Refill_None RAND_MAX cfg hnone (List.range cfg.PopulationSize)
        ({ t with
            Population := [],
            Species := t.Species.filter (fun Specie => !Trainer.IsPurged Specie) }, w)
      exact ⟨s2.1, s2.2, hs2⟩

/-- C23 at the trainer with a stagnant species whose representative 0 is also
    a member of the second species: the purge leaves the second species and the
    population `[1]`. -/
theorem PurgeStagnant_contract_witness :
    Trainer.Kept sharedTrainer = [1] ∧
    Trainer.PurgeStagnant 32767 {} (sharedTrainer, {}) =
      Except.ok
        ({ sharedTrainer with
            Population := Trainer.Kept sharedTrainer,
            Species := sharedTrainer.Species.filter (fun Specie => !Trainer.IsPurged Specie) },
          {}) :=
  ⟨by decide,
    (PurgeStagnant_contract 32767 {} sharedTrainer {} (by decide)).2.2.2.1 (by decide)
      (by decide)⟩

/-! ### The reproduction counts -/

theorem TotalDesired_eq (L : List Species) :
    Exact.TotalDesired L = (L.map (fun s => s.DesiredPopulationSize)).sum := by
  have h : ∀ (L : List Species) (a : Int),
      L.foldl (fun Total Specie => Total + Specie.DesiredPopulationSize) a =
        a + (L.map (fun s => s.DesiredPopulationSize)).sum := by
    intro L
    induction L with
    | nil => intro a; simp
    | cons x t ih =>
      intro a
      rw [List.foldl_cons, ih, List.map_cons, List.sum_cons]
      ring
  unfold Exact.TotalDesired
  rw [h L 0, Int.zero_add]

/-- One pass of the round-robin loop hands out offspring one by one and
    stops, with a `return`, when none is left. -/
theorem RoundRobinPass_spec :
    ∀ (L : List Species) (R : Int), 0 ≤ R →
      ((Exact.RoundRobinPass L R).1.map (fun s => s.DesiredPopulationSize)).sum +
          (Exact.RoundRobinPass L R).2.1 =
        (L.map (fun s => s.DesiredPopulationSize)).sum + R ∧
      0 ≤ (Exact.RoundRobinPass L R).2.1 ∧
      (Exact.RoundRobinPass L R).1.length = L.length ∧
      ((Exact.RoundRobinPass L R).2.2 = true → (Exact.RoundRobinPass L R).2.1 = 0) ∧
      (L ≠ [] → 0 < R → (Exact.RoundRobinPass L R).2.1 < R) ∧
      (Exact.RoundRobinPass L R).2.1 ≤ R := by
  intro L
  induction L with
  | nil =>
    intro R hR
    exact ⟨rfl, hR, rfl, fun h => Bool.noConfusion h, fun h => absurd rfl h, le_refl _⟩
  | cons x t ih =>
    intro R hR
    unfold Exact.RoundRobinPass
    by_cases h0 : R = 0
    · rw [if_pos h0]
      exact ⟨rfl, hR, rfl, fun _ => h0, fun _ h => absurd h0 (by omega), le_refl _⟩
    · rw [if_neg h0]
      obtain ⟨h1, h2, h3, h4, _, h6⟩ := ih (R - 1) (by omega)
      dsimp only
      refine ⟨?_, h2, (by rw [List.length_cons, List.length_cons, h3]), h4,
        (fun _ _ => by omega), (by omega)⟩
      rw [List.map_cons, List.sum_cons, List.map_cons, List.sum_cons]
      dsimp only
      omega

/-- The round-robin loop returns, and has handed out what remained. -/
theorem RoundRobin_spec :
    ∀ (fuel : Nat) (L : List Species) (R : Int), L ≠ [] → 0 ≤ R → R.toNat < fuel →
      ∃ L2 flag, Exact.RoundRobin fuel L R = Except.ok (L2, flag) ∧
        (L2.map (fun s => s.DesiredPopulationSize)).sum =
          (L.map (fun s => s.DesiredPopulationSize)).sum + R ∧
        L2.length = L.length := by
  intro fuel
  induction fuel with
  | zero => intro L R _ _ h; exact absurd h (by omega)
  | succ fuel ih =>
    intro L R hL hR hfuel
    unfold Exact.RoundRobin
    by_cases hpos : R > 0
    · rw [if_pos hpos]
      obtain ⟨h1, h2, h3, h4, h5, _⟩ := RoundRobinPass_spec L R hR
      dsimp only
      by_cases hflag : (Exact.RoundRobinPass L R).2.2 = true
      · rw [if_pos hflag]
        refine ⟨_, _, rfl, ?_, h3⟩
        have := h4 hflag
        omega
      · rw [if_neg hflag]
        have hne : (Exact.RoundRobinPass L R).1 ≠ [] := by
          intro e
          rw [e] at h3
          exact hL (List.length_eq_zero.1 h3.symm)
        obtain ⟨L2, flag, hrun, hsum, hlen⟩ := ih (Exact.RoundRobinPass L R).1
          (Exact.RoundRobinPass L R).2.1 hne h2 (by have := h5 hL hpos; omega)
        exact ⟨L2, flag, hrun, by omega, by omega⟩
    · rw [if_neg hpos]
      exact ⟨L, false, rfl, by omega, rfl⟩

theorem sum_le_of_all_le (m : Int) :
    ∀ L : List Species, (∀ i, i < L.length → (L.getD i {}).DesiredPopulationSize ≤ m) →
      (L.map (fun s => s.DesiredPopulationSize)).sum ≤ (L.length : Int) * m := by
  intro L
  induction L with
  | nil => intro _; simp
  | cons x t ih =>
    intro h
    have h0 : x.DesiredPopulationSize ≤ m := by simpa using h 0 (by simp)
    have ht := ih (fun i hi => by simpa using h (i + 1) (by simpa using hi))
    rw [List.map_cons, List.sum_cons, List.length_cons]
    push_cast
    nlinarith

theorem getD_modify_Desired (L : List Species) (j i : Nat) :
    (L.modify (fun s => { s with DesiredPopulationSize := s.DesiredPopulationSize - 1 }) j).getD i {} =
      if i = j ∧ i < L.length then
        { L.getD i {} with DesiredPopulationSize := (L.getD i {}).DesiredPopulationSize - 1 }
      else L.getD i {} := by
  rw [List.getD_eq_getElem?_getD, List.getD_eq_getElem?_getD, List.getElem?_modify]
  by_cases hi : i < L.length
  · rw [List.getElem?_eq_getElem hi]
    by_cases hij : i = j
    · subst hij
      simp [hi]
    · have : ¬ (i = j ∧ i < L.length) := fun h => hij h.1
      rw [if_neg this]
      simp [Ne.symm hij]
  · have : ¬ (i = j ∧ i < L.length) := fun h => hi h.2
    rw [if_neg this, List.getElem?_eq_none (by omega)]
    rfl

theorem sum_modify_Desired :
    ∀ (L : List Species) (j : Nat), j < L.length →
      ((L.modify (fun s => { s with DesiredPopulationSize := s.DesiredPopulationSize - 1 }) j).map
          (fun s => s.DesiredPopulationSize)).sum =
        (L.map (fun s => s.DesiredPopulationSize)).sum - 1 := by
  intro L
  induction L with
  | nil => intro j hj; simp at hj
  | cons x t ih =>
    intro j hj
    cases j with
    | zero =>
      simp only [List.modify_zero_cons, List.map_cons, List.sum_cons]
      omega
    | succ j =>
      simp only [List.modify_succ_cons, List.map_cons, List.sum_cons]
      rw [ih j (by simpa using hj)]
      omega

theorem toUInt64_of_nonneg (z : Int) (h0 : 0 ≤ z) (h1 : z < 2 ^ 64) : toUInt64 z = z.toNat := by
  unfold toUInt64
  rw [Int.emod_eq_of_lt h0 h1]

theorem TArrayRemove_spec (Data : List Nat) (a : Nat) (hnd : Data.Nodup) (ha : a ∈ Data) :
    (TArrayRemove Data a).Nodup ∧ (TArrayRemove Data a).length + 1 = Data.length ∧
    ∀ i, i ∈ TArrayRemove Data a ↔ i ∈ Data ∧ i ≠ a := by
  unfold TArrayRemove
  refine ⟨hnd.filter _, ?_, fun i => by simp [List.mem_filter]⟩
  have e : Data.filter (fun x => decide (x ≠ a)) = Data.erase a := by
    rw [hnd.erase_eq_filter]
    apply List.filter_congr
    intro x _
    by_cases hx : x = a
    · simp [hx]
    · simp [hx]
  rw [e, List.length_erase_of_mem ha]
  have : 0 < Data.length := List.length_pos_of_mem ha
  omega

/-- The loop that takes offspring back returns, and ends with the sum of the
    desired sizes at `PopulationSize`, whenever the species outside
    `SpeciesWithExcess` are at the minimum or below and the minimum fits. -/
theorem Shrink_spec (cfg : Config) :
    ∀ (fuel : Nat) (L : List Species) (SWE : List Nat) (idx N : Int),
      N = (L.map (fun s => s.DesiredPopulationSize)).sum →
      SWE.Nodup → (∀ i ∈ SWE, i < L.length) →
      (∀ i, i < L.length → i ∉ SWE →
        (L.getD i {}).DesiredPopulationSize ≤ (cfg.MinSpeciesSize : Int)) →
      (L.length : Int) * (cfg.MinSpeciesSize : Int) ≤ (cfg.PopulationSize : Int) →
      (idx = -1 ∨ (0 ≤ idx ∧ idx < (SWE.length : Int))) →
      (cfg.PopulationSize : Int) ≤ N → N < 2 ^ 64 →
      2 * (SWE.length + (N - (cfg.PopulationSize : Int)).toNat) + (if idx = -1 then 1 else 0) <
        fuel →
      ∃ L2, Exact.Shrink cfg fuel L SWE idx N = Except.ok L2 ∧
        (L2.map (fun s => s.DesiredPopulationSize)).sum = (cfg.PopulationSize : Int) ∧
        L2.length = L.length := by
  intro fuel
  induction fuel with
  | zero => intro L SWE idx N _ _ _ _ _ _ _ _ h; exact absurd h (by omega)
  | succ fuel ih =>
    intro L SWE idx N hN hnd hlt hout hmin hidx hPN hN64 hfuel
    have hN0 : 0 ≤ N := le_trans (Int.ofNat_nonneg _) hPN
    have hconv : toUInt64 N = N.toNat := toUInt64_of_nonneg N hN0 hN64
    unfold Exact.Shrink
    by_cases hgt : toUInt64 N > cfg.PopulationSize
    · rw [if_pos hgt]
      have hgt2 : (cfg.PopulationSize : Int) < N := by
        rw [hconv] at hgt
        omega
      have hne : SWE.length ≠ 0 := by
        intro h0
        have hnil : SWE = [] := List.length_eq_zero.1 h0
        have := sum_le_of_all_le (cfg.MinSpeciesSize : Int) L
          (fun i hi => hout i hi (by rw [hnil]; exact List.not_mem_nil i))
        omega
      by_cases hvalid : 0 ≤ idx ∧ idx < (SWE.length : Int)
      · rw [if_neg (not_not.2 hvalid)]
        dsimp only
        have hi1 : idx.toNat < SWE.length := by omega
        have hspec : SWE.getD idx.toNat 0 ∈ SWE := by
          rw [List.getD_eq_getElem _ _ hi1]
          exact List.getElem_mem _
        have hmod : (Int.tmod (idx + 1) (SWE.length : Int) = idx + 1 ∧
            idx + 1 < (SWE.length : Int)) ∨
            (Int.tmod (idx + 1) (SWE.length : Int) = 0 ∧ idx + 1 = (SWE.length : Int)) := by
          rw [Int.tmod_eq_emod (by omega) (by omega)]
          by_cases hl : idx + 1 < (SWE.length : Int)
          · exact Or.inl ⟨Int.emod_eq_of_lt (by omega) hl, hl⟩
          · have e : idx + 1 = (SWE.length : Int) := by omega
            exact Or.inr ⟨by rw [e, Int.emod_self], e⟩
        by_cases hle : (L.getD (SWE.getD idx.toNat 0) {}).DesiredPopulationSize ≤
            (cfg.MinSpeciesSize : Int)
        · rw [if_pos hle]
          obtain ⟨r1, r2, r3⟩ := TArrayRemove_spec SWE _ hnd hspec
          apply ih L (TArrayRemove SWE (SWE.getD idx.toNat 0)) _ N hN r1
            (fun i hi => hlt i ((r3 i).1 hi).1) ?_ hmin ?_ hPN hN64 ?_
          · intro i hi hni
            by_cases hii : i = SWE.getD idx.toNat 0
            · rw [hii]; exact hle
            · exact hout i hi (fun hm => hni ((r3 i).2 ⟨hm, hii⟩))
          · rcases hmod with ⟨e1, e2⟩ | ⟨e1, e2⟩
            · right; rw [e1]; omega
            · left; rw [e1]; omega
          · rw [if_neg (by omega)] at hfuel
            split_ifs <;> omega
        · rw [if_neg hle]
          have hsl : SWE.getD idx.toNat 0 < L.length := hlt _ hspec
          have key : ∃ L2, Exact.Shrink cfg fuel
              (L.modify
                (fun s => { s with DesiredPopulationSize := s.DesiredPopulationSize - 1 })
                (SWE.getD idx.toNat 0))
              SWE (Int.tmod (idx + 1) (SWE.length : Int)) (N - 1) = Except.ok L2 ∧
              (L2.map (fun s => s.DesiredPopulationSize)).sum = (cfg.PopulationSize : Int) ∧
              L2.length = (L.modify
                (fun s => { s with DesiredPopulationSize := s.DesiredPopulationSize - 1 })
                (SWE.getD idx.toNat 0)).length := by
            apply ih _ SWE _ (N - 1)
              (by rw [sum_modify_Desired L _ hsl, hN]) hnd
              (fun i hi => by rw [List.length_modify]; exact hlt i hi) ?_
              (by rw [List.length_modify]; exact hmin) ?_ (by omega) (by omega) ?_
            · intro i hi hni
              rw [List.length_modify] at hi
              rw [getD_modify_Desired, if_neg (fun h : i = SWE.getD idx.toNat 0 ∧ i < L.length =>
                hni (by rw [h.1]; exact hspec))]
              exact hout i hi hni
            · right
              rcases hmod with ⟨e1, e2⟩ | ⟨e1, e2⟩
              · rw [e1]; omega
              · rw [e1]; omega
            · rw [if_neg (by omega)] at hfuel
              have hk : (N - 1 - (cfg.PopulationSize : Int)).toNat + 1 =
                  (N - (cfg.PopulationSize : Int)).toNat := by omega
              split_ifs <;> omega
          obtain ⟨L2, k1, k2, k3⟩ := key
          exact ⟨L2, k1, k2, by rw [k3, List.length_modify]⟩
      · rw [if_pos hvalid]
        have hm1 : idx = -1 := by
          rcases hidx with h | h
          · exact h
          · exact absurd h hvalid
        rw [if_neg hne]
        have e0 : Int.tmod (idx + 1) (SWE.length : Int) = 0 := by
          rw [hm1]; simp
        rw [e0]
        apply ih L SWE 0 N hN hnd hlt hout hmin (Or.inr ⟨le_refl _, by omega⟩) hPN hN64
        rw [if_pos hm1] at hfuel
        rw [if_neg (by omega)]
        omega
    · rw [if_neg hgt]
      refine ⟨L, rfl, ?_, rfl⟩
      rw [hconv] at hgt
      omega

theorem foldl_Min_le :
    ∀ (L : List Species) (a : ℚ),
      L.foldl (fun Min Specie => Math.Min Min Specie.AdjustedFitness) a ≤ a ∧
      ∀ s ∈ L, L.foldl (fun Min Specie => Math.Min Min Specie.AdjustedFitness) a ≤
        s.AdjustedFitness := by
  intro L
  induction L with
  | nil => intro a; exact ⟨le_refl _, fun s hs => by cases hs⟩
  | cons x t ih =>
    intro a
    rw [List.foldl_cons]
    obtain ⟨h1, h2⟩ := ih (Math.Min a x.AdjustedFitness)
    have hmin : Math.Min a x.AdjustedFitness ≤ a ∧ Math.Min a x.AdjustedFitness ≤
        x.AdjustedFitness := by
      unfold Math.Min
      split_ifs with h
      · exact ⟨le_refl _, le_of_lt h⟩
      · exact ⟨not_lt.1 h, le_refl _⟩
    refine ⟨le_trans h1 hmin.1, fun s hs => ?_⟩
    rcases List.mem_cons.1 hs with h | h
    · rw [h]; exact le_trans h1 hmin.2
    · exact h2 s h

theorem ShiftAdjustedFitness_nonneg (L : List Species) :
    (Trainer.ShiftAdjustedFitness L).length = L.length ∧
    ∀ s ∈ Trainer.ShiftAdjustedFitness L, 0 ≤ s.AdjustedFitness := by
  unfold Trainer.ShiftAdjustedFitness
  refine ⟨by simp, ?_⟩
  intro s hs
  obtain ⟨s0, hs0, e⟩ := List.mem_map.1 hs
  rw [← e]
  obtain ⟨h1, h2⟩ := foldl_Min_le L 0
  have hmin : ∀ a : ℚ, Math.Min a 0 ≤ a := by
    intro a
    unfold Math.Min
    split_ifs with h
    · exact le_refl _
    · exact not_lt.1 h
  have hm := hmin (L.foldl (fun Min Specie => Math.Min Min Specie.AdjustedFitness) 0)
  have := h2 s0 hs0
  show 0 ≤ s0.AdjustedFitness + -_
  linarith

theorem sum_floor_le (T P : ℚ) :
    ∀ L : List Species,
      (((L.map (fun s => ⌊s.AdjustedFitness / T * P⌋)).sum : Int) : ℚ) ≤
        (L.foldl (fun Total Specie => Total + Specie.AdjustedFitness) 0) / T * P := by
  have hfold : ∀ (L : List Species) (a : ℚ),
      L.foldl (fun Total Specie => Total + Specie.AdjustedFitness) a =
        a + (L.map (fun s => s.AdjustedFitness)).sum := by
    intro L
    induction L with
    | nil => intro a; simp
    | cons x t ih => intro a; rw [List.foldl_cons, ih, List.map_cons, List.sum_cons]; ring
  intro L
  rw [hfold L 0, zero_add]
  induction L with
  | nil => simp
  | cons x t ih =>
    rw [List.map_cons, List.sum_cons, List.map_cons, List.sum_cons, Int.cast_add]
    have h1 : ((⌊x.AdjustedFitness / T * P⌋ : Int) : ℚ) ≤ x.AdjustedFitness / T * P :=
      Int.floor_le _
    have e : (x.AdjustedFitness + (t.map (fun s => s.AdjustedFitness)).sum) / T * P =
        x.AdjustedFitness / T * P + (t.map (fun s => s.AdjustedFitness)).sum / T * P := by ring
    rw [e]
    linarith

/-- The quotas: every species gets at least the minimum, and the quotas sum to
    at most `PopulationSize` plus one minimum per species. -/
theorem Quotas_bounds (cfg : Config) (L : List Species)
    (hnn : ∀ s ∈ L, 0 ≤ s.AdjustedFitness) :
    (Exact.Quotas cfg L).length = L.length ∧
    (∀ s ∈ Exact.Quotas cfg L, (cfg.MinSpeciesSize : Int) ≤ s.DesiredPopulationSize) ∧
    ((Exact.Quotas cfg L).map (fun s => s.DesiredPopulationSize)).sum ≤
      (cfg.PopulationSize : Int) + (L.length : Int) * (cfg.MinSpeciesSize : Int) := by
  have hmax : ∀ a b : Int, b ≤ Math.MaxInt a b ∧ (0 ≤ a → 0 ≤ b → Math.MaxInt a b ≤ a + b) := by
    intro a b
    unfold Math.MaxInt
    split_ifs with h
    · exact ⟨by omega, fun _ _ => by omega⟩
    · exact ⟨le_refl _, fun _ _ => by omega⟩
  unfold Exact.Quotas
  dsimp only
  refine ⟨by simp, ?_, ?_⟩
  · intro s hs
    obtain ⟨s0, _, e⟩ := List.mem_map.1 hs
    rw [← e]
    split_ifs
    · exact (hmax _ _).1
    · exact le_refl _
  · rw [List.map_map]
    by_cases hT : Math.MaxDouble
        (L.foldl (fun Total Specie => Total + Specie.AdjustedFitness) 0) 0 ≠ 0
    · have hT0 : Math.MaxDouble (L.foldl (fun Total Specie => Total + Specie.AdjustedFitness) 0) 0 =
          L.foldl (fun Total Specie => Total + Specie.AdjustedFitness) 0 ∧
          0 < L.foldl (fun Total Specie => Total + Specie.AdjustedFitness) 0 := by
        unfold Math.MaxDouble at hT ⊢
        split_ifs at hT ⊢ with h
        · exact ⟨rfl, h⟩
        · exact absurd rfl hT
      have hsum := sum_floor_le (L.foldl (fun Total Specie => Total + Specie.AdjustedFitness) 0)
        (cfg.PopulationSize : ℚ) L
      rw [div_self (ne_of_gt hT0.2), one_mul] at hsum
      have hsum2 : (L.map (fun s => ⌊s.AdjustedFitness /
          L.foldl (fun Total Specie => Total + Specie.AdjustedFitness) 0 *
            (cfg.PopulationSize : ℚ)⌋)).sum ≤ (cfg.PopulationSize : Int) := by
        exact_mod_cast hsum
      rw [hT0.1]
      have hstep : ∀ (M : List Species), (∀ s ∈ M, 0 ≤ s.AdjustedFitness) →
          (M.map ((fun s : Species => s.DesiredPopulationSize) ∘ fun Specie =>
            if L.foldl (fun Total Specie => Total + Specie.AdjustedFitness) 0 ≠ 0 then
              { Specie with
                DesiredPopulationSize :=
                  Math.MaxInt
                    ⌊Specie.AdjustedFitness /
                      L.foldl (fun Total Specie => Total + Specie.AdjustedFitness) 0 *
                        (cfg.PopulationSize : ℚ)⌋
                    cfg.MinSpeciesSize }
            else { Specie with DesiredPopulationSize := cfg.MinSpeciesSize })).sum ≤
          (M.map (fun s => ⌊s.AdjustedFitness /
            L.foldl (fun Total Specie => Total + Specie.AdjustedFitness) 0 *
              (cfg.PopulationSize : ℚ)⌋)).sum + (M.length : Int) * (cfg.MinSpeciesSize : Int) := by
        intro M
        induction M with
        | nil => intro _; simp
        | cons x t ih =>
          intro hM
          rw [List.map_cons, List.sum_cons, List.map_cons, List.sum_cons, List.length_cons]
          have ht := ih (fun s hs => hM s (List.mem_cons_of_mem _ hs))
          have hx : 0 ≤ ⌊x.AdjustedFitness /
              L.foldl (fun Total Specie => Total + Specie.AdjustedFitness) 0 *
                (cfg.PopulationSize : ℚ)⌋ := by
            apply Int.floor_nonneg.2
            exact mul_nonneg (div_nonneg (hM x (List.mem_cons_self _ _)) (le_of_lt hT0.2))
              (Nat.cast_nonneg _)
          simp only [Function.comp, if_pos (ne_of_gt hT0.2)]
          simp only [Function.comp, if_pos (ne_of_gt hT0.2)] at ht
          have := (hmax ⌊x.AdjustedFitness /
              L.foldl (fun Total Specie => Total + Specie.AdjustedFitness) 0 *
                (cfg.PopulationSize : ℚ)⌋ (cfg.MinSpeciesSize : Int)).2 hx (Int.ofNat_nonneg _)
          push_cast
          linarith
      have := hstep L hnn
      omega
    · rw [not_not] at hT
      rw [hT]
      have hconst : ∀ M : List Species,
          (M.map ((fun s : Species => s.DesiredPopulationSize) ∘ fun Specie =>
            if (0 : ℚ) ≠ 0 then
              { Specie with
                DesiredPopulationSize :=
                  Math.MaxInt ⌊Specie.AdjustedFitness / 0 * (cfg.PopulationSize : ℚ)⌋
                    cfg.MinSpeciesSize }
            else { Specie with DesiredPopulationSize := cfg.MinSpeciesSize })).sum =
          (M.length : Int) * (cfg.MinSpeciesSize : Int) := by
        intro M
        induction M with
        | nil => simp
        | cons x t ih =>
          rw [List.map_cons, List.sum_cons, ih, List.length_cons]
          simp only [Function.comp, ne_eq, not_true_eq_false, if_false]
          push_cast
          ring
      rw [hconst L]
      have : (0 : Int) ≤ (cfg.PopulationSize : Int) := Int.ofNat_nonneg _
      linarith

theorem sum_le_Excess (cfg : Config) :
    ∀ L : List Species, (L.map (fun s => s.DesiredPopulationSize)).sum ≤
      (L.length : Int) * (cfg.MinSpeciesSize : Int) + (Trainer.Excess cfg L : Int) := by
  intro L
  induction L with
  | nil => simp [Trainer.Excess]
  | cons x t ih =>
    have e : Trainer.Excess cfg (x :: t) =
        (x.DesiredPopulationSize - (cfg.MinSpeciesSize : Int)).toNat + Trainer.Excess cfg t := by
      unfold Trainer.Excess
      rw [List.map_cons, List.sum_cons]
    rw [List.map_cons, List.sum_cons, List.length_cons, e]
    push_cast
    have := Int.self_le_toNat (x.DesiredPopulationSize - (cfg.MinSpeciesSize : Int))
    nlinarith

/-- On unbounded integers: on a non-empty species list with
    `n * MinSpeciesSize ≤ PopulationSize < 2 ^ 30` the function returns, and the
    desired population sizes of the species then sum to `PopulationSize`. -/
theorem Method3_exact_total (cfg : Config) (L : List Species) (hne : L ≠ [])
    (hmin : L.length * cfg.MinSpeciesSize ≤ cfg.PopulationSize)
    (hint : cfg.PopulationSize < 2 ^ 30) :
    ∃ L2, Exact.UpdateReproductionCounts_Method3 cfg L = Except.ok L2 ∧
      L2.length = L.length ∧
      (L2.map (fun s => s.DesiredPopulationSize)).sum = (cfg.PopulationSize : Int) := by
  have hminZ : (L.length : Int) * (cfg.MinSpeciesSize : Int) ≤ (cfg.PopulationSize : Int) := by
    exact_mod_cast hmin
  have hPZ : (cfg.PopulationSize : Int) < 2 ^ 30 := by exact_mod_cast hint
  obtain ⟨hlen1, hnn⟩ := ShiftAdjustedFitness_nonneg L
  obtain ⟨hlen2, hge, hsum⟩ := Quotas_bounds cfg (Trainer.ShiftAdjustedFitness L) hnn
  rw [hlen1] at hlen2 hsum
  have hS2ne : Exact.Quotas cfg (Trainer.ShiftAdjustedFitness L) ≠ [] := by
    intro h
    rw [h] at hlen2
    exact hne (List.length_eq_zero.1 hlen2.symm)
  have hsum0 : 0 ≤ ((Exact.Quotas cfg (Trainer.ShiftAdjustedFitness L)).map
      (fun s => s.DesiredPopulationSize)).sum := by
    apply List.sum_nonneg
    intro x hx
    obtain ⟨s, hs, e⟩ := List.mem_map.1 hx
    rw [← e]
    exact le_trans (Int.ofNat_nonneg _) (hge s hs)
  have hempty : L.isEmpty = false := by
    cases L with
    | nil => exact absurd rfl hne
    | cons x t => rfl
  have hguard : ¬ toUInt64 ((L.length : Int) * (cfg.MinSpeciesSize : Int)) > cfg.PopulationSize := by
    rw [toUInt64_of_nonneg _ (mul_nonneg (Int.ofNat_nonneg _) (Int.ofNat_nonneg _)) (by omega)]
    omega
  unfold Exact.UpdateReproductionCounts_Method3
  rw [hempty]
  simp only [Bool.false_eq_true, if_false]
  rw [if_neg hguard]
  simp only [TotalDesired_eq]
  generalize hS2 : Exact.Quotas cfg (Trainer.ShiftAdjustedFitness L) = S2 at *
  generalize hTot : (S2.map (fun s => s.DesiredPopulationSize)).sum = Tot at *
  have h32 : toInt32 ((cfg.PopulationSize : Int) - Tot) = (cfg.PopulationSize : Int) - Tot := by
    unfold toInt32
    omega
  rw [h32]
  by_cases hle : Tot ≤ (cfg.PopulationSize : Int)
  · have hR : Math.MaxInt ((cfg.PopulationSize : Int) - Tot) 0 = (cfg.PopulationSize : Int) - Tot := by
      unfold Math.MaxInt
      split_ifs with h
      · rfl
      · omega
    rw [hR]
    obtain ⟨L3, flag, hrr, hsum3, hlen3⟩ :=
      RoundRobin_spec (((cfg.PopulationSize : Int) - Tot).toNat + 1) S2
        ((cfg.PopulationSize : Int) - Tot) hS2ne (by omega) (Nat.lt_succ_self _)
    rw [hrr]
    rw [hTot] at hsum3
    have hsumP : (L3.map (fun s => s.DesiredPopulationSize)).sum = (cfg.PopulationSize : Int) := by
      rw [hsum3]; ring
    cases flag with
    | true => exact ⟨L3, rfl, by rw [hlen3, hlen2], hsumP⟩
    | false =>
      refine ⟨L3, ?_, by rw [hlen3, hlen2], hsumP⟩
      simp only [hsumP]
      rw [if_pos]
      rw [toUInt64_of_nonneg _ (Int.ofNat_nonneg _) (by omega)]
      simp
  · have hR : Math.MaxInt ((cfg.PopulationSize : Int) - Tot) 0 = 0 := by
      unfold Math.MaxInt
      split_ifs with h
      · omega
      · rfl
    rw [hR]
    have hrr : Exact.RoundRobin ((0 : Int).toNat + 1) S2 0 = Except.ok (S2, false) := by
      show (if (0 : Int) > 0 then _ else _) = _
      rw [if_neg (by decide)]
    rw [hrr]
    simp only [hTot]
    have hbig : ¬ toUInt64 Tot ≤ cfg.PopulationSize := by
      rw [toUInt64_of_nonneg _ hsum0 (by omega)]
      omega
    rw [if_neg hbig]
    have hswe : ((List.range S2.length).filter (fun i => decide
        ((S2.getD i {}).DesiredPopulationSize > (cfg.MinSpeciesSize : Int)))).isEmpty = false := by
      cases hf : (List.range S2.length).filter (fun i => decide
        ((S2.getD i {}).DesiredPopulationSize > (cfg.MinSpeciesSize : Int))) with
      | cons a t => rfl
      | nil =>
        exfalso
        have hall : ∀ i, i < S2.length →
            (S2.getD i {}).DesiredPopulationSize ≤ (cfg.MinSpeciesSize : Int) := by
          intro i hi
          by_contra hgt
          have hmem : i ∈ (List.range S2.length).filter (fun i => decide
              ((S2.getD i {}).DesiredPopulationSize > (cfg.MinSpeciesSize : Int))) :=
            List.mem_filter.2 ⟨List.mem_range.2 hi, decide_eq_true (not_le.1 hgt)⟩
          rw [hf] at hmem
          cases hmem
        have := sum_le_of_all_le (cfg.MinSpeciesSize : Int) S2 hall
        rw [hTot, hlen2] at this
        omega
    rw [hswe]
    simp only [Bool.false_eq_true, if_false]
    have hexc : (Tot - (cfg.PopulationSize : Int)).toNat ≤ Trainer.Excess cfg S2 := by
      have := sum_le_Excess cfg S2
      rw [hTot, hlen2] at this
      omega
    obtain ⟨L2, hsh, hsumP, hlenP⟩ := Shrink_spec cfg
      (2 * (((List.range S2.length).filter (fun i => decide
        ((S2.getD i {}).DesiredPopulationSize > (cfg.MinSpeciesSize : Int)))).length +
          Trainer.Excess cfg S2) + 2)
      S2 ((List.range S2.length).filter (fun i => decide
        ((S2.getD i {}).DesiredPopulationSize > (cfg.MinSpeciesSize : Int)))) 0 Tot hTot.symm
      ((List.nodup_range _).filter _)
      (fun i hi => List.mem_range.1 (List.mem_filter.1 hi).1)
      (fun i hi hni => by
        by_contra hgt
        exact hni (List.mem_filter.2 ⟨List.mem_range.2 hi, decide_eq_true (not_le.1 hgt)⟩))
      (by rw [hlen2]; exact hminZ)
      (Or.inr ⟨le_refl _, by
        cases hf : (List.range S2.length).filter (fun i => decide
          ((S2.getD i {}).DesiredPopulationSize > (cfg.MinSpeciesSize : Int))) with
        | nil => rw [hf] at hswe; cases hswe
        | cons a t => simp⟩)
      (by omega) (by omega)
      (by rw [if_neg (by decide)]; omega)
    exact ⟨L2, hsh, by rw [hlenP, hlen2], hsumP⟩

/-! ### The elite genomes -/

theorem StdSort.Insertion_Orders_FitterThan (M : Nat → Genome) :
    StdSort.Orders StdSort.Insertion (Trainer.FitterThan M) := by
  intro l
  unfold StdSort.Insertion
  have htot : IsTotal Nat (fun a b => Trainer.FitterThan M b a = false) :=
    ⟨fun a b => by
      unfold Trainer.FitterThan
      simp only [decide_eq_false_iff_not, gt_iff_lt, not_lt]
      exact le_total _ _⟩
  have htrans : IsTrans Nat (fun a b => Trainer.FitterThan M b a = false) :=
    ⟨fun a b c => by
      unfold Trainer.FitterThan
      simp only [decide_eq_false_iff_not, gt_iff_lt, not_lt]
      intro h1 h2
      exact le_trans h2 h1⟩
  exact List.sorted_insertionSort (fun a b => Trainer.FitterThan M b a = false) l

/-- The number handed to `CullPopulation`: the number `k` of the specification,
    lowered to `Num - SpeciesElitism` when `SpeciesElitism ≤ Num`. -/
theorem NumToCull_eq (cfg : Config) (n : Nat) (hmore : cfg.MinSpeciesSize < n)
    (hr1 : cfg.SurvivalRate ≤ 1)
    (hSE : cfg.SpeciesElitism < 2 ^ 31) (hn : n < 2 ^ 31) :
    CullingMethod.SpecKept cfg n ≤ n ∧
    Trainer.NumToCull cfg n =
      if cfg.SpeciesElitism ≤ n then min (CullingMethod.SpecKept cfg n) (n - cfg.SpeciesElitism)
      else CullingMethod.SpecKept cfg n := by
  have hfl : (⌊(n : ℚ) * cfg.SurvivalRate⌋).toNat ≤ n := by
    have h1 : (n : ℚ) * cfg.SurvivalRate ≤ ((n : Int) : ℚ) := by
      have hn0 : (0 : ℚ) ≤ (n : ℚ) := Nat.cast_nonneg n
      have := mul_le_mul_of_nonneg_left hr1 hn0
      rw [mul_one] at this
      exact_mod_cast this
    have h2 : ⌊(n : ℚ) * cfg.SurvivalRate⌋ ≤ (n : Int) := by
      have := Int.floor_mono h1
      rwa [Int.floor_intCast] at this
    omega
  have hk : CullingMethod.SpecKept cfg n ≤ n := by
    unfold CullingMethod.SpecKept
    exact max_le hfl (le_of_lt hmore)
  refine ⟨hk, ?_⟩
  have h1 : (if (⌊(n : ℚ) * cfg.SurvivalRate⌋).toNat < cfg.MinSpeciesSize then cfg.MinSpeciesSize
      else (⌊(n : ℚ) * cfg.SurvivalRate⌋).toNat) = CullingMethod.SpecKept cfg n := by
    unfold CullingMethod.SpecKept
    split_ifs with h
    · exact (max_eq_right (le_of_lt h)).symm
    · exact (max_eq_left (not_lt.1 h)).symm
  unfold Trainer.NumToCull
  dsimp only
  rw [h1]
  generalize CullingMethod.SpecKept cfg n = k at hk ⊢
  by_cases hle : cfg.SpeciesElitism ≤ n
  · rw [if_pos hle]
    have hu : toUInt64 ((n : Int) - (cfg.SpeciesElitism : Int)) = n - cfg.SpeciesElitism := by
      rw [toUInt64_of_nonneg _ (by omega) (by omega)]
      omega
    rw [hu]
    split_ifs with h
    · exact (min_eq_right (le_of_lt h)).symm
    · exact (min_eq_left (not_lt.1 h)).symm
  · rw [if_neg hle]
    have hu : k ≤ toUInt64 ((n : Int) - (cfg.SpeciesElitism : Int)) := by
      unfold toUInt64
      omega
    rw [if_neg (not_lt.2 hu)]

theorem Elitism_spec (Sorter : (α : Type) → (α → α → Bool) → List α → List α)
    (hperm : StdSort.Permutes Sorter)
    (hord : ∀ M : Nat → Genome, StdSort.Orders Sorter (Trainer.FitterThan M))
    (Memory : Nat → Genome) (Population : List Nat) (N : Nat) (hN : N ≤ Population.length) :
    (CullingMethod.Elitism Sorter Memory Population N).length = N ∧
    (CullingMethod.Elitism Sorter Memory Population N).Subperm Population ∧
    ∀ a ∈ CullingMethod.Elitism Sorter Memory Population N, ∀ b ∈ Population,
      b ∉ CullingMethod.Elitism Sorter Memory Population N →
      (Memory a).Fitness ≥ (Memory b).Fitness := by
  unfold CullingMethod.Elitism
  by_cases h : Population.length ≤ N
  · rw [if_pos h]
    exact ⟨le_antisymm h hN, List.Subperm.refl _, fun a _ b hb hnb => absurd hb hnb⟩
  · rw [if_neg h]
    have hp := hperm Nat (Trainer.FitterThan Memory) Population
    refine ⟨?_, (List.take_sublist _ _).subperm.trans hp.subperm, ?_⟩
    · rw [List.length_take, hp.length_eq]
      exact min_eq_left hN
    · intro a ha b hb hnb
      have hb2 : b ∈ (Sorter Nat (Trainer.FitterThan Memory) Population).drop N := by
        have hb1 := hp.mem_iff.2 hb
        rw [← List.take_append_drop N (Sorter Nat (Trainer.FitterThan Memory) Population)] at hb1
        rcases List.mem_append.1 hb1 with h1 | h1
        · exact absurd h1 hnb
        · exact h1
      have hsorted := hord Memory Population
      rw [← List.take_append_drop N (Sorter Nat (Trainer.FitterThan Memory) Population)] at hsorted
      have hab := (List.pairwise_append.1 hsorted).2.2 a ha b hb2
      unfold Trainer.FitterThan at hab
      exact not_lt.1 (of_decide_eq_false hab)

theorem SpecKept_default : CullingMethod.SpecKept {} 6 = 5 := by
  unfold CullingMethod.SpecKept
  have h : ⌊((6 : Nat) : ℚ) * ({} : Config).SurvivalRate⌋ = 4 := by
    rw [Int.floor_eq_iff]
    norm_num
  rw [h]
  decide

/-- The claim C26, as the code behaves. The culling step keeps, of a species of
    more than `MinSpeciesSize` genomes, `min k (Num - SpeciesElitism)` genomes
    when `SpeciesElitism ≤ Num` and `k` genomes otherwise, where
    `k = max ⌊Num * SurvivalRate⌋ MinSpeciesSize`; the genomes kept are genomes
    of the species, and none of them has a lower fitness than a genome that is
    removed. -/
theorem CullSpecies_kept (Sorter : (α : Type) → (α → α → Bool) → List α → List α)
    (cfg : Config) (Memory : Nat → Genome) (Specie : Species)
    (hperm : StdSort.Permutes Sorter)
    (hord : ∀ M : Nat → Genome, StdSort.Orders Sorter (Trainer.FitterThan M))
    (hmore : cfg.MinSpeciesSize < Specie.Genomes.length)
    (_hr0 : 0 ≤ cfg.SurvivalRate) (hr1 : cfg.SurvivalRate ≤ 1)
    (hSE : cfg.SpeciesElitism < 2 ^ 31) (hn : Specie.Genomes.length < 2 ^ 31) :
    (Trainer.CullSpecies Sorter cfg Memory Specie).Genomes.length =
      (if cfg.SpeciesElitism ≤ Specie.Genomes.length then
        min (CullingMethod.SpecKept cfg Specie.Genomes.length)
          (Specie.Genomes.length - cfg.SpeciesElitism)
      else CullingMethod.SpecKept cfg Specie.Genomes.length) ∧
    (Trainer.CullSpecies Sorter cfg Memory Specie).Genomes.Subperm Specie.Genomes ∧
    ∀ a ∈ (Trainer.CullSpecies Sorter cfg Memory Specie).Genomes, ∀ b ∈ Specie.Genomes,
      b ∉ (Trainer.CullSpecies Sorter cfg Memory Specie).Genomes →
      (Memory a).Fitness ≥ (Memory b).Fitness := by
  have hp := hperm Nat (Trainer.FitterOrNewer Memory) Specie.Genomes
  obtain ⟨hk, hN⟩ := NumToCull_eq cfg Specie.Genomes.length hmore hr1 hSE hn
  have hle : Trainer.NumToCull cfg Specie.Genomes.length ≤ Specie.Genomes.length := by
    rw [hN]
    split_ifs
    · exact le_trans (min_le_left _ _) hk
    · exact hk
  obtain ⟨h1, h2, h3⟩ := Elitism_spec Sorter hperm hord Memory
    (Sorter Nat (Trainer.FitterOrNewer Memory) Specie.Genomes)
    (Trainer.NumToCull cfg Specie.Genomes.length) (by rw [hp.length_eq]; exact hle)
  unfold Trainer.CullSpecies
  dsimp only
  rw [hp.length_eq]
  refine ⟨by rw [h1, hN], h2.trans hp.subperm, fun a ha b hb hnb => h3 a ha b (hp.mem_iff.2 hb) hnb⟩

theorem CullSpecies_kept_witness :
    (Trainer.CullSpecies StdSort.Insertion {} cullMemory
      { Genomes := [0, 1, 2, 3, 4, 5], ID := 1 }).Genomes.length = 4 ∧
    CullingMethod.SpecKept {} 6 = 5 ∧ ({} : Config).MinSpeciesSize = 5 := by
  have h := (CullSpecies_kept StdSort.Insertion {} cullMemory
    { Genomes := [0, 1, 2, 3, 4, 5], ID := 1 } StdSort.Insertion_Permutes
    StdSort.Insertion_Orders_FitterThan (by decide)
    (by show (0 : ℚ) ≤ 8 / 10; norm_num) (by show (8 / 10 : ℚ) ≤ 1; norm_num) (by decide)
    (by decide)).1
  refine ⟨?_, SpecKept_default, rfl⟩
  rw [h]
  show (if 2 ≤ 6 then min (CullingMethod.SpecKept {} 6) (6 - 2) else _) = 4
  rw [SpecKept_default]
  decide

/-! ### A child of two parents -/

theorem Inherit_SpeciesID (Parent1 Parent2 : Genome) (UseParent1 : Nat → Bool) (ID : Nat) :
    (CrossoverType.Inherit Parent1 Parent2 UseParent1 ID).SpeciesID = 0 ∧
    (CrossoverType.Inherit Parent1 Parent2 UseParent1 ID).ID = ID := ⟨rfl, rfl⟩

/-- What every crossover function returns carries the species id 0 and the id
    the counter hands out. -/
theorem crossover_child_ids (RAND_MAX : Nat) (Parent1 Parent2 : Genome) (ID : Nat)
    (Rand : List Nat) (Child : Genome) (ID2 : Nat) (Rand2 : List Nat) :
    (CrossoverType.Uniform RAND_MAX Parent1 Parent2 ID Rand = Except.ok (Child, ID2, Rand2) →
      Child.SpeciesID = 0 ∧ Child.ID = Genome.GenerateNewGenomeID ID ∧ ID2 = Child.ID) ∧
    (CrossoverType.SinglePoint Parent1 Parent2 ID Rand = Except.ok (Child, ID2, Rand2) →
      Child.SpeciesID = 0 ∧ Child.ID = Genome.GenerateNewGenomeID ID ∧ ID2 = Child.ID) ∧
    (CrossoverType.TwoPoint Parent1 Parent2 ID Rand = Except.ok (Child, ID2, Rand2) →
      Child.SpeciesID = 0 ∧ Child.ID = Genome.GenerateNewGenomeID ID ∧ ID2 = Child.ID) ∧
    (CrossoverType.Multipoint Parent1 Parent2 ID Rand = Except.ok (Child, ID2, Rand2) →
      Child.SpeciesID = 0 ∧ Child.ID = Genome.GenerateNewGenomeID ID ∧ ID2 = Child.ID) := by
  refine ⟨?_, ?_, ?_, ?_⟩
  · intro h
    unfold CrossoverType.Uniform at h
    simp only [bind, Except.bind] at h
    split at h
    · cases h
    · split at h
      · cases h
      · injection h with h
        injection h with h1 h2
        injection h2 with h2 h3
        subst h1
        exact ⟨rfl, rfl, h2.symm⟩
  · intro h
    unfold CrossoverType.SinglePoint at h
    simp only [bind, Except.bind] at h
    split at h
    · cases h
    · injection h with h
      injection h with h1 h2
      injection h2 with h2 h3
      subst h1
      exact ⟨rfl, rfl, h2.symm⟩
  · intro h
    unfold CrossoverType.TwoPoint at h
    simp only [bind, Except.bind] at h
    split at h
    · cases h
    · split at h
      · cases h
      · injection h with h
        injection h with h1 h2
        injection h2 with h2 h3
        subst h1
        exact ⟨rfl, rfl, h2.symm⟩
  · intro h
    unfold CrossoverType.Multipoint at h
    split at h
    · cases h
    · simp only [bind, Except.bind] at h
      split at h
      · cases h
      · injection h with h
        injection h with h1 h2
        injection h2 with h2 h3
        subst h1
        exact ⟨rfl, rfl, h2.symm⟩

/-- The function the `switch` of `InitializeFromParents` selects. -/
theorem InitializeFromParents_eq (RAND_MAX : Nat) (Parent1 Parent2 : Genome) (cfg : Config)
    (NewestID r : Nat) (rest : List Nat) (hcfg : Parent1.Config = some cfg) :
    InitialTopology.InitializeFromParents RAND_MAX Parent1 Parent2 NewestID (r :: rest) =
      match cfg.CrossoverType with
      | ECrossoverType.SinglePoint =>
        CrossoverType.SinglePoint Parent1 Parent2 (Genome.GenerateNewGenomeID NewestID) rest
      | ECrossoverType.TwoPoint =>
        CrossoverType.TwoPoint Parent1 Parent2 (Genome.GenerateNewGenomeID NewestID) rest
      | ECrossoverType.Multipoint =>
        CrossoverType.Multipoint Parent1 Parent2 (Genome.GenerateNewGenomeID NewestID) rest
      | _ =>
        CrossoverType.Uniform RAND_MAX Parent1 Parent2 (Genome.GenerateNewGenomeID NewestID)
          rest := by
  unfold InitialTopology.InitializeFromParents
  have hcoin : ∃ c, GetRandomInt 0 1 (r :: rest) = Except.ok (c, rest) := by
    exact ⟨_, rfl⟩
  obtain ⟨c, hc⟩ := hcoin
  rw [hc]
  simp only [hcfg]
  cases cfg.CrossoverType <;> rfl

/-- The claim C31, as the code behaves. `InitializeFromParents` draws the coin
    for the species id, takes one genome id for a genome it does not return, and
    hands over to the crossover function of the configuration: the genome
    returned carries the species id 0, whatever the species ids of the parents,
    and the second id the counter hands out, which is above the first as long
    as the `unsigned` counter does not wrap. -/
theorem InitializeFromParents_child (RAND_MAX : Nat) (Parent1 Parent2 : Genome) (cfg : Config)
    (NewestID r : Nat) (rest : List Nat) (hcfg : Parent1.Config = some cfg) :
    InitialTopology.InitializeFromParents RAND_MAX Parent1 Parent2 NewestID (r :: rest) =
      (match cfg.CrossoverType with
      | ECrossoverType.SinglePoint =>
        CrossoverType.SinglePoint Parent1 Parent2 (Genome.GenerateNewGenomeID NewestID) rest
      | ECrossoverType.TwoPoint =>
        CrossoverType.TwoPoint Parent1 Parent2 (Genome.GenerateNewGenomeID NewestID) rest
      | ECrossoverType.Multipoint =>
        CrossoverType.Multipoint Parent1 Parent2 (Genome.GenerateNewGenomeID NewestID) rest
      | _ =>
        CrossoverType.Uniform RAND_MAX Parent1 Parent2 (Genome.GenerateNewGenomeID NewestID)
          rest) ∧
    ∀ Child ID2 Rand2,
      InitialTopology.InitializeFromParents RAND_MAX Parent1 Parent2 NewestID (r :: rest) =
        Except.ok (Child, ID2, Rand2) →
      Child.SpeciesID = 0 ∧
      Child.ID = Genome.GenerateNewGenomeID (Genome.GenerateNewGenomeID NewestID) ∧
      ID2 = Child.ID ∧
      (NewestID + 2 < 2 ^ 32 → Child.ID = NewestID + 2) := by
  have heq := InitializeFromParents_eq RAND_MAX Parent1 Parent2 cfg NewestID r rest hcfg
  refine ⟨heq, ?_⟩
  intro Child ID2 Rand2 h
  rw [heq] at h
  have hall := crossover_child_ids RAND_MAX Parent1 Parent2 (Genome.GenerateNewGenomeID NewestID)
    rest Child ID2 Rand2
  have hids : Child.SpeciesID = 0 ∧
      Child.ID = Genome.GenerateNewGenomeID (Genome.GenerateNewGenomeID NewestID) ∧
      ID2 = Child.ID := by
    cases hct : cfg.CrossoverType <;> rw [hct] at h
    · exact hall.1 h
    · exact hall.1 h
    · exact hall.2.2.2 h
    · exact hall.2.1 h
    · exact hall.2.2.1 h
  refine ⟨hids.1, hids.2.1, hids.2.2, ?_⟩
  intro hsmall
  rw [hids.2.1]
  unfold Genome.GenerateNewGenomeID
  omega

theorem InitializeFromParents_child_witness :
    ({ crossParent1 with SpeciesID := 3 } : Genome).SpeciesID = 3 ∧
    ({ crossParent2 with SpeciesID := 4 } : Genome).SpeciesID = 4 ∧
    ∃ Child,
      InitialTopology.InitializeFromParents 32767 { crossParent1 with SpeciesID := 3 }
        { crossParent2 with SpeciesID := 4 } 7 [1, 1] = Except.ok (Child, 9, []) ∧
      Child.SpeciesID = 0 ∧ Child.ID = 9 := by
  have h := InitializeFromParents_child 32767 { crossParent1 with SpeciesID := 3 }
    { crossParent2 with SpeciesID := 4 } {} 7 1 [1] rfl
  have hret : ∃ Child,
      InitialTopology.InitializeFromParents 32767 { crossParent1 with SpeciesID := 3 }
        { crossParent2 with SpeciesID := 4 } 7 [1, 1] = Except.ok (Child, 9, []) :=
    ⟨_, rfl⟩
  obtain ⟨Child, hChild⟩ := hret
  have hc := h.2 Child 9 [] hChild
  exact ⟨rfl, rfl, Child, hChild, hc.1, hc.2.2.1.symm⟩

/-! ### The aggregation functions -/

/-- The claim C36, as the code behaves. `Aggregate` returns a value for every
    list and every kind of the catalog but `Product`, and that value is 0 on the
    empty list; for `Product` the `switch` has no `case`, so every call throws
    `std::invalid_argument`, and the function `Product` itself yields 1 on the
    empty list. -/
theorem Aggregate_catalog (sqrt : ℚ → ℚ) :
    (∀ Method ∈ Aggregation.Catalog, Method ≠ EAggregation.Product →
      Aggregation.Aggregate sqrt [] Method = Except.ok 0 ∧
      ∀ Values, ∃ v, Aggregation.Aggregate sqrt Values Method = Except.ok v) ∧
    (∀ Values, Aggregation.Aggregate sqrt Values EAggregation.Product =
      Except.error StdException.invalid_argument) ∧
    Aggregation.Product [] = 1 := by
  refine ⟨?_, fun _ => rfl, rfl⟩
  intro Method hM hne
  cases Method
  case Product => exact absurd rfl hne
  case MAX => simp [Aggregation.Catalog] at hM
  all_goals exact ⟨rfl, fun Values => ⟨_, rfl⟩⟩

theorem Aggregate_catalog_witness :
    Aggregation.Aggregate (fun x => x) [] EAggregation.Mean = Except.ok 0 ∧
    Aggregation.Aggregate (fun x => x) [] EAggregation.Product =
      Except.error StdException.invalid_argument ∧
    EAggregation.Product ∈ Aggregation.Catalog ∧
    ({} : Config).DefaultAggregationFunction = EAggregation.Product :=
  ⟨((Aggregate_catalog (fun x => x)).1 EAggregation.Mean (by decide) (by decide)).1,
    (Aggregate_catalog (fun x => x)).2.1 [], by decide, rfl⟩

/-! ### The end of the training loop -/

/-- C35, counterexample: with `MaxGenerations = 0` and no best genome the
    generation count has reached `MaxGenerations`, and `ContinueTraining`
    returns true. -/
theorem ContinueTraining_unlimited :
    ({} : Trainer).Generation ≥ ({ MaxGenerations := 0 } : Config).MaxGenerations ∧
    Trainer.ContinueTraining { MaxGenerations := 0 } {} = true := by
  refine ⟨by decide, ?_⟩
  unfold Trainer.ContinueTraining
  simp

/-- The claim C35, amended. `ContinueTraining` returns false exactly when
    `MaxGenerations` is positive and the generation count has reached it, or
    `StoppingFitness` is positive and a best genome is remembered whose fitness
    has reached it; with `MaxGenerations = 0` the generation count never ends
    the training. -/
theorem ContinueTraining_iff (cfg : Config) (t : Trainer) :
    (Trainer.ContinueTraining cfg t = false ↔
      (0 < cfg.MaxGenerations ∧ t.Generation ≥ cfg.MaxGenerations) ∨
      (cfg.StoppingFitness > 0 ∧ t.bHasBestGenome = true ∧
        t.BestGenome.Fitness ≥ cfg.StoppingFitness)) ∧
    (cfg.MaxGenerations = 0 →
      (Trainer.ContinueTraining cfg t = false ↔
        cfg.StoppingFitness > 0 ∧ t.bHasBestGenome = true ∧
          t.BestGenome.Fitness ≥ cfg.StoppingFitness)) := by
  have hmain : Trainer.ContinueTraining cfg t = false ↔
      (0 < cfg.MaxGenerations ∧ t.Generation ≥ cfg.MaxGenerations) ∨
      (cfg.StoppingFitness > 0 ∧ t.bHasBestGenome = true ∧
        t.BestGenome.Fitness ≥ cfg.StoppingFitness) := by
    unfold Trainer.ContinueTraining
    by_cases h1 : t.bHasBestGenome = true ∧ cfg.StoppingFitness > 0 ∧
        t.BestGenome.Fitness ≥ cfg.StoppingFitness
    · simp [h1.1, h1.2.1, h1.2.2]
    · by_cases h2 : 0 < cfg.MaxGenerations ∧ t.Generation ≥ cfg.MaxGenerations
      · simp [h2.1, h2.2]
      · have e1 : (t.bHasBestGenome && decide (cfg.StoppingFitness > 0) &&
            decide (t.BestGenome.Fitness ≥ cfg.StoppingFitness)) = false := by
          rw [Bool.eq_false_iff]
          intro h
          simp only [Bool.and_eq_true, decide_eq_true_eq] at h
          exact h1 ⟨h.1.1, h.1.2, h.2⟩
        have e2 : (decide (cfg.MaxGenerations > 0) &&
            decide (t.Generation ≥ cfg.MaxGenerations)) = false := by
          rw [Bool.eq_false_iff]
          intro h
          simp only [Bool.and_eq_true, decide_eq_true_eq] at h
          exact h2 h
        rw [e1, e2]
        simp only [Bool.false_eq_true, if_false]
        constructor
        · intro h
          cases h
        · rintro (h | h)
          · exact absurd h h2
          · exact absurd ⟨h.2.1, h.1, h.2.2⟩ h1
  refine ⟨hmain, fun h0 => ?_⟩
  rw [hmain]
  constructor
  · rintro (h | h)
    · rw [h0] at h
      exact absurd h.1 (lt_irrefl 0)
    · exact h
  · exact Or.inr

theorem ContinueTraining_iff_witness :
    Trainer.ContinueTraining { MaxGenerations := 0 } { Generation := 5 } = true ∧
    Trainer.ContinueTraining { MaxGenerations := 5 } { Generation := 5 } = false := by
  have h0 := ContinueTraining_iff { MaxGenerations := 0 } { Generation := 5 }
  have h5 := ContinueTraining_iff { MaxGenerations := 5 } { Generation := 5 }
  refine ⟨?_, h5.1.2 (Or.inl ⟨by decide, by decide⟩)⟩
  cases hc : Trainer.ContinueTraining { MaxGenerations := 0 } { Generation := 5 } with
  | true => rfl
  | false =>
    have := (h0.2 rfl).1 hc
    exact absurd this.1 (by show ¬ ((0 : ℚ) > 0); norm_num)

/-! ### The evaluation of the population -/

theorem EvaluateAt_frame (Evaluate : Genome → ℚ) (t : Trainer) (Idx : Nat) :
    (Trainer.EvaluateAt Evaluate t Idx).Population = t.Population ∧
    (Trainer.EvaluateAt Evaluate t Idx).Species = t.Species ∧
    (Trainer.EvaluateAt Evaluate t Idx).bHasBestGenome = t.bHasBestGenome ∧
    (Trainer.EvaluateAt Evaluate t Idx).BestGenome = t.BestGenome :=
  ⟨rfl, rfl, rfl, rfl⟩

/-- The loop of `EvaluatePopulationThread` over indices that hold different
    genomes: the genomes at these indices get their fitness, nothing else
    changes. -/
theorem foldl_EvaluateAt (Evaluate : Genome → ℚ) :
    ∀ (Indices : List Nat) (t : Trainer),
      (Indices.map (fun Idx => t.Population.getD Idx 0)).Nodup →
      (Indices.foldl (Trainer.EvaluateAt Evaluate) t).Population = t.Population ∧
      (Indices.foldl (Trainer.EvaluateAt Evaluate) t).Species = t.Species ∧
      (Indices.foldl (Trainer.EvaluateAt Evaluate) t).bHasBestGenome = t.bHasBestGenome ∧
      (Indices.foldl (Trainer.EvaluateAt Evaluate) t).BestGenome = t.BestGenome ∧
      ∀ a, (Indices.foldl (Trainer.EvaluateAt Evaluate) t).Memory a =
        if a ∈ Indices.map (fun Idx => t.Population.getD Idx 0) then
          { t.Memory a with Fitness := Evaluate (t.Memory a) }
        else t.Memory a := by
  intro Indices
  induction Indices with
  | nil => intro t _; exact ⟨rfl, rfl, rfl, rfl, fun a => by simp⟩
  | cons i rest ih =>
    intro t hnd
    rw [List.foldl_cons]
    rw [List.map_cons, List.nodup_cons] at hnd
    obtain ⟨h1, h2, h3, h4, h5⟩ := ih (Trainer.EvaluateAt Evaluate t i) hnd.2
    refine ⟨h1, h2, h3, h4, fun a => ?_⟩
    rw [h5 a]
    have hpop : (Trainer.EvaluateAt Evaluate t i).Population = t.Population := rfl
    rw [hpop, List.map_cons]
    have hmem : ∀ x, (Trainer.EvaluateAt Evaluate t i).Memory x =
        if x = t.Population.getD i 0 then
          { t.Memory x with Fitness := Evaluate (t.Memory x) }
        else t.Memory x := by
      intro x
      show Function.update t.Memory _ _ x = _
      by_cases hx : x = t.Population.getD i 0
      · rw [if_pos hx, hx, Function.update_same]
      · rw [if_neg hx, Function.update_noteq hx]
    by_cases ha : a = t.Population.getD i 0
    · have hnot : a ∉ rest.map (fun Idx => t.Population.getD Idx 0) := by
        rw [ha]
        exact hnd.1
      rw [if_neg hnot, if_pos (by rw [ha]; exact List.mem_cons_self _ _), hmem a, if_pos ha]
    · rw [hmem a, if_neg ha]
      by_cases hr : a ∈ rest.map (fun Idx => t.Population.getD Idx 0)
      · rw [if_pos hr, if_pos (List.mem_cons_of_mem _ hr)]
      · rw [if_neg hr, if_neg]
        intro h
        rcases List.mem_cons.1 h with h | h
        · exact ha h
        · exact hr h

/-- The threads one after the other are one loop over their index ranges. -/
theorem foldlM_threads (Evaluate : Genome → ℚ) (cfg : Config) (hT : cfg.NumThreads ≠ 0) :
    ∀ (Threads : List Nat) (t : Trainer),
      Threads.foldlM (Trainer.EvaluatePopulationThread Evaluate cfg) t =
        Except.ok
          ((Threads.flatMap (Trainer.ThreadIndices cfg t.Population.length)).foldl
            (Trainer.EvaluateAt Evaluate) t) := by
  have hlen : ∀ (Indices : List Nat) (t : Trainer),
      (Indices.foldl (Trainer.EvaluateAt Evaluate) t).Population = t.Population := by
    intro Indices
    induction Indices with
    | nil => intro t; rfl
    | cons i rest ih => intro t; rw [List.foldl_cons, ih]; rfl
  intro Threads
  induction Threads with
  | nil => intro t; rfl
  | cons i rest ih =>
    intro t
    rw [List.foldlM_cons]
    have hthread : Trainer.EvaluatePopulationThread Evaluate cfg t i =
        Except.ok ((Trainer.ThreadIndices cfg t.Population.length i).foldl
          (Trainer.EvaluateAt Evaluate) t) := by
      unfold Trainer.EvaluatePopulationThread
      rw [if_neg hT]
    rw [hthread]
    show List.foldlM _ _ rest = _
    rw [ih, hlen, List.flatMap_cons, List.foldl_append]

/-- The index ranges of the threads `0 .. NumThreads - 1` put one after the
    other are the indices `0 .. Num - 1`, each once. -/
theorem ThreadIndices_cover (cfg : Config) (Num : Nat) (hT : 1 ≤ cfg.NumThreads) :
    (List.range cfg.NumThreads).flatMap (Trainer.ThreadIndices cfg Num) = List.range Num := by
  have hpre : ∀ k, k ≤ cfg.NumThreads - 1 →
      (List.range k).flatMap (Trainer.ThreadIndices cfg Num) =
        List.range (k * (Num / cfg.NumThreads)) := by
    intro k
    induction k with
    | zero => intro _; simp
    | succ k ih =>
      intro hk
      rw [List.range_succ, List.flatMap_append, ih (by omega), List.flatMap_singleton]
      unfold Trainer.ThreadIndices
      rw [if_neg (by omega)]
      have e : (k + 1) * (Num / cfg.NumThreads) - k * (Num / cfg.NumThreads) =
          Num / cfg.NumThreads := by
        rw [Nat.add_mul, Nat.one_mul, Nat.add_sub_cancel_left]
      dsimp only
      rw [e, List.range_eq_range', List.range_eq_range']
      have happ := List.range'_append_1 0 (k * (Num / cfg.NumThreads)) (Num / cfg.NumThreads)
      rw [Nat.zero_add] at happ
      rw [happ, Nat.add_mul, Nat.one_mul, Nat.add_comm]
  have hsplit : cfg.NumThreads = (cfg.NumThreads - 1) + 1 := by omega
  have hbound : (cfg.NumThreads - 1) * (Num / cfg.NumThreads) ≤ Num := by
    calc (cfg.NumThreads - 1) * (Num / cfg.NumThreads)
        ≤ cfg.NumThreads * (Num / cfg.NumThreads) := Nat.mul_le_mul_right _ (Nat.sub_le _ _)
      _ ≤ Num := Nat.mul_div_le _ _
  conv_lhs => rw [hsplit]
  rw [List.range_succ, List.flatMap_append, hpre _ (le_refl _), List.flatMap_singleton]
  unfold Trainer.ThreadIndices
  rw [if_pos rfl]
  dsimp only
  rw [List.range_eq_range', List.range_eq_range']
  have happ := List.range'_append_1 0 ((cfg.NumThreads - 1) * (Num / cfg.NumThreads))
    (Num - (cfg.NumThreads - 1) * (Num / cfg.NumThreads))
  rw [Nat.zero_add] at happ
  rw [happ, Nat.sub_add_cancel hbound]

theorem getD_range_map (l : List Nat) :
    (List.range l.length).map (fun Idx => l.getD Idx 0) = l := by
  apply List.ext_getElem
  · simp
  · intro i h1 h2
    simp only [List.getElem_map, List.getElem_range]
    rw [List.getD_eq_getElem _ _ h2]

/-- The claim C33, as the code behaves, for `NumThreads ≥ 1` and a population
    that holds no genome twice. The index ranges of the threads
    `0 .. NumThreads - 1` cover the indices of the population, each once, and
    with `MultithreadedEvaluation` every genome of the population gets the
    fitness `Evaluate` gives it. Without `MultithreadedEvaluation` the one call
    `EvaluatePopulationThread(0)` takes its range from `NumThreads` all the same:
    unless `NumThreads` is 1, only the genomes at the indices below
    `Num / NumThreads` are evaluated and the others keep the fitness they had. -/
theorem EvaluateGenomes_fitness (Evaluate : Genome → ℚ) (cfg : Config) (t : Trainer)
    (hT : 1 ≤ cfg.NumThreads) (hnd : t.Population.Nodup) :
    (List.range cfg.NumThreads).flatMap (Trainer.ThreadIndices cfg t.Population.length) =
      List.range t.Population.length ∧
    (cfg.MultithreadedEvaluation ≠ 0 ∨ cfg.NumThreads = 1 →
      ∃ t2, Trainer.EvaluateGenomes Evaluate cfg t = Except.ok t2 ∧
        t2.Population = t.Population ∧
        (∀ a ∈ t.Population,
          t2.Memory a = { t.Memory a with Fitness := Evaluate (t.Memory a) }) ∧
        ∀ a, a ∉ t.Population → t2.Memory a = t.Memory a) ∧
    (cfg.MultithreadedEvaluation = 0 → cfg.NumThreads ≠ 1 →
      ∃ t2, Trainer.EvaluateGenomes Evaluate cfg t = Except.ok t2 ∧
        t2.Population = t.Population ∧
        ∀ i a, t.Population[i]? = some a →
          (i < t.Population.length / cfg.NumThreads →
            t2.Memory a = { t.Memory a with Fitness := Evaluate (t.Memory a) }) ∧
          (¬ i < t.Population.length / cfg.NumThreads → t2.Memory a = t.Memory a)) := by
  have hT0 : cfg.NumThreads ≠ 0 := by omega
  have hcover := ThreadIndices_cover cfg t.Population.length hT
  have hall : ∃ t2, (List.range cfg.NumThreads).foldlM
        (Trainer.EvaluatePopulationThread Evaluate cfg) t = Except.ok t2 ∧
      t2.Population = t.Population ∧
      (∀ a ∈ t.Population,
        t2.Memory a = { t.Memory a with Fitness := Evaluate (t.Memory a) }) ∧
      ∀ a, a ∉ t.Population → t2.Memory a = t.Memory a := by
    refine ⟨_, foldlM_threads Evaluate cfg hT0 _ t, ?_⟩
    rw [hcover]
    obtain ⟨h1, _, _, _, h5⟩ := foldl_EvaluateAt Evaluate (List.range t.Population.length) t
      (by rw [getD_range_map]; exact hnd)
    rw [getD_range_map] at h5
    refine ⟨h1, fun a ha => ?_, fun a ha => ?_⟩
    · rw [h5 a, if_pos ha]
    · rw [h5 a, if_neg ha]
  refine ⟨hcover, ?_, ?_⟩
  · intro hmode
    by_cases hm : cfg.MultithreadedEvaluation ≠ 0
    · unfold Trainer.EvaluateGenomes
      rw [if_pos hm]
      exact hall
    · have h1 : cfg.NumThreads = 1 := by
        rcases hmode with h | h
        · exact absurd h hm
        · exact h
      unfold Trainer.EvaluateGenomes
      rw [if_neg hm]
      have e : (List.range cfg.NumThreads).foldlM
          (Trainer.EvaluatePopulationThread Evaluate cfg) t =
          Trainer.EvaluatePopulationThread Evaluate cfg t 0 := by
        rw [h1]
        show (Trainer.EvaluatePopulationThread Evaluate cfg t 0 >>= fun s => pure s) = _
        cases Trainer.EvaluatePopulationThread Evaluate cfg t 0 <;> rfl
      rw [← e]
      exact hall
  · intro hm h1
    unfold Trainer.EvaluateGenomes
    rw [if_neg (not_not.2 hm)]
    unfold Trainer.EvaluatePopulationThread
    rw [if_neg hT0]
    have hidx : Trainer.ThreadIndices cfg t.Population.length 0 =
        List.range (t.Population.length / cfg.NumThreads) := by
      unfold Trainer.ThreadIndices
      rw [if_neg (by omega)]
      dsimp only
      rw [Nat.zero_mul, Nat.zero_add, Nat.one_mul, Nat.sub_zero, List.range_eq_range']
    rw [hidx]
    have hle : t.Population.length / cfg.NumThreads ≤ t.Population.length :=
      Nat.div_le_self _ _
    have hmap : (List.range (t.Population.length / cfg.NumThreads)).map
        (fun Idx => t.Population.getD Idx 0) =
        t.Population.take (t.Population.length / cfg.NumThreads) := by
      apply List.ext_getElem
      · simp [hle]
      · intro i h1 h2
        simp only [List.getElem_map, List.getElem_range, List.getElem_take]
        rw [List.getD_eq_getElem]
    obtain ⟨h1p, _, _, _, h5⟩ := foldl_EvaluateAt Evaluate
      (List.range (t.Population.length / cfg.NumThreads)) t
      (by rw [hmap]; exact hnd.sublist (List.take_sublist _ _))
    rw [hmap] at h5
    refine ⟨_, rfl, h1p, ?_⟩
    intro i a hia
    have hi : i < t.Population.length := (List.getElem?_eq_some_iff.1 hia).1
    have hai : t.Population[i] = a := (List.getElem?_eq_some_iff.1 hia).2
    constructor
    · intro hlt
      rw [h5 a, if_pos]
      rw [List.mem_take_iff_getElem]
      exact ⟨i, by rw [Nat.lt_min]; exact ⟨hlt, hi⟩, hai⟩
    · intro hge
      rw [h5 a, if_neg]
      intro hmem
      rw [List.mem_take_iff_getElem] at hmem
      obtain ⟨j, hj, hja⟩ := hmem
      rw [Nat.lt_min] at hj
      have : j = i := (List.Nodup.getElem_inj_iff hnd).1 (hja.trans hai.symm)
      omega

theorem EvaluateGenomes_fitness_witness :
    ∃ t2, Trainer.EvaluateGenomes sampleEvaluate { MultithreadedEvaluation := 0 } fiveTrainer =
        Except.ok t2 ∧
      ∀ a ∈ fiveTrainer.Population, t2.Memory a = fiveTrainer.Memory a ∧
        sampleEvaluate (fiveTrainer.Memory a) ≠ (fiveTrainer.Memory a).Fitness := by
  obtain ⟨t2, h1, _, h3⟩ := (EvaluateGenomes_fitness sampleEvaluate
    { MultithreadedEvaluation := 0 } fiveTrainer (by decide) (by decide)).2.2 rfl (by decide)
  refine ⟨t2, h1, ?_⟩
  intro a ha
  obtain ⟨i, hi⟩ := List.mem_iff_getElem?.1 ha
  refine ⟨((h3 i a hi).2 (Nat.not_lt_zero i)), ?_⟩
  have hfit : sampleEvaluate (fiveTrainer.Memory a) = (a : ℚ) + 1 := by
    unfold sampleEvaluate fiveTrainer
    simp [emptyGenotype, TMap.Num, TMap.empty]
  rw [hfit]
  show (a : ℚ) + 1 ≠ 0
  positivity

theorem CheckBest_step (cfg : Config) (t : Trainer) (a : Nat) :
    (Trainer.CheckBest cfg t a).Memory = t.Memory ∧
    (Trainer.CheckBest cfg t a).Population = t.Population ∧
    (Trainer.CheckBest cfg t a).Species = t.Species ∧
    (Trainer.CheckBest cfg t a).bHasBestGenome = true ∧
    (Trainer.CheckBest cfg t a).BestGenome.Fitness ≥ (t.Memory a).Fitness ∧
    (t.bHasBestGenome = true →
      (Trainer.CheckBest cfg t a).BestGenome.Fitness ≥ t.BestGenome.Fitness) := by
  unfold Trainer.CheckBest
  by_cases hb : t.bHasBestGenome = true
  · by_cases hgt : (t.Memory a).Fitness > t.BestGenome.Fitness
    · rw [if_pos (by simp [hgt])]
      exact ⟨rfl, rfl, rfl, rfl, le_refl _, fun _ => le_of_lt hgt⟩
    · rw [if_neg (by simp [hb, hgt])]
      exact ⟨rfl, rfl, rfl, hb, not_lt.1 hgt, fun _ => le_refl _⟩
  · rw [if_pos (by simp [hb])]
    exact ⟨rfl, rfl, rfl, rfl, le_refl _, fun h => absurd h hb⟩

/-- The loop `Check for new best genome`: afterwards the remembered fitness is
    at least the one before and at least that of every genome of the loop. -/
theorem foldl_CheckBest (cfg : Config) :
    ∀ (L : List Nat) (t : Trainer),
      (L.foldl (Trainer.CheckBest cfg) t).Memory = t.Memory ∧
      (L.foldl (Trainer.CheckBest cfg) t).Population = t.Population ∧
      (L.foldl (Trainer.CheckBest cfg) t).Species = t.Species ∧
      (t.bHasBestGenome = true →
        (L.foldl (Trainer.CheckBest cfg) t).bHasBestGenome = true ∧
        (L.foldl (Trainer.CheckBest cfg) t).BestGenome.Fitness ≥ t.BestGenome.Fitness) ∧
      ∀ a ∈ L, (L.foldl (Trainer.CheckBest cfg) t).bHasBestGenome = true ∧
        (L.foldl (Trainer.CheckBest cfg) t).BestGenome.Fitness ≥ (t.Memory a).Fitness := by
  intro L
  induction L with
  | nil => intro t; exact ⟨rfl, rfl, rfl, fun h => ⟨h, le_refl _⟩, fun a ha => by cases ha⟩
  | cons x rest ih =>
    intro t
    rw [List.foldl_cons]
    obtain ⟨s1, s2, s3, s4, s5, s6⟩ := CheckBest_step cfg t x
    obtain ⟨i1, i2, i3, i4, i5⟩ := ih (Trainer.CheckBest cfg t x)
    refine ⟨i1.trans s1, i2.trans s2, i3.trans s3, ?_, ?_⟩
    · intro hb
      exact ⟨(i4 s4).1, le_trans (s6 hb) (i4 s4).2⟩
    · intro a ha
      rcases List.mem_cons.1 ha with h | h
      · rw [h]
        exact ⟨(i4 s4).1, le_trans s5 (i4 s4).2⟩
      · have := i5 a h
        rw [s1] at this
        exact this

/-- `EvaluateGenomes` returns for `NumThreads ≥ 1`, and leaves the population,
    the remembered genome and its flag as they are. -/
theorem EvaluateGenomes_ok (Evaluate : Genome → ℚ) (cfg : Config) (t : Trainer)
    (hT : 1 ≤ cfg.NumThreads) :
    ∃ t1, Trainer.EvaluateGenomes Evaluate cfg t = Except.ok t1 ∧
      t1.Population = t.Population ∧ t1.bHasBestGenome = t.bHasBestGenome ∧
      t1.BestGenome = t.BestGenome := by
  have hT0 : cfg.NumThreads ≠ 0 := by omega
  have hframe : ∀ (Indices : List Nat) (t : Trainer),
      (Indices.foldl (Trainer.EvaluateAt Evaluate) t).Population = t.Population ∧
      (Indices.foldl (Trainer.EvaluateAt Evaluate) t).bHasBestGenome = t.bHasBestGenome ∧
      (Indices.foldl (Trainer.EvaluateAt Evaluate) t).BestGenome = t.BestGenome := by
    intro Indices
    induction Indices with
    | nil => intro t; exact ⟨rfl, rfl, rfl⟩
    | cons i rest ih => intro t; rw [List.foldl_cons]; exact ih _
  unfold Trainer.EvaluateGenomes
  split_ifs with hm
  · rw [foldlM_threads Evaluate cfg hT0]
    exact ⟨_, rfl, hframe _ t⟩
  · unfold Trainer.EvaluatePopulationThread
    rw [if_neg hT0]
    exact ⟨_, rfl, hframe _ t⟩

/-- The claim C34. `EvaluatePopulation` returns for `NumThreads ≥ 1`; the
    fitness of the remembered best genome is afterwards at least what it was, if
    one was remembered, and at least the fitness of every genome of the
    population; and `BestGenome` is an object of its own, so `Genotype::Mutate`
    on the genome behind any pointer leaves it as it is. Fitnesses are
    rationals. -/
theorem EvaluatePopulation_best (Evaluate : Genome → ℚ) (cfg : Config) (t : Trainer)
    (hT : 1 ≤ cfg.NumThreads) :
    ∃ t2, Trainer.EvaluatePopulation Evaluate cfg t = Except.ok t2 ∧
      (t.bHasBestGenome = true →
        t2.bHasBestGenome = true ∧ t2.BestGenome.Fitness ≥ t.BestGenome.Fitness) ∧
      (∀ a ∈ t2.Population,
        t2.bHasBestGenome = true ∧ t2.BestGenome.Fitness ≥ (t2.Memory a).Fitness) ∧
      ∀ (RAND_MAX a : Nat) (Innovations : InnovationTracker) (Rand : List Nat) (t3 : Trainer)
        (Innovations3 : InnovationTracker) (Rand3 : List Nat),
        Trainer.MutateGenome RAND_MAX cfg t2 a Innovations Rand =
          Except.ok (t3, Innovations3, Rand3) →
        t3.BestGenome = t2.BestGenome ∧ t3.BestGenome.Genotype = t2.BestGenome.Genotype ∧
        t3.BestGenome.Fitness = t2.BestGenome.Fitness := by
  obtain ⟨t1, h1, hp, hb, hg⟩ := EvaluateGenomes_ok Evaluate cfg t hT
  obtain ⟨f1, f2, _, f4, f5⟩ := foldl_CheckBest cfg t1.Population t1
  unfold Trainer.EvaluatePopulation
  rw [h1]
  refine ⟨_, rfl, ?_, ?_, ?_⟩
  · intro hbest
    rw [← hb] at hbest
    have := f4 hbest
    rw [hg] at this
    exact this
  · intro a ha
    have ha1 : a ∈ t1.Population := by
      rw [← f2]
      exact ha
    have := f5 a ha1
    rw [← f1] at this
    exact this
  · intro RAND_MAX a Innovations Rand t3 Innovations3 Rand3 hmut
    unfold Trainer.MutateGenome at hmut
    split at hmut
    · cases hmut
    · injection hmut with hmut
      injection hmut with hmut _
      rw [← hmut]
      exact ⟨rfl, rfl, rfl⟩

theorem EvaluatePopulation_best_witness :
    ∃ t2, Trainer.EvaluatePopulation sampleEvaluate {} fiveTrainer = Except.ok t2 ∧
      t2.bHasBestGenome = true ∧
      ∀ a ∈ fiveTrainer.Population, t2.BestGenome.Fitness ≥ (t2.Memory a).Fitness := by
  obtain ⟨t2, h1, _, h3, _⟩ := EvaluatePopulation_best sampleEvaluate {} fiveTrainer (by decide)
  have hp : t2.Population = fiveTrainer.Population := by
    obtain ⟨t1, e1, hp1, _, _⟩ := EvaluateGenomes_ok sampleEvaluate {} fiveTrainer (by decide)
    unfold Trainer.EvaluatePopulation at h1
    rw [e1] at h1
    injection h1 with h1
    rw [← h1]
    exact (foldl_CheckBest {} t1.Population t1).2.1.trans hp1
  refine ⟨t2, h1, (h3 0 (by rw [hp]; decide)).1, fun a ha => (h3 a (by rw [hp]; exact ha)).2⟩

/-! ### The network and the `Enabled` flag of a connection -/

theorem AddEdge_congr (Network : NeuralNetwork) (a b : Nat × ConnectionGene)
    (h : NeuralNetwork.SameEdge a b) :
    NeuralNetwork.AddEdge Network a = NeuralNetwork.AddEdge Network b := by
  unfold NeuralNetwork.AddEdge
  rw [h.1, h.2.1, h.2.2]

theorem AddEdge_foldlM_congr :
    ∀ (l1 l2 : List (Nat × ConnectionGene)), List.Forall₂ NeuralNetwork.SameEdge l1 l2 →
      ∀ Network : NeuralNetwork,
        l1.foldlM NeuralNetwork.AddEdge Network = l2.foldlM NeuralNetwork.AddEdge Network := by
  intro l1 l2 h
  induction h with
  | nil => intro Network; rfl
  | cons hab _ ih =>
    intro Network
    rw [List.foldlM_cons, List.foldlM_cons, AddEdge_congr Network _ _ hab]
    cases NeuralNetwork.AddEdge Network _ with
    | error e => rfl
    | ok N => exact ih N

theorem AddEdge_foldlM_length :
    ∀ (l : List (Nat × ConnectionGene)) (Network Network2 : NeuralNetwork),
      l.foldlM NeuralNetwork.AddEdge Network = Except.ok Network2 →
      Network2.Connections.length = Network.Connections.length + l.length := by
  intro l
  induction l with
  | nil =>
    intro Network Network2 h
    injection h with h
    rw [h]; rfl
  | cons e t ih =>
    intro Network Network2 h
    rw [List.foldlM_cons] at h
    cases h1 : NeuralNetwork.AddEdge Network e with
    | error f => rw [h1] at h; cases h
    | ok N =>
      rw [h1] at h
      have hN : N.Connections.length = Network.Connections.length + 1 := by
        unfold NeuralNetwork.AddEdge at h1
        simp only [bind, Except.bind] at h1
        split at h1
        · cases h1
        · injection h1 with h1
          rw [← h1]
          simp
      rw [ih N Network2 h, hN, List.length_cons]
      omega

/-- Storing a gene under a key the map holds changes that one entry. -/
theorem insertEntry_pointwise (R : Nat × ConnectionGene → Nat × ConnectionGene → Prop)
    (hrefl : ∀ e, R e e) (k : Nat) (v c : ConnectionGene) (hR : R (k, v) (k, c)) :
    ∀ l : List (Nat × ConnectionGene), l.Pairwise (fun a b => a.1 < b.1) →
      lookupEntry k l = some c → List.Forall₂ R (insertEntry k v l) l := by
  have hreflL : ∀ l : List (Nat × ConnectionGene), List.Forall₂ R l l := by
    intro l
    induction l with
    | nil => exact List.Forall₂.nil
    | cons e t ih => exact List.Forall₂.cons (hrefl e) ih
  intro l
  induction l with
  | nil => intro _ h; cases h
  | cons e t ih =>
    intro hasc hfind
    rw [List.pairwise_cons] at hasc
    unfold lookupEntry at hfind
    unfold insertEntry
    by_cases hek : e.1 = k
    · rw [if_pos hek] at hfind
      rw [if_neg (by omega), if_pos hek]
      have he : e = (k, c) := by
        obtain ⟨a, b⟩ := e
        injection hfind with hfind
        simp only at hek hfind
        rw [hek, hfind]
      rw [he]
      exact List.Forall₂.cons hR (hreflL t)
    · rw [if_neg hek] at hfind
      have hmem : (k, c) ∈ t := mem_of_lookupEntry t k c hfind
      have hlt : e.1 < k := hasc.1 (k, c) hmem
      rw [if_neg (by omega), if_neg hek]
      exact List.Forall₂.cons (hrefl e) (ih hasc.2 hfind)

/-- The network of a genome does not depend on the `Enabled` flag of a
    connection. -/
theorem SetConnectionEnabled_network (G : Genome) (k : Nat) (c : ConnectionGene) (Value : Bool)
    (hc : G.Genotype.Connections.Find k = some c) :
    NeuralNetwork.New (G.SetConnectionEnabled k Value).Copy = NeuralNetwork.New G.Copy ∧
    (G.SetConnectionEnabled k Value).CreateNeuralNetwork = G.CreateNeuralNetwork := by
  have hnew : NeuralNetwork.New (G.SetConnectionEnabled k Value).Copy =
      NeuralNetwork.New G.Copy := by
    unfold NeuralNetwork.New
    have hN : NeuralNetwork.Neurons (G.SetConnectionEnabled k Value).Copy =
        NeuralNetwork.Neurons G.Copy := rfl
    rw [hN]
    apply AddEdge_foldlM_congr
    show List.Forall₂ NeuralNetwork.SameEdge
      (insertEntry k { G.Genotype.Connections.At k {} with Enabled := Value }
        G.Genotype.Connections.entries) G.Genotype.Connections.entries
    rw [At_of_Find _ _ c {} hc]
    exact insertEntry_pointwise NeuralNetwork.SameEdge (fun e => ⟨rfl, rfl, rfl⟩) k
      { c with Enabled := Value } c ⟨rfl, rfl, rfl⟩ _ G.Genotype.Connections.ascending hc
  refine ⟨hnew, ?_⟩
  unfold Genome.CreateNeuralNetwork
  rw [hnew]
  rfl

/-- The claim C37. The network `CreateNeuralNetwork` builds holds one edge per
    connection gene, whatever the `Enabled` flags; the genome with the `Enabled`
    flag of one connection set to either value gives the same network and so the
    same result of `Evaluate` on every input; and so does the genotype
    `MutateToggleConnection` leaves. -/
theorem Enabled_ignored (Transfer : List ℚ → EAggregation → EActivation → Option ℚ)
    (G : Genome) :
    (∀ Network, G.CreateNeuralNetwork = Except.ok (some Network) →
      Network.Connections.length = G.Genotype.Connections.Num) ∧
    (∀ (k : Nat) (c : ConnectionGene) (Value : Bool),
      G.Genotype.Connections.Find k = some c →
      (G.SetConnectionEnabled k Value).Genotype.Connections.Find k =
        some { c with Enabled := Value } ∧
      (G.SetConnectionEnabled k Value).CreateNeuralNetwork = G.CreateNeuralNetwork ∧
      ∀ Network Network2 Inputs, G.CreateNeuralNetwork = Except.ok (some Network) →
        (G.SetConnectionEnabled k Value).CreateNeuralNetwork = Except.ok (some Network2) →
        Network2.Evaluate Transfer Inputs = Network.Evaluate Transfer Inputs) ∧
    (∀ (cfg : Config) (w w2 : World) (ret : Bool), w.This = G.Genotype →
      Genotype.MutateToggleConnection cfg w = Except.ok (ret, w2) →
      ({ G with Genotype := w2.This } : Genome).CreateNeuralNetwork = G.CreateNeuralNetwork) := by
  refine ⟨?_, ?_, ?_⟩
  · intro Network h
    unfold Genome.CreateNeuralNetwork at h
    split at h
    · cases h
    · split at h
      · rename_i N hN
        injection h with h
        injection h with h
        rw [← h]
        unfold NeuralNetwork.New at hN
        rw [AddEdge_foldlM_length _ _ _ hN]
        simp [NeuralNetwork.Neurons, TMap.Num, Genome.Copy]
      · cases h
  · intro k c Value hc
    refine ⟨?_, (SetConnectionEnabled_network G k c Value hc).2, ?_⟩
    · show TMap.Find (G.Genotype.Connections.Add k _) k = _
      rw [TMap.Find_Add_self, At_of_Find _ _ c {} hc]
    · intro Network Network2 Inputs h1 h2
      rw [(SetConnectionEnabled_network G k c Value hc).2, h1] at h2
      injection h2 with h2
      injection h2 with h2
      rw [h2]
  · intro cfg w w2 ret hw h
    unfold Genotype.MutateToggleConnection at h
    split_ifs at h with hempty
    · injection h with h
      injection h with _ h
      rw [← h, hw]
    · cases hpick : RandomElement w.This.Connections.GetKeys w.Rand with
      | error f => rw [hpick] at h; cases h
      | ok p =>
        obtain ⟨ConnectionID, rest⟩ := p
        rw [hpick] at h
        injection h with h
        injection h with _ h
        have hmem := (RandomElement_ok _ _ _ _ hpick).1
        obtain ⟨c, hc⟩ := (TMap.mem_GetKeys_iff _ _).1 hmem
        rw [hw] at hc
        rw [← h]
        have e : ({ G with Genotype :=
            { w.This with
              Connections := w.This.Connections.Add ConnectionID
                { w.This.Connections.At ConnectionID {} with
                  Enabled := !(w.This.Connections.At ConnectionID {}).Enabled } } } : Genome) =
            G.SetConnectionEnabled ConnectionID
              (!(G.Genotype.Connections.At ConnectionID {}).Enabled) := by
          rw [hw]
          rfl
        show Genome.CreateNeuralNetwork _ = _
        rw [e]
        exact (SetConnectionEnabled_network G ConnectionID c _ hc).2

theorem Enabled_ignored_witness :
    ∃ Network,
      twoInputGenome.CreateNeuralNetwork = Except.ok (some Network) ∧
      Network.Connections.length = twoInputGenome.Genotype.Connections.Num ∧
      ∀ (k : Nat) (c : ConnectionGene), twoInputGenome.Genotype.Connections.Find k = some c →
        (twoInputGenome.SetConnectionEnabled k false).CreateNeuralNetwork =
          Except.ok (some Network) := by
  have h := Enabled_ignored sampleTransfer twoInputGenome
  have hnet : ∃ Network, twoInputGenome.CreateNeuralNetwork = Except.ok (some Network) :=
    ⟨_, rfl⟩
  obtain ⟨Network, hN⟩ := hnet
  refine ⟨Network, hN, h.1 Network hN, fun k c hc => ?_⟩
  rw [(h.2.1 k c false hc).2.1, hN]

/-! ### The reproduction counts: termination -/

theorem RoundRobinPass_ge (m : Int) :
    ∀ (L : List Species) (R : Int), (∀ s ∈ L, m ≤ s.DesiredPopulationSize) →
      ∀ s ∈ (Exact.RoundRobinPass L R).1, m ≤ s.DesiredPopulationSize := by
  intro L
  induction L with
  | nil => intro R _ s hs; cases hs
  | cons x t ih =>
    intro R hL s hs
    unfold Exact.RoundRobinPass at hs
    split_ifs at hs with h0
    · exact hL s hs
    · rcases List.mem_cons.1 hs with h | h
      · rw [h]
        have := hL x (List.mem_cons_self _ _)
        show m ≤ x.DesiredPopulationSize + 1
        omega
      · exact ih (R - 1) (fun s hs => hL s (List.mem_cons_of_mem _ hs)) s h

theorem RoundRobin_ge (m : Int) :
    ∀ (fuel : Nat) (L : List Species) (R : Int) (L2 : List Species) (flag : Bool),
      Exact.RoundRobin fuel L R = Except.ok (L2, flag) →
      (∀ s ∈ L, m ≤ s.DesiredPopulationSize) → ∀ s ∈ L2, m ≤ s.DesiredPopulationSize := by
  intro fuel
  induction fuel with
  | zero => intro L R L2 flag h; cases h
  | succ fuel ih =>
    intro L R L2 flag h hL
    unfold Exact.RoundRobin at h
    by_cases hR : R > 0
    · rw [if_pos hR] at h
      dsimp only at h
      by_cases hflag : (Exact.RoundRobinPass L R).2.2 = true
      · rw [if_pos hflag] at h
        injection h with h
        injection h with h _
        rw [← h]
        exact RoundRobinPass_ge m L R hL
      · rw [if_neg hflag] at h
        exact ih _ _ L2 flag h (RoundRobinPass_ge m L R hL)
    · rw [if_neg hR] at h
      injection h with h
      injection h with h _
      rw [← h]
      exact hL

theorem Shrink_ge (cfg : Config) :
    ∀ (fuel : Nat) (L : List Species) (SWE : List Nat) (idx N : Int) (L2 : List Species),
      Exact.Shrink cfg fuel L SWE idx N = Except.ok L2 →
      (∀ i, i < L.length → (cfg.MinSpeciesSize : Int) ≤ (L.getD i {}).DesiredPopulationSize) →
      L2.length = L.length ∧
      ∀ i, i < L2.length → (cfg.MinSpeciesSize : Int) ≤ (L2.getD i {}).DesiredPopulationSize := by
  intro fuel
  induction fuel with
  | zero => intro L SWE idx N L2 h; cases h
  | succ fuel ih =>
    intro L SWE idx N L2 h hL
    unfold Exact.Shrink at h
    by_cases hgt : toUInt64 N > cfg.PopulationSize
    · rw [if_pos hgt] at h
      by_cases hvalid : 0 ≤ idx ∧ idx < (SWE.length : Int)
      · rw [if_neg (not_not.2 hvalid)] at h
        dsimp only at h
        by_cases hle : (L.getD (SWE.getD idx.toNat 0) {}).DesiredPopulationSize ≤
            (cfg.MinSpeciesSize : Int)
        · rw [if_pos hle] at h
          exact ih _ _ _ _ _ h hL
        · rw [if_neg hle] at h
          have key := ih _ _ _ _ _ h (by
            intro i hi
            rw [List.length_modify] at hi
            rw [getD_modify_Desired]
            split_ifs with hc
            · rw [hc.1]
              show (cfg.MinSpeciesSize : Int) ≤
                (L.getD (SWE.getD idx.toNat 0) {}).DesiredPopulationSize - 1
              omega
            · exact hL i hi)
          rw [List.length_modify] at key
          exact key
      · rw [if_pos hvalid] at h
        by_cases hzero : SWE.length = 0
        · rw [if_pos hzero] at h
          cases h
        · rw [if_neg hzero] at h
          exact ih _ _ _ _ _ h hL
    · rw [if_neg hgt] at h
      injection h with h
      rw [← h]
      exact ⟨rfl, hL⟩

theorem forall_getD_of_mem (L : List Species) (m : Int)
    (h : ∀ s ∈ L, m ≤ s.DesiredPopulationSize) :
    ∀ i, i < L.length → m ≤ (L.getD i {}).DesiredPopulationSize := by
  intro i hi
  rw [List.getD_eq_getElem _ _ hi]
  exact h _ (List.getElem_mem hi)

theorem forall_mem_of_getD (L : List Species) (m : Int)
    (h : ∀ i, i < L.length → m ≤ (L.getD i {}).DesiredPopulationSize) :
    ∀ s ∈ L, m ≤ s.DesiredPopulationSize := by
  intro s hs
  obtain ⟨i, hi, e⟩ := List.mem_iff_getElem.1 hs
  have := h i hi
  rw [List.getD_eq_getElem _ _ hi, e] at this
  exact this

/-- On unbounded integers: the function returns on every non-empty species
    list, neither loop runs out of fuel, the remainder modulo an empty
    `SpeciesWithExcess` is never taken, and afterwards every
    `DesiredPopulationSize` is at least `MinSpeciesSize`. -/
theorem Method3_exact_terminates (cfg : Config) (L : List Species) (hne : L ≠ [])
    (hP : cfg.PopulationSize < 2 ^ 64) (hnm : L.length * cfg.MinSpeciesSize < 2 ^ 31) :
    ∃ L2, Exact.UpdateReproductionCounts_Method3 cfg L = Except.ok L2 ∧
      L2.length = L.length ∧
      ∀ s ∈ L2, (cfg.MinSpeciesSize : Int) ≤ s.DesiredPopulationSize := by
  have hnmZ : (L.length : Int) * (cfg.MinSpeciesSize : Int) < 2 ^ 31 := by exact_mod_cast hnm
  have hnm0 : (0 : Int) ≤ (L.length : Int) * (cfg.MinSpeciesSize : Int) :=
    mul_nonneg (Int.ofNat_nonneg _) (Int.ofNat_nonneg _)
  have hPZ : (cfg.PopulationSize : Int) < 2 ^ 64 := by exact_mod_cast hP
  have hempty : L.isEmpty = false := by
    cases L with
    | nil => exact absurd rfl hne
    | cons x t => rfl
  unfold Exact.UpdateReproductionCounts_Method3
  rw [hempty]
  simp only [Bool.false_eq_true, if_false]
  by_cases hguard : toUInt64 ((L.length : Int) * (cfg.MinSpeciesSize : Int)) > cfg.PopulationSize
  · rw [if_pos hguard]
    refine ⟨_, rfl, by simp, ?_⟩
    intro s hs
    obtain ⟨s0, _, e⟩ := List.mem_map.1 hs
    rw [← e]
  rw [if_neg hguard]
  have hminZ : (L.length : Int) * (cfg.MinSpeciesSize : Int) ≤ (cfg.PopulationSize : Int) := by
    rw [toUInt64_of_nonneg _ hnm0 (by omega)] at hguard
    omega
  obtain ⟨hlen1, hnn⟩ := ShiftAdjustedFitness_nonneg L
  obtain ⟨hlen2, hge, hsum⟩ := Quotas_bounds cfg (Trainer.ShiftAdjustedFitness L) hnn
  rw [hlen1] at hlen2 hsum
  have hS2ne : Exact.Quotas cfg (Trainer.ShiftAdjustedFitness L) ≠ [] := by
    intro h
    rw [h] at hlen2
    exact hne (List.length_eq_zero.1 hlen2.symm)
  have hsum0 : 0 ≤ ((Exact.Quotas cfg (Trainer.ShiftAdjustedFitness L)).map
      (fun s => s.DesiredPopulationSize)).sum := by
    apply List.sum_nonneg
    intro x hx
    obtain ⟨s, hs, e⟩ := List.mem_map.1 hx
    rw [← e]
    exact le_trans (Int.ofNat_nonneg _) (hge s hs)
  simp only [TotalDesired_eq]
  generalize hS2 : Exact.Quotas cfg (Trainer.ShiftAdjustedFitness L) = S2 at *
  generalize hTot : (S2.map (fun s => s.DesiredPopulationSize)).sum = Tot at *
  by_cases hle : Tot ≤ (cfg.PopulationSize : Int)
  · have hR : 0 ≤ Math.MaxInt (toInt32 ((cfg.PopulationSize : Int) - Tot)) 0 ∧
        Math.MaxInt (toInt32 ((cfg.PopulationSize : Int) - Tot)) 0 ≤
          (cfg.PopulationSize : Int) - Tot := by
      unfold Math.MaxInt toInt32
      split_ifs with h <;> omega
    generalize Math.MaxInt (toInt32 ((cfg.PopulationSize : Int) - Tot)) 0 = R at hR ⊢
    obtain ⟨L3, flag, hrr, hsum3, hlen3⟩ :=
      RoundRobin_spec (R.toNat + 1) S2 R hS2ne hR.1 (Nat.lt_succ_self _)
    have hge3 := RoundRobin_ge (cfg.MinSpeciesSize : Int) _ _ _ _ _ hrr hge
    rw [hrr]
    rw [hTot] at hsum3
    cases flag with
    | true => exact ⟨L3, rfl, by rw [hlen3, hlen2], hge3⟩
    | false =>
      refine ⟨L3, ?_, by rw [hlen3, hlen2], hge3⟩
      simp only [hsum3]
      rw [if_pos]
      rw [toUInt64_of_nonneg _ (by omega) (by omega)]
      omega
  · have hR : Math.MaxInt (toInt32 ((cfg.PopulationSize : Int) - Tot)) 0 = 0 := by
      unfold Math.MaxInt toInt32
      split_ifs with h
      · omega
      · rfl
    rw [hR]
    have hrr : Exact.RoundRobin ((0 : Int).toNat + 1) S2 0 = Except.ok (S2, false) := by
      show (if (0 : Int) > 0 then _ else _) = _
      rw [if_neg (by decide)]
    rw [hrr]
    simp only [hTot]
    by_cases hbig : toUInt64 Tot ≤ cfg.PopulationSize
    · rw [if_pos hbig]
      exact ⟨S2, rfl, hlen2, hge⟩
    rw [if_neg hbig]
    have hT64 : Tot < 2 ^ 64 := by
      unfold toUInt64 at hbig
      omega
    have hswe : ((List.range S2.length).filter (fun i => decide
        ((S2.getD i {}).DesiredPopulationSize > (cfg.MinSpeciesSize : Int)))).isEmpty = false := by
      cases hf : (List.range S2.length).filter (fun i => decide
        ((S2.getD i {}).DesiredPopulationSize > (cfg.MinSpeciesSize : Int))) with
      | cons a t => rfl
      | nil =>
        exfalso
        have hall : ∀ i, i < S2.length →
            (S2.getD i {}).DesiredPopulationSize ≤ (cfg.MinSpeciesSize : Int) := by
          intro i hi
          by_contra hgt
          have hmem : i ∈ (List.range S2.length).filter (fun i => decide
              ((S2.getD i {}).DesiredPopulationSize > (cfg.MinSpeciesSize : Int))) :=
            List.mem_filter.2 ⟨List.mem_range.2 hi, decide_eq_true (not_le.1 hgt)⟩
          rw [hf] at hmem
          cases hmem
        have := sum_le_of_all_le (cfg.MinSpeciesSize : Int) S2 hall
        rw [hTot, hlen2] at this
        omega
    rw [hswe]
    simp only [Bool.false_eq_true, if_false]
    have hexc : (Tot - (cfg.PopulationSize : Int)).toNat ≤ Trainer.Excess cfg S2 := by
      have := sum_le_Excess cfg S2
      rw [hTot, hlen2] at this
      omega
    obtain ⟨L2, hsh, _, hlenP⟩ := Shrink_spec cfg
      (2 * (((List.range S2.length).filter (fun i => decide
        ((S2.getD i {}).DesiredPopulationSize > (cfg.MinSpeciesSize : Int)))).length +
          Trainer.Excess cfg S2) + 2)
      S2 ((List.range S2.length).filter (fun i => decide
        ((S2.getD i {}).DesiredPopulationSize > (cfg.MinSpeciesSize : Int)))) 0 Tot hTot.symm
      ((List.nodup_range _).filter _)
      (fun i hi => List.mem_range.1 (List.mem_filter.1 hi).1)
      (fun i hi hni => by
        by_contra hgt
        exact hni (List.mem_filter.2 ⟨List.mem_range.2 hi, decide_eq_true (not_le.1 hgt)⟩))
      (by rw [hlen2]; exact hminZ)
      (Or.inr ⟨le_refl _, by
        cases hf : (List.range S2.length).filter (fun i => decide
          ((S2.getD i {}).DesiredPopulationSize > (cfg.MinSpeciesSize : Int))) with
        | nil => rw [hf] at hswe; cases hswe
        | cons a t => simp⟩)
      (by omega) hT64
      (by rw [if_neg (by decide)]; omega)
    have hgeP := Shrink_ge cfg _ _ _ _ _ _ hsh (forall_getD_of_mem S2 _ hge)
    exact ⟨L2, hsh, by rw [hlenP, hlen2], forall_mem_of_getD L2 _ hgeP.2⟩

/-! ### The rejection loops of `MutateAddConnection` -/

theorem StreamFrom_succ (Stream : Nat → Nat) (p len : Nat) :
    StreamFrom Stream p (len + 1) = Stream p :: StreamFrom Stream (p + 1) len := by
  unfold StreamFrom
  rw [List.range'_succ, List.map_cons]

/-- A rejection loop over nodes that are all of the rejected type uses up every
    finite supply of draws. -/
theorem PickNode_never (Nodes : TMap NodeGene) (NodesIDs : List Nat) (Rejected : ENodeType)
    (hne : NodesIDs ≠ [])
    (hall : ∀ x ∈ NodesIDs, (Nodes.At x {}).NodeType = Rejected) :
    ∀ Rand : List Nat, PickNode Nodes NodesIDs Rejected Rand = Except.error Fault.OutOfDraws := by
  intro Rand
  induction Rand with
  | nil => rfl
  | cons r rest ih =>
    unfold PickNode
    rw [if_neg (fun h => hne (List.length_eq_zero.1 h)),
      if_pos (hall _ (getD_mod_mem NodesIDs r hne))]
    exact ih

/-- A rejection loop does not fault other than by using up the draws. -/
theorem PickNode_fault (Nodes : TMap NodeGene) (NodesIDs : List Nat) (Rejected : ENodeType)
    (hne : NodesIDs ≠ []) :
    ∀ (Rand : List Nat) (f : Fault),
      PickNode Nodes NodesIDs Rejected Rand = Except.error f → f = Fault.OutOfDraws := by
  intro Rand
  induction Rand with
  | nil => intro f h; injection h with h; exact h.symm
  | cons r rest ih =>
    intro f h
    unfold PickNode at h
    rw [if_neg (fun h => hne (List.length_eq_zero.1 h))] at h
    split_ifs at h with hrej
    exact ih f h

/-- A rejection loop on an unending sequence of draws ends at the latest at a
    draw of a node that is not rejected. -/
theorem PickNode_stream (Nodes : TMap NodeGene) (NodesIDs : List Nat) (Rejected : ENodeType)
    (Stream : Nat → Nat) (hne : NodesIDs ≠ []) :
    ∀ (d p len : Nat),
      (Nodes.At (NodesIDs.getD (Stream (p + d) % NodesIDs.length) 0) {}).NodeType ≠ Rejected →
      d < len →
      ∃ x p2, PickNode Nodes NodesIDs Rejected (StreamFrom Stream p len) =
          Except.ok (x, StreamFrom Stream p2 (p + len - p2)) ∧
        p < p2 ∧ p2 ≤ p + d + 1 := by
  have hstep : ∀ (r : Nat) (rest : List Nat),
      PickNode Nodes NodesIDs Rejected (r :: rest) =
        if (Nodes.At (NodesIDs.getD (r % NodesIDs.length) 0) {}).NodeType = Rejected then
          PickNode Nodes NodesIDs Rejected rest
        else Except.ok (NodesIDs.getD (r % NodesIDs.length) 0, rest) := by
    intro r rest
    show (if NodesIDs.length = 0 then _ else _) = _
    rw [if_neg (fun h => hne (List.length_eq_zero.1 h))]
  intro d
  induction d with
  | zero =>
    intro p len hacc hlen
    rw [Nat.add_zero] at hacc
    obtain ⟨len2, rfl⟩ : ∃ len2, len = len2 + 1 := ⟨len - 1, by omega⟩
    rw [StreamFrom_succ, hstep, if_neg hacc]
    refine ⟨NodesIDs.getD (Stream p % NodesIDs.length) 0, p + 1, ?_, by omega, by omega⟩
    have e : p + (len2 + 1) - (p + 1) = len2 := by omega
    rw [e]
  | succ d ih =>
    intro p len hacc hlen
    obtain ⟨len2, rfl⟩ : ∃ len2, len = len2 + 1 := ⟨len - 1, by omega⟩
    rw [StreamFrom_succ, hstep]
    by_cases hrej : (Nodes.At (NodesIDs.getD (Stream p % NodesIDs.length) 0) {}).NodeType =
        Rejected
    · rw [if_pos hrej]
      have hacc2 : (Nodes.At (NodesIDs.getD (Stream (p + 1 + d) % NodesIDs.length) 0)
          {}).NodeType ≠ Rejected := by
        have e : p + 1 + d = p + (d + 1) := by omega
        rw [e]
        exact hacc
      obtain ⟨x, p2, h1, h2, h3⟩ := ih (p + 1) len2 hacc2 (by omega)
      refine ⟨x, p2, ?_, by omega, by omega⟩
      rw [h1]
      have e : p + 1 + len2 - p2 = p + (len2 + 1) - p2 := by omega
      rw [e]
    · rw [if_neg hrej]
      refine ⟨NodesIDs.getD (Stream p % NodesIDs.length) 0, p + 1, ?_, by omega, by omega⟩
      have e : p + (len2 + 1) - (p + 1) = len2 := by omega
      rw [e]

/-- A node of another type than the rejected one sits at some position of the
    key array. -/
theorem accepted_index (Nodes : TMap NodeGene) (Rejected : ENodeType)
    (h : ∃ k n, Nodes.Find k = some n ∧ n.NodeType ≠ Rejected) :
    ∃ i, i < Nodes.GetKeys.length ∧
      (Nodes.At (Nodes.GetKeys.getD i 0) {}).NodeType ≠ Rejected := by
  obtain ⟨k, n, hk, hn⟩ := h
  have hmem : k ∈ Nodes.GetKeys := (TMap.mem_GetKeys_iff Nodes k).2 ⟨n, hk⟩
  obtain ⟨i, hi, e⟩ := List.mem_iff_getElem.1 hmem
  refine ⟨i, hi, ?_⟩
  rw [List.getD_eq_getElem _ _ hi, e, At_of_Find Nodes k n {} hk]
  exact hn

/-- The claim C38. On a genotype with at least one node, and with the draws an
    unending sequence that is fair over the node keys, `MutateAddConnection`
    returns, on every long enough part of the sequence, if the genotype holds a
    node that is not `Output` and a node that is not `Input`; if all its nodes
    are `Output`, or all are `Input`, a rejection loop never ends: the call uses
    up every finite supply of draws. -/
theorem MutateAddConnection_terminates (cfg : Config) (w : World)
    (hne : w.This.Nodes.GetKeys ≠ []) :
    ((∃ k n, w.This.Nodes.Find k = some n ∧ n.NodeType ≠ ENodeType.Output) →
      (∃ k n, w.This.Nodes.Find k = some n ∧ n.NodeType ≠ ENodeType.Input) →
      ∀ Stream, FairDraws w.This.Nodes.GetKeys.length Stream →
        ∃ N, ∀ M, N ≤ M → ∃ ret w2,
          Genotype.MutateAddConnection cfg { w with Rand := StreamFrom Stream 0 M } =
            Except.ok (ret, w2)) ∧
    ((∀ k n, w.This.Nodes.Find k = some n → n.NodeType = ENodeType.Output) ∨
      (∀ k n, w.This.Nodes.Find k = some n → n.NodeType = ENodeType.Input) →
      ∀ Rand, Genotype.MutateAddConnection cfg { w with Rand := Rand } =
        Except.error Fault.OutOfDraws) := by
  have hempty : w.This.Nodes.GetKeys.isEmpty = false := by
    cases h : w.This.Nodes.GetKeys with
    | nil => exact absurd h hne
    | cons x t => rfl
  constructor
  · intro hout hin Stream hfair
    obtain ⟨i1, hi1, hacc1⟩ := accepted_index w.This.Nodes ENodeType.Output hout
    obtain ⟨i2, hi2, hacc2⟩ := accepted_index w.This.Nodes ENodeType.Input hin
    obtain ⟨q1, _, hq1⟩ := hfair i1 hi1 0
    obtain ⟨q2, hq2le, hq2⟩ := hfair i2 hi2 (q1 + 1)
    refine ⟨q2 + 1, fun M hM => ?_⟩
    obtain ⟨x1, p1, hpick1, hp1a, hp1b⟩ := PickNode_stream w.This.Nodes w.This.Nodes.GetKeys
      ENodeType.Output Stream hne q1 0 M (by rw [Nat.zero_add, hq1]; exact hacc1) (by omega)
    have hd : p1 + (q2 - p1) = q2 := by omega
    obtain ⟨x2, p2, hpick2, _, _⟩ := PickNode_stream w.This.Nodes w.This.Nodes.GetKeys
      ENodeType.Input Stream hne (q2 - p1) p1 (0 + M - p1)
      (by rw [hd, hq2]; exact hacc2) (by omega)
    unfold Genotype.MutateAddConnection
    simp only [hempty, Bool.false_eq_true, if_false, hpick1, hpick2]
    split_ifs
    · exact ⟨_, _, rfl⟩
    · exact ⟨_, _, rfl⟩
  · intro hall Rand
    unfold Genotype.MutateAddConnection
    simp only [hempty, Bool.false_eq_true, if_false]
    have hAt : ∀ (T : ENodeType), (∀ k n, w.This.Nodes.Find k = some n → n.NodeType = T) →
        ∀ x ∈ w.This.Nodes.GetKeys, (w.This.Nodes.At x {}).NodeType = T := by
      intro T hT x hx
      obtain ⟨n, hn⟩ := (TMap.mem_GetKeys_iff _ _).1 hx
      rw [At_of_Find _ _ n {} hn]
      exact hT x n hn
    rcases hall with hO | hI
    · rw [PickNode_never _ _ _ hne (hAt _ hO) Rand]
    · cases h1 : PickNode w.This.Nodes w.This.Nodes.GetKeys ENodeType.Output Rand with
      | error f => rw [PickNode_fault _ _ _ hne Rand f h1]
      | ok r =>
        obtain ⟨x, rest⟩ := r
        simp only []
        rw [PickNode_never _ _ _ hne (hAt _ hI) rest]

theorem MutateAddConnection_terminates_witness :
    (∀ Rand, Genotype.MutateAddConnection {} { outputOnlyWorld with Rand := Rand } =
      Except.error Fault.OutOfDraws) ∧
    ∃ N, ∀ M, N ≤ M → ∃ ret w2,
      Genotype.MutateAddConnection {}
          (sampleWorld (StreamFrom (fun n => n) 0 M)) = Except.ok (ret, w2) := by
  refine ⟨(MutateAddConnection_terminates {} outputOnlyWorld (by decide)).2 (Or.inl ?_),
    (MutateAddConnection_terminates {} (sampleWorld []) (by decide)).1 ?_ ?_ (fun n => n) ?_⟩
  · intro k n hk
    have hkeys : k ∈ outputOnlyWorld.This.Nodes.GetKeys :=
      (TMap.mem_GetKeys_iff _ _).2 ⟨n, hk⟩
    have h01 : k = 0 ∨ k = 1 := by
      have : outputOnlyWorld.This.Nodes.GetKeys = [0, 1] := by decide
      rw [this] at hkeys
      simpa using hkeys
    rcases h01 with h | h
    · rw [h] at hk
      have e : outputOnlyWorld.This.Nodes.Find 0 =
          some { ID := 0, NodeType := ENodeType.Output } := by decide
      rw [e] at hk
      injection hk with hk
      rw [← hk]
    · rw [h] at hk
      have e : outputOnlyWorld.This.Nodes.Find 1 =
          some { ID := 1, NodeType := ENodeType.Output } := by decide
      rw [e] at hk
      injection hk with hk
      rw [← hk]
  · exact ⟨0, { ID := 0, NodeType := ENodeType.Input, Activation := EActivation.Linear },
      by decide, by decide⟩
  · exact ⟨1, { ID := 1, NodeType := ENodeType.Output }, by decide, by decide⟩
  · intro i hi p
    refine ⟨p * (sampleWorld []).This.Nodes.GetKeys.length + i, ?_, ?_⟩
    · have : 0 < (sampleWorld []).This.Nodes.GetKeys.length := by omega
      nlinarith
    · show (p * (sampleWorld []).This.Nodes.GetKeys.length + i) % _ = i
      rw [Nat.mul_add_mod_of_lt hi]

/-! ### Node ids and connection ids of one genome -/

theorem TMap.Contains_Add {V : Type} (m : TMap V) (k j : Nat) (v : V) :
    (m.Add k v).Contains j = true ↔ j = k ∨ m.Contains j = true := by
  unfold TMap.Contains
  rw [TMap.Find_Add]
  by_cases h : j = k
  · simp [h]
  · simp [h]

/-- One call of `GetInnovationID` with room for one more id. -/
theorem IdCall (Start c : Nat) (t : InnovationTracker) (q : Request)
    (hinv : RegistryInv Start c t) (hc : c < 2 ^ 64) :
    ∃ c2, c ≤ c2 ∧ c2 ≤ c + 1 ∧
      RegistryInv Start c2 (t.GetInnovationID q.1 q.2.1 q.2.2.1 q.2.2.2).2 ∧
      (∀ k r, t.Innovations.Find k = some r →
        (t.GetInnovationID q.1 q.2.1 q.2.2.1 q.2.2.2).2.Innovations.Find k = some r) ∧
      ∃ r, (t.GetInnovationID q.1 q.2.1 q.2.2.1 q.2.2.2).2.Innovations.Find
          (t.GetInnovationID q.1 q.2.1 q.2.2.1 q.2.2.2).1 = some r ∧ r.GeneType = q.2.1 := by
  obtain ⟨c2, hc2, hinv2, hmono, r, hr, _, htuple⟩ :=
    GetInnovationID_step Start c t q hinv (fun _ => hc)
  refine ⟨c2, ?_, ?_, hinv2, hmono, r, hr, ?_⟩
  · rcases hc2 with h | h
    · omega
    · omega
  · rcases hc2 with h | h
    · omega
    · omega
  · have := congrArg (fun x : Request => x.2.1) htuple
    exact this

theorem IdsSeparated_mono (Start : Nat) (t t2 : InnovationTracker) (g : Genotype)
    (hmono : ∀ k r, t.Innovations.Find k = some r → t2.Innovations.Find k = some r)
    (h : g.IdsSeparated Start t) : g.IdsSeparated Start t2 := by
  refine ⟨h.1, fun k hk hS => ?_, fun k hk => ?_⟩
  · obtain ⟨r, hr, hg⟩ := h.2.1 k hk hS
    exact ⟨r, hmono k r hr, hg⟩
  · obtain ⟨r, hr, hg⟩ := h.2.2 k hk
    exact ⟨r, hmono k r hr, hg⟩

theorem IdsKept_le (Start n m : Nat) (t : InnovationTracker) (g : Genotype) (hmn : m ≤ n)
    (h : g.IdsKept Start n t) : g.IdsKept Start m t := by
  obtain ⟨c, h1, h2, h3⟩ := h
  exact ⟨c, h1, by omega, h3⟩

/-- One registry call and, maybe, one connection stored under the id it
    returns. -/
theorem IdsKept_connection (Start n : Nat) (t : InnovationTracker) (g : Genotype) (q : Request)
    (hq : q.2.1 = EGeneType.Connection) (h : g.IdsKept Start (n + 1) t) :
    g.IdsKept Start n (t.GetInnovationID q.1 q.2.1 q.2.2.1 q.2.2.2).2 ∧
    ∀ v, Genotype.IdsKept Start n (t.GetInnovationID q.1 q.2.1 q.2.2.1 q.2.2.2).2
      { g with
        Connections :=
          g.Connections.Add (t.GetInnovationID q.1 q.2.1 q.2.2.1 q.2.2.2).1 v } := by
  obtain ⟨c, hinv, hroom, hsep⟩ := h
  obtain ⟨c2, _, hc2, hinv2, hmono, r, hr, hg⟩ := IdCall Start c t q hinv (by omega)
  have hsep2 := IdsSeparated_mono Start t _ g hmono hsep
  refine ⟨⟨c2, hinv2, by omega, hsep2⟩, fun v => ⟨c2, hinv2, by omega, hsep2.1, hsep2.2.1, ?_⟩⟩
  intro k hk
  rcases (TMap.Contains_Add _ _ _ _).1 hk with h | h
  · rw [h]
    exact ⟨r, hr, hg.trans hq⟩
  · exact hsep2.2.2 k h

theorem Connect_IdsKept (Start n : Nat) (a b : Nat) (G G2 : Genome) (t t2 : InnovationTracker)
    (h : InitialTopology.Connect a b (G, t) = Except.ok (G2, t2))
    (hk : G.Genotype.IdsKept Start (n + 1) t) :
    G2.Genotype.IdsKept Start n t2 := by
  unfold InitialTopology.Connect at h
  split at h
  · rename_i SourceNode TargetNode _ _
    obtain ⟨h1, h2⟩ := IdsKept_connection Start n t G.Genotype
      (EMutationType.AddConnection, EGeneType.Connection, SourceNode.ID, TargetNode.ID) rfl hk
    simp only at h
    split_ifs at h
    · injection h with h
      injection h with hG ht
      rw [← hG, ← ht]
      exact h1
    · injection h with h
      injection h with hG ht
      rw [← hG, ← ht]
      exact h2 _
  · cases h

theorem SparseConnect_IdsKept (RAND_MAX : Nat) (Probability : ℚ) (Start n : Nat) (a b : Nat)
    (s s2 : (Genome × InnovationTracker) × List Nat)
    (h : InitialTopology.SparseConnect RAND_MAX Probability a b s = Except.ok s2)
    (hk : s.1.1.Genotype.IdsKept Start (n + 1) s.1.2) :
    s2.1.1.Genotype.IdsKept Start n s2.1.2 := by
  unfold InitialTopology.SparseConnect at h
  split at h
  · cases h
  · split_ifs at h
    · injection h with h
      rw [← h]
      exact IdsKept_le Start _ _ _ _ (by omega) hk
    · split at h
      · cases h
      · rename_i s1 hs1
        injection h with h
        rw [← h]
        exact Connect_IdsKept Start n a b s.1.1 s1.1 s.1.2 s1.2 hs1 hk

/-- A loop whose body uses up at most `w` ids uses up at most `w` ids per
    element. -/
theorem foldlM_budget {σ α : Type} (f : σ → α → Except Fault σ) (P : Nat → σ → Prop) (w : Nat)
    (hstep : ∀ n s a s2, P (n + w) s → f s a = Except.ok s2 → P n s2) :
    ∀ (L : List α) (n : Nat) (s s2 : σ), P (n + w * L.length) s →
      L.foldlM f s = Except.ok s2 → P n s2 := by
  intro L
  induction L with
  | nil =>
    intro n s s2 hP h
    injection h with h
    rw [← h]
    simpa using hP
  | cons a t ih =>
    intro n s s2 hP h
    rw [List.foldlM_cons] at h
    cases hf : f s a with
    | error e => rw [hf] at h; cases h
    | ok s1 =>
      rw [hf] at h
      have e : n + w * (a :: t).length = (n + w * t.length) + w := by
        rw [List.length_cons, Nat.mul_succ]
        omega
      rw [e] at hP
      exact ih n s1 s2 (hstep _ s a s1 hP hf) h

theorem Connect_Nodes (a b : Nat) (G G2 : Genome) (t t2 : InnovationTracker)
    (h : InitialTopology.Connect a b (G, t) = Except.ok (G2, t2)) :
    G2.Genotype.Nodes = G.Genotype.Nodes := by
  unfold InitialTopology.Connect at h
  split at h
  · simp only at h
    split_ifs at h
    · injection h with h
      injection h with hG _
      rw [← hG]
    · injection h with h
      injection h with hG _
      rw [← hG]
  · cases h

theorem SparseConnect_Nodes (RAND_MAX : Nat) (Probability : ℚ) (a b : Nat)
    (s s2 : (Genome × InnovationTracker) × List Nat)
    (h : InitialTopology.SparseConnect RAND_MAX Probability a b s = Except.ok s2) :
    s2.1.1.Genotype.Nodes = s.1.1.Genotype.Nodes := by
  unfold InitialTopology.SparseConnect at h
  split at h
  · cases h
  · split_ifs at h
    · injection h with h
      rw [← h]
    · split at h
      · cases h
      · rename_i s1 hs1
        injection h with h
        rw [← h]
        exact Connect_Nodes a b s.1.1 s1.1 s.1.2 s1.2 hs1

/-- The two nests of loops of `Full`, `Sparse` and `Tree`, for a loop body `C`
    that uses up at most one id: first every `Idx` below `A` with every `Jdx`
    below `H1` and then with every `Jdx` below `O1`, then every `Idx` below `H`
    with every `Jdx` below `O`. -/
theorem loops_budget {σ : Type} (C : Nat → Nat → σ → Except Fault σ) (P : Nat → σ → Prop)
    (hC : ∀ a b n s s2, P (n + 1) s → C a b s = Except.ok s2 → P n s2)
    (g1 g2 g3 g4 : Nat → Nat) (A H1 O1 H O : Nat) (n : Nat) (s s2 : σ)
    (hP : P (n + (A * (H1 + O1) + H * O)) s)
    (h : (do
      let s1 ← (List.range A).foldlM
        (fun s Idx => do
          let s2 ← (List.range H1).foldlM (fun s Jdx => C Idx (g1 Jdx) s) s
          (List.range O1).foldlM (fun s Jdx => C Idx (g2 Jdx) s) s2)
        s
      (List.range H).foldlM
        (fun s Idx => (List.range O).foldlM (fun s Jdx => C (g3 Idx) (g4 Jdx) s) s)
        s1) = Except.ok s2) :
    P n s2 := by
  have hinner : ∀ (a : Nat) (g : Nat → Nat) (L : List Nat) (n : Nat) (s s2 : σ),
      P (n + L.length) s → L.foldlM (fun s Jdx => C a (g Jdx) s) s = Except.ok s2 → P n s2 := by
    intro a g L n s s2 hP h
    refine foldlM_budget (fun s Jdx => C a (g Jdx) s) P 1 ?_ L n s s2 (by rwa [Nat.one_mul]) h
    intro n s j s2 hP hf
    exact hC a (g j) n s s2 hP hf
  have hinner3 : ∀ (g : Nat → Nat) (a : Nat) (n : Nat) (s s2 : σ),
      P (n + O) s →
      (List.range O).foldlM (fun s Jdx => C (g a) (g4 Jdx) s) s = Except.ok s2 → P n s2 := by
    intro g a n s s2 hP h
    exact hinner (g a) g4 (List.range O) n s s2 (by rwa [List.length_range]) h
  simp only [bind, Except.bind] at h
  split at h
  · cases h
  · rename_i s1 hs1
    have hP1 : P (n + H * O) s1 := by
      refine foldlM_budget _ P (H1 + O1) ?_ (List.range A) (n + H * O) s s1 ?_ hs1
      · intro n s a s2 hP hf
        simp only at hf
        split at hf
        · cases hf
        · rename_i sH hsH
          have hPH : P (n + O1) sH :=
            hinner a g1 (List.range H1) (n + O1) s sH
              (by rw [List.length_range]; rwa [Nat.add_assoc, Nat.add_comm O1 H1]) hsH
          exact hinner a g2 (List.range O1) n sH s2 (by rwa [List.length_range]) hf
      · rw [List.length_range]
        have e : n + H * O + (H1 + O1) * A = n + (A * (H1 + O1) + H * O) := by
          rw [Nat.mul_comm (H1 + O1) A]
          omega
        rw [e]
        exact hP
    refine foldlM_budget _ P O ?_ (List.range H) n s1 s2 ?_ h
    · intro n s a s2 hP hf
      exact hinner3 g3 a n s s2 hP hf
    · rw [List.length_range, Nat.mul_comm O H]
      exact hP1

/-- The two nests of loops of `Tree`. -/
theorem loops_budget_tree {σ : Type} (C : Nat → Nat → σ → Except Fault σ) (P : Nat → σ → Prop)
    (hC : ∀ a b n s s2, P (n + 1) s → C a b s = Except.ok s2 → P n s2)
    (g1 g3 g4 : Nat → Nat) (A H1 H O : Nat) (n : Nat) (s s2 : σ)
    (hP : P (n + (A * H1 + H * O)) s)
    (h : (do
      let s1 ← (List.range A).foldlM
        (fun s Idx => (List.range H1).foldlM (fun s Jdx => C Idx (g1 Jdx) s) s)
        s
      (List.range H).foldlM
        (fun s Idx => (List.range O).foldlM (fun s Jdx => C (g3 Idx) (g4 Jdx) s) s)
        s1) = Except.ok s2) :
    P n s2 := by
  have hinner : ∀ (a : Nat) (g : Nat → Nat) (L : List Nat) (n : Nat) (s s2 : σ),
      P (n + L.length) s → L.foldlM (fun s Jdx => C a (g Jdx) s) s = Except.ok s2 → P n s2 := by
    intro a g L n s s2 hP h
    refine foldlM_budget (fun s Jdx => C a (g Jdx) s) P 1 ?_ L n s s2 (by rwa [Nat.one_mul]) h
    intro n s j s2 hP hf
    exact hC a (g j) n s s2 hP hf
  simp only [bind, Except.bind] at h
  split at h
  · cases h
  · rename_i s1 hs1
    have hP1 : P (n + H * O) s1 := by
      refine foldlM_budget _ P H1 ?_ (List.range A) (n + H * O) s s1 ?_ hs1
      · intro n s a s2 hP hf
        exact hinner a g1 (List.range H1) n s s2 (by rwa [List.length_range]) hf
      · rw [List.length_range]
        have e : n + H * O + H1 * A = n + (A * H1 + H * O) := by
          rw [Nat.mul_comm H1 A]
          omega
        rw [e]
        exact hP
    refine foldlM_budget _ P O ?_ (List.range H) n s1 s2 ?_ h
    · intro n s a s2 hP hf
      exact hinner (g3 a) g4 (List.range O) n s s2 (by rwa [List.length_range]) hf
    · rw [List.length_range, Nat.mul_comm O H]
      exact hP1

/-- A genome as `InitializeGenome` builds it, with any of the four initial
    topologies: its node keys are the ids below `StartingInnovation`, and the id
    discipline holds against the registry the call leaves. -/
theorem InitializeGenome_IdsKept (RAND_MAX : Nat) (cfg : Config) (s s2 : Seeding) (G : Genome)
    (c n : Nat) (hinv : RegistryInv cfg.StartingInnovation c s.Innovations)
    (hroom : c + (n + ((cfg.NumInputs + 1) * (cfg.NumHidden + cfg.NumOutputs) +
      cfg.NumHidden * cfg.NumOutputs)) ≤ 2 ^ 64)
    (h : InitialTopology.InitializeGenome RAND_MAX cfg s = Except.ok (G, s2)) :
    G.Genotype.IdsKept cfg.StartingInnovation n s2.Innovations ∧
    ∀ k, G.Genotype.Nodes.Contains k = true ↔ k < cfg.StartingInnovation := by
  obtain ⟨N, hnone, _, hfind⟩ := None_ok cfg
    { Config := some cfg, ID := Genome.GenerateNewGenomeID s.NewestID } rfl rfl
  have hNodes : ∀ k, N.Contains k = true ↔ k < cfg.StartingInnovation := by
    intro k
    unfold TMap.Contains Config.StartingInnovation
    rw [hfind k]
    split_ifs <;> simp <;> omega
  have hsep0 : ∀ t : InnovationTracker,
      Genotype.IdsSeparated cfg.StartingInnovation t ⟨N, TMap.empty⟩ := by
    intro t
    refine ⟨fun k hk => (hNodes k).2 hk, fun k hk hS => ?_, fun k hk => ?_⟩
    · have := (hNodes k).1 hk
      omega
    · exact absurd hk (by simp [TMap.Contains, TMap.Find_empty])
  have hkept0 : ∀ m, c + m ≤ 2 ^ 64 →
      Genotype.IdsKept cfg.StartingInnovation m s.Innovations ⟨N, TMap.empty⟩ :=
    fun m hm => ⟨c, hinv, hm, hsep0 _⟩
  have hCpair : ∀ (a b n : Nat) (x x2 : Genome × InnovationTracker),
      (x.1.Genotype.IdsKept cfg.StartingInnovation (n + 1) x.2 ∧ x.1.Genotype.Nodes = N) →
      InitialTopology.Connect a b x = Except.ok x2 →
      (x2.1.Genotype.IdsKept cfg.StartingInnovation n x2.2 ∧ x2.1.Genotype.Nodes = N) := by
    intro a b n x x2 hP hx
    obtain ⟨G1, t1⟩ := x
    obtain ⟨G2, t2⟩ := x2
    exact ⟨Connect_IdsKept _ n a b G1 G2 t1 t2 hx hP.1,
      (Connect_Nodes a b G1 G2 t1 t2 hx).trans hP.2⟩
  have hfinal : ∀ (G2 : Genome) (t2 : InnovationTracker),
      (G2.Genotype.IdsKept cfg.StartingInnovation n t2 ∧ G2.Genotype.Nodes = N) →
      G2.Genotype.IdsKept cfg.StartingInnovation n t2 ∧
      ∀ k, G2.Genotype.Nodes.Contains k = true ↔ k < cfg.StartingInnovation := by
    intro G2 t2 hP
    refine ⟨hP.1, fun k => ?_⟩
    rw [hP.2]
    exact hNodes k
  unfold InitialTopology.InitializeGenome at h
  cases hT : cfg.InitialTopology with
  | None =>
    simp only [hT, hnone] at h
    injection h with h
    injection h with hG hs
    rw [← hG, ← hs]
    exact hfinal _ _ ⟨hkept0 n (by omega), rfl⟩
  | Full =>
    simp only [hT] at h
    split at h
    · cases h
    · rename_i r hr
      injection h with h
      injection h with hG hs
      rw [← hG, ← hs]
      apply hfinal
      unfold InitialTopology.Full at hr
      rw [hnone] at hr
      have hr2 := loops_budget (fun a b x => InitialTopology.Connect a b x)
        (fun m (x : Genome × InnovationTracker) =>
          x.1.Genotype.IdsKept cfg.StartingInnovation m x.2 ∧ x.1.Genotype.Nodes = N)
        hCpair
        (fun Jdx => Jdx + cfg.NumInputs + cfg.NumOutputs + 1) (fun Jdx => Jdx + cfg.NumInputs + 1)
        (fun Idx => Idx + cfg.NumInputs + cfg.NumOutputs + 1) (fun Jdx => Jdx + cfg.NumInputs + 1)
        (cfg.NumInputs + 1) cfg.NumHidden cfg.NumOutputs cfg.NumHidden cfg.NumOutputs n
        _ r ⟨hkept0 _ hroom, rfl⟩ hr
      exact hr2
  | Tree =>
    simp only [hT] at h
    split at h
    · cases h
    · rename_i r hr
      injection h with h
      injection h with hG hs
      rw [← hG, ← hs]
      apply hfinal
      unfold InitialTopology.Tree at hr
      rw [hnone] at hr
      have hroom2 : c + (n + ((cfg.NumInputs + 1) * cfg.NumHidden +
          cfg.NumHidden * cfg.NumOutputs)) ≤ 2 ^ 64 := by
        have : (cfg.NumInputs + 1) * cfg.NumHidden ≤
            (cfg.NumInputs + 1) * (cfg.NumHidden + cfg.NumOutputs) :=
          Nat.mul_le_mul_left _ (Nat.le_add_right _ _)
        omega
      have hr2 := loops_budget_tree (fun a b x => InitialTopology.Connect a b x)
        (fun m (x : Genome × InnovationTracker) =>
          x.1.Genotype.IdsKept cfg.StartingInnovation m x.2 ∧ x.1.Genotype.Nodes = N)
        hCpair
        (fun Jdx => Jdx + cfg.NumInputs + cfg.NumOutputs + 1)
        (fun Idx => Idx + cfg.NumInputs + cfg.NumOutputs + 1) (fun Jdx => Jdx + cfg.NumInputs + 1)
        (cfg.NumInputs + 1) cfg.NumHidden cfg.NumHidden cfg.NumOutputs n
        _ r ⟨hkept0 _ hroom2, rfl⟩ hr
      exact hr2
  | Sparse =>
    simp only [hT] at h
    split at h
    · cases h
    · rename_i r hr
      injection h with h
      injection h with hG hs
      rw [← hG, ← hs]
      apply hfinal
      unfold InitialTopology.Sparse at hr
      rw [hnone] at hr
      have hr2 := loops_budget
        (fun a b x =>
          InitialTopology.SparseConnect RAND_MAX cfg.InitialConnectionProbability a b x)
        (fun m (x : (Genome × InnovationTracker) × List Nat) =>
          x.1.1.Genotype.IdsKept cfg.StartingInnovation m x.1.2 ∧ x.1.1.Genotype.Nodes = N)
        (fun a b m x x2 hP hx =>
          ⟨SparseConnect_IdsKept RAND_MAX _ _ m a b x x2 hx hP.1,
            (SparseConnect_Nodes RAND_MAX _ a b x x2 hx).trans hP.2⟩)
        (fun Jdx => Jdx + cfg.NumInputs + cfg.NumOutputs + 1) (fun Jdx => Jdx + cfg.NumInputs + 1)
        (fun Idx => Idx + cfg.NumInputs + cfg.NumOutputs + 1) (fun Jdx => Jdx + cfg.NumInputs + 1)
        (cfg.NumInputs + 1) cfg.NumHidden cfg.NumOutputs cfg.NumHidden cfg.NumOutputs n
        _ r ⟨hkept0 _ hroom, rfl⟩ hr
      exact hr2

/-- `MutateAddNode` removes no node. -/
theorem MutateAddNode_nodes (cfg : Config) (w w2 : World) (ret : Bool)
    (h : Genotype.MutateAddNode cfg w = Except.ok (ret, w2)) :
    ∀ k, w.This.Nodes.Contains k = true → w2.This.Nodes.Contains k = true := by
  unfold Genotype.MutateAddNode at h
  split_ifs at h with hempty
  · injection h with h
    injection h with _ h
    rw [← h]
    exact fun k hk => hk
  · cases hpick : RandomElement w.This.Connections.GetKeys w.Rand with
    | error f => rw [hpick] at h; cases h
    | ok p =>
      obtain ⟨ConnectionID, rest⟩ := p
      rw [hpick] at h
      simp only at h
      split_ifs at h with hnode
      · injection h with h
        injection h with _ h
        rw [← h]
        exact fun k hk => hk
      · injection h with h
        injection h with _ h
        rw [← h]
        intro k hk
        exact (TMap.Contains_Add _ _ _ _).2 (Or.inr hk)

theorem MutateAddConnection_IdsKept (Start n : Nat) (cfg : Config) (w w2 : World) (ret : Bool)
    (h : Genotype.MutateAddConnection cfg w = Except.ok (ret, w2))
    (hk : w.This.IdsKept Start (n + 1) w.Innovations) :
    w2.This.IdsKept Start n w2.Innovations := by
  unfold Genotype.MutateAddConnection at h
  simp only at h
  split_ifs at h with hempty
  · injection h with h
    injection h with _ h
    rw [← h]
    exact IdsKept_le Start _ _ _ _ (by omega) hk
  · cases hp1 : PickNode w.This.Nodes w.This.Nodes.GetKeys ENodeType.Output w.Rand with
    | error f => rw [hp1] at h; cases h
    | ok p1 =>
      obtain ⟨Node1ID, rest1⟩ := p1
      rw [hp1] at h
      simp only at h
      cases hp2 : PickNode w.This.Nodes w.This.Nodes.GetKeys ENodeType.Input rest1 with
      | error f => rw [hp2] at h; cases h
      | ok p2 =>
        obtain ⟨Node2ID, rest2⟩ := p2
        rw [hp2] at h
        simp only at h
        obtain ⟨h1, h2⟩ := IdsKept_connection Start n w.Innovations w.This
          (EMutationType.AddConnection, EGeneType.Connection, Node1ID, Node2ID) rfl hk
        split_ifs at h
        · injection h with h
          injection h with _ h
          rw [← h]
          exact h1
        · injection h with h
          injection h with _ h
          rw [← h]
          exact h2 _

theorem MutateAddNode_IdsKept (Start n : Nat) (cfg : Config) (w w2 : World) (ret : Bool)
    (h : Genotype.MutateAddNode cfg w = Except.ok (ret, w2))
    (hk : w.This.IdsKept Start (n + 3) w.Innovations) :
    w2.This.IdsKept Start n w2.Innovations := by
  unfold Genotype.MutateAddNode at h
  split_ifs at h with hempty
  · injection h with h
    injection h with _ h
    rw [← h]
    exact IdsKept_le Start _ _ _ _ (by omega) hk
  · cases hpick : RandomElement w.This.Connections.GetKeys w.Rand with
    | error f => rw [hpick] at h; cases h
    | ok p =>
      obtain ⟨ConnectionID, rest⟩ := p
      rw [hpick] at h
      simp only at h
      have hmem := (RandomElement_ok _ _ _ _ hpick).1
      have hold : w.This.Connections.Contains ConnectionID = true :=
        (TMap.Contains_iff _ _).2 ((TMap.mem_GetKeys_iff _ _).1 hmem)
      obtain ⟨c, hinv, hroom, hsep⟩ := hk
      generalize hC : w.This.Connections.At ConnectionID {} = C at h
      obtain ⟨c1, _, hc1, hinv1, hmono1, r1, hr1, hg1⟩ := IdCall Start c w.Innovations
        (EMutationType.AddNode, EGeneType.Node, C.Input, C.Output) hinv (by omega)
      generalize hq1 : w.Innovations.GetInnovationID EMutationType.AddNode EGeneType.Node
        C.Input C.Output = NodeID at h hinv1 hmono1 hr1
      obtain ⟨c2, _, hc2, hinv2, hmono2, r2, hr2, hg2⟩ := IdCall Start c1 NodeID.2
        (EMutationType.AddNode, EGeneType.Connection, C.Input, NodeID.1) hinv1 (by omega)
      generalize hq2 : NodeID.2.GetInnovationID EMutationType.AddNode EGeneType.Connection
        C.Input NodeID.1 = InputID at h hinv2 hmono2 hr2
      obtain ⟨c3, _, hc3, hinv3, hmono3, r3, hr3, hg3⟩ := IdCall Start c2 InputID.2
        (EMutationType.AddNode, EGeneType.Connection, NodeID.1, C.Output) hinv2 (by omega)
      generalize hq3 : InputID.2.GetInnovationID EMutationType.AddNode EGeneType.Connection
        NodeID.1 C.Output = OutputID at h hinv3 hmono3 hr3
      have hmono : ∀ k r, w.Innovations.Innovations.Find k = some r →
          OutputID.2.Innovations.Find k = some r :=
        fun k r hk => hmono3 k r (hmono2 k r (hmono1 k r hk))
      have hsep3 := IdsSeparated_mono Start _ OutputID.2 w.This hmono hsep
      have hconn1 : ∀ k v, (w.This.Connections.Add ConnectionID v).Contains k = true →
          ∃ r, OutputID.2.Innovations.Find k = some r ∧ r.GeneType = EGeneType.Connection := by
        intro k v hk
        rcases (TMap.Contains_Add _ _ _ _).1 hk with e | e
        · rw [e]
          exact hsep3.2.2 _ hold
        · exact hsep3.2.2 k e
      split_ifs at h with hnode
      · injection h with h
        injection h with _ h
        rw [← h]
        exact ⟨c3, hinv3, by omega, hsep3.1, hsep3.2.1, fun k hk => hconn1 k _ hk⟩
      · injection h with h
        injection h with _ h
        rw [← h]
        refine ⟨c3, hinv3, by omega, ?_, ?_, ?_⟩
        · intro k hk
          exact (TMap.Contains_Add _ _ _ _).2 (Or.inr (hsep3.1 k hk))
        · intro k hk hS
          rcases (TMap.Contains_Add _ _ _ _).1 hk with e | e
          · rw [e]
            exact ⟨r1, hmono3 _ _ (hmono2 _ _ hr1), hg1⟩
          · exact hsep3.2.1 k e hS
        · intro k hk
          rcases (TMap.Contains_Add _ _ _ _).1 hk with e | e
          · rw [e]
            exact ⟨r3, hr3, hg3⟩
          · rcases (TMap.Contains_Add _ _ _ _).1 e with e2 | e2
            · rw [e2]
              exact ⟨r2, hmono3 _ _ hr2, hg2⟩
            · exact hconn1 k _ e2

theorem RunIdSteps_IdsKept (Start : Nat) (cfg : Config) :
    ∀ (Steps : List IdStep) (n : Nat) (w w2 : World),
      w.This.IdsKept Start (n + 3 * Steps.length) w.Innovations →
      Genotype.RunIdSteps cfg Steps w = Except.ok w2 →
      w2.This.IdsKept Start n w2.Innovations ∧
      ∀ k, w.This.Nodes.Contains k = true → w2.This.Nodes.Contains k = true := by
  intro Steps
  induction Steps with
  | nil =>
    intro n w w2 hk h
    injection h with h
    rw [← h]
    exact ⟨by simpa using hk, fun k hk => hk⟩
  | cons Step Rest ih =>
    intro n w w2 hk h
    have e : n + 3 * (Step :: Rest).length = (n + 3 * Rest.length) + 3 := by
      rw [List.length_cons]
      omega
    rw [e] at hk
    cases Step with
    | AddNode =>
      unfold Genotype.RunIdSteps at h
      split at h
      · cases h
      · rename_i ret w1 h1
        obtain ⟨i1, i2⟩ := ih n w1 w2 (MutateAddNode_IdsKept Start _ cfg w w1 ret h1 hk) h
        refine ⟨i1, fun k hk => i2 k ?_⟩
        have hn := MutateAddNode_nodes cfg w w1 ret h1
        exact hn k hk
    | AddConnection =>
      unfold Genotype.RunIdSteps at h
      split at h
      · cases h
      · rename_i ret w1 h1
        obtain ⟨i1, i2⟩ := ih n w1 w2
          (MutateAddConnection_IdsKept Start _ cfg w w1 ret h1
            (IdsKept_le Start _ _ _ _ (by omega) hk)) h
        refine ⟨i1, fun k hk => i2 k ?_⟩
        have hn := (MutateAddConnection_contract cfg w w1 ret h1)
        cases ret with
        | true =>
          obtain ⟨_, _, _, _, _, _, _, _, _, _, _, _, _, hN⟩ := hn.1 rfl
          rw [hN]
          exact hk
        | false =>
          rw [hn.2.1 rfl]
          exact hk
    | Elsewhere q =>
      unfold Genotype.RunIdSteps at h
      obtain ⟨c, hinv, hroom, hsep⟩ := hk
      obtain ⟨c2, _, hc2, hinv2, hmono, _⟩ := IdCall Start c w.Innovations q hinv (by omega)
      exact ih n
        { w with Innovations := (w.Innovations.GetInnovationID q.1 q.2.1 q.2.2.1 q.2.2.2).2 } w2
        ⟨c2, hinv2, by omega, IdsSeparated_mono Start _ _ _ hmono hsep⟩ h

theorem Serve_budget (Start : Nat) :
    ∀ (qs : List Request) (c : Nat) (t : InnovationTracker), RegistryInv Start c t →
      c + qs.length ≤ 2 ^ 64 →
      ∃ c2, c2 ≤ c + qs.length ∧ RegistryInv Start c2 (t.Serve qs).2 := by
  intro qs
  induction qs with
  | nil => intro c t hinv _; exact ⟨c, by simp, hinv⟩
  | cons q rest ih =>
    intro c t hinv hroom
    rw [List.length_cons] at hroom
    obtain ⟨c1, _, hc1, hinv1, _, _⟩ := IdCall Start c t q hinv (by omega)
    obtain ⟨c2, hc2, hinv2⟩ := ih c1 _ hinv1 (by omega)
    refine ⟨c2, ?_, hinv2⟩
    rw [List.length_cons]
    omega

/-- The claim C40. The registry is reset to `NumInputs + NumOutputs +
    NumHidden + 1`, as `Trainer::Initialize` does, and then answers any calls;
    a genome is built by `InitializeGenome` with any initial topology, and then
    `MutateAddNode` and `MutateAddConnection` are called on it any number of
    times, in any order and with any calls of the registry for other genomes in
    between. As long as the `uint64` counter of the registry has room for the
    ids these calls can ask for: the node keys of the genome as built are exactly
    `0 .. NumInputs + NumOutputs + NumHidden` and stay node keys; every other
    node key and every connection key is at least
    `NumInputs + NumOutputs + NumHidden + 1`; and no id is both a node key and a
    connection key. -/
theorem ids_never_collide (RAND_MAX : Nat) (cfg : Config) (t0 : InnovationTracker)
    (Before : List Request) (s s2 : Seeding) (G : Genome) (Steps : List IdStep)
    (Rand : List Nat) (w : World)
    (hreset : s.Innovations = ((t0.Reset cfg.StartingInnovation).Serve Before).2)
    (hroom : cfg.StartingInnovation + Before.length +
      ((cfg.NumInputs + 1) * (cfg.NumHidden + cfg.NumOutputs) + cfg.NumHidden * cfg.NumOutputs) +
      3 * Steps.length < 2 ^ 64)
    (hinit : InitialTopology.InitializeGenome RAND_MAX cfg s = Except.ok (G, s2))
    (hrun : Genotype.RunIdSteps cfg Steps
      { This := G.Genotype, Innovations := s2.Innovations, Rand := Rand } = Except.ok w) :
    (∀ k, G.Genotype.Nodes.Contains k = true ↔
      k ≤ cfg.NumInputs + cfg.NumOutputs + cfg.NumHidden) ∧
    (∀ k, k ≤ cfg.NumInputs + cfg.NumOutputs + cfg.NumHidden →
      w.This.Nodes.Contains k = true) ∧
    (∀ k, w.This.Nodes.Contains k = true → G.Genotype.Nodes.Contains k = false →
      cfg.NumInputs + cfg.NumOutputs + cfg.NumHidden + 1 ≤ k) ∧
    (∀ k, w.This.Connections.Contains k = true →
      cfg.NumInputs + cfg.NumOutputs + cfg.NumHidden + 1 ≤ k) ∧
    (∀ k, ¬ (w.This.Nodes.Contains k = true ∧ w.This.Connections.Contains k = true)) := by
  have hS : cfg.StartingInnovation = cfg.NumInputs + cfg.NumOutputs + cfg.NumHidden + 1 := rfl
  have hs : cfg.StartingInnovation < 2 ^ 64 := by omega
  have hinv0 : RegistryInv cfg.StartingInnovation cfg.StartingInnovation
      (t0.Reset cfg.StartingInnovation) :=
    ⟨(Nat.mod_eq_of_lt hs).symm, le_refl _, le_of_lt hs,
      fun k r h => by simp [InnovationTracker.Reset, TMap.Find_empty] at h,
      fun k1 k2 r1 r2 h => by simp [InnovationTracker.Reset, TMap.Find_empty] at h⟩
  obtain ⟨c, hc, hinv⟩ := Serve_budget cfg.StartingInnovation Before _ _ hinv0 (by omega)
  rw [← hreset] at hinv
  obtain ⟨hkept, hnodes⟩ := InitializeGenome_IdsKept RAND_MAX cfg s s2 G c (3 * Steps.length)
    hinv (by omega) hinit
  obtain ⟨⟨c2, hinv2, _, hsep⟩, hkeep⟩ := RunIdSteps_IdsKept cfg.StartingInnovation cfg Steps 0
    { This := G.Genotype, Innovations := s2.Innovations, Rand := Rand } w
    (by rw [Nat.zero_add]; exact hkept) hrun
  have hconn : ∀ k, w.This.Connections.Contains k = true → cfg.StartingInnovation ≤ k := by
    intro k hk
    obtain ⟨r, hr, _⟩ := hsep.2.2 k hk
    exact (hinv2.2.2.2.1 k r hr).2.1
  refine ⟨fun k => ?_, fun k hk => ?_, fun k hk hG => ?_, fun k hk => ?_, fun k hk => ?_⟩
  · rw [hnodes k, hS]
    omega
  · exact hsep.1 k (by rw [hS]; omega)
  · by_contra hlt
    have : G.Genotype.Nodes.Contains k = true := (hnodes k).2 (by rw [hS]; omega)
    rw [this] at hG
    cases hG
  · rw [← hS]
    exact hconn k hk
  · obtain ⟨r, hr, hg⟩ := hsep.2.2 k hk.2
    obtain ⟨r2, hr2, hg2⟩ := hsep.2.1 k hk.1 (hconn k hk.2)
    rw [hr] at hr2
    injection hr2 with hr2
    rw [hr2] at hg
    rw [hg] at hg2
    cases hg2

theorem ids_never_collide_witness :
    ∃ G s2 w,
      InitialTopology.InitializeGenome 32767 fullConfig
        { Innovations := freshTracker.Reset fullConfig.StartingInnovation } = Except.ok (G, s2) ∧
      Genotype.RunIdSteps fullConfig [IdStep.AddNode, IdStep.AddConnection, IdStep.AddNode]
        { This := G.Genotype, Innovations := s2.Innovations, Rand := [0, 0, 3, 1, 2, 5, 7] } =
          Except.ok w ∧
      w.This.Nodes.GetKeys = [0, 1, 2, 3, 9, 12] ∧
      w.This.Connections.GetKeys = [4, 5, 6, 7, 8, 10, 11, 13, 14] ∧
      ∀ k, ¬ (w.This.Nodes.Contains k = true ∧ w.This.Connections.Contains k = true) := by
  have hinit : ∃ G s2, InitialTopology.InitializeGenome 32767 fullConfig
      { Innovations := freshTracker.Reset fullConfig.StartingInnovation } = Except.ok (G, s2) :=
    ⟨_, _, rfl⟩
  obtain ⟨G, s2, hG⟩ := hinit
  have hrun : ∃ w, Genotype.RunIdSteps fullConfig
      [IdStep.AddNode, IdStep.AddConnection, IdStep.AddNode]
      { This := G.Genotype, Innovations := s2.Innovations, Rand := [0, 0, 3, 1, 2, 5, 7] } =
        Except.ok w ∧
      w.This.Nodes.GetKeys = [0, 1, 2, 3, 9, 12] ∧
      w.This.Connections.GetKeys = [4, 5, 6, 7, 8, 10, 11, 13, 14] := by
    have e : (G, s2) = ((G, s2) : Genome × Seeding) := rfl
    have hG2 := hG
    have hval : InitialTopology.InitializeGenome 32767 fullConfig
        { Innovations := freshTracker.Reset fullConfig.StartingInnovation } =
        Except.ok (_, _) := rfl
    rw [hval] at hG2
    injection hG2 with hG2
    injection hG2 with h1 h2
    rw [← h1, ← h2]
    exact ⟨_, rfl, by decide, by decide⟩
  obtain ⟨w, hw, hn, hc⟩ := hrun
  exact ⟨G, s2, w, hG, hw, hn, hc,
    (ids_never_collide 32767 fullConfig freshTracker [] _ s2 G _ _ w rfl (by decide) hG hw).2.2.2.2⟩

theorem EuclideanSpec_congr (pow : ℚ → ℚ → ℚ) (A B A2 B2 : Genome) (cfg : Config)
    (hA : A.Genotype = A2.Genotype) (hB : B.Genotype = B2.Genotype) :
    Distance.EuclideanSpec pow A B cfg = Distance.EuclideanSpec pow A2 B2 cfg := by
  simp only [Distance.EuclideanSpec, Distance.SameKind, hA, hB]

theorem Calculate_congr (pow : ℚ → ℚ → ℚ) (A B A2 B2 : Genome) (cfg : Config)
    (hA : A.Genotype = A2.Genotype) (hB : B.Genotype = B2.Genotype) :
    Distance.Calculate pow A B cfg = Distance.Calculate pow A2 B2 cfg := by
  unfold Distance.Calculate
  cases cfg.DistanceMethod with
  | Euclidean =>
    show Distance.Euclidean pow A B cfg = Distance.Euclidean pow A2 B2 cfg
    rw [Euclidean_eq_spec, Euclidean_eq_spec, EuclideanSpec_congr pow A B A2 B2 cfg hA hB]
  | Manhattan => rfl
  | Chebyshev => rfl

theorem Calculate_ok (pow : ℚ → ℚ → ℚ) (A B : Genome) (cfg : Config) :
    ∃ d, Distance.Calculate pow A B cfg = Except.ok d := by
  unfold Distance.Calculate
  cases cfg.DistanceMethod with
  | Euclidean => exact ⟨_, Euclidean_eq_spec pow A B cfg⟩
  | Manhattan => exact ⟨_, rfl⟩
  | Chebyshev => exact ⟨_, rfl⟩

theorem IsNear_congr (pow : ℚ → ℚ → ℚ) (NonFinite : Genotype → Genotype → Bool) (cfg : Config)
    (M M0 : Nat → Genome) (h : ∀ a, (M a).Genotype = (M0 a).Genotype) (Rep : Option Nat)
    (g : Nat) :
    Trainer.IsNear pow NonFinite cfg M Rep g = Trainer.IsNear pow NonFinite cfg M0 Rep g := by
  cases Rep with
  | none => rfl
  | some r =>
    unfold Trainer.IsNear
    simp only
    rw [Calculate_congr pow (M r) (M g) (M0 r) (M0 g) cfg (h r) (h g), h r, h g]

theorem IsNear_ok (pow : ℚ → ℚ → ℚ) (NonFinite : Genotype → Genotype → Bool) (cfg : Config)
    (M : Nat → Genome) (Rep : Option Nat) (g : Nat) (hr : Rep ≠ none) :
    ∃ b, Trainer.IsNear pow NonFinite cfg M Rep g = Except.ok b := by
  cases Rep with
  | none => exact absurd rfl hr
  | some r =>
    obtain ⟨d, hd⟩ := Calculate_ok pow (M r) (M g) cfg
    unfold Trainer.IsNear
    simp only
    rw [hd]
    cases d with
    | none => exact ⟨_, rfl⟩
    | some d => exact ⟨_, rfl⟩

theorem FindSpecies_spec (pow : ℚ → ℚ → ℚ) (NonFinite : Genotype → Genotype → Bool)
    (cfg : Config) (M : Nat → Genome) (g : Nat) :
    ∀ (L : List Species), (∀ k, k < L.length → (L.getD k {}).Representative ≠ none) →
      (∃ j, Trainer.FindSpecies pow NonFinite cfg M g L = Except.ok (some j) ∧ j < L.length ∧
        Trainer.IsNear pow NonFinite cfg M (L.getD j {}).Representative g = Except.ok true ∧
        ∀ k, k < j →
          Trainer.IsNear pow NonFinite cfg M (L.getD k {}).Representative g =
            Except.ok false) ∨
      (Trainer.FindSpecies pow NonFinite cfg M g L = Except.ok none ∧
        ∀ k, k < L.length →
          Trainer.IsNear pow NonFinite cfg M (L.getD k {}).Representative g =
            Except.ok false) := by
  intro L
  induction L with
  | nil => intro _; exact Or.inr ⟨rfl, fun k hk => absurd hk (Nat.not_lt_zero k)⟩
  | cons S rest ih =>
    intro hrep
    have hS : S.Representative ≠ none := hrep 0 (Nat.succ_pos _)
    have hrest : ∀ k, k < rest.length → (rest.getD k {}).Representative ≠ none :=
      fun k hk => hrep (k + 1) (Nat.succ_lt_succ hk)
    obtain ⟨b, hb⟩ := IsNear_ok pow NonFinite cfg M S.Representative g hS
    cases b with
    | true =>
      left
      refine ⟨0, ?_, Nat.succ_pos _, hb, fun k hk => absurd hk (Nat.not_lt_zero k)⟩
      unfold Trainer.FindSpecies
      rw [hb]
    | false =>
      have hstep : Trainer.FindSpecies pow NonFinite cfg M g (S :: rest) =
          match Trainer.FindSpecies pow NonFinite cfg M g rest with
          | Except.error e => Except.error e
          | Except.ok Idx => Except.ok (Idx.map (fun i => i + 1)) := by
        conv => lhs; unfold Trainer.FindSpecies
        rw [hb]
      rcases ih hrest with ⟨j, h1, h2, h3, h4⟩ | ⟨h1, h2⟩
      · left
        refine ⟨j + 1, ?_, Nat.succ_lt_succ h2, h3, ?_⟩
        · rw [hstep, h1]
          rfl
        · intro k hk
          cases k with
          | zero => exact hb
          | succ k => exact h4 k (Nat.lt_of_succ_lt_succ hk)
      · right
        refine ⟨?_, ?_⟩
        · rw [hstep, h1]
          rfl
        · intro k hk
          cases k with
          | zero => exact hb
          | succ k => exact h2 k (Nat.lt_of_succ_lt_succ hk)

theorem getD_modify_AddGenome (L : List Species) (g j k : Nat) :
    (L.modify (fun Specie => Specie.AddGenome g) j).getD k {} =
      if k = j ∧ k < L.length then (L.getD k {}).AddGenome g else L.getD k {} := by
  rw [List.getD_eq_getElem?_getD, List.getD_eq_getElem?_getD, List.getElem?_modify]
  by_cases hk : k < L.length
  · rw [List.getElem?_eq_getElem hk]
    by_cases hkj : k = j
    · subst hkj
      simp [hk]
    · have : ¬ (k = j ∧ k < L.length) := fun h => hkj h.1
      rw [if_neg this]
      simp [Ne.symm hkj]
  · have : ¬ (k = j ∧ k < L.length) := fun h => hk h.2
    rw [if_neg this, List.getElem?_eq_none (by omega)]
    rfl

theorem getD_append_one (L : List Species) (S : Species) (k : Nat) :
    (L ++ [S]).getD k {} = if k < L.length then L.getD k {} else if k = L.length then S else {} := by
  by_cases hk : k < L.length
  · rw [if_pos hk, List.getD_append _ _ _ _ hk]
  · rw [if_neg hk, List.getD_append_right _ _ _ _ (by omega)]
    by_cases hk2 : k = L.length
    · rw [if_pos hk2, hk2, Nat.sub_self]
      rfl
    · rw [if_neg hk2]
      have : k - L.length = (k - L.length - 1) + 1 := by omega
      rw [this]
      rfl

theorem SetSpeciesID_Genotype (M : Nat → Genome) (g ID a : Nat) :
    (Trainer.SetSpeciesID M g ID a).Genotype = (M a).Genotype := by
  unfold Trainer.SetSpeciesID
  by_cases h : a = g
  · subst h
    rw [Function.update_same]
  · rw [Function.update_noteq h]

theorem SetSpeciesID_other (M : Nat → Genome) (g ID a : Nat) (h : a ≠ g) :
    Trainer.SetSpeciesID M g ID a = M a := by
  unfold Trainer.SetSpeciesID
  rw [Function.update_noteq h]

theorem SetSpeciesID_same (M : Nat → Genome) (g ID : Nat) :
    (Trainer.SetSpeciesID M g ID g).SpeciesID = ID := by
  unfold Trainer.SetSpeciesID
  rw [Function.update_same]

/-- One round of the second loop of `SpeciatePopulation_Method1` returns and
    keeps `Trainer.Speciated`, with the genome of the round among those done. -/
theorem Place_Speciated (pow : ℚ → ℚ → ℚ) (NonFinite : Genotype → Genotype → Bool)
    (cfg : Config) (M0 : Nat → Genome) (Opened : Nat) (s : Speciation) (Done : List Nat)
    (g : Nat) (hinv : Trainer.Speciated pow NonFinite cfg M0 Opened s.This Done)
    (hg : g ∉ Done) :
    ∃ s2, Trainer.Place pow NonFinite cfg s g = Except.ok s2 ∧
      s2.This.Population = s.This.Population ∧
      Trainer.Speciated pow NonFinite cfg M0 Opened s2.This (g :: Done) := by
  obtain ⟨hgen, hrep, hmem, hnd, hplaced, hopen⟩ := hinv
  have hfresh : ∀ k, k < s.This.Species.length → g ∉ (s.This.Species.getD k {}).Genomes :=
    fun k hk hin => hg (hmem k hk g hin)
  rcases FindSpecies_spec pow NonFinite cfg s.This.Memory g s.This.Species hrep with
    ⟨j, hfind, hj, hnear, hfar⟩ | ⟨hfind, hfar⟩
  · have hplace : Trainer.Place pow NonFinite cfg s g = Except.ok
        { s with
          This := { s.This with
            Species := s.This.Species.modify (fun Specie => Specie.AddGenome g) j,
            Memory := Trainer.SetSpeciesID s.This.Memory g (s.This.Species.getD j {}).ID } } := by
      unfold Trainer.Place
      rw [hfind]
    refine ⟨_, hplace, rfl, ?_⟩
    have hlen : (s.This.Species.modify (fun Specie => Specie.AddGenome g) j).length =
        s.This.Species.length := List.length_modify _ _ _
    have hR : ∀ k, ((s.This.Species.modify (fun Specie => Specie.AddGenome g) j).getD k
        {}).Representative = (s.This.Species.getD k {}).Representative := by
      intro k
      rw [getD_modify_AddGenome]
      split_ifs <;> rfl
    have hI : ∀ k, ((s.This.Species.modify (fun Specie => Specie.AddGenome g) j).getD k
        {}).ID = (s.This.Species.getD k {}).ID := by
      intro k
      rw [getD_modify_AddGenome]
      split_ifs <;> rfl
    have hG : ∀ k, k < s.This.Species.length →
        ((s.This.Species.modify (fun Specie => Specie.AddGenome g) j).getD k {}).Genomes =
          if k = j then (s.This.Species.getD k {}).Genomes ++ [g]
          else (s.This.Species.getD k {}).Genomes := by
      intro k hk
      rw [getD_modify_AddGenome]
      by_cases hkj : k = j
      · rw [if_pos ⟨hkj, hk⟩, if_pos hkj]
        rfl
      · rw [if_neg (fun h => hkj h.1), if_neg hkj]
    refine ⟨fun a => ?_, fun k hk => ?_, fun k hk x hx => ?_, fun k hk => ?_,
      fun x hx => ?_, ?_⟩
    · show (Trainer.SetSpeciesID s.This.Memory g _ a).Genotype = _
      rw [SetSpeciesID_Genotype]
      exact hgen a
    · show ((s.This.Species.modify (fun Specie => Specie.AddGenome g) j).getD k
        {}).Representative ≠ none
      rw [hR]
      exact hrep k (by rw [← hlen]; exact hk)
    · have hk2 : k < s.This.Species.length := by rw [← hlen]; exact hk
      have hx2 : x ∈ ((s.This.Species.modify (fun Specie => Specie.AddGenome g) j).getD k
        {}).Genomes := hx
      rw [hG k hk2] at hx2
      by_cases hkj : k = j
      · rw [if_pos hkj, List.mem_append] at hx2
        rcases hx2 with h | h
        · exact List.mem_cons_of_mem _ (hmem k hk2 x h)
        · rw [List.mem_singleton.1 h]
          exact List.mem_cons_self _ _
      · rw [if_neg hkj] at hx2
        exact List.mem_cons_of_mem _ (hmem k hk2 x hx2)
    · have hk2 : k < s.This.Species.length := by rw [← hlen]; exact hk
      show ((s.This.Species.modify (fun Specie => Specie.AddGenome g) j).getD k
        {}).Genomes.Nodup
      rw [hG k hk2]
      by_cases hkj : k = j
      · rw [if_pos hkj]
        exact List.Nodup.append (hnd k hk2) (List.nodup_singleton g)
          (by
            intro x hx1 hx2
            rw [List.mem_singleton.1 hx2] at hx1
            exact hfresh k hk2 hx1)
      · rw [if_neg hkj]
        exact hnd k hk2
    · rcases List.mem_cons.1 hx with hxg | hxd
      · subst hxg
        refine ⟨j, by rw [hlen]; exact hj, fun k hk => ?_, ?_, fun k hk => ?_, Or.inl ?_⟩
        · have hk2 : k < s.This.Species.length := by rw [← hlen]; exact hk
          show x ∈ ((s.This.Species.modify (fun Specie => Specie.AddGenome x) j).getD k
            {}).Genomes ↔ k = j
          rw [hG k hk2]
          by_cases hkj : k = j
          · rw [if_pos hkj]
            exact ⟨fun _ => hkj, fun _ => List.mem_append_right _ (List.mem_singleton_self x)⟩
          · rw [if_neg hkj]
            exact ⟨fun h => absurd h (hfresh k hk2), fun h => absurd h hkj⟩
        · show (Trainer.SetSpeciesID s.This.Memory x _ x).SpeciesID =
            ((s.This.Species.modify (fun Specie => Specie.AddGenome x) j).getD j {}).ID
          rw [SetSpeciesID_same, hI]
        · show Trainer.IsNear pow NonFinite cfg M0
            ((s.This.Species.modify (fun Specie => Specie.AddGenome x) j).getD k
              {}).Representative x = _
          rw [hR, ← IsNear_congr pow NonFinite cfg s.This.Memory M0 hgen]
          exact hfar k hk
        · show Trainer.IsNear pow NonFinite cfg M0
            ((s.This.Species.modify (fun Specie => Specie.AddGenome x) j).getD j
              {}).Representative x = _
          rw [hR, ← IsNear_congr pow NonFinite cfg s.This.Memory M0 hgen]
          exact hnear
      · have hxg : x ≠ g := fun e => hg (e ▸ hxd)
        obtain ⟨jx, hjx, p1, p2, p3, p4⟩ := hplaced x hxd
        refine ⟨jx, by rw [hlen]; exact hjx, fun k hk => ?_, ?_, fun k hk => ?_, ?_⟩
        · have hk2 : k < s.This.Species.length := by rw [← hlen]; exact hk
          show x ∈ ((s.This.Species.modify (fun Specie => Specie.AddGenome g) j).getD k
            {}).Genomes ↔ k = jx
          rw [hG k hk2, ← p1 k hk2]
          by_cases hkj : k = j
          · rw [if_pos hkj, List.mem_append, List.mem_singleton]
            exact ⟨fun h => h.resolve_right hxg, fun h => Or.inl h⟩
          · rw [if_neg hkj]
        · show (Trainer.SetSpeciesID s.This.Memory g _ x).SpeciesID =
            ((s.This.Species.modify (fun Specie => Specie.AddGenome g) j).getD jx {}).ID
          rw [SetSpeciesID_other _ _ _ _ hxg, hI]
          exact p2
        · show Trainer.IsNear pow NonFinite cfg M0
            ((s.This.Species.modify (fun Specie => Specie.AddGenome g) j).getD k
              {}).Representative x = _
          rw [hR]
          exact p3 k hk
        · show Trainer.IsNear pow NonFinite cfg M0
            ((s.This.Species.modify (fun Specie => Specie.AddGenome g) j).getD jx
              {}).Representative x = _ ∨ (Opened ≤ jx ∧
            ((s.This.Species.modify (fun Specie => Specie.AddGenome g) j).getD jx
              {}).Representative = some x)
          rw [hR]
          exact p4
    · show Opened ≤ (s.This.Species.modify (fun Specie => Specie.AddGenome g) j).length
      rw [hlen]
      exact hopen
  · refine ⟨Trainer.Found s g, by unfold Trainer.Place; rw [hfind], rfl, ?_⟩
    have hlen : (Trainer.Found s g).This.Species.length = s.This.Species.length + 1 := by
      show (s.This.Species ++ [_]).length = _
      rw [List.length_append]
      rfl
    have hget : ∀ k, (Trainer.Found s g).This.Species.getD k {} =
        if k < s.This.Species.length then s.This.Species.getD k {}
        else if k = s.This.Species.length then
          (Species.Create g s.NextSpeciesID).AddGenome g
        else {} := fun k => getD_append_one _ _ k
    have hmemy : ∀ a, (Trainer.Found s g).This.Memory a =
        Trainer.SetSpeciesID s.This.Memory g
          ((Species.Create g s.NextSpeciesID).AddGenome g).ID a := fun a => rfl
    refine ⟨fun a => ?_, fun k hk => ?_, fun k hk x hx => ?_, fun k hk => ?_,
      fun x hx => ?_, ?_⟩
    · rw [hmemy, SetSpeciesID_Genotype]
      exact hgen a
    · rw [hget]
      by_cases hk2 : k < s.This.Species.length
      · rw [if_pos hk2]
        exact hrep k hk2
      · rw [if_neg hk2, if_pos (by omega)]
        intro h
        cases h
    · rw [hget] at hx
      by_cases hk2 : k < s.This.Species.length
      · rw [if_pos hk2] at hx
        exact List.mem_cons_of_mem _ (hmem k hk2 x hx)
      · rw [if_neg hk2, if_pos (by omega)] at hx
        have hx2 : x ∈ [g] := hx
        rw [List.mem_singleton.1 hx2]
        exact List.mem_cons_self _ _
    · rw [hget]
      by_cases hk2 : k < s.This.Species.length
      · rw [if_pos hk2]
        exact hnd k hk2
      · rw [if_neg hk2, if_pos (by omega)]
        exact List.nodup_singleton g
    · rcases List.mem_cons.1 hx with hxg | hxd
      · subst hxg
        refine ⟨s.This.Species.length, by rw [hlen]; omega, fun k hk => ?_, ?_,
          fun k hk => ?_, Or.inr ⟨hopen, ?_⟩⟩
        · rw [hget]
          by_cases hk2 : k < s.This.Species.length
          · rw [if_pos hk2]
            exact ⟨fun h => absurd h (hfresh k hk2), fun h => absurd h (by omega)⟩
          · rw [if_neg hk2, if_pos (by omega)]
            exact ⟨fun _ => by omega, fun _ => List.mem_singleton_self x⟩
        · rw [hmemy, SetSpeciesID_same, hget, if_neg (Nat.lt_irrefl _), if_pos rfl]
        · rw [hget, if_pos hk, ← IsNear_congr pow NonFinite cfg s.This.Memory M0 hgen]
          exact hfar k hk
        · rw [hget, if_neg (Nat.lt_irrefl _), if_pos rfl]
          rfl
      · have hxg : x ≠ g := fun e => hg (e ▸ hxd)
        obtain ⟨jx, hjx, p1, p2, p3, p4⟩ := hplaced x hxd
        refine ⟨jx, by rw [hlen]; omega, fun k hk => ?_, ?_, fun k hk => ?_, ?_⟩
        · rw [hget]
          by_cases hk2 : k < s.This.Species.length
          · rw [if_pos hk2]
            exact p1 k hk2
          · rw [if_neg hk2, if_pos (by omega)]
            constructor
            · intro h
              have h2 : x ∈ [g] := h
              exact absurd (List.mem_singleton.1 h2) hxg
            · intro h
              omega
        · rw [hmemy, SetSpeciesID_other _ _ _ _ hxg, hget, if_pos hjx]
          exact p2
        · rw [hget, if_pos (by omega)]
          exact p3 k hk
        · rw [hget, if_pos hjx]
          exact p4
    · rw [hlen]
      omega

/-- The second loop of `SpeciatePopulation_Method1` returns on any list of
    distinct genomes not yet placed, and keeps `Trainer.Speciated`. -/
theorem PlaceAll_Speciated (pow : ℚ → ℚ → ℚ) (NonFinite : Genotype → Genotype → Bool)
    (cfg : Config) (M0 : Nat → Genome) (Opened : Nat) :
    ∀ (Todo : List Nat) (s : Speciation) (Done : List Nat),
      Trainer.Speciated pow NonFinite cfg M0 Opened s.This Done → Todo.Nodup →
      (∀ g ∈ Todo, g ∉ Done) →
      ∃ s2 Done2, Todo.foldlM (Trainer.Place pow NonFinite cfg) s = Except.ok s2 ∧
        s2.This.Population = s.This.Population ∧
        (∀ g, g ∈ Done2 ↔ g ∈ Todo ∨ g ∈ Done) ∧
        Trainer.Speciated pow NonFinite cfg M0 Opened s2.This Done2 := by
  intro Todo
  induction Todo with
  | nil =>
    intro s Done hinv _ _
    exact ⟨s, Done, rfl, rfl, fun g => by simp, hinv⟩
  | cons g rest ih =>
    intro s Done hinv hnd hfresh
    obtain ⟨s1, h1, hp1, hinv1⟩ := Place_Speciated pow NonFinite cfg M0 Opened s Done g hinv
      (hfresh g (List.mem_cons_self _ _))
    have hnd2 := List.nodup_cons.1 hnd
    obtain ⟨s2, Done2, h2, hp2, hd2, hinv2⟩ := ih s1 (g :: Done) hinv1 hnd2.2
      (fun x hx hxd => by
        rcases List.mem_cons.1 hxd with e | hxd
        · rw [e] at hx
          exact hnd2.1 hx
        · exact hfresh x (List.mem_cons_of_mem _ hx) hxd)
    refine ⟨s2, Done2, ?_, by rw [hp2, hp1], fun x => ?_, hinv2⟩
    · rw [List.foldlM_cons, h1]
      exact h2
    · rw [hd2 x, List.mem_cons, List.mem_cons]
      tauto

theorem GetBestGenome_kept (M : Nat → Genome) :
    ∀ (l : List Nat) (b : Option Nat × ℚ), b.1 ≠ none →
      (l.foldl (fun (Best : Option Nat × ℚ) Genome =>
        if (M Genome).Fitness > Best.2 then (some Genome, (M Genome).Fitness) else Best) b).1 ≠
        none := by
  intro l
  induction l with
  | nil => intro b hb; exact hb
  | cons g rest ih =>
    intro b hb
    rw [List.foldl_cons]
    apply ih
    split_ifs
    · intro h
      cases h
    · exact hb

theorem GetBestGenome_some (DBL_MAX : ℚ) (M : Nat → Genome) (Specie : Species)
    (hne : Specie.Genomes ≠ []) (hfit : ∀ a, -DBL_MAX < (M a).Fitness) :
    Specie.GetBestGenome DBL_MAX M ≠ none := by
  unfold Species.GetBestGenome
  cases hG : Specie.Genomes with
  | nil => exact absurd hG hne
  | cons g rest =>
    rw [if_neg (by simp), List.foldl_cons]
    apply GetBestGenome_kept
    rw [if_pos (hfit g)]
    intro h
    cases h

theorem UpdateRepresentative_spec (DBL_MAX : ℚ) (cfg : Config) (M : Nat → Genome)
    (Specie : Species) (Rand : List Nat) (hrep : Specie.Representative ≠ none)
    (hfit : cfg.ChooseBestRepresentative = true → ∀ a, -DBL_MAX < (M a).Fitness)
    (hdraw : cfg.ChooseBestRepresentative = false → Rand ≠ []) :
    ∃ S2 Rand2, Trainer.UpdateRepresentative DBL_MAX cfg M Specie Rand = Except.ok (S2, Rand2) ∧
      S2.Genomes = [] ∧ S2.Representative ≠ none ∧ Rand.length ≤ Rand2.length + 1 := by
  unfold Trainer.UpdateRepresentative
  by_cases hG : Specie.Genomes = []
  · rw [if_neg (by simp [hG])]
    exact ⟨_, _, rfl, rfl, hrep, Nat.le_succ _⟩
  · rw [if_pos (by simp [hG])]
    cases hb : cfg.ChooseBestRepresentative with
    | true =>
      rw [if_pos rfl]
      exact ⟨_, _, rfl, rfl, GetBestGenome_some DBL_MAX M Specie hG (hfit hb), Nat.le_succ _⟩
    | false =>
      rw [if_neg (by simp)]
      cases hR : Rand with
      | nil => exact absurd hR (hdraw hb)
      | cons r rest =>
        have hpos : 0 < Specie.Genomes.length := List.length_pos.2 hG
        have hget : Specie.GetRandomGenome (r :: rest) = Except.ok
            (some (Specie.Genomes.getD ((r % Specie.Genomes.length : Nat) : Int).toNat 0), rest) := by
          unfold Species.GetRandomGenome
          rw [if_neg (by simp [hG]), GetRandomInt_cons _ r rest hpos]
        rw [hget]
        refine ⟨_, _, rfl, rfl, ?_, ?_⟩
        · intro h
          cases h
        · rw [List.length_cons]

theorem UpdateRepresentatives_spec (DBL_MAX : ℚ) (cfg : Config) (M : Nat → Genome)
    (hfit : cfg.ChooseBestRepresentative = true → ∀ a, -DBL_MAX < (M a).Fitness) :
    ∀ (L : List Species) (Rand : List Nat),
      (∀ Specie ∈ L, Specie.Representative ≠ none) →
      (cfg.ChooseBestRepresentative = false → L.length ≤ Rand.length) →
      ∃ L2 Rand2, Trainer.UpdateRepresentatives DBL_MAX cfg M L Rand = Except.ok (L2, Rand2) ∧
        L2.length = L.length ∧
        ∀ Specie ∈ L2, Specie.Genomes = [] ∧ Specie.Representative ≠ none := by
  intro L
  induction L with
  | nil =>
    intro Rand _ _
    exact ⟨[], Rand, rfl, rfl, fun S hS => absurd hS (List.not_mem_nil S)⟩
  | cons S rest ih =>
    intro Rand hrep hdraw
    obtain ⟨S2, Rand2, h1, h2, h3, h4⟩ := UpdateRepresentative_spec DBL_MAX cfg M S Rand
      (hrep S (List.mem_cons_self _ _)) hfit
      (fun hb hR => by
        have := hdraw hb
        rw [hR] at this
        simp at this)
    obtain ⟨L2, Rand3, k1, k2, k3⟩ := ih Rand2
      (fun x hx => hrep x (List.mem_cons_of_mem _ hx))
      (fun hb => by
        have := hdraw hb
        rw [List.length_cons] at this
        omega)
    refine ⟨S2 :: L2, Rand3, ?_, by rw [List.length_cons, List.length_cons, k2], ?_⟩
    · unfold Trainer.UpdateRepresentatives
      rw [h1]
      simp only
      rw [k1]
    · intro x hx
      rcases List.mem_cons.1 hx with e | hx
      · rw [e]
        exact ⟨h2, h3⟩
      · exact k3 x hx

theorem getD_mem_Species (L : List Species) (k : Nat) (hk : k < L.length) : L.getD k {} ∈ L := by
  rw [List.getD_eq_getElem _ _ hk]
  exact List.getElem_mem hk

/-- The loops of `SpeciatePopulation_Method1` from the state `s1` they start
    in: the representatives are updated, the members dropped, and the genomes
    `Todo` placed. -/
theorem Speciate_from (pow : ℚ → ℚ → ℚ) (NonFinite : Genotype → Genotype → Bool)
    (DBL_MAX : ℚ) (cfg : Config) (M0 : Nat → Genome) (s1 : Speciation) (Todo : List Nat)
    (hgen : ∀ a, (s1.This.Memory a).Genotype = (M0 a).Genotype)
    (hnd : Todo.Nodup)
    (hrep : ∀ Specie ∈ s1.This.Species, Specie.Representative ≠ none)
    (hfit : cfg.ChooseBestRepresentative = true → ∀ a, -DBL_MAX < (s1.This.Memory a).Fitness)
    (hdraws : cfg.ChooseBestRepresentative = false → s1.This.Species.length ≤ s1.Rand.length) :
    ∃ L2 Rand2 s2 Done2,
      Trainer.UpdateRepresentatives DBL_MAX cfg s1.This.Memory s1.This.Species s1.Rand =
        Except.ok (L2, Rand2) ∧
      Todo.foldlM (Trainer.Place pow NonFinite cfg)
        { s1 with This := { s1.This with Species := L2 }, Rand := Rand2 } = Except.ok s2 ∧
      s2.This.Population = s1.This.Population ∧
      (∀ g, g ∈ Done2 ↔ g ∈ Todo) ∧
      Trainer.Speciated pow NonFinite cfg M0 s1.This.Species.length s2.This Done2 := by
  obtain ⟨L2, Rand2, h1, h2, h3⟩ := UpdateRepresentatives_spec DBL_MAX cfg s1.This.Memory hfit
    s1.This.Species s1.Rand hrep hdraws
  have hinv : Trainer.Speciated pow NonFinite cfg M0 s1.This.Species.length
      ({ s1 with This := { s1.This with Species := L2 }, Rand := Rand2 } : Speciation).This [] := by
    refine ⟨hgen, fun k hk => ?_, fun k hk g hg => ?_, fun k hk => ?_,
      fun g hg => absurd hg (List.not_mem_nil g), ?_⟩
    · exact (h3 _ (getD_mem_Species L2 k hk)).2
    · have e : (L2.getD k {}).Genomes = [] := (h3 _ (getD_mem_Species L2 k hk)).1
      have hg2 : g ∈ (L2.getD k {}).Genomes := hg
      rw [e] at hg2
      exact absurd hg2 (List.not_mem_nil g)
    · have e : (L2.getD k {}).Genomes = [] := (h3 _ (getD_mem_Species L2 k hk)).1
      show (L2.getD k {}).Genomes.Nodup
      rw [e]
      exact List.nodup_nil
    · show s1.This.Species.length ≤ L2.length
      rw [h2]
  obtain ⟨s2, Done2, k1, k2, k3, k4⟩ := PlaceAll_Speciated pow NonFinite cfg M0
    s1.This.Species.length Todo _ [] hinv hnd (fun g _ => List.not_mem_nil g)
  exact ⟨L2, Rand2, s2, Done2, h1, k1, k2, fun g => by rw [k3 g]; simp, k4⟩

theorem SetSpeciesID_Fitness (M : Nat → Genome) (g ID a : Nat) :
    (Trainer.SetSpeciesID M g ID a).Fitness = (M a).Fitness := by
  unfold Trainer.SetSpeciesID
  by_cases h : a = g
  · subst h
    rw [Function.update_same]
  · rw [Function.update_noteq h]

theorem Method1_bootstrap (pow : ℚ → ℚ → ℚ) (NonFinite : Genotype → Genotype → Bool)
    (DBL_MAX : ℚ) (cfg : Config) (s : Speciation) (hS : s.This.Species = []) :
    Trainer.SpeciatePopulation_Method1 pow NonFinite DBL_MAX cfg s =
      match Trainer.UpdateRepresentatives DBL_MAX cfg
          (Trainer.Found s (s.This.Population.getD 0 0)).This.Memory
          (Trainer.Found s (s.This.Population.getD 0 0)).This.Species
          (Trainer.Found s (s.This.Population.getD 0 0)).Rand with
      | Except.error e => Except.error e
      | Except.ok (Species2, Rand2) =>
        (s.This.Population.drop 1).foldlM (Trainer.Place pow NonFinite cfg)
          { Trainer.Found s (s.This.Population.getD 0 0) with
            This := { (Trainer.Found s (s.This.Population.getD 0 0)).This with
              Species := Species2 },
            Rand := Rand2 } := by
  have hb : s.This.Species.isEmpty = true := by rw [hS]; rfl
  unfold Trainer.SpeciatePopulation_Method1
  simp only [hb, if_true]
  rfl

theorem Method1_resume (pow : ℚ → ℚ → ℚ) (NonFinite : Genotype → Genotype → Bool)
    (DBL_MAX : ℚ) (cfg : Config) (s : Speciation) (hS : s.This.Species ≠ []) :
    Trainer.SpeciatePopulation_Method1 pow NonFinite DBL_MAX cfg s =
      match Trainer.UpdateRepresentatives DBL_MAX cfg s.This.Memory s.This.Species s.Rand with
      | Except.error e => Except.error e
      | Except.ok (Species2, Rand2) =>
        s.This.Population.foldlM (Trainer.Place pow NonFinite cfg)
          { s with This := { s.This with Species := Species2 }, Rand := Rand2 } := by
  have hb : s.This.Species.isEmpty = false := by
    cases h : s.This.Species with
    | nil => exact absurd h hS
    | cons a l => rfl
  unfold Trainer.SpeciatePopulation_Method1
  simp only [hb]
  rfl

/-- The claim C32, as the code behaves. On a population of distinct genomes
    that is not empty, with every representative of the species list set and
    enough values of `rand()` (or fitnesses above `-DBL_MAX`, when the best
    member becomes the representative), `SpeciatePopulation_Method1` returns.
    Afterwards the members of every species are distinct genomes of the
    population, and every genome the second loop has been through is placed as
    `Trainer.Placed` says: in exactly one species, with its `SpeciesID`, which is
    the first species near it, or a species opened for it when no species was
    near. With a species list that is not empty these are all the genomes of the
    population. With the empty species list the loop starts at index 1, after
    the members of the species opened for `Population[0]` were dropped:
    `Population[0]` is a member of no species. -/
theorem SpeciatePopulation_Method1_placed (pow : ℚ → ℚ → ℚ)
    (NonFinite : Genotype → Genotype → Bool) (DBL_MAX : ℚ) (cfg : Config) (s : Speciation)
    (hne : s.This.Population ≠ []) (hnd : s.This.Population.Nodup)
    (hrep : ∀ Specie ∈ s.This.Species, Specie.Representative ≠ none)
    (hfit : cfg.ChooseBestRepresentative = true → ∀ a, -DBL_MAX < (s.This.Memory a).Fitness)
    (hdraws : cfg.ChooseBestRepresentative = false → s.This.Species.length < s.Rand.length) :
    ∃ s2, Trainer.SpeciatePopulation_Method1 pow NonFinite DBL_MAX cfg s = Except.ok s2 ∧
      s2.This.Population = s.This.Population ∧
      (∀ k, k < s2.This.Species.length →
        (s2.This.Species.getD k {}).Genomes.Nodup ∧
        ∀ g ∈ (s2.This.Species.getD k {}).Genomes, g ∈ s.This.Population) ∧
      (∀ i, (s.This.Species = [] → 1 ≤ i) → i < s.This.Population.length →
        ∃ j, j < s2.This.Species.length ∧
          Trainer.Placed pow NonFinite cfg s.This.Memory (max 1 s.This.Species.length) s2.This
            (s.This.Population.getD i 0) j) ∧
      (s.This.Species = [] → ∀ k, k < s2.This.Species.length →
        s.This.Population.getD 0 0 ∉ (s2.This.Species.getD k {}).Genomes) := by
  by_cases hS : s.This.Species = []
  · obtain ⟨L2, Rand2, s2, Done2, h1, h2, h3, h4, hgen, hr, hmem, hnodup, hplaced, hopen⟩ :=
      Speciate_from pow NonFinite DBL_MAX cfg s.This.Memory
        (Trainer.Found s (s.This.Population.getD 0 0)) (s.This.Population.drop 1)
        (fun a => SetSpeciesID_Genotype _ _ _ a)
        (List.Nodup.sublist (List.drop_sublist 1 _) hnd)
        (fun Specie hSp => by
          have hSp2 : Specie ∈ s.This.Species ++
              [(Species.Create (s.This.Population.getD 0 0) s.NextSpeciesID).AddGenome
                (s.This.Population.getD 0 0)] := hSp
          rw [hS, List.nil_append, List.mem_singleton] at hSp2
          rw [hSp2]
          intro h
          cases h)
        (fun hb a => by
          show -DBL_MAX < (Trainer.SetSpeciesID _ _ _ a).Fitness
          rw [SetSpeciesID_Fitness]
          exact hfit hb a)
        (fun hb => by
          have := hdraws hb
          show (s.This.Species ++ [_]).length ≤ s.Rand.length
          rw [List.length_append]
          exact this)
    have hlen1 : (Trainer.Found s (s.This.Population.getD 0 0)).This.Species.length =
        max 1 s.This.Species.length := by
      show (s.This.Species ++ [_]).length = _
      rw [hS]
      rfl
    rw [hlen1] at hplaced hopen
    refine ⟨s2, ?_, h3, fun k hk => ⟨hnodup k hk, fun g hg => ?_⟩, fun i hi1 hi2 => ?_,
      fun _ k hk hin => ?_⟩
    · rw [Method1_bootstrap pow NonFinite DBL_MAX cfg s hS, h1]
      exact h2
    · exact List.mem_of_mem_drop ((h4 g).1 (hmem k hk g hg))
    · have hi3 := hi1 hS
      apply hplaced
      rw [h4]
      have e : s.This.Population.getD i 0 = (s.This.Population.drop 1).getD (i - 1) 0 := by
        rw [List.getD_eq_getElem?_getD, List.getD_eq_getElem?_getD, List.getElem?_drop]
        congr 2
        omega
      rw [e]
      have hl : i - 1 < (s.This.Population.drop 1).length := by
        rw [List.length_drop]
        omega
      rw [List.getD_eq_getElem _ _ hl]
      exact List.getElem_mem hl
    · have hin2 := (h4 _).1 (hmem k hk _ hin)
      cases hP : s.This.Population with
      | nil => exact hne hP
      | cons p rest =>
        rw [hP] at hin2 hnd
        have : p ∈ rest := hin2
        exact (List.nodup_cons.1 hnd).1 this
  · obtain ⟨L2, Rand2, s2, Done2, h1, h2, h3, h4, hgen, hr, hmem, hnodup, hplaced, hopen⟩ :=
      Speciate_from pow NonFinite DBL_MAX cfg s.This.Memory s s.This.Population
        (fun a => rfl) hnd hrep hfit (fun hb => le_of_lt (hdraws hb))
    have hlen1 : s.This.Species.length = max 1 s.This.Species.length := by
      have : 0 < s.This.Species.length := List.length_pos.2 hS
      omega
    rw [hlen1] at hplaced hopen
    refine ⟨s2, ?_, h3, fun k hk => ⟨hnodup k hk, fun g hg => (h4 g).1 (hmem k hk g hg)⟩,
      fun i _ hi2 => ?_, fun h => absurd h hS⟩
    · rw [Method1_resume pow NonFinite DBL_MAX cfg s hS, h1]
      exact h2
    · apply hplaced
      rw [h4, List.getD_eq_getElem _ _ hi2]
      exact List.getElem_mem hi2

theorem SpeciatePopulation_Method1_placed_witness :
    ∃ s2, Trainer.SpeciatePopulation_Method1 (fun Base _ => Base) (fun _ _ => false) 1000 {}
        threeGenomes = Except.ok s2 ∧
      s2.This.Population = [0, 1, 2] ∧
      (∀ k, k < s2.This.Species.length → 0 ∉ (s2.This.Species.getD k {}).Genomes) ∧
      (∃ j, j < s2.This.Species.length ∧ 1 ∈ (s2.This.Species.getD j {}).Genomes) := by
  obtain ⟨s2, h1, h2, _, h4, h5⟩ := SpeciatePopulation_Method1_placed (fun Base _ => Base)
    (fun _ _ => false) 1000 {} threeGenomes (by decide) (by decide)
    (fun S hS => absurd hS (List.not_mem_nil S)) (fun h => absurd h (by decide))
    (fun _ => by decide)
  obtain ⟨j, hj, hp, _⟩ := h4 1 (fun _ => le_refl 1) (by decide)
  exact ⟨s2, h1, h2, h5 rfl, j, hj, (hp j hj).2 rfl⟩

/-! ### The species after speciation -/

/-- Between two rounds of the second loop of `SpeciatePopulation_Method1` the
    trainer is one the contract of `PromoteEliteGenomes` is stated for: no
    species lists a genome twice, no genome is in two species, and every member
    is one of the genomes placed so far. -/
theorem Speciated_members (pow : ℚ → ℚ → ℚ) (NonFinite : Genotype → Genotype → Bool)
    (cfg : Config) (M0 : Nat → Genome) (Opened : Nat) (t : Trainer) (Done : List Nat)
    (h : Trainer.Speciated pow NonFinite cfg M0 Opened t Done) :
    (∀ s ∈ t.Species, s.Genomes.Nodup) ∧
    t.Species.Pairwise (fun a b => a.Genomes.Disjoint b.Genomes) ∧
    (∀ s ∈ t.Species, ∀ g ∈ s.Genomes, g ∈ Done) := by
  obtain ⟨_, _, hmem, hnodup, hplaced, _⟩ := h
  have hidx : ∀ s ∈ t.Species, ∃ k, k < t.Species.length ∧ t.Species.getD k {} = s := by
    intro s hs
    obtain ⟨k, hk, e⟩ := List.getElem_of_mem hs
    exact ⟨k, hk, by rw [List.getD_eq_getElem _ _ hk, e]⟩
  refine ⟨fun s hs => ?_, ?_, fun s hs g hg => ?_⟩
  · obtain ⟨k, hk, e⟩ := hidx s hs
    rw [← e]
    exact hnodup k hk
  · rw [List.pairwise_iff_getElem]
    intro i j hi hj hij g hgi hgj
    rw [← List.getD_eq_getElem _ {} hi] at hgi
    rw [← List.getD_eq_getElem _ {} hj] at hgj
    obtain ⟨j0, _, hp, _⟩ := hplaced g (hmem i hi g hgi)
    have e1 := (hp i hi).1 hgi
    have e2 := (hp j hj).1 hgj
    omega
  · obtain ⟨k, hk, e⟩ := hidx s hs
    rw [← e] at hg
    exact hmem k hk g hg

/-- The trainer `SpeciatePopulation_Method1` leaves, on a population of distinct
    genomes that is not empty, is one the contract of `PromoteEliteGenomes` is
    stated for: no species lists a genome twice, no genome is in two species,
    and every member of a species is a genome of the population. -/
theorem SpeciatePopulation_Method1_members (pow : ℚ → ℚ → ℚ)
    (NonFinite : Genotype → Genotype → Bool) (DBL_MAX : ℚ) (cfg : Config) (s : Speciation)
    (_hne : s.This.Population ≠ []) (hnd : s.This.Population.Nodup)
    (hrep : ∀ Specie ∈ s.This.Species, Specie.Representative ≠ none)
    (hfit : cfg.ChooseBestRepresentative = true → ∀ a, -DBL_MAX < (s.This.Memory a).Fitness)
    (hdraws : cfg.ChooseBestRepresentative = false → s.This.Species.length < s.Rand.length) :
    ∃ s2, Trainer.SpeciatePopulation_Method1 pow NonFinite DBL_MAX cfg s = Except.ok s2 ∧
      (∀ S ∈ s2.This.Species, S.Genomes.Nodup) ∧
      s2.This.Species.Pairwise (fun a b => a.Genomes.Disjoint b.Genomes) ∧
      (∀ S ∈ s2.This.Species, ∀ g ∈ S.Genomes, g ∈ s2.This.Population) := by
  by_cases hS : s.This.Species = []
  · obtain ⟨L2, Rand2, s2, Done2, h1, h2, h3, h4, hsp⟩ :=
      Speciate_from pow NonFinite DBL_MAX cfg s.This.Memory
        (Trainer.Found s (s.This.Population.getD 0 0)) (s.This.Population.drop 1)
        (fun a => SetSpeciesID_Genotype _ _ _ a)
        (List.Nodup.sublist (List.drop_sublist 1 _) hnd)
        (fun Specie hSp => by
          have hSp2 : Specie ∈ s.This.Species ++
              [(Species.Create (s.This.Population.getD 0 0) s.NextSpeciesID).AddGenome
                (s.This.Population.getD 0 0)] := hSp
          rw [hS, List.nil_append, List.mem_singleton] at hSp2
          rw [hSp2]
          intro h
          cases h)
        (fun hb a => by
          show -DBL_MAX < (Trainer.SetSpeciesID _ _ _ a).Fitness
          rw [SetSpeciesID_Fitness]
          exact hfit hb a)
        (fun hb => by
          have := hdraws hb
          show (s.This.Species ++ [_]).length ≤ s.Rand.length
          rw [List.length_append]
          exact this)
    obtain ⟨m1, m2, m3⟩ := Speciated_members pow NonFinite cfg _ _ _ _ hsp
    refine ⟨s2, ?_, m1, m2, fun S hSm g hg => ?_⟩
    · rw [Method1_bootstrap pow NonFinite DBL_MAX cfg s hS, h1]
      exact h2
    · rw [h3]
      exact List.mem_of_mem_drop ((h4 g).1 (m3 S hSm g hg))
  · obtain ⟨L2, Rand2, s2, Done2, h1, h2, h3, h4, hsp⟩ :=
      Speciate_from pow NonFinite DBL_MAX cfg s.This.Memory s s.This.Population
        (fun a => rfl) hnd hrep hfit (fun hb => le_of_lt (hdraws hb))
    obtain ⟨m1, m2, m3⟩ := Speciated_members pow NonFinite cfg _ _ _ _ hsp
    refine ⟨s2, ?_, m1, m2, fun S hSm g hg => ?_⟩
    · rw [Method1_resume pow NonFinite DBL_MAX cfg s hS, h1]
      exact h2
    · rw [h3]
      exact (h4 g).1 (m3 S hSm g hg)

/-! ### The reproduction counts: the `int` arithmetic of the source -/

theorem toInt32_of_range (x : Int) (h0 : -2 ^ 31 ≤ x) (h1 : x < 2 ^ 31) : toInt32 x = x := by
  unfold toInt32
  omega

theorem DoubleToInt_of_range (x : Int) (h0 : -2 ^ 31 ≤ x) (h1 : x < 2 ^ 31) :
    DoubleToInt x = x := by
  unfold DoubleToInt
  rw [if_pos ⟨h0, h1⟩]

theorem TotalDesired_exact (L : List Species) (h0 : ∀ s ∈ L, 0 ≤ s.DesiredPopulationSize)
    (h1 : Exact.TotalDesired L < 2 ^ 31) : Trainer.TotalDesired L = Exact.TotalDesired L := by
  have h : ∀ (L : List Species) (a : Int), 0 ≤ a → (∀ s ∈ L, 0 ≤ s.DesiredPopulationSize) →
      a + (L.map (fun s => s.DesiredPopulationSize)).sum < 2 ^ 31 →
      L.foldl (fun Total Specie => toInt32 (Total + Specie.DesiredPopulationSize)) a =
        a + (L.map (fun s => s.DesiredPopulationSize)).sum := by
    intro L
    induction L with
    | nil => intro a _ _ _; simp
    | cons x t ih =>
      intro a ha hnn hlt
      rw [List.map_cons, List.sum_cons] at hlt
      have hx : 0 ≤ x.DesiredPopulationSize := hnn x (List.mem_cons_self _ _)
      have ht : 0 ≤ (t.map (fun s => s.DesiredPopulationSize)).sum := by
        apply List.sum_nonneg
        intro y hy
        obtain ⟨s, hs, e⟩ := List.mem_map.1 hy
        rw [← e]
        exact hnn s (List.mem_cons_of_mem _ hs)
      rw [List.foldl_cons, toInt32_of_range _ (by omega) (by omega),
        ih _ (by omega) (fun s hs => hnn s (List.mem_cons_of_mem _ hs)) (by omega),
        List.map_cons, List.sum_cons]
      ring
  rw [TotalDesired_eq] at h1 ⊢
  unfold Trainer.TotalDesired
  rw [h L 0 (le_refl _) h0 (by omega), Int.zero_add]

theorem foldl_AdjustedFitness (L : List Species) :
    L.foldl (fun Total Specie => Total + Specie.AdjustedFitness) 0 =
      (L.map (fun s => s.AdjustedFitness)).sum := by
  have h : ∀ (L : List Species) (a : ℚ),
      L.foldl (fun Total Specie => Total + Specie.AdjustedFitness) a =
        a + (L.map (fun s => s.AdjustedFitness)).sum := by
    intro L
    induction L with
    | nil => intro a; simp
    | cons x t ih =>
      intro a
      rw [List.foldl_cons, ih, List.map_cons, List.sum_cons]
      ring
  rw [h L 0, zero_add]

/-- The share of a species, for adjusted fitnesses that are not negative, is
    an integer from 0 to `PopulationSize`. -/
theorem share_range (cfg : Config) (L : List Species) (hnn : ∀ s ∈ L, 0 ≤ s.AdjustedFitness)
    (s : Species) (hs : s ∈ L)
    (hT : Math.MaxDouble (L.foldl (fun Total Specie => Total + Specie.AdjustedFitness) 0) 0 ≠ 0) :
    0 ≤ ⌊s.AdjustedFitness /
        Math.MaxDouble (L.foldl (fun Total Specie => Total + Specie.AdjustedFitness) 0) 0 *
        (cfg.PopulationSize : ℚ)⌋ ∧
    ⌊s.AdjustedFitness /
        Math.MaxDouble (L.foldl (fun Total Specie => Total + Specie.AdjustedFitness) 0) 0 *
        (cfg.PopulationSize : ℚ)⌋ ≤ (cfg.PopulationSize : Int) := by
  rw [foldl_AdjustedFitness] at hT ⊢
  have hsum : s.AdjustedFitness ≤ (L.map (fun s => s.AdjustedFitness)).sum := by
    apply List.single_le_sum
    · intro x hx
      obtain ⟨y, hy, e⟩ := List.mem_map.1 hx
      rw [← e]
      exact hnn y hy
    · exact List.mem_map.2 ⟨s, hs, rfl⟩
  have hs0 := hnn s hs
  have hTpos : 0 < Math.MaxDouble (L.map (fun s => s.AdjustedFitness)).sum 0 ∧
      s.AdjustedFitness ≤ Math.MaxDouble (L.map (fun s => s.AdjustedFitness)).sum 0 := by
    unfold Math.MaxDouble at hT ⊢
    split_ifs with h
    · exact ⟨h, hsum⟩
    · rw [if_neg h] at hT
      exact absurd rfl hT
  have hP : (0 : ℚ) ≤ (cfg.PopulationSize : ℚ) := by exact_mod_cast Nat.zero_le _
  have hq0 : 0 ≤ s.AdjustedFitness /
      Math.MaxDouble (L.map (fun s => s.AdjustedFitness)).sum 0 := div_nonneg hs0 (le_of_lt hTpos.1)
  have hq1 : s.AdjustedFitness /
      Math.MaxDouble (L.map (fun s => s.AdjustedFitness)).sum 0 ≤ 1 := by
    rw [div_le_one hTpos.1]
    exact hTpos.2
  constructor
  · exact Int.floor_nonneg.2 (mul_nonneg hq0 hP)
  · have : s.AdjustedFitness / Math.MaxDouble (L.map (fun s => s.AdjustedFitness)).sum 0 *
        (cfg.PopulationSize : ℚ) ≤ ((cfg.PopulationSize : Int) : ℚ) := by
      push_cast
      nlinarith
    have h2 := Int.floor_mono this
    rw [Int.floor_intCast] at h2
    exact h2

theorem Quotas_exact (cfg : Config) (L : List Species) (hnn : ∀ s ∈ L, 0 ≤ s.AdjustedFitness)
    (hP : cfg.PopulationSize < 2 ^ 31) :
    Trainer.Quotas cfg L = Exact.Quotas cfg L ∧
    ∀ s ∈ Exact.Quotas cfg L, s.DesiredPopulationSize ≤
      max (cfg.PopulationSize : Int) (cfg.MinSpeciesSize : Int) := by
  have hPZ : (cfg.PopulationSize : Int) < 2 ^ 31 := by exact_mod_cast hP
  unfold Trainer.Quotas Exact.Quotas
  constructor
  · apply List.map_congr_left
    intro s hs
    by_cases hT : Math.MaxDouble
        (L.foldl (fun Total Specie => Total + Specie.AdjustedFitness) 0) 0 ≠ 0
    · obtain ⟨h0, h1⟩ := share_range cfg L hnn s hs hT
      simp only [hT, ne_eq, not_false_eq_true, if_true]
      rw [DoubleToInt_of_range _ (by omega) (by omega)]
    · simp only [hT, if_false]
  · intro s hs
    obtain ⟨s0, hs0, e⟩ := List.mem_map.1 hs
    rw [← e]
    by_cases hT : Math.MaxDouble
        (L.foldl (fun Total Specie => Total + Specie.AdjustedFitness) 0) 0 ≠ 0
    · obtain ⟨h0, h1⟩ := share_range cfg L hnn s0 hs0 hT
      simp only [hT, ne_eq, not_false_eq_true, if_true]
      unfold Math.MaxInt
      split_ifs
      · exact le_trans h1 (le_max_left _ _)
      · exact le_max_right _ _
    · simp only [hT, if_false]
      exact le_max_right _ _



theorem RoundRobinPass_exact :
    ∀ (L : List Species) (R B : Int), 0 ≤ R → R < 2 ^ 31 → B < 2 ^ 31 →
      (∀ s ∈ L, 0 ≤ s.DesiredPopulationSize ∧ s.DesiredPopulationSize < B) →
      Trainer.RoundRobinPass L R = Exact.RoundRobinPass L R ∧
      ∀ s ∈ (Exact.RoundRobinPass L R).1,
        0 ≤ s.DesiredPopulationSize ∧ s.DesiredPopulationSize < B + 1 := by
  intro L
  induction L with
  | nil =>
    intro R B _ _ _ _
    exact ⟨rfl, fun s hs => absurd hs (List.not_mem_nil s)⟩
  | cons x t ih =>
    intro R B hR0 hR1 hB hL
    have hx := hL x (List.mem_cons_self _ _)
    unfold Trainer.RoundRobinPass Exact.RoundRobinPass
    by_cases h0 : R = 0
    · rw [if_pos h0, if_pos h0]
      refine ⟨rfl, fun s hs => ?_⟩
      have := hL s hs
      exact ⟨this.1, by omega⟩
    · rw [if_neg h0, if_neg h0]
      obtain ⟨e, hb⟩ := ih (R - 1) B (by omega) (by omega) hB
        (fun s hs => hL s (List.mem_cons_of_mem _ hs))
      dsimp only
      rw [toInt32_of_range (R - 1) (by omega) (by omega),
        toInt32_of_range (x.DesiredPopulationSize + 1) (by omega) (by omega), e]
      refine ⟨rfl, fun s hs => ?_⟩
      rcases List.mem_cons.1 hs with e2 | h2
      · rw [e2]
        exact ⟨by show 0 ≤ x.DesiredPopulationSize + 1; omega,
          by show x.DesiredPopulationSize + 1 < B + 1; omega⟩
      · exact hb s h2

theorem RoundRobin_exact :
    ∀ (fuel : Nat) (L : List Species) (R B : Int), 0 ≤ R → R < 2 ^ 31 →
      B + (fuel : Int) ≤ 2 ^ 31 →
      (∀ s ∈ L, 0 ≤ s.DesiredPopulationSize ∧ s.DesiredPopulationSize < B) →
      Trainer.RoundRobin fuel L R = Exact.RoundRobin fuel L R ∧
      ∀ L2 flag, Exact.RoundRobin fuel L R = Except.ok (L2, flag) →
        ∀ s ∈ L2, 0 ≤ s.DesiredPopulationSize ∧ s.DesiredPopulationSize < B + (fuel : Int) := by
  intro fuel
  induction fuel with
  | zero =>
    intro L R B _ _ _ _
    exact ⟨rfl, fun L2 flag h => by cases h⟩
  | succ fuel ih =>
    intro L R B hR0 hR1 hB hL
    push_cast at hB
    unfold Trainer.RoundRobin Exact.RoundRobin
    by_cases hpos : R > 0
    · rw [if_pos hpos, if_pos hpos]
      obtain ⟨e, hb⟩ := RoundRobinPass_exact L R B hR0 hR1 (by omega) hL
      obtain ⟨_, h2, _, _, _, h6⟩ := RoundRobinPass_spec L R hR0
      dsimp only
      rw [e]
      by_cases hflag : (Exact.RoundRobinPass L R).2.2 = true
      · rw [if_pos hflag, if_pos hflag]
        refine ⟨rfl, fun L2 flag h s hs => ?_⟩
        injection h with h
        injection h with h1 h2
        rw [← h1] at hs
        have := hb s hs
        push_cast
        exact ⟨this.1, by omega⟩
      · rw [if_neg hflag, if_neg hflag]
        obtain ⟨e2, hb2⟩ := ih (Exact.RoundRobinPass L R).1 (Exact.RoundRobinPass L R).2.1 (B + 1)
          h2 (by omega) (by omega) hb
        refine ⟨e2, fun L2 flag h s hs => ?_⟩
        have := hb2 L2 flag h s hs
        push_cast
        exact ⟨this.1, by omega⟩
    · rw [if_neg hpos, if_neg hpos]
      refine ⟨rfl, fun L2 flag h s hs => ?_⟩
      injection h with h
      injection h with h1 h2
      rw [← h1] at hs
      have := hL s hs
      push_cast
      exact ⟨this.1, by omega⟩

theorem modify_congr_at {α : Type} (f g : α → α) (L : List α) (i : Nat)
    (h : ∀ x, L[i]? = some x → f x = g x) : L.modify f i = L.modify g i := by
  apply List.ext_getElem?
  intro k
  rw [List.getElem?_modify, List.getElem?_modify]
  by_cases hk : i = k
  · subst hk
    cases hx : L[i]? with
    | none => rfl
    | some x => simp [h x hx]
  · simp [hk]

theorem Shrink_exact (cfg : Config) :
    ∀ (fuel : Nat) (L : List Species) (SWE : List Nat) (idx N : Int),
      (∀ i, 0 ≤ (L.getD i {}).DesiredPopulationSize ∧
        (L.getD i {}).DesiredPopulationSize < 2 ^ 31) →
      0 ≤ N → N < 2 ^ 31 →
      Trainer.Shrink cfg fuel L SWE idx N = Exact.Shrink cfg fuel L SWE idx N := by
  intro fuel
  induction fuel with
  | zero => intro L SWE idx N _ _ _; rfl
  | succ fuel ih =>
    intro L SWE idx N hL hN0 hN1
    unfold Trainer.Shrink Exact.Shrink
    by_cases hgt : toUInt64 N > cfg.PopulationSize
    · rw [if_pos hgt, if_pos hgt]
      have hNpos : 1 ≤ N := by
        rw [toUInt64_of_nonneg N hN0 (by omega)] at hgt
        omega
      by_cases hvalid : 0 ≤ idx ∧ idx < (SWE.length : Int)
      · rw [if_neg (not_not.2 hvalid), if_neg (not_not.2 hvalid)]
        dsimp only
        by_cases hle : (L.getD (SWE.getD idx.toNat 0) {}).DesiredPopulationSize ≤
            (cfg.MinSpeciesSize : Int)
        · rw [if_pos hle, if_pos hle]
          exact ih _ _ _ _ hL hN0 hN1
        · rw [if_neg hle, if_neg hle]
          have hm : (0 : Int) ≤ (cfg.MinSpeciesSize : Int) := Int.ofNat_nonneg _
          have hmod : L.modify
              (fun s => { s with DesiredPopulationSize := toInt32 (s.DesiredPopulationSize - 1) })
              (SWE.getD idx.toNat 0) =
              L.modify
                (fun s => { s with DesiredPopulationSize := s.DesiredPopulationSize - 1 })
                (SWE.getD idx.toNat 0) := by
            apply modify_congr_at
            intro x hx
            have hxe : L.getD (SWE.getD idx.toNat 0) {} = x := by
              rw [List.getD_eq_getElem?_getD, hx]
              rfl
            have := hL (SWE.getD idx.toNat 0)
            rw [hxe] at this
            rw [toInt32_of_range _ (by omega) (by omega)]
          rw [hmod, toInt32_of_range (N - 1) (by omega) (by omega)]
          apply ih _ _ _ _ _ (by omega) (by omega)
          intro i
          rw [getD_modify_Desired]
          have := hL i
          split_ifs with hc
          · rw [hc.1] at this ⊢
            exact ⟨by show 0 ≤ _ - 1; omega, by show _ - 1 < _; omega⟩
          · exact this
      · rw [if_pos hvalid, if_pos hvalid]
        by_cases h0 : SWE.length = 0
        · rw [if_pos h0, if_pos h0]
        · rw [if_neg h0, if_neg h0]
          exact ih _ _ _ _ hL hN0 hN1
    · rw [if_neg hgt, if_neg hgt]


/-- As long as `PopulationSize` and `n * MinSpeciesSize` are below `2 ^ 30`, no
    `int` of `UpdateReproductionCounts_Method3` leaves its range: the function
    computes what it computes on unbounded integers. -/
theorem Method3_exact (cfg : Config) (L : List Species) (hne : L ≠ [])
    (hP : cfg.PopulationSize < 2 ^ 30) (hnm : L.length * cfg.MinSpeciesSize < 2 ^ 30) :
    Trainer.UpdateReproductionCounts_Method3 cfg L =
      Exact.UpdateReproductionCounts_Method3 cfg L := by
  have hPZ : (cfg.PopulationSize : Int) < 2 ^ 30 := by exact_mod_cast hP
  have hP0 : (0 : Int) ≤ (cfg.PopulationSize : Int) := Int.ofNat_nonneg _
  have hnmZ : (L.length : Int) * (cfg.MinSpeciesSize : Int) < 2 ^ 30 := by exact_mod_cast hnm
  have hnm0 : (0 : Int) ≤ (L.length : Int) * (cfg.MinSpeciesSize : Int) :=
    mul_nonneg (Int.ofNat_nonneg _) (Int.ofNat_nonneg _)
  have hm0 : (0 : Int) ≤ (cfg.MinSpeciesSize : Int) := Int.ofNat_nonneg _
  have hlen : 1 ≤ L.length := List.length_pos.2 hne
  have hm : (cfg.MinSpeciesSize : Int) < 2 ^ 30 := by
    have : cfg.MinSpeciesSize ≤ L.length * cfg.MinSpeciesSize := Nat.le_mul_of_pos_left _ hlen
    have h2 : cfg.MinSpeciesSize < 2 ^ 30 := lt_of_le_of_lt this hnm
    exact_mod_cast h2
  have hempty : L.isEmpty = false := by
    cases L with
    | nil => exact absurd rfl hne
    | cons x t => rfl
  obtain ⟨hlen1, hnn⟩ := ShiftAdjustedFitness_nonneg L
  obtain ⟨hlen2, hge, hsum⟩ := Quotas_bounds cfg (Trainer.ShiftAdjustedFitness L) hnn
  rw [hlen1] at hlen2 hsum
  obtain ⟨hQ, hQle⟩ := Quotas_exact cfg (Trainer.ShiftAdjustedFitness L) hnn
    (lt_trans hP (by norm_num))
  have hS2ne : Exact.Quotas cfg (Trainer.ShiftAdjustedFitness L) ≠ [] := by
    intro h
    rw [h] at hlen2
    exact hne (List.length_eq_zero.1 hlen2.symm)
  unfold Trainer.UpdateReproductionCounts_Method3 Exact.UpdateReproductionCounts_Method3
  rw [hempty]
  simp only [Bool.false_eq_true, if_false]
  rw [toInt32_of_range _ (by omega) (by omega), hQ]
  by_cases hguard : toUInt64 ((L.length : Int) * (cfg.MinSpeciesSize : Int)) > cfg.PopulationSize
  · rw [if_pos hguard, if_pos hguard]
  rw [if_neg hguard, if_neg hguard]
  generalize hS2 : Exact.Quotas cfg (Trainer.ShiftAdjustedFitness L) = S2 at *
  have hS2range : ∀ s ∈ S2, 0 ≤ s.DesiredPopulationSize ∧ s.DesiredPopulationSize < 2 ^ 30 := by
    intro s hs
    refine ⟨le_trans hm0 (hge s hs), lt_of_le_of_lt (hQle s hs) (max_lt hPZ hm)⟩
  have hsum0 : 0 ≤ (S2.map (fun s => s.DesiredPopulationSize)).sum := by
    apply List.sum_nonneg
    intro x hx
    obtain ⟨s, hs, e⟩ := List.mem_map.1 hx
    rw [← e]
    exact (hS2range s hs).1
  have hT : Trainer.TotalDesired S2 = Exact.TotalDesired S2 :=
    TotalDesired_exact S2 (fun s hs => (hS2range s hs).1) (by rw [TotalDesired_eq]; omega)
  rw [hT]
  have hTe := TotalDesired_eq S2
  generalize hTot : Exact.TotalDesired S2 = Tot at *
  have hR : 0 ≤ Math.MaxInt (toInt32 ((cfg.PopulationSize : Int) - Tot)) 0 ∧
      Math.MaxInt (toInt32 ((cfg.PopulationSize : Int) - Tot)) 0 ≤ (cfg.PopulationSize : Int) ∧
      Tot + Math.MaxInt (toInt32 ((cfg.PopulationSize : Int) - Tot)) 0 < 2 ^ 31 := by
    unfold Math.MaxInt toInt32
    split_ifs with h <;> omega
  generalize Math.MaxInt (toInt32 ((cfg.PopulationSize : Int) - Tot)) 0 = R at hR ⊢
  obtain ⟨hRR, hb⟩ := RoundRobin_exact (R.toNat + 1) S2 R (2 ^ 30) hR.1 (by omega)
    (by push_cast; omega) hS2range
  rw [hRR]
  obtain ⟨L3, flag, hrr, hsum3, hlen3⟩ :=
    RoundRobin_spec (R.toNat + 1) S2 R hS2ne hR.1 (Nat.lt_succ_self _)
  rw [hrr]
  cases flag with
  | true => rfl
  | false =>
    have hb3 := hb L3 false hrr
    have hL3 : ∀ i, 0 ≤ (L3.getD i {}).DesiredPopulationSize ∧
        (L3.getD i {}).DesiredPopulationSize < 2 ^ 31 := by
      intro i
      by_cases hi : i < L3.length
      · rw [List.getD_eq_getElem _ _ hi]
        have := hb3 _ (List.getElem_mem hi)
        push_cast at this
        exact ⟨this.1, by omega⟩
      · rw [List.getD_eq_default _ _ (by omega)]
        exact ⟨le_refl _, by norm_num⟩
    have hT3 : Trainer.TotalDesired L3 = Exact.TotalDesired L3 :=
      TotalDesired_exact L3 (fun s hs => (hb3 s hs).1) (by rw [TotalDesired_eq, hsum3]; omega)
    have hT3range : 0 ≤ Exact.TotalDesired L3 ∧ Exact.TotalDesired L3 < 2 ^ 31 := by
      rw [TotalDesired_eq, hsum3]
      omega
    simp only [hT3]
    by_cases hle : toUInt64 (Exact.TotalDesired L3) ≤ cfg.PopulationSize
    · rw [if_pos hle, if_pos hle]
    · rw [if_neg hle, if_neg hle]
      by_cases hswe : ((List.range L3.length).filter (fun i => decide
          ((L3.getD i {}).DesiredPopulationSize > (cfg.MinSpeciesSize : Int)))).isEmpty = true
      · rw [if_pos hswe, if_pos hswe]
      · rw [if_neg hswe, if_neg hswe]
        exact Shrink_exact cfg _ L3 _ 0 _ hL3 hT3range.1 hT3range.2

/-- C24, counterexample: one species with the adjusted fitness 0, the default
    `MinSpeciesSize = 5` and `PopulationSize = 2 ^ 32`, so that
    `n * MinSpeciesSize ≤ PopulationSize`. The total adjusted fitness is 0 and
    the quota is `MinSpeciesSize`; the difference `PopulationSize - 5` handed to
    `Math::Max<int>` is `-5` as an `int`, so no offspring is handed out, and the
    function returns with the sum 5. -/
theorem Method3_total_beyond_int :
    [({} : Species)].length * beyondIntConfig.MinSpeciesSize ≤
      beyondIntConfig.PopulationSize ∧
    Trainer.UpdateReproductionCounts_Method3 beyondIntConfig [{}] =
      Except.ok [{ DesiredPopulationSize := 5 }] ∧
    ([({ DesiredPopulationSize := 5 } : Species)].map
      (fun s => s.DesiredPopulationSize)).sum ≠ (beyondIntConfig.PopulationSize : Int) := by
  refine ⟨by decide, ?_, by decide⟩
  have hQ : Trainer.Quotas beyondIntConfig (Trainer.ShiftAdjustedFitness [{}]) =
      [{ DesiredPopulationSize := 5 }] := by
    simp [Trainer.Quotas, Trainer.ShiftAdjustedFitness, Math.Min, Math.MaxDouble,
      beyondIntConfig]
  have hT : Trainer.TotalDesired [({ DesiredPopulationSize := 5 } : Species)] = 5 := by decide
  have hR : Math.MaxInt (toInt32 ((beyondIntConfig.PopulationSize : Int) - 5)) 0 = 0 := by decide
  have hg : ¬ toUInt64 (toInt32 (([({} : Species)].length : Int) *
      (beyondIntConfig.MinSpeciesSize : Int))) > beyondIntConfig.PopulationSize := by decide
  have h0 : toUInt64 5 ≤ beyondIntConfig.PopulationSize := by decide
  unfold Trainer.UpdateReproductionCounts_Method3
  rw [if_neg (by decide), if_neg hg]
  simp only [hQ, hT, hR]
  have hrr : Trainer.RoundRobin ((0 : Int).toNat + 1)
      [({ DesiredPopulationSize := 5 } : Species)] 0 =
      Except.ok ([{ DesiredPopulationSize := 5 }], false) := by
    show (if (0 : Int) > 0 then _ else _) = _
    rw [if_neg (by decide)]
  rw [hrr]
  simp only [hT]
  rw [if_pos h0]

/-- The claim C24, amended. `UpdateReproductionCounts_Method3` on a non-empty
    species list with `n * MinSpeciesSize ≤ PopulationSize` and
    `PopulationSize < 2 ^ 30`, so that no `int` of the function leaves its
    range, returns, and afterwards the desired population sizes of the species
    sum to `PopulationSize` exactly. The adjusted fitnesses are rationals. -/
theorem Method3_total (cfg : Config) (L : List Species) (hne : L ≠ [])
    (hmin : L.length * cfg.MinSpeciesSize ≤ cfg.PopulationSize)
    (hint : cfg.PopulationSize < 2 ^ 30) :
    ∃ L2, Trainer.UpdateReproductionCounts_Method3 cfg L = Except.ok L2 ∧
      L2.length = L.length ∧
      (L2.map (fun s => s.DesiredPopulationSize)).sum = (cfg.PopulationSize : Int) := by
  rw [Method3_exact cfg L hne hint (lt_of_le_of_lt hmin hint)]
  exact Method3_exact_total cfg L hne hmin hint

theorem Method3_total_witness :
    threeSpecies ≠ [] ∧
    ∃ L2, Trainer.UpdateReproductionCounts_Method3 {} threeSpecies = Except.ok L2 ∧
      L2.length = threeSpecies.length ∧
      (L2.map (fun s => s.DesiredPopulationSize)).sum = (({} : Config).PopulationSize : Int) :=
  ⟨by decide, Method3_total {} threeSpecies (by decide) (by decide) (by decide)⟩

theorem toInt32_range (x : Int) : -2 ^ 31 ≤ toInt32 x ∧ toInt32 x < 2 ^ 31 := by
  unfold toInt32
  omega

/-- The round-robin loop on one species: all that remains goes to it, by
    increments of an `int`. -/
theorem RoundRobin_single :
    ∀ (fuel : Nat) (s : Species) (R : Int), 0 ≤ R → R < 2 ^ 31 → R.toNat < fuel →
      -2 ^ 31 ≤ s.DesiredPopulationSize → s.DesiredPopulationSize < 2 ^ 31 →
      Trainer.RoundRobin fuel [s] R =
        Except.ok ([{ s with DesiredPopulationSize := toInt32 (s.DesiredPopulationSize + R) }],
          false) := by
  intro fuel
  induction fuel with
  | zero => intro s R _ _ h; exact absurd h (by omega)
  | succ fuel ih =>
    intro s R hR0 hR1 hfuel hs0 hs1
    unfold Trainer.RoundRobin
    by_cases hpos : R > 0
    · rw [if_pos hpos]
      have hpass : Trainer.RoundRobinPass [s] R =
          ([{ s with DesiredPopulationSize := toInt32 (s.DesiredPopulationSize + 1) }],
            R - 1, false) := by
        unfold Trainer.RoundRobinPass
        rw [if_neg (by omega)]
        unfold Trainer.RoundRobinPass
        rw [toInt32_of_range (R - 1) (by omega) (by omega)]
      rw [hpass]
      dsimp only
      rw [if_neg (by decide)]
      obtain ⟨r0, r1⟩ := toInt32_range (s.DesiredPopulationSize + 1)
      rw [ih _ (R - 1) (by omega) (by omega) (by omega) r0 r1]
      have e : toInt32 (toInt32 (s.DesiredPopulationSize + 1) + (R - 1)) =
          toInt32 (s.DesiredPopulationSize + R) := by
        unfold toInt32
        omega
      simp only [e]
    · rw [if_neg hpos]
      have hR : R = 0 := by omega
      rw [hR, Int.add_zero, toInt32_of_range _ hs0 hs1]

/-- A run of `UpdateReproductionCounts_Method3` that leaves the round-robin
    loop with a total that is above `PopulationSize` as a `uint64`, and finds no
    species above `MinSpeciesSize`: the function returns what the round-robin
    loop left. -/
theorem Method3_no_excess (cfg : Config) (L Q L3 : List Species) (R : Int)
    (hne : L.isEmpty = false)
    (hg : ¬ toUInt64 (toInt32 ((L.length : Int) * (cfg.MinSpeciesSize : Int))) >
      cfg.PopulationSize)
    (hQ : Trainer.Quotas cfg (Trainer.ShiftAdjustedFitness L) = Q)
    (hR : Math.MaxInt (toInt32 ((cfg.PopulationSize : Int) - Trainer.TotalDesired Q)) 0 = R)
    (hrr : Trainer.RoundRobin (R.toNat + 1) Q R = Except.ok (L3, false))
    (hbig : ¬ toUInt64 (Trainer.TotalDesired L3) ≤ cfg.PopulationSize)
    (hempty : ((List.range L3.length).filter (fun i => decide
      ((L3.getD i {}).DesiredPopulationSize > (cfg.MinSpeciesSize : Int)))).isEmpty = true) :
    Trainer.UpdateReproductionCounts_Method3 cfg L = Except.ok L3 := by
  subst hQ
  subst hR
  unfold Trainer.UpdateReproductionCounts_Method3
  rw [if_neg (by rw [hne]; decide), if_neg hg]
  dsimp only
  rw [hrr]
  dsimp only
  rw [if_neg hbig, if_pos hempty]

/-- C39, counterexample: one species with the adjusted fitness 0, the default
    `MinSpeciesSize = 5` and `PopulationSize = 2 ^ 31 + 4`. The species gets the
    quota 5, the `2 ^ 31 - 1` offspring that remain are handed to it one by one,
    and its `int` count passes the largest `int`: the function returns with the
    `DesiredPopulationSize` `-2 ^ 31 + 4`, below `MinSpeciesSize`. -/
theorem Method3_below_minimum :
    Trainer.UpdateReproductionCounts_Method3 pastIntConfig [{}] =
      Except.ok [{ DesiredPopulationSize := -2 ^ 31 + 4 }] ∧
    ¬ ((pastIntConfig.MinSpeciesSize : Int) ≤
      ({ DesiredPopulationSize := -2 ^ 31 + 4 } : Species).DesiredPopulationSize) := by
  refine ⟨?_, by decide⟩
  have hQ : Trainer.Quotas pastIntConfig (Trainer.ShiftAdjustedFitness [{}]) =
      [{ DesiredPopulationSize := 5 }] := by
    simp [Trainer.Quotas, Trainer.ShiftAdjustedFitness, Math.Min, Math.MaxDouble, pastIntConfig]
  have hrr := RoundRobin_single (((2 : Int) ^ 31 - 1).toNat + 1)
    { DesiredPopulationSize := 5 } (2 ^ 31 - 1) (by decide) (by decide) (Nat.lt_succ_self _)
    (by decide) (by decide)
  have hD : toInt32 (({ DesiredPopulationSize := 5 } : Species).DesiredPopulationSize +
      (2 ^ 31 - 1)) = -2 ^ 31 + 4 := by decide
  rw [hD] at hrr
  exact Method3_no_excess pastIntConfig [{}] [{ DesiredPopulationSize := 5 }]
    [{ DesiredPopulationSize := -2 ^ 31 + 4 }] (2 ^ 31 - 1) rfl (by decide) hQ (by decide) hrr
    (by decide) (by decide)

/-- The claim C39, amended. For `PopulationSize` and `n * MinSpeciesSize` below
    `2 ^ 30`, so that no `int` of the function leaves its range,
    `UpdateReproductionCounts_Method3` returns on every non-empty species list:
    neither loop runs out of the fuel computed from the state, and the remainder
    modulo an empty `SpeciesWithExcess` is never taken; afterwards the list
    holds the same number of species and every `DesiredPopulationSize` is at
    least `MinSpeciesSize`. The adjusted fitnesses are rationals. -/
theorem Method3_terminates (cfg : Config) (L : List Species) (hne : L ≠ [])
    (hP : cfg.PopulationSize < 2 ^ 30) (hnm : L.length * cfg.MinSpeciesSize < 2 ^ 30) :
    ∃ L2, Trainer.UpdateReproductionCounts_Method3 cfg L = Except.ok L2 ∧
      L2.length = L.length ∧
      ∀ s ∈ L2, (cfg.MinSpeciesSize : Int) ≤ s.DesiredPopulationSize := by
  rw [Method3_exact cfg L hne hP hnm]
  exact Method3_exact_terminates cfg L hne (lt_trans hP (by norm_num))
    (lt_trans hnm (by norm_num))

theorem Method3_terminates_witness :
    ∃ L2, Trainer.UpdateReproductionCounts_Method3 { PopulationSize := 16 } threeSpecies =
        Except.ok L2 ∧
      L2.length = 3 ∧
      ∀ s ∈ L2, (5 : Int) ≤ s.DesiredPopulationSize :=
  Method3_terminates { PopulationSize := 16 } threeSpecies (by decide) (by decide) (by decide)

end NEAT
